import Mathlib

/-!
# FLUIDCHEN: a shallow embedding of the time-stepping core

The C++ sources embedded here are `src/Fields.cpp`, `src/PressureSolver.cpp`,
`src/Boundary.cpp`, `src/ViscositySolver.cpp` and `src/Communication.cpp` (with
the declarations of `include/Fields.hpp`, `include/Grid.hpp` and
`include/Domain.hpp`).

Conventions of the embedding.

* The arithmetic of a `double` is a parameter of the embedding. The functions
  of the time step (`calculate_fluxes`, `calculate_rs`, `calculate_velocities`,
  `applyVelocity`, `SOR::solve`, `K_EPS_model::solve`) are written over a type `α`
  that carries the operations they use (`+`, `-`, `*`, `/`, `max`, the literals).
  At a field (`ℚ`, `ℝ`) they compute in exact arithmetic; at `Double` they compute
  in IEEE 754 binary64: every operation is rounded to nearest, ties to even,
  with overflow to an infinity, gradual underflow and NaN (the sign of a zero
  is not modelled). A theorem stated over a field, a linear ordered field or
  `ℝ` is a statement about exact arithmetic; the section "The program in
  binary64 arithmetic" evaluates the same definitions at `Double`.
* A `Matrix<double>` is a total function of its two `int` indices; the
  assignment `M(i, j) = v` is `Matrix.write`. Index bounds are not part of the
  model, the theorems carry the index ranges of the loops.
* A C++ `for (int k = lo; k <= hi; k++)` is `forLoop lo hi`, a range-for over
  a `std::vector<Cell *>` is a left fold over the list of cells.
* Member functions that mutate `Fields` are functions `Fields α → Fields α`.
* A `std::map<int, double>` is an association list, read with `mapAt`.
* A function with `assert` returns an `Option`: `none` when an assertion that
  is compiled in fails.
* A device pointer `double *` and a `std::vector<double>` are total functions
  of the `int` index; a guarded assignment `if (c) a[idx] = v;` is
  `DeviceArray.writeIf`.
* `Communication::communicate` is a function of the matrix and of the four
  messages that `MPI_Sendrecv` receives; its result records the messages sent.
  The run on the whole process grid pairs every `MPI_Sendrecv` with the one of
  the opposite block of the neighbour.
-/

namespace FluidChen

/-! ## Data model -/

/-- A `Matrix<T>` of the program, addressed by `(i, j)`. -/
def Matrix (α : Type) : Type := Int → Int → α

/-- The assignment `M(i, j) = v`. -/
def Matrix.write {α : Type} (m : Matrix α) (i j : Int) (v : α) : Matrix α :=
  fun a b => if a = i ∧ b = j then v else m a b

/-- The enumeration `border_position` (codes 0 to 3, in this order, see the
comments of `apply_pressure_bcs`). -/
inductive border_position where
  | TOP
  | BOTTOM
  | LEFT
  | RIGHT
  deriving DecidableEq, Repr

/-- The enumeration `cell_type`. -/
inductive cell_type where
  | FLUID
  | FIXED_WALL
  | MOVING_WALL
  | INFLOW
  | OUTFLOW
  | FIXED_VELOCITY
  | ZERO_GRADIENT
  | HOT_WALL
  | COLD_WALL
  | INNER_OBSTACLE
  | GHOST
  deriving DecidableEq, Repr

/-- Modelled from the spec: the class `Cell` (its header is not among the
sources): the position `(i, j)`, the cell type, the integer tag of the
geometry map and the border mask over TOP, BOTTOM, LEFT, RIGHT. -/
structure Cell where
  i : Int
  j : Int
  type : cell_type
  id : Int
  top : Bool
  bottom : Bool
  left : Bool
  right : Bool
  deriving DecidableEq, Repr

/-- The query `cell->is_border(position)`. -/
def Cell.is_border (c : Cell) : border_position → Bool
  | border_position.TOP => c.top
  | border_position.BOTTOM => c.bottom
  | border_position.LEFT => c.left
  | border_position.RIGHT => c.right

/-- The struct `Domain` of `Domain.hpp`. -/
structure Domain (α : Type) where
  iminb : Int
  imaxb : Int
  jminb : Int
  jmaxb : Int
  dx : α
  dy : α
  size_x : Int
  size_y : Int
  itermax_x : Int
  itermax_y : Int
  domain_imax : Int
  domain_jmax : Int

/-- The class `Grid` of `Grid.hpp`: the domain and the cell lists the solver
iterates over. -/
structure Grid (α : Type) where
  domain : Domain α
  fluid_cells : List Cell
  fixed_wall_cells : List Cell
  moving_wall_cells : List Cell

/-- The accessor `grid.size_x()`. -/
def Grid.size_x {α : Type} (g : Grid α) : Int := g.domain.size_x

/-- The accessor `grid.size_y()`. -/
def Grid.size_y {α : Type} (g : Grid α) : Int := g.domain.size_y

/-- The accessor `grid.dx()`. -/
def Grid.dx {α : Type} (g : Grid α) : α := g.domain.dx

/-- The accessor `grid.dy()`. -/
def Grid.dy {α : Type} (g : Grid α) : α := g.domain.dy

/-- The class `Fields` of `Fields.hpp`: the matrices and scalars the embedded
functions read or write (velocities, pressure, fluxes, right-hand side, the
turbulence fields `K`, `E`, `nuT`, and the scalars). -/
structure Fields (α : Type) where
  U : Matrix α
  V : Matrix α
  P : Matrix α
  F : Matrix α
  G : Matrix α
  RS : Matrix α
  K : Matrix α
  E : Matrix α
  nuT : Matrix α
  nu : α
  dt : α
  tau : α
  gx : α
  gy : α

/-! ## Loops -/

/-- Iterations of a counting loop: `n` iterations left, counter at `k`. -/
def forLoopAux {σ : Type} (body : Int → σ → σ) : Nat → Int → σ → σ
  | 0, _, s => s
  | n + 1, k, s => forLoopAux body n (k + 1) (body k s)

/-- The loop `for (int k = lo; k <= hi; k++) body`. -/
def forLoop {σ : Type} (lo hi : Int) (body : Int → σ → σ) (s : σ) : σ :=
  forLoopAux body (hi + 1 - lo).toNat lo s

/-- The loop `for (auto cell : cells) body`. -/
def forCells {σ : Type} (cells : List Cell) (body : Cell → σ → σ) (s : σ) : σ :=
  cells.foldl (fun t c => body c t) s

/-! ## Discretization -/

/-- Modelled from the spec: `Discretization::laplacian` (its source is not
among the files), the 5-point stencil
`(Φ(i+1,j) − 2Φ(i,j) + Φ(i−1,j))/dx² + (Φ(i,j+1) − 2Φ(i,j) + Φ(i,j−1))/dy²`. -/
def laplacian {α : Type} [Add α] [Sub α] [Mul α] [Div α] [NatCast α]
    (dx dy : α) (A : Matrix α) (i j : Int) : α :=
  (A (i + 1) j - 2 * A i j + A (i - 1) j) / (dx * dx) +
    (A i (j + 1) - 2 * A i j + A i (j - 1)) / (dy * dy)

/-- Modelled from the spec: `Discretization::sor_helper` (its source is not
among the files), `(P(i+1,j) + P(i−1,j))/dx² + (P(i,j+1) + P(i,j−1))/dy²`. -/
def sor_helper {α : Type} [Add α] [Mul α] [Div α] (dx dy : α) (A : Matrix α) (i j : Int) : α :=
  (A (i + 1) j + A (i - 1) j) / (dx * dx) + (A i (j + 1) + A i (j - 1)) / (dy * dy)

/-! ## Fields.cpp -/

/-- The function `Fields::calculate_fluxes`. The convection operators
`Discretization::convection_u` and `convection_v` are not among the sources
and are parameters. -/
def calculate_fluxes {α : Type} [Add α] [Sub α] [Mul α] [Div α] [NatCast α]
    (convection_u convection_v : Matrix α → Matrix α → Int → Int → α)
    (s : Fields α) (grid : Grid α) : Fields α :=
  let s1 := forLoop 1 (grid.size_x - 1) (fun i t =>
    forLoop 1 grid.size_y (fun j t =>
      { t with F := t.F.write i j
                      (t.U i j + t.dt * (t.nu * laplacian grid.dx grid.dy t.U i j - convection_u t.U t.V i j)) }) t) s
  forLoop 1 grid.size_x (fun i t =>
    forLoop 1 (grid.size_y - 1) (fun j t =>
      { t with G := t.G.write i j
                      (t.V i j + t.dt * (t.nu * laplacian grid.dx grid.dy t.V i j - convection_v t.U t.V i j)) }) t) s1

/-- The function `Fields::calculate_rs`. -/
def calculate_rs {α : Type} [One α] [Add α] [Sub α] [Mul α] [Div α]
    (s : Fields α) (grid : Grid α) : Fields α :=
  forLoop 1 grid.size_x (fun i t =>
    forLoop 1 grid.size_y (fun j t =>
      { t with RS := t.RS.write i j
                      (1 / t.dt * ((t.F i j - t.F (i - 1) j) / grid.dx + (t.G i j - t.G i (j - 1)) / grid.dy)) }) t) s

/-- The function `Fields::calculate_velocities`. -/
def calculate_velocities {α : Type} [Sub α] [Mul α] [Div α]
    (s : Fields α) (grid : Grid α) : Fields α :=
  let s1 := forLoop 1 (grid.size_x - 1) (fun i t =>
    forLoop 1 grid.size_y (fun j t =>
      { t with U := t.U.write i j (t.F i j - t.dt / grid.dx * (t.P (i + 1) j - t.P i j)) }) t) s
  forLoop 1 grid.size_x (fun i t =>
    forLoop 1 (grid.size_y - 1) (fun j t =>
      { t with V := t.V.write i j (t.G i j - t.dt / grid.dy * (t.P i (j + 1) - t.P i j)) }) t) s1

/-! ## Example data -/

/-- A domain of `sx` by `sy` cells with cell sizes `dx`, `dy`. -/
def exDomain {α : Type} (sx sy : Int) (dx dy : α) : Domain α :=
  { iminb := 0, imaxb := sx + 2, jminb := 0, jmaxb := sy + 2, dx := dx, dy := dy,
    size_x := sx, size_y := sy, itermax_x := sx, itermax_y := sy,
    domain_imax := sx, domain_jmax := sy }

/-- A grid on `exDomain` with the given fluid cells and no wall cells. -/
def exGrid {α : Type} (sx sy : Int) (dx dy : α) (fluid : List Cell) : Grid α :=
  { domain := exDomain sx sy dx dy, fluid_cells := fluid, fixed_wall_cells := [],
    moving_wall_cells := [] }

/-- A field state whose matrices are `U(i,j) = i`, `V(i,j) = j`, `P(i,j) = i*j`,
`F(i,j) = i + j`, `G(i,j) = i - j`, `RS = 0`, with `nu = 1`, `dt = 1/2`, `tau = 1/2`. -/
def exFields (α : Type)
    [Zero α] [One α] [Add α] [Sub α] [Mul α] [Div α] [NatCast α] [IntCast α] : Fields α :=
  { U := fun i _ => (i : α), V := fun _ j => (j : α), P := fun i j => (i : α) * (j : α),
    F := fun i j => (i : α) + (j : α), G := fun i j => (i : α) - (j : α), RS := fun _ _ => 0,
    K := fun _ _ => 1, E := fun _ _ => 1, nuT := fun _ _ => 0,
    nu := 1, dt := 1 / 2, tau := 1 / 2, gx := 0, gy := 0 }

/-! ## Boundary.cpp -/

/-- The class hierarchy `Boundary` with the variants of `Boundary.cpp`. Every
variant owns its cell list `_cells`; the `std::map<int, double>` members are
association lists from the cell tag to the value. -/
inductive Boundary (α : Type) where
  | FixedWallBoundary (cells : List Cell)
  | MovingWallBoundary (cells : List Cell) (wall_velocity : List (Int × α))
  | InflowBoundary (cells : List Cell) (inflow_u_velocity inflow_v_velocity : List (Int × α))
  | OutflowBoundary (cells : List Cell) (outflow_u_velocity outflow_v_velocity : List (Int × α))

/-- The member `_cells` of a boundary. -/
def Boundary.cells {α : Type} : Boundary α → List Cell
  | Boundary.FixedWallBoundary cells => cells
  | Boundary.MovingWallBoundary cells _ => cells
  | Boundary.InflowBoundary cells _ _ => cells
  | Boundary.OutflowBoundary cells _ _ => cells

/-- The body of the loop of `FixedWallBoundary::applyVelocity` for one cell:
the four `if (cell->is_border(...))` blocks in source order RIGHT, LEFT, TOP,
BOTTOM, each made of its two assignments in source order. -/
def FixedWallBoundary.applyVelocityCell {α : Type} [Zero α] [Neg α] (cell : Cell) (t : Fields α) :
    Fields α :=
  let i := cell.i
  let j := cell.j
  let t1 :=
    if cell.is_border border_position.RIGHT then
      let a := { t with U := t.U.write i j 0 }
      { a with V := a.V.write i j (-a.V (i + 1) j) }
    else t
  let t2 :=
    if cell.is_border border_position.LEFT then
      let a := { t1 with U := t1.U.write (i - 1) j 0 }
      { a with V := a.V.write i j (-a.V (i - 1) j) }
    else t1
  let t3 :=
    if cell.is_border border_position.TOP then
      let a := { t2 with V := t2.V.write i j 0 }
      { a with U := a.U.write i j (-a.U i (j + 1)) }
    else t2
  if cell.is_border border_position.BOTTOM then
    let a := { t3 with V := t3.V.write i (j - 1) 0 }
    { a with U := a.U.write i j (-a.U i (j - 1)) }
  else t3

/-- The function `FixedWallBoundary::applyVelocity` for the cell list `cells`. -/
def FixedWallBoundary.applyVelocity {α : Type} [Zero α] [Neg α] (cells : List Cell) (s : Fields α) :
    Fields α :=
  forCells cells FixedWallBoundary.applyVelocityCell s

/-- The body of the loop shared, text for text, by
`FixedWallBoundary::applyPressure`, `MovingWallBoundary::applyPressure`,
`InflowBoundary::applyPressure` and `OutflowBoundary::applyPressure`. -/
def applyPressureCell {α : Type} (cell : Cell) (t : Fields α) : Fields α :=
  let i := cell.i
  let j := cell.j
  let t1 :=
    if cell.is_border border_position.RIGHT then { t with P := t.P.write i j (t.P (i + 1) j) }
    else t
  let t2 :=
    if cell.is_border border_position.LEFT then { t1 with P := t1.P.write i j (t1.P (i - 1) j) }
    else t1
  let t3 :=
    if cell.is_border border_position.TOP then { t2 with P := t2.P.write i j (t2.P i (j + 1)) }
    else t2
  if cell.is_border border_position.BOTTOM then { t3 with P := t3.P.write i j (t3.P i (j - 1)) }
  else t3

/-- The loop `for (auto cell : _cells)` of the four `applyPressure` functions. -/
def applyPressureCells {α : Type} (cells : List Cell) (s : Fields α) : Fields α :=
  forCells cells applyPressureCell s

/-- The virtual call `b->applyPressure(field)`. -/
def Boundary.applyPressure {α : Type} (b : Boundary α) (s : Fields α) : Fields α :=
  applyPressureCells b.cells s

/-! ## PressureSolver.cpp -/

/-- The first loop of `SOR::solve`: the in-place sweep over `cells`, with
`coeff = omega / (2.0 * (1.0 / (dx * dx) + 1.0 / (dy * dy)))`. -/
def SOR.sweep {α : Type} [One α] [Add α] [Sub α] [Mul α] [Div α] [NatCast α]
    (omega dx dy : α) (cells : List Cell) (s : Fields α) :
    Fields α :=
  let coeff := omega / (2 * (1 / (dx * dx) + 1 / (dy * dy)))
  forCells cells (fun currentCell t =>
    let i := currentCell.i
    let j := currentCell.j
    { t with P := t.P.write i j
                    ((1 - omega) * t.P i j + coeff * (sor_helper dx dy t.P i j - t.RS i j)) }) s

/-- The second loop of `SOR::solve`: the accumulation of `rloc`. -/
def SOR.rloc {α : Type} [Zero α] [Add α] [Sub α] [Mul α] [Div α] [NatCast α]
    (dx dy : α) (cells : List Cell) (s : Fields α) : α :=
  forCells cells (fun currentCell r =>
    let i := currentCell.i
    let j := currentCell.j
    let val := laplacian dx dy s.P i j - s.RS i j
    r + val * val) 0

/-- The function `SOR::solve`: the sweep, the residual, then the pressure
boundary conditions of all boundaries; the result is the new field state and
the returned residual. `sqrt` is `std::sqrt`. -/
def SOR.solve {α : Type} [Zero α] [One α] [Add α] [Sub α] [Mul α] [Div α] [NatCast α]
    (sqrt : α → α) (omega : α) (s : Fields α) (grid : Grid α)
    (boundaries : List (Boundary α)) : Fields α × α :=
  let dx := grid.dx
  let dy := grid.dy
  let s1 := SOR.sweep omega dx dy grid.fluid_cells s
  let rloc := SOR.rloc dx dy grid.fluid_cells s1
  let res := sqrt (rloc / (grid.fluid_cells.length : α))
  let s2 := boundaries.foldl (fun t b => b.applyPressure t) s1
  (s2, res)

/-- The root mean square of `Laplacian(P) - RS` over a list of cells, as
the specification words the residual:
`sqrt (Σ (Laplacian(P,i,j) − RS(i,j))² / N)`. -/
def residualRMS {α : Type} [Field α] (sqrt : α → α) (dx dy : α) (cells : List Cell)
    (P RS : Matrix α) : α :=
  sqrt ((cells.map (fun c => (laplacian dx dy P c.i c.j - RS c.i c.j) ^ 2)).sum /
    (cells.length : α))

/-- The fluid cell at `(i, j)`. -/
def fluidCell (i j : Int) : Cell :=
  { i := i, j := j, type := cell_type.FLUID, id := 0, top := false, bottom := false,
    left := false, right := false }

/-- A fixed-wall cell at `(i, j)` (tag 3) with the given border bits, in the
order top, bottom, left, right. -/
def wallCell (i j : Int) (top bottom left right : Bool) : Cell :=
  { i := i, j := j, type := cell_type.FIXED_WALL, id := 3, top := top, bottom := bottom,
    left := left, right := right }

/-- A field state for the pressure solver: `P` is 1 at the wall cell `(0, 1)`
and 0 elsewhere, every other matrix is 0. -/
def exSORFields (α : Type) [Field α] : Fields α :=
  { U := fun _ _ => 0, V := fun _ _ => 0, P := fun i j => if i = 0 ∧ j = 1 then 1 else 0,
    F := fun _ _ => 0, G := fun _ _ => 0, RS := fun _ _ => 0,
    K := fun _ _ => 1, E := fun _ _ => 1, nuT := fun _ _ => 0,
    nu := 1, dt := 1, tau := 1, gx := 0, gy := 0 }

/-- The function `Fields::calculate_dt` of `Fields.cpp`: it sets `_dt` and
returns it. `caret2 x` stands for the source expression `x ^ 2`, an operator C++
does not define on a `double`; the theorems hold for every reading of it and
the evaluations read it as the square the names `dx_2`, `dy_2` announce. -/
def calculate_dt {α : Type} [Field α] (caret2 : α → α) (s : Fields α) (grid : Grid α) :
    Fields α × α :=
  let dx_2 := caret2 grid.dx
  let dy_2 := caret2 grid.dy
  let coefficient := (dx_2 * dy_2) / (dx_2 + dy_2)
  let s1 := { s with dt := coefficient / (2 * s.nu) }
  (s1, s1.dt)

/-- The field state `exFields` with gravity `g_x = 1`, `g_y = -1`. -/
def exGravityFields (α : Type) [Field α] : Fields α :=
  { exFields α with gx := 1, gy := -1 }

/-- A field state with `|U| = 10` and `|V| = 1` everywhere, `nu = 1`, `tau = 1/2`. -/
def exDtFields (α : Type) [Field α] : Fields α :=
  { U := fun _ _ => 10, V := fun _ _ => 1, P := fun _ _ => 0,
    F := fun _ _ => 0, G := fun _ _ => 0, RS := fun _ _ => 0,
    K := fun _ _ => 1, E := fun _ _ => 1, nuT := fun _ _ => 0,
    nu := 1, dt := 1, tau := 1 / 2, gx := 0, gy := 0 }

/-- The cell `c` has exactly one border bit set, the one of the face `p`. -/
def Cell.onlyBorder (c : Cell) (p : border_position) : Prop :=
  c.is_border border_position.TOP = decide (p = border_position.TOP) ∧
    c.is_border border_position.BOTTOM = decide (p = border_position.BOTTOM) ∧
    c.is_border border_position.LEFT = decide (p = border_position.LEFT) ∧
    c.is_border border_position.RIGHT = decide (p = border_position.RIGHT)

instance (c : Cell) (p : border_position) : Decidable (c.onlyBorder p) := by
  unfold Cell.onlyBorder
  infer_instance

/-- Geometry condition on a cell list: every set border bit of a cell of the
list points to a position where the list has no cell (in a grid built by
`assign_cell_types` a border bit is set only towards a fluid cell). -/
def bordersPointOutside (cells : List Cell) : Prop :=
  ∀ d ∈ cells, ∀ e ∈ cells,
    (d.right = true → ¬(e.i = d.i + 1 ∧ e.j = d.j)) ∧
    (d.left = true → ¬(e.i = d.i - 1 ∧ e.j = d.j)) ∧
    (d.top = true → ¬(e.i = d.i ∧ e.j = d.j + 1)) ∧
    (d.bottom = true → ¬(e.i = d.i ∧ e.j = d.j - 1))

instance (cells : List Cell) : Decidable (bordersPointOutside cells) := by
  unfold bordersPointOutside
  infer_instance

/-- A field state for the wall boundaries: `U(i,j) = 1 + i + 2j`, `V(i,j) = 3 + 2i + j`. -/
def exWallFields (α : Type) [Field α] : Fields α :=
  { U := fun i j => 1 + (i : α) + 2 * (j : α), V := fun i j => 3 + 2 * (i : α) + (j : α),
    P := fun _ _ => 0, F := fun _ _ => 0, G := fun _ _ => 0, RS := fun _ _ => 0,
    K := fun _ _ => 1, E := fun _ _ => 1, nuT := fun _ _ => 0,
    nu := 1, dt := 1, tau := 1, gx := 0, gy := 0 }

/-- Modelled from the spec: the constant `LidDrivenCavity::moving_wall_id` (its
header is not among the sources), the moving-wall tag 8 of the lid-driven
cavity. -/
def LidDrivenCavity.moving_wall_id : Int := 8

/-- The read `m[key]` of a `std::map<int, double>`: the value stored under
`key`, and the value-initialised `0.0` when the map has no such key. -/
def mapAt {α : Type} [Zero α] : List (Int × α) → Int → α
  | [], _ => 0
  | (k, v) :: m, key => if k = key then v else mapAt m key

/-- The constructor `MovingWallBoundary(cells, wall_velocity)` with a single
wall velocity: it is inserted under `LidDrivenCavity::moving_wall_id`. -/
def MovingWallBoundary.ofVelocity {α : Type} (cells : List Cell) (wall_velocity : α) :
    Boundary α :=
  Boundary.MovingWallBoundary cells [(LidDrivenCavity.moving_wall_id, wall_velocity)]

/-- The body of the loop of `MovingWallBoundary::applyVelocity` for one cell:
the four blocks in source order BOTTOM, TOP, RIGHT, LEFT, each reading
`_wall_velocity[8]`. -/
def MovingWallBoundary.applyVelocityCell {α : Type} [Zero α] [Sub α] [Mul α] [NatCast α]
    (wall_velocity : List (Int × α))
    (cell : Cell) (t : Fields α) : Fields α :=
  let i := cell.i
  let j := cell.j
  let t1 :=
    if cell.is_border border_position.BOTTOM then
      let a := { t with V := t.V.write i (j - 1) 0 }
      { a with U := a.U.write i j (2 * mapAt wall_velocity 8 - a.U i (j - 1)) }
    else t
  let t2 :=
    if cell.is_border border_position.TOP then
      let a := { t1 with V := t1.V.write i j 0 }
      { a with U := a.U.write i j (2 * mapAt wall_velocity 8 - a.U i (j + 1)) }
    else t1
  let t3 :=
    if cell.is_border border_position.RIGHT then
      let a := { t2 with U := t2.U.write i j 0 }
      { a with V := a.V.write i j (2 * mapAt wall_velocity 8 - a.V (i + 1) j) }
    else t2
  if cell.is_border border_position.LEFT then
    let a := { t3 with U := t3.U.write (i - 1) j 0 }
    { a with V := a.V.write i j (2 * mapAt wall_velocity 8 - a.V (i - 1) j) }
  else t3

/-- The function `MovingWallBoundary::applyVelocity` for the cell list `cells`
and the map `_wall_velocity`. -/
def MovingWallBoundary.applyVelocity {α : Type} [Zero α] [Sub α] [Mul α] [NatCast α]
    (cells : List Cell)
    (wall_velocity : List (Int × α)) (s : Fields α) : Fields α :=
  forCells cells (MovingWallBoundary.applyVelocityCell wall_velocity) s

/-- A moving-wall cell at `(i, j)` with the tag `id` and the given border bits,
in the order top, bottom, left, right. -/
def movingCell (i j id : Int) (top bottom left right : Bool) : Cell :=
  { i := i, j := j, type := cell_type.MOVING_WALL, id := id, top := top, bottom := bottom,
    left := left, right := right }

/-- The constructor `InflowBoundary(cells, inflow_u_velocity, inflow_v_velocity)`
with two numbers: its body is empty, the two velocities are not stored. -/
def InflowBoundary.ofVelocity {α : Type} (cells : List Cell)
    (_inflow_u_velocity _inflow_v_velocity : α) : Boundary α :=
  Boundary.InflowBoundary cells [] []

/-- The function `InflowBoundary::applyVelocity`: the loop reads `i` and `j` of
every cell, the two assignments of its body are commented out in the source. -/
def InflowBoundary.applyVelocity {α : Type} (cells : List Cell)
    (_inflow_u_velocity _inflow_v_velocity : List (Int × α)) (s : Fields α) : Fields α :=
  forCells cells (fun cell t =>
    let _i := cell.i
    let _j := cell.j
    t) s

/-- The constructor `OutflowBoundary(cells, outflow_u_velocity, outflow_v_velocity)`
with two numbers: its body is empty, the two velocities are not stored. -/
def OutflowBoundary.ofVelocity {α : Type} (cells : List Cell)
    (_outflow_u_velocity _outflow_v_velocity : α) : Boundary α :=
  Boundary.OutflowBoundary cells [] []

/-- The function `OutflowBoundary::applyVelocity`: the loop reads `i` and `j` of
every cell, the two assignments of its body are commented out in the source. -/
def OutflowBoundary.applyVelocity {α : Type} (cells : List Cell)
    (_outflow_u_velocity _outflow_v_velocity : List (Int × α)) (s : Fields α) : Fields α :=
  forCells cells (fun cell t =>
    let _i := cell.i
    let _j := cell.j
    t) s

/-- The virtual call `b->applyVelocity(field)`. -/
def Boundary.applyVelocity {α : Type} [Zero α] [Neg α] [Sub α] [Mul α] [NatCast α]
    (b : Boundary α) (s : Fields α) : Fields α :=
  match b with
  | Boundary.FixedWallBoundary cells => FixedWallBoundary.applyVelocity cells s
  | Boundary.MovingWallBoundary cells wall_velocity =>
    MovingWallBoundary.applyVelocity cells wall_velocity s
  | Boundary.InflowBoundary cells u v => InflowBoundary.applyVelocity cells u v s
  | Boundary.OutflowBoundary cells u v => OutflowBoundary.applyVelocity cells u v s

/-- The body of the loop of `Boundary::applyFlux` for one cell. -/
def applyFluxCell {α : Type} (cell : Cell) (t : Fields α) : Fields α :=
  let i := cell.i
  let j := cell.j
  let t1 :=
    if cell.is_border border_position.RIGHT then { t with F := t.F.write i j (t.U i j) }
    else t
  let t2 :=
    if cell.is_border border_position.LEFT then
      { t1 with F := t1.F.write (i - 1) j (t1.U (i - 1) j) }
    else t1
  let t3 :=
    if cell.is_border border_position.TOP then { t2 with G := t2.G.write i j (t2.V i j) }
    else t2
  if cell.is_border border_position.BOTTOM then
    { t3 with G := t3.G.write i (j - 1) (t3.V i (j - 1)) }
  else t3

/-- The function `Boundary::applyFlux`, inherited by every boundary kind. -/
def Boundary.applyFlux {α : Type} (b : Boundary α) (s : Fields α) : Fields α :=
  forCells b.cells applyFluxCell s

/-- An inflow cell at `(i, j)` with the tag `id` and the given border bits, in the
order top, bottom, left, right. -/
def inflowCell (i j id : Int) (top bottom left right : Bool) : Cell :=
  { i := i, j := j, type := cell_type.INFLOW, id := id, top := top, bottom := bottom,
    left := left, right := right }

/-- An outflow cell at `(i, j)` with the tag `id` and the given border bits, in
the order top, bottom, left, right. -/
def outflowCell (i j id : Int) (top bottom left right : Bool) : Cell :=
  { i := i, j := j, type := cell_type.OUTFLOW, id := id, top := top, bottom := bottom,
    left := left, right := right }

/-- The normal velocity is 0 on every wall face that a cell of the list writes
into a neighbouring cell: `U(i-1,j) = 0` for a list cell `(i,j)` with LEFT set and
`V(i,j-1) = 0` for a list cell with BOTTOM set. -/
def normalFacesZero {α : Type} [Zero α] (cells : List Cell) (s : Fields α) : Prop :=
  ∀ d ∈ cells, (d.left = true → s.U (d.i - 1) d.j = 0) ∧ (d.bottom = true → s.V d.i (d.j - 1) = 0)

/-- The values `lo, lo+1, ..., hi` a counter takes in `for (k = lo; k <= hi; k++)`. -/
def intRange (lo hi : Int) : List Int :=
  (List.range (hi + 1 - lo).toNat).map (fun (k : Nat) => lo + (k : Int))

/-- The positions `(i, j)` with `1 ≤ i ≤ sx` and `1 ≤ j ≤ sy`. -/
def rectCells (sx sy : Int) : List (Int × Int) :=
  (intRange 1 sx).flatMap (fun i => (intRange 1 sy).map (fun j => (i, j)))

/-- The boundary is a fixed wall or a moving wall. -/
def Boundary.isWall {α : Type} : Boundary α → Bool
  | Boundary.FixedWallBoundary _ => true
  | Boundary.MovingWallBoundary _ _ => true
  | Boundary.InflowBoundary _ _ _ => false
  | Boundary.OutflowBoundary _ _ _ => false

/-- The loop body that `b->applyVelocity(field)` runs for every cell of `b`. -/
def Boundary.applyVelocityCell {α : Type} [Zero α] [Neg α] [Sub α] [Mul α] [NatCast α]
    (b : Boundary α) :
    Cell → Fields α → Fields α :=
  match b with
  | Boundary.FixedWallBoundary _ => FixedWallBoundary.applyVelocityCell
  | Boundary.MovingWallBoundary _ wall_velocity =>
    MovingWallBoundary.applyVelocityCell wall_velocity
  | Boundary.InflowBoundary _ _ _ => fun _ t => t
  | Boundary.OutflowBoundary _ _ _ => fun _ t => t

/-- The step `for (auto &b : boundaries) b->applyVelocity(field)` of the driver. -/
def applyVelocityAll {α : Type} [Zero α] [Neg α] [Sub α] [Mul α] [NatCast α]
    (boundaries : List (Boundary α)) (s : Fields α) :
    Fields α :=
  boundaries.foldl (fun t b => b.applyVelocity t) s

/-- A wall cell of the closed box around the fluid cells `1..sx` by `1..sy`:
in column 0 with only RIGHT set, in column `sx+1` with only LEFT set, in row 0 with
only TOP set, in row `sy+1` with only BOTTOM set, or one of the four corner cells
with no border bit. -/
def boxWallCell (sx sy : Int) (d : Cell) : Prop :=
  (d.i = 0 ∧ 1 ≤ d.j ∧ d.j ≤ sy ∧ d.onlyBorder border_position.RIGHT) ∨
  (d.i = sx + 1 ∧ 1 ≤ d.j ∧ d.j ≤ sy ∧ d.onlyBorder border_position.LEFT) ∨
  (d.j = 0 ∧ 1 ≤ d.i ∧ d.i ≤ sx ∧ d.onlyBorder border_position.TOP) ∨
  (d.j = sy + 1 ∧ 1 ≤ d.i ∧ d.i ≤ sx ∧ d.onlyBorder border_position.BOTTOM) ∨
  ((d.i = 0 ∨ d.i = sx + 1) ∧ (d.j = 0 ∨ d.j = sy + 1) ∧
    d.top = false ∧ d.bottom = false ∧ d.left = false ∧ d.right = false)

/-- The closed rectangular domain of the grid: the fluid cells are the cells
`1..size_x` by `1..size_y`, every boundary of `walls` is a fixed or a moving wall
made of wall cells of the box, and every position of column 0, column
`size_x+1`, row 0 and row `size_y+1` next to a fluid cell holds a cell of some
wall. -/
def closedBox {α : Type} (grid : Grid α) (walls : List (Boundary α)) : Prop :=
  (grid.fluid_cells.map (fun c => (c.i, c.j))).Perm (rectCells grid.size_x grid.size_y) ∧
  (∀ b ∈ walls, b.isWall = true) ∧
  (∀ b ∈ walls, ∀ d ∈ b.cells, boxWallCell grid.size_x grid.size_y d) ∧
  (∀ j : Int, 1 ≤ j → j ≤ grid.size_y →
    (∃ b ∈ walls, ∃ d ∈ b.cells, d.i = 0 ∧ d.j = j) ∧
    (∃ b ∈ walls, ∃ d ∈ b.cells, d.i = grid.size_x + 1 ∧ d.j = j)) ∧
  (∀ i : Int, 1 ≤ i → i ≤ grid.size_x →
    (∃ b ∈ walls, ∃ d ∈ b.cells, d.i = i ∧ d.j = 0) ∧
    (∃ b ∈ walls, ∃ d ∈ b.cells, d.i = i ∧ d.j = grid.size_y + 1))

instance (sx sy : Int) (d : Cell) : Decidable (boxWallCell sx sy d) := by
  unfold boxWallCell
  infer_instance

/-- A grid of 2 by 1 fluid cells with cell sizes `dx = 1/2`, `dy = 1/3`. -/
def exBoxGrid (α : Type) [One α] [Div α] [NatCast α] : Grid α :=
  exGrid 2 1 (1 / 2) (1 / 3) [fluidCell 1 1, fluidCell 2 1]

/-- The walls of the closed box around `exBoxGrid`: a fixed wall on the left,
right and bottom side (with the two bottom corner cells), and a moving lid with
wall velocity 1 on the top side. -/
def exBoxWalls (α : Type) [Field α] : List (Boundary α) :=
  [Boundary.FixedWallBoundary
      [wallCell 0 0 false false false false, wallCell 1 0 true false false false,
        wallCell 2 0 true false false false, wallCell 3 0 false false false false,
        wallCell 0 1 false false false true, wallCell 3 1 false false true false],
    MovingWallBoundary.ofVelocity
      [movingCell 1 2 8 false true false false, movingCell 2 2 8 false true false false] 1]

/-! ## ViscositySolver.cpp -/

/-- Modelled from the spec: the class `K_EPS_model` (its header is not among
the sources), reduced to the constants `_C0` (the `C_μ` of the specification),
`_C1`, `_C2`, `_sk`, `_se` that `solve` reads. -/
structure K_EPS_model (α : Type) where
  C0 : α
  C1 : α
  C2 : α
  sk : α
  se : α

/-- The operators `Discretization::convection_KEPS`, `laplacian_KEPS` and
`strain_rate` that `K_EPS_model::solve` calls; their sources are not among the
files, they are parameters of the embedding. -/
structure KEPSOperators (α : Type) where
  convection_KEPS : Matrix α → Matrix α → Matrix α → Int → Int → α
  laplacian_KEPS : Matrix α → Matrix α → α → α → Int → Int → α
  strain_rate : Matrix α → Matrix α → Int → Int → α

/-- The clamped values `k`, `e` and the value `nuT` that the loop body of
`K_EPS_model::solve` computes for one cell. -/
def K_EPS_model.cellValues {α : Type}
    [One α] [Add α] [Sub α] [Mul α] [Div α] [Neg α] [NatCast α] [Max α] [Pow α Nat]
    (m : K_EPS_model α)
    (ops : KEPSOperators α) (dt nu : α) (currentCell : Cell) (t : Fields α) : α × α × α :=
  let i := currentCell.i
  let j := currentCell.j
  let k1 := ops.convection_KEPS t.K t.U t.V i j
  let k2 := ops.laplacian_KEPS t.K t.nuT nu m.sk i j
  let k3 := (nu + t.nuT i j) * ops.strain_rate t.U t.V i j
  let k4 := t.E i j
  let e1 := ops.convection_KEPS t.E t.U t.V i j
  let e2 := ops.laplacian_KEPS t.E t.nuT nu m.se i j
  let e3 := m.C1 * (t.E i j * k3) / t.K i j
  let e4 := m.C2 * (t.E i j) ^ 2 / t.K i j
  let k := t.K i j + dt * (-k1 + k2 + k3 - k4)
  let e := t.E i j + dt * (-e1 + e2 + e3 - e4)
  let k := max k (1 / 10000)
  let e := max e (1 / 10000)
  let nuT := m.C0 * (k * k) / e
  (k, e, nuT)

/-- The assignments of the loop body of `K_EPS_model::solve` for one cell:
`field.K(i, j) = k`, `field.E(i, j) = e`, `field.nuT(i, j) = nuT`. -/
def K_EPS_model.updateCell {α : Type}
    [One α] [Add α] [Sub α] [Mul α] [Div α] [Neg α] [NatCast α] [Max α] [Pow α Nat]
    (m : K_EPS_model α)
    (ops : KEPSOperators α) (dt nu : α) (currentCell : Cell) (t : Fields α) : Fields α :=
  let v := m.cellValues ops dt nu currentCell t
  let a := { t with K := t.K.write currentCell.i currentCell.j v.1 }
  let b := { a with E := a.E.write currentCell.i currentCell.j v.2.1 }
  { b with nuT := b.nuT.write currentCell.i currentCell.j v.2.2 }

/-- The two assertions at the end of the loop body of `K_EPS_model::solve`:
`assert(nuT != nuT)` and `assert(nuT > 0)`. At `Double` the equality of Lean holds for
a NaN, for which `nuT != nuT` is true in C++; the conjunction is not affected, since
`nuT > 0` is false for a NaN. -/
def K_EPS_model.assertionsHold {α : Type}
    [Zero α] [LT α] [DecidableEq α] [DecidableRel (fun a b : α => a < b)] (nuT : α) : Bool :=
  decide (nuT ≠ nuT) && decide (nuT > 0)

/-- The loop of `K_EPS_model::solve` over the remaining fluid cells. With
`ndebug` the assertions are compiled out; without it a failed assertion aborts
the program and no field state is returned. -/
def K_EPS_model.solveCells {α : Type}
    [Zero α] [One α] [Add α] [Sub α] [Mul α] [Div α] [Neg α] [NatCast α] [Max α] [Pow α Nat]
    [LT α] [DecidableEq α] [DecidableRel (fun a b : α => a < b)] (m : K_EPS_model α)
    (ops : KEPSOperators α) (ndebug : Bool) (dt nu : α) : List Cell → Fields α → Option (Fields α)
  | [], t => some t
  | currentCell :: rest, t =>
    let t1 := m.updateCell ops dt nu currentCell t
    if ndebug || K_EPS_model.assertionsHold (m.cellValues ops dt nu currentCell t).2.2 then
      K_EPS_model.solveCells m ops ndebug dt nu rest t1
    else none

/-- The function `K_EPS_model::solve`: `dt` and `nu` are read once, then the loop
runs over the fluid cells. -/
def K_EPS_model.solve {α : Type}
    [Zero α] [One α] [Add α] [Sub α] [Mul α] [Div α] [Neg α] [NatCast α] [Max α] [Pow α Nat]
    [LT α] [DecidableEq α] [DecidableRel (fun a b : α => a < b)] (m : K_EPS_model α)
    (ops : KEPSOperators α) (ndebug : Bool) (s : Fields α) (grid : Grid α) : Option (Fields α) :=
  let dt := s.dt
  let nu := s.nu
  K_EPS_model.solveCells m ops ndebug dt nu grid.fluid_cells s

/-- The constants of the standard k-epsilon model. -/
def exKEPS (α : Type) [One α] [Div α] [NatCast α] : K_EPS_model α :=
  { C0 := 9 / 100, C1 := 144 / 100, C2 := 192 / 100, sk := 1, se := 13 / 10 }

/-- Stand-ins for the three operators: a centred difference of the scalar, a
5-point sum scaled by `nu + nuT/σ`, and a squared velocity difference. -/
def exKEPSOperators (α : Type) [Field α] : KEPSOperators α :=
  { convection_KEPS := fun A U _ i j => U i j * (A (i + 1) j - A (i - 1) j),
    laplacian_KEPS := fun A nuT nu sig i j =>
      (nu + nuT i j / sig) * (A (i + 1) j + A (i - 1) j + A i (j + 1) + A i (j - 1) - 4 * A i j),
    strain_rate := fun U V i j => (U i j - U (i - 1) j) ^ 2 + (V i j - V i (j - 1)) ^ 2 }

/-- Modelled from the spec: the step "apply flux BCs" of the time loop (the
driver is not among the sources), `for (auto &b : boundaries) b->applyFlux(field)`. -/
def applyFluxAll {α : Type} (boundaries : List (Boundary α)) (s : Fields α) : Fields α :=
  boundaries.foldl (fun t b => b.applyFlux t) s

/-- The sum of `RS(i,j)` over the fluid cells of the grid. -/
def rsSum {α : Type} [Zero α] [Add α] (s : Fields α) (grid : Grid α) : α :=
  (grid.fluid_cells.map (fun c => s.RS c.i c.j)).sum

/-! ## PressureSolver.cpp: the GPU variant -/

/-- A device array `double *` (or `bool *`, `uint8_t *`), addressed by its linear
index. -/
def DeviceArray (α : Type) : Type := Int → α

/-- The assignment `a[idx] = v`. -/
def DeviceArray.write {α : Type} (a : DeviceArray α) (idx : Int) (v : α) : DeviceArray α :=
  fun k => if k = idx then v else a k

/-- The struct `gridParams` of `UtilsGPU.h` (the header is not among the
sources): the members that `PressureSolver.cpp` reads. -/
structure gridParams (α : Type) where
  imax : Int
  jmax : Int
  dx : α
  dy : α
  size_fluid_cells : Int

/-- The value `static_cast<uint8_t>(border_position::p)`: the codes 0 to 3 that
the comments of `apply_pressure_bcs` give. -/
def border_position.toUInt8 : border_position → Nat
  | border_position.TOP => 0
  | border_position.BOTTOM => 1
  | border_position.LEFT => 2
  | border_position.RIGHT => 3

/-- The local `uint8_t TOP_LEFT = static_cast<uint8_t>(border_position::TOP) + 4`
of `apply_pressure_bcs` (source comment: `// 4`). -/
def apply_pressure_bcs.TOP_LEFT : Nat := (border_position.TOP.toUInt8 + 4) % 256

/-- The local `uint8_t BOTTOM_RIGHT = static_cast<uint8_t>(border_position::BOTTOM) + 4`
of `apply_pressure_bcs` (source comment: `// 5`). -/
def apply_pressure_bcs.BOTTOM_RIGHT : Nat := (border_position.BOTTOM.toUInt8 + 4) % 256

/-- The local `uint8_t TOP_RIGHT = static_cast<uint8_t>(border_position::TOP) + 4`
of `apply_pressure_bcs` (source comment: `// 6`). -/
def apply_pressure_bcs.TOP_RIGHT : Nat := (border_position.TOP.toUInt8 + 4) % 256

/-- The local `uint8_t BOTTOM_LEFT = static_cast<uint8_t>(border_position::BOTTOM) + 4`
of `apply_pressure_bcs` (source comment: `// 7`). -/
def apply_pressure_bcs.BOTTOM_LEFT : Nat := (border_position.BOTTOM.toUInt8 + 4) % 256

/-- The guarded assignment `if (c) { a[idx] = v; }`, where the value `v` is read
from the array as it is when the statement runs. -/
def DeviceArray.writeIf {α : Type} (a : DeviceArray α) (c : Prop) [Decidable c] (idx : Int)
    (v : DeviceArray α → α) : DeviceArray α :=
  if c then a.write idx (v a) else a

/-- The body of the two loops of `apply_pressure_bcs` for the counters `i`, `j`:
the guarded assignments of the source, in source order. The array
`d_boundary_type` holds the codes of `cell_type` values and is read only through
comparisons with such codes, so it is an array of `cell_type`. -/
def apply_pressure_bcs.cell {α : Type} [Field α] (d_fluid_mask : DeviceArray Bool)
    (d_boundary_type : DeviceArray cell_type) (d_border_position : DeviceArray Nat)
    (imax : Int) (i j : Int) (p : DeviceArray α) : DeviceArray α :=
  let idx := i + j * (imax + 2)
  let idx_left := idx - 1
  let idx_right := idx + 1
  let idx_top := idx + (imax + 2)
  let idx_bottom := idx - (imax + 2)
  if d_fluid_mask idx = false then
    if d_boundary_type idx = cell_type.ZERO_GRADIENT then
      (((p.writeIf (d_border_position idx = border_position.RIGHT.toUInt8) idx
              (fun q => -q idx_right)).writeIf
            (d_border_position idx = border_position.LEFT.toUInt8) idx
              (fun q => -q idx_left)).writeIf
          (d_border_position idx = border_position.TOP.toUInt8) idx
            (fun q => -q idx_top)).writeIf
        (d_border_position idx = border_position.BOTTOM.toUInt8) idx
          (fun q => -q idx_bottom)
    else
      (((((((p.writeIf (d_border_position idx = border_position.RIGHT.toUInt8) idx
                      (fun q => q idx_right)).writeIf
                    (d_border_position idx = border_position.LEFT.toUInt8) idx
                      (fun q => q idx_left)).writeIf
                  (d_border_position idx = border_position.TOP.toUInt8) idx
                    (fun q => q idx_top)).writeIf
                (d_border_position idx = border_position.BOTTOM.toUInt8) idx
                  (fun q => q idx_bottom)).writeIf
              (d_border_position idx = apply_pressure_bcs.TOP_LEFT) idx
                (fun q => (q idx_top + q idx_left) / 2)).writeIf
            (d_border_position idx = apply_pressure_bcs.BOTTOM_RIGHT) idx
              (fun q => (q idx_bottom + q idx_right) / 2)).writeIf
          (d_border_position idx = apply_pressure_bcs.TOP_RIGHT) idx
            (fun q => (q idx_top + q idx_right) / 2)).writeIf
        (d_border_position idx = apply_pressure_bcs.BOTTOM_LEFT) idx
          (fun q => (q idx_bottom + q idx_left) / 2)
  else p

/-- The function `apply_pressure_bcs`, its two loops run in source order (the
`#pragma acc parallel loop` lets them run in any order; the theorems below
concern cells whose value does not depend on it). -/
def apply_pressure_bcs {α : Type} [Field α] (d_p_matrix : DeviceArray α)
    (d_fluid_mask : DeviceArray Bool) (d_boundary_type : DeviceArray cell_type)
    (d_border_position : DeviceArray Nat) (grid : gridParams α) : DeviceArray α :=
  let imax := grid.imax
  let jmax := grid.jmax
  forLoop 0 (imax + 1) (fun i q =>
    forLoop 0 (jmax + 1) (fun j q =>
      apply_pressure_bcs.cell d_fluid_mask d_boundary_type d_border_position imax i j q) q)
    d_p_matrix

/-- The residual loops of `gpu_psolve` (under `// CALCULATE RESIDUAL`): the
accumulation of `res`, where the `bool` factor `d_fluid_mask[idx]` is 1 or 0. -/
def gpu_psolve.residual {α : Type} [Field α] (d_p_matrix d_rs_matrix : DeviceArray α)
    (d_fluid_mask : DeviceArray Bool) (imax jmax : Int) (dx dy : α) : α :=
  forLoop 1 imax (fun i res =>
    forLoop 1 jmax (fun j res =>
      let idx := i + j * (imax + 2)
      let idx_left := idx - 1
      let idx_right := idx + 1
      let idx_top := idx + (imax + 2)
      let idx_bottom := idx - (imax + 2)
      let val := (d_p_matrix idx_left - 2 * d_p_matrix idx + d_p_matrix idx_right) / (dx * dx) +
        (d_p_matrix idx_bottom - 2 * d_p_matrix idx + d_p_matrix idx_top) / (dy * dy) -
        d_rs_matrix idx
      res + val * val * (if d_fluid_mask idx = true then 1 else 0)) res) 0

/-- The function `gpu_psolve`: `num_iterations` launches of `jacobiKernel`, then
`apply_pressure_bcs`, then the residual; the result is the pair of the final
`d_p_matrix` and the returned value `res / size_fluid_cells`. A launch of the
CUDA kernel runs its threads concurrently on the two buffers; its effect
`(d_p_matrix_new, d_p_matrix) ↦ (d_p_matrix_new, d_p_matrix)` is the parameter
`jacobiKernel`, which receives the remaining arguments of the launch. -/
def gpu_psolve {α : Type} [Field α]
    (jacobiKernel : DeviceArray α → (DeviceArray Bool) → α → Int → Int → α → α →
      DeviceArray α × DeviceArray α → DeviceArray α × DeviceArray α)
    (d_p_matrix d_p_matrix_new d_rs_matrix : DeviceArray α) (d_fluid_mask : DeviceArray Bool)
    (d_boundary_type : DeviceArray cell_type) (d_border_position : DeviceArray Nat)
    (grid : gridParams α) (num_iterations : Int) : DeviceArray α × α :=
  let dx := grid.dx
  let dy := grid.dy
  let imax := grid.imax
  let jmax := grid.jmax
  let coeff := 1 / (2 * (1 / (dx * dx) + 1 / (dy * dy)))
  let size_fluid_cells := grid.size_fluid_cells
  let buffers := Nat.iterate (jacobiKernel d_rs_matrix d_fluid_mask coeff imax jmax dx dy)
    num_iterations.toNat (d_p_matrix_new, d_p_matrix)
  let p := apply_pressure_bcs buffers.2 d_fluid_mask d_boundary_type d_border_position grid
  let res := gpu_psolve.residual p d_rs_matrix d_fluid_mask imax jmax dx dy
  (p, res / (size_fluid_cells : α))

/-- The matrix view of a device array: entry `(i, j)` is the array entry with
the linear index `i + j * (imax + 2)`. -/
def DeviceArray.toMatrix {α : Type} (a : DeviceArray α) (imax : Int) : Matrix α :=
  fun i j => a (i + j * (imax + 2))

/-- The 3 by 3 cavity with `imax = jmax = 1`, `dx = dy = 1` and one fluid cell. -/
def exGpuGrid (α : Type) [Field α] : gridParams α :=
  { imax := 1, jmax := 1, dx := 1, dy := 1, size_fluid_cells := 1 }

/-- The fluid mask of the cavity: only the centre cell (index 4) is fluid. -/
def exGpuMask : DeviceArray Bool := fun k => decide (k = 4)

/-- The border codes of the cavity: the four side cells point at the centre
(index 3 RIGHT, index 5 LEFT, index 1 TOP, index 7 BOTTOM); the corner cells carry
the code 255 of no face. -/
def exGpuBorder : DeviceArray Nat := fun k =>
  if k = 3 then border_position.RIGHT.toUInt8
  else if k = 5 then border_position.LEFT.toUInt8
  else if k = 1 then border_position.TOP.toUInt8
  else if k = 7 then border_position.BOTTOM.toUInt8
  else 255

/-- The device array with `a[k] = k`. -/
def exGpuP (α : Type) [Field α] : DeviceArray α := fun k => (k : α)

/-- The right-hand side with the value 3 at the centre cell and 0 elsewhere. -/
def exGpuRS (α : Type) [Field α] : DeviceArray α := fun k => if k = 4 then 3 else 0

/-- The fluid mask of a 3 by 3 array whose centre cell (index 4) is the only
cell that is not fluid. -/
def exObstacleMask : DeviceArray Bool := fun k => decide (k ≠ 4)

/-! ## Communication.cpp -/

/-- A `std::vector<double>`, addressed by its index. -/
def StdVector (α : Type) : Type := Int → α

/-- The assignment `v[k] = x`. -/
def StdVector.write {α : Type} (v : StdVector α) (k : Int) (x : α) : StdVector α :=
  fun m => if m = k then x else v m

/-- The array `neighbours_ranks` that `Communication::get_neighbours` returns,
with its entries `LEFT`, `RIGHT`, `DOWN`, `UP`. A process is named by its Cartesian
coordinates and `none` is `MPI_PROC_NULL`. -/
structure neighbours_ranks where
  LEFT : Option (Int × Int)
  RIGHT : Option (Int × Int)
  DOWN : Option (Int × Int)
  UP : Option (Int × Int)

/-- The variables of `Communication::communicate`: the matrix, the two send
buffers, and for each direction the message that has been handed to
`MPI_Sendrecv` for that neighbour. -/
structure CommunicateState (α : Type) where
  matrix : Matrix α
  send_x : StdVector α
  send_y : StdVector α
  sent_RIGHT : Option (StdVector α)
  sent_LEFT : Option (StdVector α)
  sent_UP : Option (StdVector α)
  sent_DOWN : Option (StdVector α)

/-- The RIGHT block of `communicate` up to the call of `MPI_Sendrecv`: the loop
`send_x[j] = matrix(inner_index_cols, j)` and the message handed over. -/
def communicate.send_RIGHT {α : Type} (num_rows inner_index_cols : Int)
    (s : CommunicateState α) : CommunicateState α :=
  let send_x := forLoop 0 (num_rows - 1)
    (fun j v => StdVector.write v j (s.matrix inner_index_cols j)) s.send_x
  { s with send_x := send_x, sent_RIGHT := some send_x }

/-- The RIGHT block of `communicate` after the call of `MPI_Sendrecv`, which has
put the received message into `rcv_x`: the loop
`matrix(inner_index_cols + 1, j) = rcv_x[j]`. -/
def communicate.recv_RIGHT {α : Type} (num_rows inner_index_cols : Int) (rcv_x : StdVector α)
    (s : CommunicateState α) : CommunicateState α :=
  { s with matrix := forLoop 0 (num_rows - 1)
                       (fun j m => Matrix.write m (inner_index_cols + 1) j (rcv_x j)) s.matrix }

/-- The LEFT block of `communicate` up to the call of `MPI_Sendrecv`: the loop
`send_x[j] = matrix(1, j)` and the message handed over. -/
def communicate.send_LEFT {α : Type} (num_rows : Int) (s : CommunicateState α) :
    CommunicateState α :=
  let send_x := forLoop 0 (num_rows - 1) (fun j v => StdVector.write v j (s.matrix 1 j)) s.send_x
  { s with send_x := send_x, sent_LEFT := some send_x }

/-- The LEFT block of `communicate` after the call of `MPI_Sendrecv`: the loop
`matrix(0, j) = rcv_x[j]`. -/
def communicate.recv_LEFT {α : Type} (num_rows : Int) (rcv_x : StdVector α)
    (s : CommunicateState α) : CommunicateState α :=
  { s with matrix := forLoop 0 (num_rows - 1) (fun j m => Matrix.write m 0 j (rcv_x j)) s.matrix }

/-- The UP block of `communicate` up to the call of `MPI_Sendrecv`: the loop
`send_y[i] = matrix(i, inner_index_rows)` and the message handed over. -/
def communicate.send_UP {α : Type} (num_cols inner_index_rows : Int) (s : CommunicateState α) :
    CommunicateState α :=
  let send_y := forLoop 0 (num_cols - 1)
    (fun i v => StdVector.write v i (s.matrix i inner_index_rows)) s.send_y
  { s with send_y := send_y, sent_UP := some send_y }

/-- The UP block of `communicate` after the call of `MPI_Sendrecv`: the loop
`matrix(i, inner_index_rows + 1) = rcv_y[i]`. -/
def communicate.recv_UP {α : Type} (num_cols inner_index_rows : Int) (rcv_y : StdVector α)
    (s : CommunicateState α) : CommunicateState α :=
  { s with matrix := forLoop 0 (num_cols - 1)
                       (fun i m => Matrix.write m i (inner_index_rows + 1) (rcv_y i)) s.matrix }

/-- The DOWN block of `communicate` up to the call of `MPI_Sendrecv`: the loop
`send_y[i] = matrix(i, 1)` and the message handed over. -/
def communicate.send_DOWN {α : Type} (num_cols : Int) (s : CommunicateState α) :
    CommunicateState α :=
  let send_y := forLoop 0 (num_cols - 1) (fun i v => StdVector.write v i (s.matrix i 1)) s.send_y
  { s with send_y := send_y, sent_DOWN := some send_y }

/-- The DOWN block of `communicate` after the call of `MPI_Sendrecv`: the loop
`matrix(i, 0) = rcv_y[i]`. -/
def communicate.recv_DOWN {α : Type} (num_cols : Int) (rcv_y : StdVector α)
    (s : CommunicateState α) : CommunicateState α :=
  { s with matrix := forLoop 0 (num_cols - 1) (fun i m => Matrix.write m i 0 (rcv_y i)) s.matrix }

/-- The variables of `communicate` at its start: the send buffers are filled
with 0 and no message has been sent. -/
def communicate.start {α : Type} [Zero α] (matrix : Matrix α) : CommunicateState α :=
  { matrix := matrix, send_x := fun _ => 0, send_y := fun _ => 0, sent_RIGHT := none,
    sent_LEFT := none, sent_UP := none, sent_DOWN := none }

/-- The block `if (neighbours_ranks[RIGHT] != MPI_PROC_NULL) { ... }`. -/
def communicate.RIGHT {α : Type} (ranks : neighbours_ranks) (rcv : StdVector α)
    (num_cols num_rows : Int) (s : CommunicateState α) : CommunicateState α :=
  if ranks.RIGHT ≠ none then
    communicate.recv_RIGHT num_rows (num_cols - 2) rcv
      (communicate.send_RIGHT num_rows (num_cols - 2) s)
  else s

/-- The block `if (neighbours_ranks[LEFT] != MPI_PROC_NULL) { ... }`. -/
def communicate.LEFT {α : Type} (ranks : neighbours_ranks) (rcv : StdVector α)
    (num_rows : Int) (s : CommunicateState α) : CommunicateState α :=
  if ranks.LEFT ≠ none then communicate.recv_LEFT num_rows rcv (communicate.send_LEFT num_rows s)
  else s

/-- The block `if (neighbours_ranks[UP] != MPI_PROC_NULL) { ... }`. -/
def communicate.UP {α : Type} (ranks : neighbours_ranks) (rcv : StdVector α)
    (num_cols num_rows : Int) (s : CommunicateState α) : CommunicateState α :=
  if ranks.UP ≠ none then
    communicate.recv_UP num_cols (num_rows - 2) rcv (communicate.send_UP num_cols (num_rows - 2) s)
  else s

/-- The block `if (neighbours_ranks[DOWN] != MPI_PROC_NULL) { ... }`. -/
def communicate.DOWN {α : Type} (ranks : neighbours_ranks) (rcv : StdVector α)
    (num_cols : Int) (s : CommunicateState α) : CommunicateState α :=
  if ranks.DOWN ≠ none then communicate.recv_DOWN num_cols rcv (communicate.send_DOWN num_cols s)
  else s

/-- The function `Communication::communicate` on one process: the four blocks
RIGHT, LEFT, UP, DOWN in source order. The matrix has `num_cols` by `num_rows`
entries, `ranks` is the result of `get_neighbours`, and `rcv_RIGHT`, `rcv_LEFT`,
`rcv_UP`, `rcv_DOWN` are the messages that `MPI_Sendrecv` receives from the four
neighbours. The result holds the final matrix and the messages sent. -/
def communicate {α : Type} [Zero α] (ranks : neighbours_ranks)
    (rcv_RIGHT rcv_LEFT rcv_UP rcv_DOWN : StdVector α) (num_cols num_rows : Int)
    (matrix : Matrix α) : CommunicateState α :=
  communicate.DOWN ranks rcv_DOWN num_cols
    (communicate.UP ranks rcv_UP num_cols num_rows
      (communicate.LEFT ranks rcv_LEFT num_rows
        (communicate.RIGHT ranks rcv_RIGHT num_cols num_rows (communicate.start matrix))))

/-- The message an `Option` holds, read as a vector (the zero vector when no
message was sent). -/
def messageOf {α : Type} [Zero α] : Option (StdVector α) → StdVector α
  | some v => v
  | none => fun _ => 0

/-- The ranks with no neighbour in any direction. -/
def noNeighbours : neighbours_ranks :=
  { LEFT := none, RIGHT := none, DOWN := none, UP := none }

/-- The 3 by 3 matrix example: the entry `(i, j)` holds `10 * i + j`. -/
def exHaloMatrix (α : Type) [Field α] : Matrix α := fun i j => 10 * (i : α) + (j : α)

/-- Modelled from the MPI standard: the two calls of `MPI_Cart_shift` in
`Communication::get_neighbours` on the Cartesian communicator of `iproc` by `jproc`
processes that `init_parallel` creates with `periods = {false, false}`, for the
process with the coordinates `(a, b)`: the neighbour at a displacement of one step
along a dimension, and `MPI_PROC_NULL` beyond the ends of the process grid. -/
def get_neighbours (iproc jproc : Int) (a b : Int) : neighbours_ranks :=
  { LEFT := if 0 ≤ a - 1 then some (a - 1, b) else none,
    RIGHT := if a + 1 < iproc then some (a + 1, b) else none,
    DOWN := if 0 ≤ b - 1 then some (a, b - 1) else none,
    UP := if b + 1 < jproc then some (a, b + 1) else none }

/-- Modelled from the MPI standard: a run of `communicate` on all processes of
the `iproc` by `jproc` process grid, the process `(a, b)` holding the matrix `M a b`
of `num_cols a` by `num_rows b` entries; the state of the process `(a, b)` after its
RIGHT block. `MPI_Sendrecv` pairs with the `MPI_Sendrecv` of the right neighbour
that is addressed to this process, the one of its LEFT block, which that
neighbour runs after its own RIGHT block. -/
def communicateAll.afterRIGHT {α : Type} [Zero α] (iproc jproc : Int)
    (num_cols num_rows : Int → Int) (M : Int → Int → Matrix α) (a b : Int) :
    CommunicateState α :=
  communicate.RIGHT (get_neighbours iproc jproc a b)
    (if _h : a + 1 < iproc then
      messageOf (communicate.send_LEFT (num_rows b)
        (communicateAll.afterRIGHT iproc jproc num_cols num_rows M (a + 1) b)).sent_LEFT
    else fun _ => 0)
    (num_cols a) (num_rows b) (communicate.start (M a b))
termination_by (iproc - a).toNat
decreasing_by omega

/-- The state of the process `(a, b)` after its LEFT block: it receives the
message of the RIGHT block of its left neighbour, the first block that
neighbour runs. -/
def communicateAll.afterLEFT {α : Type} [Zero α] (iproc jproc : Int)
    (num_cols num_rows : Int → Int) (M : Int → Int → Matrix α) (a b : Int) :
    CommunicateState α :=
  communicate.LEFT (get_neighbours iproc jproc a b)
    (messageOf (communicate.send_RIGHT (num_rows b) (num_cols (a - 1) - 2)
      (communicate.start (M (a - 1) b))).sent_RIGHT)
    (num_rows b) (communicateAll.afterRIGHT iproc jproc num_cols num_rows M a b)

/-- The state of the process `(a, b)` after its UP block: it receives the message
of the DOWN block of its upper neighbour, which that neighbour runs after its
RIGHT, LEFT and UP blocks. -/
def communicateAll.afterUP {α : Type} [Zero α] (iproc jproc : Int)
    (num_cols num_rows : Int → Int) (M : Int → Int → Matrix α) (a b : Int) :
    CommunicateState α :=
  communicate.UP (get_neighbours iproc jproc a b)
    (if _h : b + 1 < jproc then
      messageOf (communicate.send_DOWN (num_cols a)
        (communicateAll.afterUP iproc jproc num_cols num_rows M a (b + 1))).sent_DOWN
    else fun _ => 0)
    (num_cols a) (num_rows b) (communicateAll.afterLEFT iproc jproc num_cols num_rows M a b)
termination_by (jproc - b).toNat
decreasing_by omega

/-- The state of the process `(a, b)` after its DOWN block: it receives the
message of the UP block of its lower neighbour, which that neighbour runs after
its RIGHT and LEFT blocks. -/
def communicateAll.afterDOWN {α : Type} [Zero α] (iproc jproc : Int)
    (num_cols num_rows : Int → Int) (M : Int → Int → Matrix α) (a b : Int) :
    CommunicateState α :=
  communicate.DOWN (get_neighbours iproc jproc a b)
    (messageOf (communicate.send_UP (num_cols a) (num_rows (b - 1) - 2)
      (communicateAll.afterLEFT iproc jproc num_cols num_rows M a (b - 1))).sent_UP)
    (num_cols a) (communicateAll.afterUP iproc jproc num_cols num_rows M a b)

/-- The matrices of all processes after every process has run `communicate`. -/
def communicateAll {α : Type} [Zero α] (iproc jproc : Int) (num_cols num_rows : Int → Int)
    (M : Int → Int → Matrix α) : Int → Int → Matrix α :=
  fun a b => (communicateAll.afterDOWN iproc jproc num_cols num_rows M a b).matrix

/-- The matrices of a 2 by 2 process grid: the entry `(i, j)` of the process
`(a, b)` holds `1000 a + 100 b + 10 i + j`. -/
def exHaloGrid (α : Type) [Field α] : Int → Int → Matrix α :=
  fun a b i j => 1000 * (a : α) + 100 * (b : α) + 10 * (i : α) + (j : α)

/-! ## IEEE 754 binary64: the type `double` of the program -/

/-- Modelled from the IEEE 754 standard: a value of the binary64 format, the
`double` of the program. A finite value is carried as the rational number it
denotes (a number `m * 2^e` with `|m| ≤ 2^53` and `-1074 ≤ e ≤ 971`); the other
values are the two infinities and NaN. The sign of a zero is not modelled. -/
inductive Double where
  | finite (q : ℚ)
  | posInf
  | negInf
  | nan
  deriving DecidableEq

/-- The number of binary digits of `n`; the first argument bounds the recursion. -/
def Double.bitLengthAux : Nat → Nat → Nat
  | 0, _ => 0
  | fuel + 1, n => if n = 0 then 0 else 1 + Double.bitLengthAux fuel (n / 2)

/-- The number of binary digits of `n`. -/
def Double.bitLength (n : Nat) : Nat := Double.bitLengthAux n n

/-- The integer nearest to `n / d`, a tie going to the even one. -/
def Double.roundNat (n d : Nat) : Nat :=
  let t := n / d
  let r := n % d
  if 2 * r < d then t else if d < 2 * r then t + 1 else if t % 2 = 0 then t else t + 1

/-- The numerator of `(n / d) / 2^e`. -/
def Double.scaleNum (n : Nat) (e : Int) : Nat := if e < 0 then n * 2 ^ (-e).toNat else n

/-- The denominator of `(n / d) / 2^e`. -/
def Double.scaleDen (d : Nat) (e : Int) : Nat := if e < 0 then d else d * 2 ^ e.toNat

/-- The exponent `e` of the binary64 grid around `n / d > 0`: the one with
`2^52 ≤ (n / d) / 2^e < 2^53`, and `-1074` in the subnormal range. -/
def Double.exponentOf (n d : Nat) : Int :=
  let e0 : Int := (Double.bitLength n : Int) - (Double.bitLength d : Int) - 52
  let e1 := if Double.scaleNum n e0 < 2 ^ 52 * Double.scaleDen d e0 then e0 - 1 else e0
  max e1 (-1074)

/-- The rational `m * 2^e`. -/
def Double.ofMantissa (m : Nat) (e : Int) : ℚ :=
  if e < 0 then mkRat m (2 ^ (-e).toNat) else ((m * 2 ^ e.toNat : Nat) : ℚ)

/-- Rounding of `n / d > 0` to the nearest binary64 value, ties to even; `none`
when the rounded value is not below `2^1024` (overflow). -/
def Double.roundMag (n d : Nat) : Option ℚ :=
  let e := Double.exponentOf n d
  let v := Double.ofMantissa (Double.roundNat (Double.scaleNum n e) (Double.scaleDen d e)) e
  if v < 2 ^ 1024 then some v else none

/-- Rounding of a real (here rational) result to binary64 in the default mode
round-to-nearest, ties-to-even, with gradual underflow and overflow to infinity. -/
def Double.round (q : ℚ) : Double :=
  if q = 0 then Double.finite 0
  else if 0 < q then
    match Double.roundMag q.num.natAbs q.den with
    | some v => Double.finite v
    | none => Double.posInf
  else
    match Double.roundMag q.num.natAbs q.den with
    | some v => Double.finite (-v)
    | none => Double.negInf

/-- The negation `-x`. -/
def Double.neg : Double → Double
  | Double.finite a => Double.finite (-a)
  | Double.posInf => Double.negInf
  | Double.negInf => Double.posInf
  | Double.nan => Double.nan

/-- The sum `x + y`: the rounded sum of finite values; opposite infinities give
NaN. -/
def Double.add : Double → Double → Double
  | Double.finite a, Double.finite b => Double.round (a + b)
  | Double.nan, _ => Double.nan
  | _, Double.nan => Double.nan
  | Double.posInf, Double.negInf => Double.nan
  | Double.negInf, Double.posInf => Double.nan
  | Double.posInf, _ => Double.posInf
  | Double.negInf, _ => Double.negInf
  | _, Double.posInf => Double.posInf
  | _, Double.negInf => Double.negInf

/-- The product of an infinity of sign `pos` with the finite value `a`: NaN for
`a = 0`. -/
def Double.mulInf (pos : Bool) (a : ℚ) : Double :=
  if a = 0 then Double.nan
  else if (0 < a) = pos then Double.posInf
  else Double.negInf

/-- The product `x * y`. -/
def Double.mul : Double → Double → Double
  | Double.finite a, Double.finite b => Double.round (a * b)
  | Double.nan, _ => Double.nan
  | _, Double.nan => Double.nan
  | Double.finite a, Double.posInf => Double.mulInf true a
  | Double.finite a, Double.negInf => Double.mulInf false a
  | Double.posInf, Double.finite b => Double.mulInf true b
  | Double.negInf, Double.finite b => Double.mulInf false b
  | Double.posInf, Double.posInf => Double.posInf
  | Double.negInf, Double.negInf => Double.posInf
  | Double.posInf, Double.negInf => Double.negInf
  | Double.negInf, Double.posInf => Double.negInf

/-- The quotient `x / y`. A finite non-zero value divided by zero is the infinity
of its sign (the zero counts as positive), `0 / 0` and a quotient of infinities
are NaN. -/
def Double.div : Double → Double → Double
  | Double.finite a, Double.finite b =>
    if b = 0 then
      if a = 0 then Double.nan else if 0 < a then Double.posInf else Double.negInf
    else Double.round (a / b)
  | Double.nan, _ => Double.nan
  | _, Double.nan => Double.nan
  | Double.finite _, _ => Double.finite 0
  | Double.posInf, Double.finite b => if b < 0 then Double.negInf else Double.posInf
  | Double.negInf, Double.finite b => if b < 0 then Double.posInf else Double.negInf
  | _, _ => Double.nan

/-- The comparison `x < y`: false when an operand is NaN. -/
def Double.lt : Double → Double → Bool
  | Double.finite a, Double.finite b => decide (a < b)
  | Double.finite _, Double.posInf => true
  | Double.negInf, Double.finite _ => true
  | Double.negInf, Double.posInf => true
  | _, _ => false

/-- The function `std::max(a, b)`, that is `(a < b) ? b : a`. -/
def Double.max (a b : Double) : Double := if Double.lt a b then b else a

/-- The integer part of the square root of `n`, digit by digit from the binary
digit `k - 1` down, starting from `r`. -/
def Double.isqrtAux : Nat → Nat → Nat → Nat
  | 0, _, r => r
  | k + 1, n, r => Double.isqrtAux k n (if (r + 2 ^ k) * (r + 2 ^ k) ≤ n then r + 2 ^ k else r)

/-- The binary64 value nearest to the square root of `n / d > 0`, ties to even. -/
def Double.sqrtMag (n d : Nat) : ℚ :=
  let e1 : Int := ((Double.bitLength n : Int) - (Double.bitLength d : Int) - 105) / 2
  let e :=
    if 2 ^ 106 * Double.scaleDen d (2 * e1) ≤ Double.scaleNum n (2 * e1) then e1 + 1 else e1
  let N := Double.scaleNum n (2 * e)
  let D := Double.scaleDen d (2 * e)
  let t := Double.isqrtAux 54 (N / D) 0
  let m :=
    if 4 * N < (2 * t + 1) * (2 * t + 1) * D then t
    else if (2 * t + 1) * (2 * t + 1) * D < 4 * N then t + 1
    else if t % 2 = 0 then t else t + 1
  Double.ofMantissa m e

/-- The function `std::sqrt`: the correctly rounded square root; NaN for a
negative argument. -/
def Double.sqrt : Double → Double
  | Double.finite a =>
    if a = 0 then Double.finite 0
    else if a < 0 then Double.nan
    else Double.finite (Double.sqrtMag a.num.natAbs a.den)
  | Double.posInf => Double.posInf
  | Double.negInf => Double.nan
  | Double.nan => Double.nan

/-- The power `x ^ n` by repeated multiplication; `std::pow(x, 2)` is the rounded
square `x * x`. -/
def Double.npow : Nat → Double → Double
  | 0, _ => Double.finite 1
  | n + 1, x => Double.mul (Double.npow n x) x

instance : Zero Double := ⟨Double.finite 0⟩

instance : One Double := ⟨Double.finite 1⟩

instance : NatCast Double := ⟨fun n => Double.round (n : ℚ)⟩

instance : IntCast Double := ⟨fun n => Double.round (n : ℚ)⟩

instance : Neg Double := ⟨Double.neg⟩

instance : Add Double := ⟨Double.add⟩

instance : Sub Double := ⟨fun a b => Double.add a (Double.neg b)⟩

instance : Mul Double := ⟨Double.mul⟩

instance : Div Double := ⟨Double.div⟩

instance : Pow Double Nat := ⟨fun x n => Double.npow n x⟩

instance : Max Double := ⟨Double.max⟩

instance : LT Double := ⟨fun a b => Double.lt a b = true⟩

instance : DecidableRel (fun a b : Double => a < b) :=
  fun a b => inferInstanceAs (Decidable (Double.lt a b = true))

/-- The rational a finite binary64 value denotes (0 for the infinities and NaN). -/
def Double.toRat : Double → ℚ
  | Double.finite a => a
  | _ => 0

/-- The value is a NaN. -/
def Double.isNaN : Double → Bool
  | Double.nan => true
  | _ => false

/-- A field state with the given matrices `U`, `P`, `F`, `G`, `RS`, `E`, the values
`nu`, `dt`, and `V = 0`, `K = 1`, `nuT = 0`, `tau = 1`, no gravity. -/
def exFieldsOf {α : Type} [Zero α] [One α] (U P F G RS E : Matrix α) (nu dt : α) : Fields α :=
  { U := U, V := fun _ _ => 0, P := P, F := F, G := G, RS := RS, K := fun _ _ => 1, E := E,
    nuT := fun _ _ => 0, nu := nu, dt := dt, tau := 1, gx := 0, gy := 0 }

/-- A binary64 state with large fluxes: `F = G = 10^17`, `P(i,j) = i^2`, `dt = 1`. -/
def exAbsorbFields : Fields Double :=
  exFieldsOf (fun _ _ => 0) (fun i _ => ((i * i : Int) : Double))
    (fun _ _ => 100000000000000000) (fun _ _ => 100000000000000000) (fun _ _ => 0)
    (fun _ _ => 1) 1 1

/-- A state for the residual: `P = 0` and `RS` equal to `rs` at the cell `(1, 1)` and
to 0 elsewhere. -/
def exResidualFields {α : Type} [Zero α] [One α] (rs : α) : Fields α :=
  exFieldsOf (fun _ _ => 0) (fun _ _ => 0) (fun _ _ => 0) (fun _ _ => 0)
    (fun i j => if i = 1 ∧ j = 1 then rs else 0) (fun _ _ => 1) 1 1

/-- A binary64 grid of 3 by 1 fluid cells with `dx = 10`, `dy = 1`. -/
def exBox3Grid : Grid Double :=
  exGrid 3 1 10 1 [fluidCell 1 1, fluidCell 2 1, fluidCell 3 1]

/-- The fixed walls of the closed box around `exBox3Grid`. -/
def exBox3Walls : List (Boundary Double) :=
  [Boundary.FixedWallBoundary
    [wallCell 0 1 false false false true, wallCell 4 1 false false true false,
      wallCell 1 0 true false false false, wallCell 2 0 true false false false,
      wallCell 3 0 true false false false, wallCell 1 2 false true false false,
      wallCell 2 2 false true false false, wallCell 3 2 false true false false]]

/-- A binary64 state for the closed box: `U(i,j) = 2 i - 1` (1 and 3 at the two
interior faces), `V = 0`, `nu = 0`, `dt = 1`. -/
def exBox3Fields : Fields Double :=
  exFieldsOf (fun i _ => ((2 * i - 1 : Int) : Double)) (fun _ _ => 0) (fun _ _ => 0)
    (fun _ _ => 0) (fun _ _ => 0) (fun _ _ => 1) 0 1

/-- The field state `exWallFields` with `V(3,3) = 0`: the normal velocity is 0 on
the face below the wall cell `(3,4)`. -/
def exZeroNormalFields (α : Type) [Field α] : Fields α :=
  { exWallFields α with V := (exWallFields α).V.write 3 3 0 }

/-! ## Loop lemmas -/

theorem forLoopAux_invariant {σ : Type} (body : Int → σ → σ) (Inv : Int → σ → Prop) (lo : Int) :
    ∀ (n : Nat) (k : Int) (s : σ), lo ≤ k → Inv k s →
      (∀ m t, lo ≤ m → m < k + n → Inv m t → Inv (m + 1) (body m t)) →
      Inv (k + n) (forLoopAux body n k s) := by
  intro n
  induction n with
  | zero => intro k s _ h _; simpa [forLoopAux] using h
  | succ n ih =>
    intro k s hk h hstep
    have h1 : Inv (k + 1) (body k s) := hstep k s hk (by push_cast; omega) h
    have h2 := ih (k + 1) (body k s) (by omega) h1
      (fun m t hm hlt => hstep m t hm (by push_cast; omega))
    have e : k + ((n + 1 : Nat) : Int) = k + 1 + (n : Int) := by push_cast; ring
    rw [e]
    exact h2

/-- Hoare rule of the counting loop: an invariant that holds when the counter
is `lo` and is carried by every iteration `lo ≤ k ≤ hi` holds at exit. -/
theorem forLoop_invariant {σ : Type} (lo hi : Int) (body : Int → σ → σ) (Inv : Int → σ → Prop)
    (s : σ) (h0 : Inv lo s)
    (hstep : ∀ k t, lo ≤ k → k ≤ hi → Inv k t → Inv (k + 1) (body k t)) :
    Inv (max lo (hi + 1)) (forLoop lo hi body s) := by
  have h := forLoopAux_invariant body Inv lo (hi + 1 - lo).toNat lo s le_rfl h0
    (fun m t hm hlt hI => hstep m t hm (by omega) hI)
  have e : lo + ((hi + 1 - lo).toNat : Int) = max lo (hi + 1) := by omega
  rw [e] at h
  exact h

/-- A counting loop that writes one entry `(i, k)` per iteration into a matrix
component of the state, the written value depending only on parts of the state
the loop does not change, fills a row segment. -/
theorem forLoop_write_row {σ α : Type} (get : σ → Matrix α) (put : σ → Matrix α → σ)
    (val : σ → Int → Int → α)
    (hgp : ∀ t m, get (put t m) = m) (hpp : ∀ t m n, put (put t m) n = put t n)
    (hpg : ∀ t, put t (get t) = t) (hval : ∀ t m, val (put t m) = val t)
    (i lo hi : Int) (s : σ) :
    forLoop lo hi (fun j t => put t ((get t).write i j (val t i j))) s =
      put s (fun a b => if a = i ∧ lo ≤ b ∧ b ≤ hi then val s a b else get s a b) := by
  have h := forLoop_invariant lo hi (fun j t => put t ((get t).write i j (val t i j)))
    (fun k t => t = put s (fun a b => if a = i ∧ lo ≤ b ∧ b < k then val s a b else get s a b)) s
    (by
      have e : (fun a b => if a = i ∧ lo ≤ b ∧ b < lo then val s a b else get s a b) = get s := by
        funext a b
        rw [if_neg]
        omega
      beta_reduce
      rw [e, hpg])
    (by
      intro k t hlo hhi ht
      subst ht
      simp only [hgp, hpp, hval]
      congr 1
      funext a b
      unfold Matrix.write
      beta_reduce
      by_cases h1 : a = i ∧ b = k
      · rw [if_pos h1, if_pos (by omega)]
        rw [h1.1, h1.2]
      · rw [if_neg h1]
        by_cases h2 : a = i ∧ lo ≤ b ∧ b < k
        · rw [if_pos h2, if_pos (by omega)]
        · rw [if_neg h2, if_neg (by omega)])
  simp only at h
  rw [h]
  congr 1
  funext a b
  by_cases h2 : a = i ∧ lo ≤ b ∧ b ≤ hi
  · rw [if_pos h2, if_pos (by omega)]
  · rw [if_neg h2, if_neg (by omega)]

/-- The doubly nested counting loop that writes entry `(i, j)` of a matrix
component, with a value that depends only on unchanged parts of the state,
fills the index rectangle and leaves the rest of the state as it was. -/
theorem forLoop_write_rect {σ α : Type} (get : σ → Matrix α) (put : σ → Matrix α → σ)
    (val : σ → Int → Int → α)
    (hgp : ∀ t m, get (put t m) = m) (hpp : ∀ t m n, put (put t m) n = put t n)
    (hpg : ∀ t, put t (get t) = t) (hval : ∀ t m, val (put t m) = val t)
    (lo1 hi1 lo2 hi2 : Int) (s : σ) :
    forLoop lo1 hi1 (fun i t =>
        forLoop lo2 hi2 (fun j t => put t ((get t).write i j (val t i j))) t) s =
      put s (fun a b =>
        if lo1 ≤ a ∧ a ≤ hi1 ∧ lo2 ≤ b ∧ b ≤ hi2 then val s a b else get s a b) := by
  have h := forLoop_invariant lo1 hi1
    (fun i t => forLoop lo2 hi2 (fun j t => put t ((get t).write i j (val t i j))) t)
    (fun k t => t = put s (fun a b =>
      if lo1 ≤ a ∧ a < k ∧ lo2 ≤ b ∧ b ≤ hi2 then val s a b else get s a b)) s
    (by
      have e : (fun a b => if lo1 ≤ a ∧ a < lo1 ∧ lo2 ≤ b ∧ b ≤ hi2 then val s a b
          else get s a b) = get s := by
        funext a b
        rw [if_neg]
        omega
      beta_reduce
      rw [e, hpg])
    (by
      intro k t hlo hhi ht
      subst ht
      simp only
      rw [forLoop_write_row get put val hgp hpp hpg hval]
      simp only [hgp, hpp, hval]
      congr 1
      funext a b
      by_cases h1 : a = k ∧ lo2 ≤ b ∧ b ≤ hi2
      · rw [if_pos h1, if_pos (by omega)]
      · rw [if_neg h1]
        by_cases h2 : lo1 ≤ a ∧ a < k ∧ lo2 ≤ b ∧ b ≤ hi2
        · rw [if_pos h2, if_pos (by omega)]
        · rw [if_neg h2, if_neg (by omega)])
  simp only at h
  rw [h]
  congr 1
  funext a b
  by_cases h2 : lo1 ≤ a ∧ a ≤ hi1 ∧ lo2 ≤ b ∧ b ≤ hi2
  · rw [if_pos h2, if_pos (by omega)]
  · rw [if_neg h2, if_neg (by omega)]

/-! ## Closed forms of the loops of Fields.cpp -/

theorem calculate_rs_eq {α : Type} [Field α] (s : Fields α) (grid : Grid α) :
    calculate_rs s grid =
      { s with
        RS := fun a b =>
          if 1 ≤ a ∧ a ≤ grid.size_x ∧ 1 ≤ b ∧ b ≤ grid.size_y then
            1 / s.dt * ((s.F a b - s.F (a - 1) b) / grid.dx + (s.G a b - s.G a (b - 1)) / grid.dy)
          else s.RS a b } :=
  forLoop_write_rect (fun t : Fields α => t.RS) (fun t m => { t with RS := m })
    (fun t i j => 1 / t.dt * ((t.F i j - t.F (i - 1) j) / grid.dx + (t.G i j - t.G i (j - 1)) / grid.dy))
    (fun _ _ => rfl) (fun _ _ _ => rfl) (fun _ => rfl) (fun _ _ => rfl) 1 grid.size_x 1 grid.size_y s

theorem calculate_velocities_eq {α : Type} [Field α] (s : Fields α) (grid : Grid α) :
    calculate_velocities s grid =
      { s with
        U := fun a b =>
          if 1 ≤ a ∧ a ≤ grid.size_x - 1 ∧ 1 ≤ b ∧ b ≤ grid.size_y then
            s.F a b - s.dt / grid.dx * (s.P (a + 1) b - s.P a b)
          else s.U a b,
        V := fun a b =>
          if 1 ≤ a ∧ a ≤ grid.size_x ∧ 1 ≤ b ∧ b ≤ grid.size_y - 1 then
            s.G a b - s.dt / grid.dy * (s.P a (b + 1) - s.P a b)
          else s.V a b } := by
  unfold calculate_velocities
  have hU := forLoop_write_rect (fun t : Fields α => t.U) (fun t m => { t with U := m })
    (fun t i j => t.F i j - t.dt / grid.dx * (t.P (i + 1) j - t.P i j))
    (fun _ _ => rfl) (fun _ _ _ => rfl) (fun _ => rfl) (fun _ _ => rfl)
    1 (grid.size_x - 1) 1 grid.size_y s
  have hV := fun t => forLoop_write_rect (fun t : Fields α => t.V) (fun t m => { t with V := m })
    (fun t i j => t.G i j - t.dt / grid.dy * (t.P i (j + 1) - t.P i j))
    (fun _ _ => rfl) (fun _ _ _ => rfl) (fun _ => rfl) (fun _ _ => rfl)
    1 grid.size_x 1 (grid.size_y - 1) t
  simp only at hU hV
  simp only [hU, hV]

theorem calculate_fluxes_eq {α : Type} [Field α]
    (convection_u convection_v : Matrix α → Matrix α → Int → Int → α)
    (s : Fields α) (grid : Grid α) :
    calculate_fluxes convection_u convection_v s grid =
      { s with
        F := fun a b =>
          if 1 ≤ a ∧ a ≤ grid.size_x - 1 ∧ 1 ≤ b ∧ b ≤ grid.size_y then
            s.U a b + s.dt * (s.nu * laplacian grid.dx grid.dy s.U a b - convection_u s.U s.V a b)
          else s.F a b,
        G := fun a b =>
          if 1 ≤ a ∧ a ≤ grid.size_x ∧ 1 ≤ b ∧ b ≤ grid.size_y - 1 then
            s.V a b + s.dt * (s.nu * laplacian grid.dx grid.dy s.V a b - convection_v s.U s.V a b)
          else s.G a b } := by
  unfold calculate_fluxes
  have hF := forLoop_write_rect (fun t : Fields α => t.F) (fun t m => { t with F := m })
    (fun t i j => t.U i j + t.dt * (t.nu * laplacian grid.dx grid.dy t.U i j - convection_u t.U t.V i j))
    (fun _ _ => rfl) (fun _ _ _ => rfl) (fun _ => rfl) (fun _ _ => rfl)
    1 (grid.size_x - 1) 1 grid.size_y s
  have hG := fun t => forLoop_write_rect (fun t : Fields α => t.G) (fun t m => { t with G := m })
    (fun t i j => t.V i j + t.dt * (t.nu * laplacian grid.dx grid.dy t.V i j - convection_v t.U t.V i j))
    (fun _ _ => rfl) (fun _ _ _ => rfl) (fun _ => rfl) (fun _ _ => rfl)
    1 grid.size_x 1 (grid.size_y - 1) t
  simp only at hF hG
  simp only [hF, hG]

/-! ## Fields.cpp: velocity correction, right-hand side, projection -/

/-- C2: `calculate_velocities` sets `U(i,j) = F(i,j) - (dt/dx)*(P(i+1,j) - P(i,j))`
for `1 ≤ i ≤ size_x-1`, `1 ≤ j ≤ size_y` and `V(i,j) = G(i,j) - (dt/dy)*(P(i,j+1) - P(i,j))`
for `1 ≤ i ≤ size_x`, `1 ≤ j ≤ size_y-1`, with `F`, `G`, `P` read before the call. -/
theorem calculate_velocities_spec {α : Type} [Field α] (s : Fields α) (grid : Grid α) (i j : Int)
    (hi : 1 ≤ i) (hj : 1 ≤ j) :
    (i ≤ grid.size_x - 1 → j ≤ grid.size_y →
      (calculate_velocities s grid).U i j = s.F i j - (s.dt / grid.dx) * (s.P (i + 1) j - s.P i j)) ∧
    (i ≤ grid.size_x → j ≤ grid.size_y - 1 →
      (calculate_velocities s grid).V i j = s.G i j - (s.dt / grid.dy) * (s.P i (j + 1) - s.P i j)) := by
  rw [calculate_velocities_eq]
  constructor
  · intro h1 h2
    show (if 1 ≤ i ∧ i ≤ grid.size_x - 1 ∧ 1 ≤ j ∧ j ≤ grid.size_y then _ else _) = _
    rw [if_pos ⟨hi, h1, hj, h2⟩]
  · intro h1 h2
    show (if 1 ≤ i ∧ i ≤ grid.size_x ∧ 1 ≤ j ∧ j ≤ grid.size_y - 1 then _ else _) = _
    rw [if_pos ⟨hi, h1, hj, h2⟩]

/-- Witness of C2 on a 3 by 3 grid at the cell (1, 1). -/
theorem calculate_velocities_spec_witness :
    (calculate_velocities (exFields ℚ) (exGrid 3 3 1 1 [])).U 1 1 =
        (exFields ℚ).F 1 1 - ((exFields ℚ).dt / (exGrid 3 3 (1 : ℚ) 1 []).dx) *
          ((exFields ℚ).P (1 + 1) 1 - (exFields ℚ).P 1 1) ∧
      (calculate_velocities (exFields ℚ) (exGrid 3 3 1 1 [])).V 1 1 =
        (exFields ℚ).G 1 1 - ((exFields ℚ).dt / (exGrid 3 3 (1 : ℚ) 1 []).dy) *
          ((exFields ℚ).P 1 (1 + 1) - (exFields ℚ).P 1 1) :=
  ⟨(calculate_velocities_spec (exFields ℚ) (exGrid 3 3 1 1 []) 1 1 (by decide) (by decide)).1
      (by decide) (by decide),
    (calculate_velocities_spec (exFields ℚ) (exGrid 3 3 1 1 []) 1 1 (by decide) (by decide)).2
      (by decide) (by decide)⟩

/-- C3: after `calculate_rs`, for `1 ≤ i ≤ size_x` and `1 ≤ j ≤ size_y`,
`RS(i,j) = (1/dt)*((F(i,j) - F(i-1,j))/dx + (G(i,j) - G(i,j-1))/dy)`, and
`F`, `G`, `U`, `V`, `P` are unchanged. -/
theorem calculate_rs_spec {α : Type} [Field α] (s : Fields α) (grid : Grid α) (i j : Int)
    (hi : 1 ≤ i ∧ i ≤ grid.size_x) (hj : 1 ≤ j ∧ j ≤ grid.size_y) :
    (calculate_rs s grid).RS i j =
        (1 / s.dt) * ((s.F i j - s.F (i - 1) j) / grid.dx + (s.G i j - s.G i (j - 1)) / grid.dy) ∧
      (calculate_rs s grid).F = s.F ∧ (calculate_rs s grid).G = s.G ∧
      (calculate_rs s grid).U = s.U ∧ (calculate_rs s grid).V = s.V ∧
      (calculate_rs s grid).P = s.P := by
  rw [calculate_rs_eq]
  refine ⟨?_, rfl, rfl, rfl, rfl, rfl⟩
  show (if 1 ≤ i ∧ i ≤ grid.size_x ∧ 1 ≤ j ∧ j ≤ grid.size_y then _ else _) = _
  rw [if_pos ⟨hi.1, hi.2, hj.1, hj.2⟩]

/-- Witness of C3 on a 3 by 3 grid at the cell (2, 3). -/
theorem calculate_rs_spec_witness :
    (calculate_rs (exFields ℚ) (exGrid 3 3 1 1 [])).RS 2 3 =
        (1 / (exFields ℚ).dt) * (((exFields ℚ).F 2 3 - (exFields ℚ).F (2 - 1) 3) /
          (exGrid 3 3 (1 : ℚ) 1 []).dx + ((exFields ℚ).G 2 3 - (exFields ℚ).G 2 (3 - 1)) /
          (exGrid 3 3 (1 : ℚ) 1 []).dy) ∧
      (calculate_rs (exFields ℚ) (exGrid 3 3 1 1 [])).F = (exFields ℚ).F ∧
      (calculate_rs (exFields ℚ) (exGrid 3 3 1 1 [])).G = (exFields ℚ).G ∧
      (calculate_rs (exFields ℚ) (exGrid 3 3 1 1 [])).U = (exFields ℚ).U ∧
      (calculate_rs (exFields ℚ) (exGrid 3 3 1 1 [])).V = (exFields ℚ).V ∧
      (calculate_rs (exFields ℚ) (exGrid 3 3 1 1 [])).P = (exFields ℚ).P :=
  calculate_rs_spec (exFields ℚ) (exGrid 3 3 1 1 []) 2 3 (by decide) (by decide)

/-- C1 (amended): projection identity in exact arithmetic. When the arithmetic
is exact (the values are elements of a field), with `dt`, `dx`, `dy` non-zero and
`2 ≤ i ≤ size_x-1`, `2 ≤ j ≤ size_y-1`, after `calculate_rs` followed by
`calculate_velocities` the discrete divergence
`(U(i,j)-U(i-1,j))/dx + (V(i,j)-V(i,j-1))/dy` equals `dt*(RS(i,j) - Laplacian(P,i,j))`;
it is 0 where `Laplacian(P,i,j) = RS(i,j)`. -/
theorem projection_identity {α : Type} [Field α] (s : Fields α) (grid : Grid α) (i j : Int)
    (hdt : s.dt ≠ 0) (hdx : grid.dx ≠ 0) (hdy : grid.dy ≠ 0)
    (hi : 2 ≤ i ∧ i ≤ grid.size_x - 1) (hj : 2 ≤ j ∧ j ≤ grid.size_y - 1) :
    ((calculate_velocities (calculate_rs s grid) grid).U i j -
          (calculate_velocities (calculate_rs s grid) grid).U (i - 1) j) / grid.dx +
        ((calculate_velocities (calculate_rs s grid) grid).V i j -
          (calculate_velocities (calculate_rs s grid) grid).V i (j - 1)) / grid.dy =
      (calculate_velocities (calculate_rs s grid) grid).dt *
        ((calculate_velocities (calculate_rs s grid) grid).RS i j -
          laplacian grid.dx grid.dy (calculate_velocities (calculate_rs s grid) grid).P i j) ∧
    (laplacian grid.dx grid.dy (calculate_velocities (calculate_rs s grid) grid).P i j =
        (calculate_velocities (calculate_rs s grid) grid).RS i j →
      ((calculate_velocities (calculate_rs s grid) grid).U i j -
          (calculate_velocities (calculate_rs s grid) grid).U (i - 1) j) / grid.dx +
        ((calculate_velocities (calculate_rs s grid) grid).V i j -
          (calculate_velocities (calculate_rs s grid) grid).V i (j - 1)) / grid.dy = 0) := by
  have key : ((calculate_velocities (calculate_rs s grid) grid).U i j -
          (calculate_velocities (calculate_rs s grid) grid).U (i - 1) j) / grid.dx +
        ((calculate_velocities (calculate_rs s grid) grid).V i j -
          (calculate_velocities (calculate_rs s grid) grid).V i (j - 1)) / grid.dy =
      (calculate_velocities (calculate_rs s grid) grid).dt *
        ((calculate_velocities (calculate_rs s grid) grid).RS i j -
          laplacian grid.dx grid.dy (calculate_velocities (calculate_rs s grid) grid).P i j) := by
    rw [calculate_velocities_eq, calculate_rs_eq]
    have e1 : 1 ≤ i ∧ i ≤ grid.size_x - 1 ∧ 1 ≤ j ∧ j ≤ grid.size_y := by omega
    have e2 : 1 ≤ i - 1 ∧ i - 1 ≤ grid.size_x - 1 ∧ 1 ≤ j ∧ j ≤ grid.size_y := by omega
    have e3 : 1 ≤ i ∧ i ≤ grid.size_x ∧ 1 ≤ j ∧ j ≤ grid.size_y - 1 := by omega
    have e4 : 1 ≤ i ∧ i ≤ grid.size_x ∧ 1 ≤ j - 1 ∧ j - 1 ≤ grid.size_y - 1 := by omega
    have e5 : 1 ≤ i ∧ i ≤ grid.size_x ∧ 1 ≤ j ∧ j ≤ grid.size_y := by omega
    simp only [if_pos e1, if_pos e2, if_pos e3, if_pos e4, if_pos e5, laplacian]
    have a1 : i - 1 + 1 = i := by ring
    have a2 : j - 1 + 1 = j := by ring
    rw [a1, a2]
    field_simp
    ring
  refine ⟨key, fun h => ?_⟩
  rw [key, h, sub_self, mul_zero]

/-- Witness of C1 on a 3 by 3 grid at the cell (2, 2). -/
theorem projection_identity_witness :
    ((calculate_velocities (calculate_rs (exFields ℚ) (exGrid 3 3 1 1 [])) (exGrid 3 3 1 1 [])).U 2 2 -
          (calculate_velocities (calculate_rs (exFields ℚ) (exGrid 3 3 1 1 []))
            (exGrid 3 3 1 1 [])).U (2 - 1) 2) / (exGrid 3 3 (1 : ℚ) 1 []).dx +
        ((calculate_velocities (calculate_rs (exFields ℚ) (exGrid 3 3 1 1 [])) (exGrid 3 3 1 1 [])).V 2 2 -
          (calculate_velocities (calculate_rs (exFields ℚ) (exGrid 3 3 1 1 []))
            (exGrid 3 3 1 1 [])).V 2 (2 - 1)) / (exGrid 3 3 (1 : ℚ) 1 []).dy =
      (calculate_velocities (calculate_rs (exFields ℚ) (exGrid 3 3 1 1 [])) (exGrid 3 3 1 1 [])).dt *
        ((calculate_velocities (calculate_rs (exFields ℚ) (exGrid 3 3 1 1 []))
            (exGrid 3 3 1 1 [])).RS 2 2 -
          laplacian (exGrid 3 3 (1 : ℚ) 1 []).dx (exGrid 3 3 (1 : ℚ) 1 []).dy
            (calculate_velocities (calculate_rs (exFields ℚ) (exGrid 3 3 1 1 []))
              (exGrid 3 3 1 1 [])).P 2 2) :=
  (projection_identity (exFields ℚ) (exGrid 3 3 1 1 []) 2 2
    (by simp [exFields]) (by simp [exGrid, exDomain, Grid.dx]) (by simp [exGrid, exDomain, Grid.dy])
    (by decide) (by decide)).1

/-! ## PressureSolver.cpp: the SOR sweep and its residual -/

theorem forCells_append {σ : Type} (l1 l2 : List Cell) (body : Cell → σ → σ) (s : σ) :
    forCells (l1 ++ l2) body s = forCells l2 body (forCells l1 body s) := by
  unfold forCells
  rw [List.foldl_append]

theorem forCells_cons {σ : Type} (c : Cell) (l : List Cell) (body : Cell → σ → σ) (s : σ) :
    forCells (c :: l) body s = forCells l body (body c s) := rfl

theorem forCells_nil {σ : Type} (body : Cell → σ → σ) (s : σ) : forCells [] body s = s := rfl

/-- A loop over cells keeps every projection of the state that its body keeps. -/
theorem forCells_preserves {σ β : Type} (proj : σ → β) (body : Cell → σ → σ)
    (h : ∀ c t, proj (body c t) = proj t) (cells : List Cell) (s : σ) :
    proj (forCells cells body s) = proj s := by
  induction cells generalizing s with
  | nil => rfl
  | cons c l ih => rw [forCells_cons, ih, h]

theorem SOR_sweep_append {α : Type} [Field α] (omega dx dy : α) (l1 l2 : List Cell)
    (s : Fields α) :
    SOR.sweep omega dx dy (l1 ++ l2) s = SOR.sweep omega dx dy l2 (SOR.sweep omega dx dy l1 s) := by
  unfold SOR.sweep
  exact forCells_append l1 l2 _ s

theorem SOR_sweep_single {α : Type} [Field α] (omega dx dy : α) (c : Cell) (s : Fields α) :
    SOR.sweep omega dx dy [c] s =
      { s with P := s.P.write c.i c.j ((1 - omega) * s.P c.i c.j +
                      omega / (2 * (1 / (dx * dx) + 1 / (dy * dy))) *
                        (sor_helper dx dy s.P c.i c.j - s.RS c.i c.j)) } := rfl

/-- The sweep writes `P` only. -/
theorem SOR_sweep_frame {α : Type} [Field α] (omega dx dy : α) (cells : List Cell)
    (s : Fields α) :
    (SOR.sweep omega dx dy cells s).RS = s.RS ∧ (SOR.sweep omega dx dy cells s).U = s.U ∧
      (SOR.sweep omega dx dy cells s).V = s.V ∧ (SOR.sweep omega dx dy cells s).F = s.F ∧
      (SOR.sweep omega dx dy cells s).G = s.G := by
  have hb : ∀ (proj : Fields α → Matrix α),
      (∀ (t : Fields α) (m : Matrix α), proj { t with P := m } = proj t) →
      proj (SOR.sweep omega dx dy cells s) = proj s := by
    intro proj hproj
    unfold SOR.sweep
    simp only
    apply forCells_preserves proj
    intro c t
    exact hproj _ _
  exact ⟨hb (fun t => t.RS) (fun _ _ => rfl), hb (fun t => t.U) (fun _ _ => rfl),
    hb (fun t => t.V) (fun _ _ => rfl), hb (fun t => t.F) (fun _ _ => rfl),
    hb (fun t => t.G) (fun _ _ => rfl)⟩

/-- The pressure loop of a boundary writes `P` only. -/
theorem applyPressureCells_frame {α : Type} (cells : List Cell) (s : Fields α) :
    (applyPressureCells cells s).RS = s.RS ∧ (applyPressureCells cells s).U = s.U ∧
      (applyPressureCells cells s).V = s.V ∧ (applyPressureCells cells s).F = s.F ∧
      (applyPressureCells cells s).G = s.G := by
  have hb : ∀ (proj : Fields α → Matrix α),
      (∀ (t : Fields α) (m : Matrix α), proj { t with P := m } = proj t) →
      proj (applyPressureCells cells s) = proj s := by
    intro proj hproj
    unfold applyPressureCells
    apply forCells_preserves proj
    intro c t
    unfold applyPressureCell
    simp only
    split_ifs <;> simp only [hproj]
  exact ⟨hb (fun t => t.RS) (fun _ _ => rfl), hb (fun t => t.U) (fun _ _ => rfl),
    hb (fun t => t.V) (fun _ _ => rfl), hb (fun t => t.F) (fun _ _ => rfl),
    hb (fun t => t.G) (fun _ _ => rfl)⟩

theorem applyPressure_all_RS {α : Type} (boundaries : List (Boundary α)) (s : Fields α) :
    (boundaries.foldl (fun t b => b.applyPressure t) s).RS = s.RS := by
  induction boundaries generalizing s with
  | nil => rfl
  | cons b l ih =>
    rw [List.foldl_cons, ih]
    exact (applyPressureCells_frame b.cells s).1

/-- C5: the sweep of `SOR::solve` goes through the fluid cells in list order.
For every split `pre ++ c :: post` of the fluid list, processing `c` replaces
`P(c)` by `(1-omega)*P(c) + coeff*(SORHelper(P,c) - RS(c))`, `coeff = omega/(2*(1/dx^2 + 1/dy^2))`,
where `P` is the matrix left by the cells of `pre` (values already updated in
this sweep are read), no other entry changes at that step, the sweep goes on
with `post`, the state solve returns is the pressure boundary pass applied to
the swept state, and `RS` is never modified. -/
theorem SOR_sweep_gauss_seidel {α : Type} [Field α] (sqrt : α → α) (omega : α) (s : Fields α)
    (grid : Grid α) (boundaries : List (Boundary α)) (pre post : List Cell) (c : Cell)
    (hsplit : grid.fluid_cells = pre ++ c :: post) :
    (SOR.sweep omega grid.dx grid.dy (pre ++ [c]) s).P c.i c.j =
        (1 - omega) * (SOR.sweep omega grid.dx grid.dy pre s).P c.i c.j +
          omega / (2 * (1 / grid.dx ^ 2 + 1 / grid.dy ^ 2)) *
            (((SOR.sweep omega grid.dx grid.dy pre s).P (c.i + 1) c.j +
                (SOR.sweep omega grid.dx grid.dy pre s).P (c.i - 1) c.j) / grid.dx ^ 2 +
              ((SOR.sweep omega grid.dx grid.dy pre s).P c.i (c.j + 1) +
                (SOR.sweep omega grid.dx grid.dy pre s).P c.i (c.j - 1)) / grid.dy ^ 2 -
              s.RS c.i c.j) ∧
      (∀ a b : Int, ¬(a = c.i ∧ b = c.j) →
        (SOR.sweep omega grid.dx grid.dy (pre ++ [c]) s).P a b =
          (SOR.sweep omega grid.dx grid.dy pre s).P a b) ∧
      SOR.sweep omega grid.dx grid.dy grid.fluid_cells s =
        SOR.sweep omega grid.dx grid.dy post (SOR.sweep omega grid.dx grid.dy (pre ++ [c]) s) ∧
      (SOR.solve sqrt omega s grid boundaries).1 =
        boundaries.foldl (fun t b => b.applyPressure t)
          (SOR.sweep omega grid.dx grid.dy grid.fluid_cells s) ∧
      (SOR.solve sqrt omega s grid boundaries).1.RS = s.RS := by
  refine ⟨?_, ?_, ?_, rfl, ?_⟩
  · rw [SOR_sweep_append, SOR_sweep_single]
    show Matrix.write _ _ _ _ _ _ = _
    unfold Matrix.write
    rw [if_pos ⟨rfl, rfl⟩, (SOR_sweep_frame omega grid.dx grid.dy pre s).1]
    simp only [sor_helper, pow_two]
  · intro a b hab
    rw [SOR_sweep_append, SOR_sweep_single]
    show Matrix.write _ _ _ _ _ _ = _
    unfold Matrix.write
    rw [if_neg hab]
  · rw [hsplit, ← SOR_sweep_append, List.append_assoc]
    rfl
  · show (boundaries.foldl (fun t b => b.applyPressure t)
      (SOR.sweep omega grid.dx grid.dy grid.fluid_cells s)).RS = s.RS
    rw [applyPressure_all_RS, (SOR_sweep_frame omega grid.dx grid.dy grid.fluid_cells s).1]

/-- Witness of C5: the fluid list `[(1,1), (2,1)]` split before its second cell. -/
theorem SOR_sweep_gauss_seidel_witness :
    (SOR.sweep (1 : ℚ) (exGrid 2 1 (1 : ℚ) 1 [fluidCell 1 1, fluidCell 2 1]).dx
          (exGrid 2 1 (1 : ℚ) 1 [fluidCell 1 1, fluidCell 2 1]).dy
          ([fluidCell 1 1] ++ [fluidCell 2 1]) (exSORFields ℚ)).P (fluidCell 2 1).i (fluidCell 2 1).j =
        (1 - 1) * (SOR.sweep (1 : ℚ) (exGrid 2 1 (1 : ℚ) 1 [fluidCell 1 1, fluidCell 2 1]).dx
          (exGrid 2 1 (1 : ℚ) 1 [fluidCell 1 1, fluidCell 2 1]).dy [fluidCell 1 1]
          (exSORFields ℚ)).P (fluidCell 2 1).i (fluidCell 2 1).j +
          1 / (2 * (1 / (exGrid 2 1 (1 : ℚ) 1 [fluidCell 1 1, fluidCell 2 1]).dx ^ 2 +
            1 / (exGrid 2 1 (1 : ℚ) 1 [fluidCell 1 1, fluidCell 2 1]).dy ^ 2)) *
            (((SOR.sweep (1 : ℚ) (exGrid 2 1 (1 : ℚ) 1 [fluidCell 1 1, fluidCell 2 1]).dx
                  (exGrid 2 1 (1 : ℚ) 1 [fluidCell 1 1, fluidCell 2 1]).dy [fluidCell 1 1]
                  (exSORFields ℚ)).P ((fluidCell 2 1).i + 1) (fluidCell 2 1).j +
                (SOR.sweep (1 : ℚ) (exGrid 2 1 (1 : ℚ) 1 [fluidCell 1 1, fluidCell 2 1]).dx
                  (exGrid 2 1 (1 : ℚ) 1 [fluidCell 1 1, fluidCell 2 1]).dy [fluidCell 1 1]
                  (exSORFields ℚ)).P ((fluidCell 2 1).i - 1) (fluidCell 2 1).j) /
                (exGrid 2 1 (1 : ℚ) 1 [fluidCell 1 1, fluidCell 2 1]).dx ^ 2 +
              ((SOR.sweep (1 : ℚ) (exGrid 2 1 (1 : ℚ) 1 [fluidCell 1 1, fluidCell 2 1]).dx
                  (exGrid 2 1 (1 : ℚ) 1 [fluidCell 1 1, fluidCell 2 1]).dy [fluidCell 1 1]
                  (exSORFields ℚ)).P (fluidCell 2 1).i ((fluidCell 2 1).j + 1) +
                (SOR.sweep (1 : ℚ) (exGrid 2 1 (1 : ℚ) 1 [fluidCell 1 1, fluidCell 2 1]).dx
                  (exGrid 2 1 (1 : ℚ) 1 [fluidCell 1 1, fluidCell 2 1]).dy [fluidCell 1 1]
                  (exSORFields ℚ)).P (fluidCell 2 1).i ((fluidCell 2 1).j - 1)) /
                (exGrid 2 1 (1 : ℚ) 1 [fluidCell 1 1, fluidCell 2 1]).dy ^ 2 -
              (exSORFields ℚ).RS (fluidCell 2 1).i (fluidCell 2 1).j) ∧
      (SOR.solve (fun x => x) (1 : ℚ) (exSORFields ℚ)
          (exGrid 2 1 (1 : ℚ) 1 [fluidCell 1 1, fluidCell 2 1])
          [Boundary.FixedWallBoundary [wallCell 0 1 false false false true]]).1.RS =
        (exSORFields ℚ).RS :=
  ⟨(SOR_sweep_gauss_seidel (fun x => x) (1 : ℚ) (exSORFields ℚ)
      (exGrid 2 1 (1 : ℚ) 1 [fluidCell 1 1, fluidCell 2 1])
      [Boundary.FixedWallBoundary [wallCell 0 1 false false false true]]
      [fluidCell 1 1] [] (fluidCell 2 1) rfl).1,
    (SOR_sweep_gauss_seidel (fun x => x) (1 : ℚ) (exSORFields ℚ)
      (exGrid 2 1 (1 : ℚ) 1 [fluidCell 1 1, fluidCell 2 1])
      [Boundary.FixedWallBoundary [wallCell 0 1 false false false true]]
      [fluidCell 1 1] [] (fluidCell 2 1) rfl).2.2.2.2⟩

theorem forCells_sum {α : Type} [Field α] (f : Cell → α) (cells : List Cell) (a : α) :
    forCells cells (fun c r => r + f c) a = a + (cells.map f).sum := by
  induction cells generalizing a with
  | nil => simp [forCells]
  | cons c l ih => rw [forCells_cons, ih, List.map_cons, List.sum_cons, add_assoc]

theorem SOR_rloc_eq_sum {α : Type} [Field α] (dx dy : α) (cells : List Cell) (s : Fields α) :
    SOR.rloc dx dy cells s =
      (cells.map (fun c => (laplacian dx dy s.P c.i c.j - s.RS c.i c.j) ^ 2)).sum := by
  unfold SOR.rloc
  have h := forCells_sum
    (fun c => (laplacian dx dy s.P c.i c.j - s.RS c.i c.j) * (laplacian dx dy s.P c.i c.j - s.RS c.i c.j))
    cells 0
  simp only [zero_add] at h
  simp only [pow_two]
  exact h

theorem sum_sq_nonneg {α : Type} [LinearOrderedField α] (g : Cell → α) (cells : List Cell) :
    0 ≤ (cells.map (fun c => g c ^ 2)).sum := by
  induction cells with
  | nil => simp
  | cons c l ih =>
    rw [List.map_cons, List.sum_cons]
    exact add_nonneg (sq_nonneg _) ih

theorem sum_sq_eq_zero_iff {α : Type} [LinearOrderedField α] (g : Cell → α) (cells : List Cell) :
    (cells.map (fun c => g c ^ 2)).sum = 0 ↔ ∀ c ∈ cells, g c = 0 := by
  induction cells with
  | nil => simp
  | cons c l ih =>
    rw [List.map_cons, List.sum_cons]
    constructor
    · intro h
      have h1 : g c ^ 2 = 0 := by
        have := sq_nonneg (g c)
        have := sum_sq_nonneg g l
        linarith
      have h2 : (l.map (fun c => g c ^ 2)).sum = 0 := by
        rw [h1, zero_add] at h
        exact h
      intro d hd
      rcases List.mem_cons.mp hd with rfl | hd
      · exact pow_eq_zero_iff (two_ne_zero) |>.mp h1
      · exact ih.mp h2 d hd
    · intro h
      have h1 : g c = 0 := h c (List.mem_cons_self c l)
      have h2 := ih.mpr (fun d hd => h d (List.mem_cons_of_mem c hd))
      rw [h1, h2]
      simp

/-- C6 (amended): the residual in exact arithmetic. Over the reals, with the real
square root, for a non-empty fluid list the value `r` returned by `SOR::solve` is
non-negative, `r^2` is the sum over the fluid cells of `(Laplacian(P,i,j) - RS(i,j))^2`
divided by the number of fluid cells, and `r = 0` exactly when
`Laplacian(P,i,j) = RS(i,j)` at every fluid cell; `P` is the pressure matrix the
residual loop reads, the one the sweep has produced. -/
theorem SOR_solve_residual (omega : ℝ) (s : Fields ℝ) (grid : Grid ℝ)
    (boundaries : List (Boundary ℝ)) (hne : grid.fluid_cells ≠ []) :
    0 ≤ (SOR.solve Real.sqrt omega s grid boundaries).2 ∧
      (SOR.solve Real.sqrt omega s grid boundaries).2 ^ 2 =
        (grid.fluid_cells.map (fun c =>
          (laplacian grid.dx grid.dy (SOR.sweep omega grid.dx grid.dy grid.fluid_cells s).P c.i c.j -
            s.RS c.i c.j) ^ 2)).sum / (grid.fluid_cells.length : ℝ) ∧
      ((SOR.solve Real.sqrt omega s grid boundaries).2 = 0 ↔
        ∀ c ∈ grid.fluid_cells,
          laplacian grid.dx grid.dy (SOR.sweep omega grid.dx grid.dy grid.fluid_cells s).P c.i c.j =
            s.RS c.i c.j) := by
  have hres : (SOR.solve Real.sqrt omega s grid boundaries).2 =
      Real.sqrt ((grid.fluid_cells.map (fun c =>
          (laplacian grid.dx grid.dy (SOR.sweep omega grid.dx grid.dy grid.fluid_cells s).P c.i c.j -
            s.RS c.i c.j) ^ 2)).sum / (grid.fluid_cells.length : ℝ)) := by
    show Real.sqrt (SOR.rloc grid.dx grid.dy grid.fluid_cells
      (SOR.sweep omega grid.dx grid.dy grid.fluid_cells s) / (grid.fluid_cells.length : ℝ)) = _
    rw [SOR_rloc_eq_sum, (SOR_sweep_frame omega grid.dx grid.dy grid.fluid_cells s).1]
  have hN : (0 : ℝ) < (grid.fluid_cells.length : ℝ) := by
    have : 0 < grid.fluid_cells.length := List.length_pos.mpr hne
    exact_mod_cast this
  have hsum := sum_sq_nonneg (fun c =>
    laplacian grid.dx grid.dy (SOR.sweep omega grid.dx grid.dy grid.fluid_cells s).P c.i c.j -
      s.RS c.i c.j) grid.fluid_cells
  have hq := div_nonneg hsum hN.le
  rw [hres]
  refine ⟨Real.sqrt_nonneg _, Real.sq_sqrt hq, ?_⟩
  rw [Real.sqrt_eq_zero hq, div_eq_zero_iff]
  constructor
  · intro h
    rcases h with h | h
    · intro c hc
      have := (sum_sq_eq_zero_iff _ _).mp h c hc
      exact sub_eq_zero.mp this
    · exact absurd h hN.ne.symm
  · intro h
    left
    exact (sum_sq_eq_zero_iff _ _).mpr (fun c hc => sub_eq_zero.mpr (h c hc))

/-- Witness of C6: the fluid cells `(1,1)`, `(2,1)` with `dx = dy = 1`, `omega = 0`, `P = 0`,
`RS(1,1) = -2` and `RS(2,1) = 0`: the differences `Laplacian(P) - RS` are 2 and 0, so the
returned `r` is non-negative with `r^2 = (4 + 0) / 2 = 2`, and it is not 0. -/
theorem SOR_solve_residual_witness :
    (exGrid 2 1 (1 : ℝ) 1 [fluidCell 1 1, fluidCell 2 1]).fluid_cells ≠ [] ∧
      0 ≤ (SOR.solve Real.sqrt 0 (exResidualFields (-2))
        (exGrid 2 1 (1 : ℝ) 1 [fluidCell 1 1, fluidCell 2 1]) []).2 ∧
      (SOR.solve Real.sqrt 0 (exResidualFields (-2))
        (exGrid 2 1 (1 : ℝ) 1 [fluidCell 1 1, fluidCell 2 1]) []).2 ^ 2 = 2 ∧
      (SOR.solve Real.sqrt 0 (exResidualFields (-2))
        (exGrid 2 1 (1 : ℝ) 1 [fluidCell 1 1, fluidCell 2 1]) []).2 ≠ 0 ∧
      ¬(∀ c ∈ (exGrid 2 1 (1 : ℝ) 1 [fluidCell 1 1, fluidCell 2 1]).fluid_cells,
        laplacian (exGrid 2 1 (1 : ℝ) 1 [fluidCell 1 1, fluidCell 2 1]).dx
            (exGrid 2 1 (1 : ℝ) 1 [fluidCell 1 1, fluidCell 2 1]).dy
            (SOR.sweep 0 (exGrid 2 1 (1 : ℝ) 1 [fluidCell 1 1, fluidCell 2 1]).dx
              (exGrid 2 1 (1 : ℝ) 1 [fluidCell 1 1, fluidCell 2 1]).dy
              (exGrid 2 1 (1 : ℝ) 1 [fluidCell 1 1, fluidCell 2 1]).fluid_cells
              (exResidualFields (-2))).P c.i c.j =
          (exResidualFields (-2 : ℝ)).RS c.i c.j) :=
  have hne : (exGrid 2 1 (1 : ℝ) 1 [fluidCell 1 1, fluidCell 2 1]).fluid_cells ≠ [] := by
    simp [exGrid]
  have h := SOR_solve_residual 0 (exResidualFields (-2))
    (exGrid 2 1 (1 : ℝ) 1 [fluidCell 1 1, fluidCell 2 1]) [] hne
  have hsum : ((exGrid 2 1 (1 : ℝ) 1 [fluidCell 1 1, fluidCell 2 1]).fluid_cells.map (fun c =>
      (laplacian (exGrid 2 1 (1 : ℝ) 1 [fluidCell 1 1, fluidCell 2 1]).dx
          (exGrid 2 1 (1 : ℝ) 1 [fluidCell 1 1, fluidCell 2 1]).dy
          (SOR.sweep 0 (exGrid 2 1 (1 : ℝ) 1 [fluidCell 1 1, fluidCell 2 1]).dx
            (exGrid 2 1 (1 : ℝ) 1 [fluidCell 1 1, fluidCell 2 1]).dy
            (exGrid 2 1 (1 : ℝ) 1 [fluidCell 1 1, fluidCell 2 1]).fluid_cells
            (exResidualFields (-2))).P c.i c.j -
        (exResidualFields (-2 : ℝ)).RS c.i c.j) ^ 2)).sum /
      ((exGrid 2 1 (1 : ℝ) 1 [fluidCell 1 1, fluidCell 2 1]).fluid_cells.length : ℝ) = 2 := by
    simp [SOR.sweep, forCells, Matrix.write, laplacian, sor_helper, exResidualFields, exFieldsOf,
      exGrid, exDomain, fluidCell, Grid.dx, Grid.dy]
    norm_num
  have hr2 := h.2.1.trans hsum
  have hr0 : (SOR.solve Real.sqrt 0 (exResidualFields (-2))
      (exGrid 2 1 (1 : ℝ) 1 [fluidCell 1 1, fluidCell 2 1]) []).2 ≠ 0 := by
    intro h0
    rw [h0] at hr2
    norm_num at hr2
  ⟨hne, h.1, hr2, hr0, fun hall => hr0 (h.2.2.mpr hall)⟩

/-- C7: the residual `SOR::solve` returns is taken before the pressure boundary
pass. With one fluid cell `(1,1)`, a fixed-wall cell `(0,1)` whose RIGHT face abuts
it, `dx = dy = 1`, `omega = 1`, `RS = 0` and `P` equal to 1 at `(0,1)` and 0 elsewhere,
solve returns 0 while the root mean square of `Laplacian(P') - RS` for the pressure
`P'` that solve leaves behind is 3/4. -/
theorem SOR_residual_precedes_boundary_pass :
    (SOR.solve Real.sqrt 1 (exSORFields ℝ) (exGrid 1 1 (1 : ℝ) 1 [fluidCell 1 1])
        [Boundary.FixedWallBoundary [wallCell 0 1 false false false true]]).2 = 0 ∧
      residualRMS Real.sqrt 1 1 [fluidCell 1 1]
        (SOR.solve Real.sqrt 1 (exSORFields ℝ) (exGrid 1 1 (1 : ℝ) 1 [fluidCell 1 1])
          [Boundary.FixedWallBoundary [wallCell 0 1 false false false true]]).1.P
        (SOR.solve Real.sqrt 1 (exSORFields ℝ) (exGrid 1 1 (1 : ℝ) 1 [fluidCell 1 1])
          [Boundary.FixedWallBoundary [wallCell 0 1 false false false true]]).1.RS = 3 / 4 := by
  constructor
  · simp [SOR.solve, SOR.sweep, SOR.rloc, forCells, Matrix.write, laplacian, sor_helper,
      exSORFields, exGrid, exDomain, fluidCell, Grid.dx, Grid.dy]
    norm_num
  · unfold residualRMS
    rw [Real.sqrt_eq_iff_mul_self_eq_of_pos (by norm_num)]
    simp [SOR.solve, SOR.sweep, forCells, Boundary.applyPressure, applyPressureCells,
      applyPressureCell, Boundary.cells, Matrix.write, laplacian, sor_helper, exSORFields, exGrid, exDomain, fluidCell,
      wallCell, Cell.is_border, Grid.dx, Grid.dy]
    norm_num

/-! ## Fields.cpp: fluxes and time step -/

/-- C4: `calculate_fluxes` leaves the gravity term out. On a 3 by 3 grid with
`dx = dy = 1`, `dt = 1/2`, `nu = 1`, `g_x = 1`, `g_y = -1`, whatever the convection
operators are, the new `F(1,1)` is `U + dt*(nu*Laplacian(U) - conv_u)` and differs
from `U + dt*(nu*Laplacian(U) - conv_u + g_x)`; likewise `G(1,1)` with `g_y`. -/
theorem calculate_fluxes_omits_gravity
    (convection_u convection_v : Matrix ℚ → Matrix ℚ → Int → Int → ℚ) :
    (calculate_fluxes convection_u convection_v (exGravityFields ℚ) (exGrid 3 3 1 1 [])).F 1 1 =
        (exGravityFields ℚ).U 1 1 + (exGravityFields ℚ).dt *
          ((exGravityFields ℚ).nu * laplacian 1 1 (exGravityFields ℚ).U 1 1 -
            convection_u (exGravityFields ℚ).U (exGravityFields ℚ).V 1 1) ∧
      (calculate_fluxes convection_u convection_v (exGravityFields ℚ) (exGrid 3 3 1 1 [])).F 1 1 ≠
        (exGravityFields ℚ).U 1 1 + (exGravityFields ℚ).dt *
          ((exGravityFields ℚ).nu * laplacian 1 1 (exGravityFields ℚ).U 1 1 -
            convection_u (exGravityFields ℚ).U (exGravityFields ℚ).V 1 1 + (exGravityFields ℚ).gx) ∧
      (calculate_fluxes convection_u convection_v (exGravityFields ℚ) (exGrid 3 3 1 1 [])).G 1 1 ≠
        (exGravityFields ℚ).V 1 1 + (exGravityFields ℚ).dt *
          ((exGravityFields ℚ).nu * laplacian 1 1 (exGravityFields ℚ).V 1 1 -
            convection_v (exGravityFields ℚ).U (exGravityFields ℚ).V 1 1 + (exGravityFields ℚ).gy) := by
  rw [calculate_fluxes_eq]
  have e1 : (1 : Int) ≤ 1 ∧ 1 ≤ (exGrid 3 3 (1 : ℚ) 1 []).size_x - 1 ∧ (1 : Int) ≤ 1 ∧
      1 ≤ (exGrid 3 3 (1 : ℚ) 1 []).size_y := by decide
  have e2 : (1 : Int) ≤ 1 ∧ 1 ≤ (exGrid 3 3 (1 : ℚ) 1 []).size_x ∧ (1 : Int) ≤ 1 ∧
      1 ≤ (exGrid 3 3 (1 : ℚ) 1 []).size_y - 1 := by decide
  have hdx : (exGrid 3 3 (1 : ℚ) 1 []).dx = 1 := rfl
  have hdy : (exGrid 3 3 (1 : ℚ) 1 []).dy = 1 := rfl
  simp only [if_pos e1, if_pos e2, hdx, hdy]
  refine ⟨trivial, ?_, ?_⟩
  · intro h
    have h2 : (exGravityFields ℚ).dt * (exGravityFields ℚ).gx = 0 := by linear_combination -h
    norm_num [exGravityFields, exFields] at h2
  · intro h
    have h2 : (exGravityFields ℚ).dt * (exGravityFields ℚ).gy = 0 := by linear_combination -h
    norm_num [exGravityFields, exFields] at h2

/-- The time step `calculate_dt` stores depends on neither `tau` nor the velocities. -/
theorem calculate_dt_ignores_tau_and_velocities {α : Type} [Field α] (caret2 : α → α)
    (s : Fields α) (grid : Grid α) (U V : Matrix α) (tau : α) :
    (calculate_dt caret2 { s with U := U, V := V, tau := tau } grid).2 =
      (calculate_dt caret2 s grid).2 := rfl

/-- C8: `calculate_dt` stores the viscous limit alone. With `dx = dy = 1`, `nu = 1`,
`tau = 1/2`, `|U| = 10` and `|V| = 1` everywhere, the claimed step is
`tau * min(0.5*(dx^2*dy^2)/((dx^2+dy^2)*nu), dx/max|U|, dy/max|V|) = 1/20`; the call
stores and returns `dt = 1/4`, which exceeds `tau*dx/max|U| = 1/20`. -/
theorem calculate_dt_is_viscous_limit_only :
    (∀ i j : Int, |(exDtFields ℚ).U i j| = 10 ∧ |(exDtFields ℚ).V i j| = 1) ∧
      (calculate_dt (fun x => x * x) (exDtFields ℚ) (exGrid 3 3 1 1 [])).2 = 1 / 4 ∧
      (calculate_dt (fun x => x * x) (exDtFields ℚ) (exGrid 3 3 1 1 [])).1.dt = 1 / 4 ∧
      (exDtFields ℚ).tau * min (0.5 * ((1 : ℚ) ^ 2 * 1 ^ 2) / ((1 ^ 2 + 1 ^ 2) * (exDtFields ℚ).nu))
        (min ((1 : ℚ) / 10) ((1 : ℚ) / 1)) = 1 / 20 ∧
      ¬ (calculate_dt (fun x => x * x) (exDtFields ℚ) (exGrid 3 3 1 1 [])).1.dt ≤
        (exDtFields ℚ).tau * (exGrid 3 3 (1 : ℚ) 1 []).dx / 10 := by
  refine ⟨?_, ?_, ?_, ?_, ?_⟩
  · intro i j
    simp [exDtFields]
  · norm_num [calculate_dt, exDtFields, exGrid, exDomain, Grid.dx, Grid.dy]
  · norm_num [calculate_dt, exDtFields, exGrid, exDomain, Grid.dx, Grid.dy]
  · norm_num [exDtFields]
  · norm_num [calculate_dt, exDtFields, exGrid, exDomain, Grid.dx, Grid.dy]

/-! ## Boundary.cpp: the no-slip wall -/

/-- If the body of a loop over cells establishes `Q` when it processes `c` and
every other cell of the list keeps `Q`, then `Q` holds after the loop. -/
theorem forCells_establish {σ : Type} (body : Cell → σ → σ) (Q : σ → Prop) (c : Cell)
    (hest : ∀ t, Q (body c t)) (cells : List Cell)
    (hkeep : ∀ d ∈ cells, d ≠ c → ∀ t, Q t → Q (body d t)) (s : σ)
    (h : c ∈ cells ∨ Q s) : Q (forCells cells body s) := by
  induction cells generalizing s with
  | nil =>
    rcases h with h | h
    · exact absurd h (List.not_mem_nil c)
    · exact h
  | cons d l ih =>
    rw [forCells_cons]
    apply ih (fun e he => hkeep e (List.mem_cons_of_mem d he))
    by_cases hd : d = c
    · right
      rw [hd]
      exact hest s
    · rcases h with h | h
      · left
        rcases List.mem_cons.mp h with h | h
        · exact absurd h.symm hd
        · exact h
      · right
        exact hkeep d (List.mem_cons_self d l) hd s h

theorem Matrix_write_ne {α : Type} (m : Matrix α) (i j a b : Int) (v : α) (h : ¬(a = i ∧ b = j)) :
    m.write i j v a b = m a b := by
  unfold Matrix.write
  rw [if_neg h]

/-- Entries of `U` that the loop body of `FixedWallBoundary::applyVelocity`
does not write for the cell `d`. -/
theorem FixedWall_applyVelocityCell_U_frame {α : Type} [Field α] (d : Cell) (t : Fields α)
    (a b : Int)
    (h1 : ¬(a = d.i ∧ b = d.j ∧ (d.right = true ∨ d.top = true ∨ d.bottom = true)))
    (h2 : ¬(a = d.i - 1 ∧ b = d.j ∧ d.left = true)) :
    (FixedWallBoundary.applyVelocityCell d t).U a b = t.U a b := by
  rcases d with ⟨i, j, ty, id, top, bottom, left, right⟩
  simp only at h1 h2
  cases top <;> cases bottom <;> cases left <;> cases right <;>
    simp only [FixedWallBoundary.applyVelocityCell, Cell.is_border, Bool.false_eq_true,
      if_false, if_true, or_false, false_or, or_true, true_or, and_true, and_false,
      not_false_eq_true] at h1 h2 ⊢ <;>
    (repeat (first
      | rw [Matrix_write_ne _ _ _ _ _ _ h1]
      | rw [Matrix_write_ne _ _ _ _ _ _ h2]))

/-- Entries of `V` that the loop body of `FixedWallBoundary::applyVelocity`
does not write for the cell `d`. -/
theorem FixedWall_applyVelocityCell_V_frame {α : Type} [Field α] (d : Cell) (t : Fields α)
    (a b : Int)
    (h1 : ¬(a = d.i ∧ b = d.j ∧ (d.right = true ∨ d.left = true ∨ d.top = true)))
    (h2 : ¬(a = d.i ∧ b = d.j - 1 ∧ d.bottom = true)) :
    (FixedWallBoundary.applyVelocityCell d t).V a b = t.V a b := by
  rcases d with ⟨i, j, ty, id, top, bottom, left, right⟩
  simp only at h1 h2
  cases top <;> cases bottom <;> cases left <;> cases right <;>
    simp only [FixedWallBoundary.applyVelocityCell, Cell.is_border, Bool.false_eq_true,
      if_false, if_true, or_false, false_or, or_true, true_or, and_true, and_false,
      not_false_eq_true] at h1 h2 ⊢ <;>
    (repeat (first
      | rw [Matrix_write_ne _ _ _ _ _ _ h1]
      | rw [Matrix_write_ne _ _ _ _ _ _ h2]))

/-- What the loop body of `FixedWallBoundary::applyVelocity` leaves behind for a
cell with exactly one border bit set. -/
theorem FixedWall_applyVelocityCell_single {α : Type} [Field α] (c : Cell) (t : Fields α) :
    (c.onlyBorder border_position.RIGHT →
      (FixedWallBoundary.applyVelocityCell c t).U c.i c.j = 0 ∧
      (FixedWallBoundary.applyVelocityCell c t).V c.i c.j =
        -(FixedWallBoundary.applyVelocityCell c t).V (c.i + 1) c.j) ∧
    (c.onlyBorder border_position.LEFT →
      (FixedWallBoundary.applyVelocityCell c t).U (c.i - 1) c.j = 0 ∧
      (FixedWallBoundary.applyVelocityCell c t).V c.i c.j =
        -(FixedWallBoundary.applyVelocityCell c t).V (c.i - 1) c.j) ∧
    (c.onlyBorder border_position.TOP →
      (FixedWallBoundary.applyVelocityCell c t).V c.i c.j = 0 ∧
      (FixedWallBoundary.applyVelocityCell c t).U c.i c.j =
        -(FixedWallBoundary.applyVelocityCell c t).U c.i (c.j + 1)) ∧
    (c.onlyBorder border_position.BOTTOM →
      (FixedWallBoundary.applyVelocityCell c t).V c.i (c.j - 1) = 0 ∧
      (FixedWallBoundary.applyVelocityCell c t).U c.i c.j =
        -(FixedWallBoundary.applyVelocityCell c t).U c.i (c.j - 1)) := by
  rcases c with ⟨i, j, ty, id, top, bottom, left, right⟩
  refine ⟨?_, ?_, ?_, ?_⟩ <;>
  · intro h
    simp [Cell.onlyBorder, Cell.is_border] at h
    obtain ⟨rfl, rfl, rfl, rfl⟩ := h
    simp [FixedWallBoundary.applyVelocityCell, Cell.is_border, Matrix.write]

theorem Cell_onlyBorder_bits (c : Cell) (p : border_position) (h : c.onlyBorder p) :
    c.top = decide (p = border_position.TOP) ∧ c.bottom = decide (p = border_position.BOTTOM) ∧
      c.left = decide (p = border_position.LEFT) ∧ c.right = decide (p = border_position.RIGHT) := h

/-- C9 (amended): the no-slip rule on a single face, for a cell `c` of the list
that is the only list cell at its position, in a list whose set border bits
point outside the list. After `FixedWallBoundary::applyVelocity` the normal
velocity on the wall face of `c` is 0 (RIGHT `u(i,j)`, LEFT `u(i-1,j)`, TOP
`v(i,j)`, BOTTOM `v(i,j-1)`), and the tangential ghost value is the negative of
the fluid neighbour's value whenever no cell of the list writes that neighbour
value: no list cell at `(i+1,j+1)` (RIGHT) or `(i-1,j+1)` (LEFT) with BOTTOM set, no
list cell at `(i+1,j+1)` (TOP) or `(i+1,j-1)` (BOTTOM) with LEFT set. -/
theorem FixedWall_applyVelocity_single_face {α : Type} [Field α] (cells : List Cell) (c : Cell)
    (s : Fields α) (hc : c ∈ cells)
    (hown : ∀ d ∈ cells, d.i = c.i → d.j = c.j → d = c)
    (hout : bordersPointOutside cells) :
    (c.onlyBorder border_position.RIGHT →
      (FixedWallBoundary.applyVelocity cells s).U c.i c.j = 0 ∧
      ((∀ d ∈ cells, ¬(d.i = c.i + 1 ∧ d.j = c.j + 1 ∧ d.bottom = true)) →
        (FixedWallBoundary.applyVelocity cells s).V c.i c.j =
          -(FixedWallBoundary.applyVelocity cells s).V (c.i + 1) c.j)) ∧
    (c.onlyBorder border_position.LEFT →
      (FixedWallBoundary.applyVelocity cells s).U (c.i - 1) c.j = 0 ∧
      ((∀ d ∈ cells, ¬(d.i = c.i - 1 ∧ d.j = c.j + 1 ∧ d.bottom = true)) →
        (FixedWallBoundary.applyVelocity cells s).V c.i c.j =
          -(FixedWallBoundary.applyVelocity cells s).V (c.i - 1) c.j)) ∧
    (c.onlyBorder border_position.TOP →
      (FixedWallBoundary.applyVelocity cells s).V c.i c.j = 0 ∧
      ((∀ d ∈ cells, ¬(d.i = c.i + 1 ∧ d.j = c.j + 1 ∧ d.left = true)) →
        (FixedWallBoundary.applyVelocity cells s).U c.i c.j =
          -(FixedWallBoundary.applyVelocity cells s).U c.i (c.j + 1))) ∧
    (c.onlyBorder border_position.BOTTOM →
      (FixedWallBoundary.applyVelocity cells s).V c.i (c.j - 1) = 0 ∧
      ((∀ d ∈ cells, ¬(d.i = c.i + 1 ∧ d.j = c.j - 1 ∧ d.left = true)) →
        (FixedWallBoundary.applyVelocity cells s).U c.i c.j =
          -(FixedWallBoundary.applyVelocity cells s).U c.i (c.j - 1))) := by
  have hpos : ∀ d ∈ cells, d ≠ c → ¬(d.i = c.i ∧ d.j = c.j) :=
    fun d hd hne h => hne (hown d hd h.1 h.2)
  unfold FixedWallBoundary.applyVelocity
  refine ⟨?_, ?_, ?_, ?_⟩
  · intro hb
    have hbits := Cell_onlyBorder_bits c _ hb
    have hr : c.right = true := by rw [hbits.2.2.2]; rfl
    refine ⟨?_, fun hfree => ?_⟩
    · apply forCells_establish _ (fun t : Fields α => t.U c.i c.j = 0) c
        (fun t => ((FixedWall_applyVelocityCell_single c t).1 hb).1) cells _ s (Or.inl hc)
      intro d hd hne t ht
      have hp := hpos d hd hne
      have hdc := hout d hd c hc
      show (FixedWallBoundary.applyVelocityCell d t).U c.i c.j = 0
      rw [FixedWall_applyVelocityCell_U_frame d t c.i c.j (fun h => hp ⟨by omega, by omega⟩)
        (fun h => hdc.2.1 h.2.2 ⟨h.1, h.2.1⟩)]
      exact ht
    · apply forCells_establish _ (fun t : Fields α => t.V c.i c.j = -t.V (c.i + 1) c.j) c
        (fun t => ((FixedWall_applyVelocityCell_single c t).1 hb).2) cells _ s (Or.inl hc)
      intro d hd hne t ht
      have hp := hpos d hd hne
      have hdc := hout d hd c hc
      have hcd := (hout c hc d hd).1 hr
      show (FixedWallBoundary.applyVelocityCell d t).V c.i c.j =
        -(FixedWallBoundary.applyVelocityCell d t).V (c.i + 1) c.j
      rw [FixedWall_applyVelocityCell_V_frame d t c.i c.j (fun h => hp ⟨by omega, by omega⟩)
          (fun h => hdc.2.2.2 h.2.2 ⟨h.1, h.2.1⟩),
        FixedWall_applyVelocityCell_V_frame d t (c.i + 1) c.j
          (fun h => hcd ⟨by omega, by omega⟩)
          (fun h => hfree d hd ⟨by omega, by omega, h.2.2⟩)]
      exact ht
  · intro hb
    have hbits := Cell_onlyBorder_bits c _ hb
    have hl : c.left = true := by rw [hbits.2.2.1]; rfl
    refine ⟨?_, fun hfree => ?_⟩
    · apply forCells_establish _ (fun t : Fields α => t.U (c.i - 1) c.j = 0) c
        (fun t => ((FixedWall_applyVelocityCell_single c t).2.1 hb).1) cells _ s (Or.inl hc)
      intro d hd hne t ht
      have hp := hpos d hd hne
      have hcd := (hout c hc d hd).2.1 hl
      show (FixedWallBoundary.applyVelocityCell d t).U (c.i - 1) c.j = 0
      rw [FixedWall_applyVelocityCell_U_frame d t (c.i - 1) c.j
        (fun h => hcd ⟨by omega, by omega⟩) (fun h => hp ⟨by omega, by omega⟩)]
      exact ht
    · apply forCells_establish _ (fun t : Fields α => t.V c.i c.j = -t.V (c.i - 1) c.j) c
        (fun t => ((FixedWall_applyVelocityCell_single c t).2.1 hb).2) cells _ s (Or.inl hc)
      intro d hd hne t ht
      have hp := hpos d hd hne
      have hdc := hout d hd c hc
      have hcd := (hout c hc d hd).2.1 hl
      show (FixedWallBoundary.applyVelocityCell d t).V c.i c.j =
        -(FixedWallBoundary.applyVelocityCell d t).V (c.i - 1) c.j
      rw [FixedWall_applyVelocityCell_V_frame d t c.i c.j (fun h => hp ⟨by omega, by omega⟩)
          (fun h => hdc.2.2.2 h.2.2 ⟨h.1, h.2.1⟩),
        FixedWall_applyVelocityCell_V_frame d t (c.i - 1) c.j
          (fun h => hcd ⟨by omega, by omega⟩)
          (fun h => hfree d hd ⟨by omega, by omega, h.2.2⟩)]
      exact ht
  · intro hb
    have hbits := Cell_onlyBorder_bits c _ hb
    have ht' : c.top = true := by rw [hbits.1]; rfl
    refine ⟨?_, fun hfree => ?_⟩
    · apply forCells_establish _ (fun t : Fields α => t.V c.i c.j = 0) c
        (fun t => ((FixedWall_applyVelocityCell_single c t).2.2.1 hb).1) cells _ s (Or.inl hc)
      intro d hd hne t ht
      have hp := hpos d hd hne
      have hdc := hout d hd c hc
      show (FixedWallBoundary.applyVelocityCell d t).V c.i c.j = 0
      rw [FixedWall_applyVelocityCell_V_frame d t c.i c.j (fun h => hp ⟨by omega, by omega⟩)
        (fun h => hdc.2.2.2 h.2.2 ⟨h.1, h.2.1⟩)]
      exact ht
    · apply forCells_establish _ (fun t : Fields α => t.U c.i c.j = -t.U c.i (c.j + 1)) c
        (fun t => ((FixedWall_applyVelocityCell_single c t).2.2.1 hb).2) cells _ s (Or.inl hc)
      intro d hd hne t ht
      have hp := hpos d hd hne
      have hdc := hout d hd c hc
      have hcd := (hout c hc d hd).2.2.1 ht'
      show (FixedWallBoundary.applyVelocityCell d t).U c.i c.j =
        -(FixedWallBoundary.applyVelocityCell d t).U c.i (c.j + 1)
      rw [FixedWall_applyVelocityCell_U_frame d t c.i c.j (fun h => hp ⟨by omega, by omega⟩)
          (fun h => hdc.2.1 h.2.2 ⟨h.1, h.2.1⟩),
        FixedWall_applyVelocityCell_U_frame d t c.i (c.j + 1)
          (fun h => hcd ⟨by omega, by omega⟩)
          (fun h => hfree d hd ⟨by omega, by omega, h.2.2⟩)]
      exact ht
  · intro hb
    have hbits := Cell_onlyBorder_bits c _ hb
    have hbt : c.bottom = true := by rw [hbits.2.1]; rfl
    refine ⟨?_, fun hfree => ?_⟩
    · apply forCells_establish _ (fun t : Fields α => t.V c.i (c.j - 1) = 0) c
        (fun t => ((FixedWall_applyVelocityCell_single c t).2.2.2 hb).1) cells _ s (Or.inl hc)
      intro d hd hne t ht
      have hp := hpos d hd hne
      have hcd := (hout c hc d hd).2.2.2 hbt
      show (FixedWallBoundary.applyVelocityCell d t).V c.i (c.j - 1) = 0
      rw [FixedWall_applyVelocityCell_V_frame d t c.i (c.j - 1)
        (fun h => hcd ⟨by omega, by omega⟩) (fun h => hp ⟨by omega, by omega⟩)]
      exact ht
    · apply forCells_establish _ (fun t : Fields α => t.U c.i c.j = -t.U c.i (c.j - 1)) c
        (fun t => ((FixedWall_applyVelocityCell_single c t).2.2.2 hb).2) cells _ s (Or.inl hc)
      intro d hd hne t ht
      have hp := hpos d hd hne
      have hdc := hout d hd c hc
      have hcd := (hout c hc d hd).2.2.2 hbt
      show (FixedWallBoundary.applyVelocityCell d t).U c.i c.j =
        -(FixedWallBoundary.applyVelocityCell d t).U c.i (c.j - 1)
      rw [FixedWall_applyVelocityCell_U_frame d t c.i c.j (fun h => hp ⟨by omega, by omega⟩)
          (fun h => hdc.2.1 h.2.2 ⟨h.1, h.2.1⟩),
        FixedWall_applyVelocityCell_U_frame d t c.i (c.j - 1)
          (fun h => hcd ⟨by omega, by omega⟩)
          (fun h => hfree d hd ⟨by omega, by omega, h.2.2⟩)]
      exact ht

/-- Witness of C9 (amended): the bottom-left corner of a domain, a left wall cell
`(0,1)` with RIGHT set and a bottom wall cell `(1,0)` with TOP set. -/
theorem FixedWall_applyVelocity_single_face_witness :
    (FixedWallBoundary.applyVelocity
        [wallCell 0 1 false false false true, wallCell 1 0 true false false false]
        (exWallFields ℚ)).U (wallCell 0 1 false false false true).i
          (wallCell 0 1 false false false true).j = 0 ∧
      (FixedWallBoundary.applyVelocity
        [wallCell 0 1 false false false true, wallCell 1 0 true false false false]
        (exWallFields ℚ)).V (wallCell 0 1 false false false true).i
          (wallCell 0 1 false false false true).j =
        -(FixedWallBoundary.applyVelocity
          [wallCell 0 1 false false false true, wallCell 1 0 true false false false]
          (exWallFields ℚ)).V ((wallCell 0 1 false false false true).i + 1)
            (wallCell 0 1 false false false true).j :=
  ⟨((FixedWall_applyVelocity_single_face
      [wallCell 0 1 false false false true, wallCell 1 0 true false false false]
      (wallCell 0 1 false false false true) (exWallFields ℚ)
      (by decide) (by decide) (by decide)).1 (by decide)).1,
    ((FixedWall_applyVelocity_single_face
      [wallCell 0 1 false false false true, wallCell 1 0 true false false false]
      (wallCell 0 1 false false false true) (exWallFields ℚ)
      (by decide) (by decide) (by decide)).1 (by decide)).2 (by decide)⟩

/-- C9 as stated fails: at the top-left corner of a fluid region, with the wall
cell `(2,3)` (only RIGHT set, fluid neighbour `(3,3)`) and the wall cell `(3,4)` (only
BOTTOM set, above the same fluid cell) and `V(3,3) = 12` before the call, the call
leaves `V(2,3) = -12` and `V(3,3) = 0`, so `v(i,j) = -v(i+1,j)` does not hold after it;
with the two cells in the other order the call leaves `V(2,3) = 0`, which is not
the negative of the value `V(3,3) = 12` read before the call either. -/
theorem FixedWall_single_face_order_counterexample :
    wallCell 2 3 false false false true ∈
        [wallCell 2 3 false false false true, wallCell 3 4 false true false false] ∧
      (wallCell 2 3 false false false true).onlyBorder border_position.RIGHT ∧
      bordersPointOutside [wallCell 2 3 false false false true, wallCell 3 4 false true false false] ∧
      (FixedWallBoundary.applyVelocity
        [wallCell 2 3 false false false true, wallCell 3 4 false true false false]
        (exWallFields ℚ)).V 2 3 = -12 ∧
      (FixedWallBoundary.applyVelocity
        [wallCell 2 3 false false false true, wallCell 3 4 false true false false]
        (exWallFields ℚ)).V (2 + 1) 3 = 0 ∧
      ¬((FixedWallBoundary.applyVelocity
          [wallCell 2 3 false false false true, wallCell 3 4 false true false false]
          (exWallFields ℚ)).V 2 3 =
        -(FixedWallBoundary.applyVelocity
          [wallCell 2 3 false false false true, wallCell 3 4 false true false false]
          (exWallFields ℚ)).V (2 + 1) 3) ∧
      (exWallFields ℚ).V (2 + 1) 3 = 12 ∧
      (FixedWallBoundary.applyVelocity
        [wallCell 3 4 false true false false, wallCell 2 3 false false false true]
        (exWallFields ℚ)).V 2 3 = 0 := by
  refine ⟨by decide, by decide, by decide, ?_, ?_, ?_, ?_, ?_⟩ <;>
    norm_num [FixedWallBoundary.applyVelocity, FixedWallBoundary.applyVelocityCell, forCells,
      wallCell, Cell.is_border, Matrix.write, exWallFields]

/-- The corners LEFT+TOP and LEFT+BOTTOM: the loop body of
`FixedWallBoundary::applyVelocity` leaves both normal face velocities 0. -/
theorem FixedWall_applyVelocityCell_left_corner {α : Type} [Field α] (c : Cell) (t : Fields α)
    (hl : c.left = true) (hr : c.right = false) :
    (c.top = true → c.bottom = false →
      (FixedWallBoundary.applyVelocityCell c t).U (c.i - 1) c.j = 0 ∧
      (FixedWallBoundary.applyVelocityCell c t).V c.i c.j = 0) ∧
    (c.bottom = true → c.top = false →
      (FixedWallBoundary.applyVelocityCell c t).U (c.i - 1) c.j = 0 ∧
      (FixedWallBoundary.applyVelocityCell c t).V c.i (c.j - 1) = 0) := by
  rcases c with ⟨i, j, ty, id, top, bottom, left, right⟩
  simp only at hl hr
  subst hl hr
  constructor <;>
  · intro h1 h2
    simp only at h1 h2
    subst h1 h2
    simp [FixedWallBoundary.applyVelocityCell, Cell.is_border, Matrix.write]

/-- C10: at a corner cell with RIGHT set the normal velocity on the east face is
not 0 after `FixedWallBoundary::applyVelocity`. For the single cell `(2,2)` and
`U(i,j) = 1 + i + 2j`: with RIGHT+TOP the call leaves `u(2,2) = -u(2,3) = -9` (and
`v(2,2) = 0`); with RIGHT+BOTTOM it leaves `u(2,2) = -u(2,1) = -5` (and `v(2,1) = 0`). -/
theorem FixedWall_applyVelocity_right_corner :
    (FixedWallBoundary.applyVelocity [wallCell 2 2 true false false true] (exWallFields ℚ)).U 2 2 = -9 ∧
      (FixedWallBoundary.applyVelocity [wallCell 2 2 true false false true] (exWallFields ℚ)).V 2 2 = 0 ∧
      (FixedWallBoundary.applyVelocity [wallCell 2 2 false true false true] (exWallFields ℚ)).U 2 2 = -5 ∧
      (FixedWallBoundary.applyVelocity [wallCell 2 2 false true false true] (exWallFields ℚ)).V 2 (2 - 1) = 0 := by
  refine ⟨?_, ?_, ?_, ?_⟩ <;>
    norm_num [FixedWallBoundary.applyVelocity, FixedWallBoundary.applyVelocityCell, forCells,
      wallCell, Cell.is_border, Matrix.write, exWallFields]

/-! ## Boundary.cpp: the pressure boundary condition -/

/-- A loop over cells keeps a property that the body keeps for every cell of
the list. -/
theorem forCells_keep {σ : Type} (body : Cell → σ → σ) (Q : σ → Prop) (cells : List Cell)
    (hkeep : ∀ d ∈ cells, ∀ t, Q t → Q (body d t)) (s : σ) (h : Q s) :
    Q (forCells cells body s) := by
  induction cells generalizing s with
  | nil => exact h
  | cons d l ih =>
    rw [forCells_cons]
    exact ih (fun e he => hkeep e (List.mem_cons_of_mem d he)) _
      (hkeep d (List.mem_cons_self d l) s h)

/-- The loop body of `applyPressure` writes `P` at the position of its cell only. -/
theorem applyPressureCell_P_frame {α : Type} (d : Cell) (t : Fields α) (a b : Int)
    (h : ¬(a = d.i ∧ b = d.j)) : (applyPressureCell d t).P a b = t.P a b := by
  rcases d with ⟨i, j, ty, id, top, bottom, left, right⟩
  simp only at h
  cases top <;> cases bottom <;> cases left <;> cases right <;>
    simp only [applyPressureCell, Cell.is_border, Bool.false_eq_true, if_false, if_true] <;>
    (repeat rw [Matrix_write_ne _ _ _ _ _ _ h])

/-- What the loop body of `applyPressure` leaves at a cell with exactly one
border bit set: the pressure of the neighbour across that face. -/
theorem applyPressureCell_single {α : Type} (c : Cell) (t : Fields α) :
    (c.onlyBorder border_position.RIGHT → (applyPressureCell c t).P c.i c.j = t.P (c.i + 1) c.j) ∧
    (c.onlyBorder border_position.LEFT → (applyPressureCell c t).P c.i c.j = t.P (c.i - 1) c.j) ∧
    (c.onlyBorder border_position.TOP → (applyPressureCell c t).P c.i c.j = t.P c.i (c.j + 1)) ∧
    (c.onlyBorder border_position.BOTTOM → (applyPressureCell c t).P c.i c.j = t.P c.i (c.j - 1)) := by
  rcases c with ⟨i, j, ty, id, top, bottom, left, right⟩
  refine ⟨?_, ?_, ?_, ?_⟩ <;>
  · intro h
    simp [Cell.onlyBorder, Cell.is_border] at h
    obtain ⟨rfl, rfl, rfl, rfl⟩ := h
    simp [applyPressureCell, Cell.is_border, Matrix.write]

/-- The pressure at a position where the list has no cell is not changed by
the pressure loop. -/
theorem applyPressureCells_outside {α : Type} (cells : List Cell) (s : Fields α) (a b : Int)
    (h : ∀ d ∈ cells, ¬(d.i = a ∧ d.j = b)) : (applyPressureCells cells s).P a b = s.P a b := by
  unfold applyPressureCells
  apply forCells_keep applyPressureCell (fun t : Fields α => t.P a b = s.P a b) cells _ s rfl
  intro d hd t ht
  show (applyPressureCell d t).P a b = s.P a b
  rw [applyPressureCell_P_frame d t a b (fun hab => h d hd ⟨hab.1.symm, hab.2.symm⟩)]
  exact ht

/-- The pressure loop leaves at the cell `c` the value of a neighbour position
`(a, b)` that holds no list cell, when the body does so for `c`. -/
theorem applyPressureCells_copy {α : Type} (cells : List Cell) (c : Cell) (s : Fields α)
    (a b : Int) (hc : c ∈ cells) (hown : ∀ d ∈ cells, d.i = c.i → d.j = c.j → d = c)
    (hnb : ∀ d ∈ cells, ¬(d.i = a ∧ d.j = b))
    (hcopy : ∀ t : Fields α, (applyPressureCell c t).P c.i c.j = t.P a b) :
    (applyPressureCells cells s).P c.i c.j = (applyPressureCells cells s).P a b := by
  have hcab : ¬(a = c.i ∧ b = c.j) := fun h => hnb c hc ⟨h.1.symm, h.2.symm⟩
  unfold applyPressureCells
  apply forCells_establish applyPressureCell (fun t : Fields α => t.P c.i c.j = t.P a b) c
    (fun t => by
      show (applyPressureCell c t).P c.i c.j = (applyPressureCell c t).P a b
      rw [hcopy t, applyPressureCell_P_frame c t a b hcab]) cells _ s (Or.inl hc)
  intro d hd hne t ht
  show (applyPressureCell d t).P c.i c.j = (applyPressureCell d t).P a b
  rw [applyPressureCell_P_frame d t c.i c.j (fun h => hne (hown d hd h.1.symm h.2.symm)),
    applyPressureCell_P_frame d t a b (fun h => hnb d hd ⟨h.1.symm, h.2.symm⟩)]
  exact ht

/-- C11: Neumann-zero wall pressure. For a boundary of any kind (fixed wall,
moving wall, inflow, outflow: one shared loop) and a cell `(i,j)` of its list,
the only list cell at its position, with exactly one border bit set and a
neighbour across that face that is no cell of the list (a fluid cell): after
`applyPressure`, `P(i,j)` equals the pressure of that neighbour (RIGHT `P(i+1,j)`,
LEFT `P(i-1,j)`, TOP `P(i,j+1)`, BOTTOM `P(i,j-1)`), which is the value the
neighbour had before the call; the pressure at every position outside the
cell list is unchanged; `U`, `V`, `F`, `G`, `RS` are unchanged. -/
theorem applyPressure_neumann {α : Type} (bd : Boundary α) (c : Cell) (s : Fields α)
    (hc : c ∈ bd.cells) (hown : ∀ d ∈ bd.cells, d.i = c.i → d.j = c.j → d = c) :
    (c.onlyBorder border_position.RIGHT → (∀ d ∈ bd.cells, ¬(d.i = c.i + 1 ∧ d.j = c.j)) →
      (bd.applyPressure s).P c.i c.j = (bd.applyPressure s).P (c.i + 1) c.j ∧
      (bd.applyPressure s).P (c.i + 1) c.j = s.P (c.i + 1) c.j) ∧
    (c.onlyBorder border_position.LEFT → (∀ d ∈ bd.cells, ¬(d.i = c.i - 1 ∧ d.j = c.j)) →
      (bd.applyPressure s).P c.i c.j = (bd.applyPressure s).P (c.i - 1) c.j ∧
      (bd.applyPressure s).P (c.i - 1) c.j = s.P (c.i - 1) c.j) ∧
    (c.onlyBorder border_position.TOP → (∀ d ∈ bd.cells, ¬(d.i = c.i ∧ d.j = c.j + 1)) →
      (bd.applyPressure s).P c.i c.j = (bd.applyPressure s).P c.i (c.j + 1) ∧
      (bd.applyPressure s).P c.i (c.j + 1) = s.P c.i (c.j + 1)) ∧
    (c.onlyBorder border_position.BOTTOM → (∀ d ∈ bd.cells, ¬(d.i = c.i ∧ d.j = c.j - 1)) →
      (bd.applyPressure s).P c.i c.j = (bd.applyPressure s).P c.i (c.j - 1) ∧
      (bd.applyPressure s).P c.i (c.j - 1) = s.P c.i (c.j - 1)) ∧
    (∀ a b : Int, (∀ d ∈ bd.cells, ¬(d.i = a ∧ d.j = b)) → (bd.applyPressure s).P a b = s.P a b) ∧
    (bd.applyPressure s).U = s.U ∧ (bd.applyPressure s).V = s.V ∧
    (bd.applyPressure s).F = s.F ∧ (bd.applyPressure s).G = s.G ∧
    (bd.applyPressure s).RS = s.RS := by
  have hfr := applyPressureCells_frame bd.cells s
  unfold Boundary.applyPressure
  refine ⟨?_, ?_, ?_, ?_, fun a b h => applyPressureCells_outside bd.cells s a b h,
    hfr.2.1, hfr.2.2.1, hfr.2.2.2.1, hfr.2.2.2.2, hfr.1⟩
  · intro hb hnb
    exact ⟨applyPressureCells_copy bd.cells c s _ _ hc hown hnb
      (fun t => (applyPressureCell_single c t).1 hb), applyPressureCells_outside bd.cells s _ _ hnb⟩
  · intro hb hnb
    exact ⟨applyPressureCells_copy bd.cells c s _ _ hc hown hnb
      (fun t => (applyPressureCell_single c t).2.1 hb), applyPressureCells_outside bd.cells s _ _ hnb⟩
  · intro hb hnb
    exact ⟨applyPressureCells_copy bd.cells c s _ _ hc hown hnb
      (fun t => (applyPressureCell_single c t).2.2.1 hb), applyPressureCells_outside bd.cells s _ _ hnb⟩
  · intro hb hnb
    exact ⟨applyPressureCells_copy bd.cells c s _ _ hc hown hnb
      (fun t => (applyPressureCell_single c t).2.2.2 hb), applyPressureCells_outside bd.cells s _ _ hnb⟩

/-- Witness of C11: a moving-wall boundary with the lid cells `(1,2)` and `(2,2)`,
both with BOTTOM set, read at the cell `(1,2)`. -/
theorem applyPressure_neumann_witness :
    ((Boundary.MovingWallBoundary
          [wallCell 1 2 false true false false, wallCell 2 2 false true false false]
          [(8, (1 : ℚ))]).applyPressure (exFields ℚ)).P (wallCell 1 2 false true false false).i
        (wallCell 1 2 false true false false).j =
      ((Boundary.MovingWallBoundary
          [wallCell 1 2 false true false false, wallCell 2 2 false true false false]
          [(8, (1 : ℚ))]).applyPressure (exFields ℚ)).P (wallCell 1 2 false true false false).i
        ((wallCell 1 2 false true false false).j - 1) ∧
      ((Boundary.MovingWallBoundary
          [wallCell 1 2 false true false false, wallCell 2 2 false true false false]
          [(8, (1 : ℚ))]).applyPressure (exFields ℚ)).P (wallCell 1 2 false true false false).i
        ((wallCell 1 2 false true false false).j - 1) =
      (exFields ℚ).P (wallCell 1 2 false true false false).i
        ((wallCell 1 2 false true false false).j - 1) :=
  (applyPressure_neumann
    (Boundary.MovingWallBoundary
      [wallCell 1 2 false true false false, wallCell 2 2 false true false false] [(8, (1 : ℚ))])
    (wallCell 1 2 false true false false) (exFields ℚ) (by decide) (by decide)).2.2.2.1
    (by decide) (by decide)

/-- C12: at a corner cell `applyPressure` does not store the mean of the two
neighbours. For the fixed-wall cell `(2,2)` with TOP+LEFT set and `P(i,j) = i*j`,
the neighbours hold `P(2,3) = 6` and `P(1,2) = 2`, whose mean is 4; the call leaves
`P(2,2) = 6`, the value of the TOP neighbour. -/
theorem applyPressure_corner_is_last_face :
    ((Boundary.FixedWallBoundary [wallCell 2 2 true false true false]).applyPressure
        (exFields ℚ)).P 2 2 = 6 ∧
      ((exFields ℚ).P 2 (2 + 1) + (exFields ℚ).P (2 - 1) 2) / 2 = 4 := by
  constructor <;>
    norm_num [Boundary.applyPressure, Boundary.cells, applyPressureCells, applyPressureCell,
      forCells, wallCell, Cell.is_border, Matrix.write, exFields]

/-! ## Boundary.cpp: the moving wall -/

/-- The single-face rule of a wall whose loop body `step` writes `U` and `V`
at the positions the no-slip and moving walls write, and leaves at a
single-face cell a zero normal velocity and the tangential ghost value `2w`
minus the neighbour value: after the loop over a well-formed list the normal
velocity is 0, and the tangential relation holds when no cell of the list
writes the neighbour value. -/
theorem wall_single_face_generic {α : Type} [Field α] (step : Cell → Fields α → Fields α) (w : α)
    (hU : ∀ (d : Cell) (t : Fields α) (a b : Int),
      ¬(a = d.i ∧ b = d.j ∧ (d.right = true ∨ d.top = true ∨ d.bottom = true)) →
      ¬(a = d.i - 1 ∧ b = d.j ∧ d.left = true) → (step d t).U a b = t.U a b)
    (hV : ∀ (d : Cell) (t : Fields α) (a b : Int),
      ¬(a = d.i ∧ b = d.j ∧ (d.right = true ∨ d.left = true ∨ d.top = true)) →
      ¬(a = d.i ∧ b = d.j - 1 ∧ d.bottom = true) → (step d t).V a b = t.V a b)
    (hS : ∀ (c : Cell) (t : Fields α),
      (c.onlyBorder border_position.RIGHT →
        (step c t).U c.i c.j = 0 ∧ (step c t).V c.i c.j = 2 * w - (step c t).V (c.i + 1) c.j) ∧
      (c.onlyBorder border_position.LEFT →
        (step c t).U (c.i - 1) c.j = 0 ∧ (step c t).V c.i c.j = 2 * w - (step c t).V (c.i - 1) c.j) ∧
      (c.onlyBorder border_position.TOP →
        (step c t).V c.i c.j = 0 ∧ (step c t).U c.i c.j = 2 * w - (step c t).U c.i (c.j + 1)) ∧
      (c.onlyBorder border_position.BOTTOM →
        (step c t).V c.i (c.j - 1) = 0 ∧ (step c t).U c.i c.j = 2 * w - (step c t).U c.i (c.j - 1)))
    (cells : List Cell) (c : Cell) (s : Fields α) (hc : c ∈ cells)
    (hown : ∀ d ∈ cells, d.i = c.i → d.j = c.j → d = c)
    (hout : bordersPointOutside cells) :
    (c.onlyBorder border_position.RIGHT →
      (forCells cells step s).U c.i c.j = 0 ∧
      ((∀ d ∈ cells, ¬(d.i = c.i + 1 ∧ d.j = c.j + 1 ∧ d.bottom = true)) →
        (forCells cells step s).V c.i c.j = 2 * w - (forCells cells step s).V (c.i + 1) c.j)) ∧
    (c.onlyBorder border_position.LEFT →
      (forCells cells step s).U (c.i - 1) c.j = 0 ∧
      ((∀ d ∈ cells, ¬(d.i = c.i - 1 ∧ d.j = c.j + 1 ∧ d.bottom = true)) →
        (forCells cells step s).V c.i c.j = 2 * w - (forCells cells step s).V (c.i - 1) c.j)) ∧
    (c.onlyBorder border_position.TOP →
      (forCells cells step s).V c.i c.j = 0 ∧
      ((∀ d ∈ cells, ¬(d.i = c.i + 1 ∧ d.j = c.j + 1 ∧ d.left = true)) →
        (forCells cells step s).U c.i c.j = 2 * w - (forCells cells step s).U c.i (c.j + 1))) ∧
    (c.onlyBorder border_position.BOTTOM →
      (forCells cells step s).V c.i (c.j - 1) = 0 ∧
      ((∀ d ∈ cells, ¬(d.i = c.i + 1 ∧ d.j = c.j - 1 ∧ d.left = true)) →
        (forCells cells step s).U c.i c.j = 2 * w - (forCells cells step s).U c.i (c.j - 1))) := by
  have hpos : ∀ d ∈ cells, d ≠ c → ¬(d.i = c.i ∧ d.j = c.j) :=
    fun d hd hne h => hne (hown d hd h.1 h.2)
  refine ⟨?_, ?_, ?_, ?_⟩
  · intro hb
    have hbits := Cell_onlyBorder_bits c _ hb
    have hr : c.right = true := by rw [hbits.2.2.2]; rfl
    refine ⟨?_, fun hfree => ?_⟩
    · apply forCells_establish _ (fun t : Fields α => t.U c.i c.j = 0) c
        (fun t => ((hS c t).1 hb).1) cells _ s (Or.inl hc)
      intro d hd hne t ht
      have hp := hpos d hd hne
      have hdc := hout d hd c hc
      show (step d t).U c.i c.j = 0
      rw [hU d t c.i c.j (fun h => hp ⟨by omega, by omega⟩)
        (fun h => hdc.2.1 h.2.2 ⟨h.1, h.2.1⟩)]
      exact ht
    · apply forCells_establish _ (fun t : Fields α => t.V c.i c.j = 2 * w - t.V (c.i + 1) c.j) c
        (fun t => ((hS c t).1 hb).2) cells _ s (Or.inl hc)
      intro d hd hne t ht
      have hp := hpos d hd hne
      have hdc := hout d hd c hc
      have hcd := (hout c hc d hd).1 hr
      show (step d t).V c.i c.j =
        2 * w - (step d t).V (c.i + 1) c.j
      rw [hV d t c.i c.j (fun h => hp ⟨by omega, by omega⟩)
          (fun h => hdc.2.2.2 h.2.2 ⟨h.1, h.2.1⟩),
        hV d t (c.i + 1) c.j
          (fun h => hcd ⟨by omega, by omega⟩)
          (fun h => hfree d hd ⟨by omega, by omega, h.2.2⟩)]
      exact ht
  · intro hb
    have hbits := Cell_onlyBorder_bits c _ hb
    have hl : c.left = true := by rw [hbits.2.2.1]; rfl
    refine ⟨?_, fun hfree => ?_⟩
    · apply forCells_establish _ (fun t : Fields α => t.U (c.i - 1) c.j = 0) c
        (fun t => ((hS c t).2.1 hb).1) cells _ s (Or.inl hc)
      intro d hd hne t ht
      have hp := hpos d hd hne
      have hcd := (hout c hc d hd).2.1 hl
      show (step d t).U (c.i - 1) c.j = 0
      rw [hU d t (c.i - 1) c.j
        (fun h => hcd ⟨by omega, by omega⟩) (fun h => hp ⟨by omega, by omega⟩)]
      exact ht
    · apply forCells_establish _ (fun t : Fields α => t.V c.i c.j = 2 * w - t.V (c.i - 1) c.j) c
        (fun t => ((hS c t).2.1 hb).2) cells _ s (Or.inl hc)
      intro d hd hne t ht
      have hp := hpos d hd hne
      have hdc := hout d hd c hc
      have hcd := (hout c hc d hd).2.1 hl
      show (step d t).V c.i c.j =
        2 * w - (step d t).V (c.i - 1) c.j
      rw [hV d t c.i c.j (fun h => hp ⟨by omega, by omega⟩)
          (fun h => hdc.2.2.2 h.2.2 ⟨h.1, h.2.1⟩),
        hV d t (c.i - 1) c.j
          (fun h => hcd ⟨by omega, by omega⟩)
          (fun h => hfree d hd ⟨by omega, by omega, h.2.2⟩)]
      exact ht
  · intro hb
    have hbits := Cell_onlyBorder_bits c _ hb
    have ht' : c.top = true := by rw [hbits.1]; rfl
    refine ⟨?_, fun hfree => ?_⟩
    · apply forCells_establish _ (fun t : Fields α => t.V c.i c.j = 0) c
        (fun t => ((hS c t).2.2.1 hb).1) cells _ s (Or.inl hc)
      intro d hd hne t ht
      have hp := hpos d hd hne
      have hdc := hout d hd c hc
      show (step d t).V c.i c.j = 0
      rw [hV d t c.i c.j (fun h => hp ⟨by omega, by omega⟩)
        (fun h => hdc.2.2.2 h.2.2 ⟨h.1, h.2.1⟩)]
      exact ht
    · apply forCells_establish _ (fun t : Fields α => t.U c.i c.j = 2 * w - t.U c.i (c.j + 1)) c
        (fun t => ((hS c t).2.2.1 hb).2) cells _ s (Or.inl hc)
      intro d hd hne t ht
      have hp := hpos d hd hne
      have hdc := hout d hd c hc
      have hcd := (hout c hc d hd).2.2.1 ht'
      show (step d t).U c.i c.j =
        2 * w - (step d t).U c.i (c.j + 1)
      rw [hU d t c.i c.j (fun h => hp ⟨by omega, by omega⟩)
          (fun h => hdc.2.1 h.2.2 ⟨h.1, h.2.1⟩),
        hU d t c.i (c.j + 1)
          (fun h => hcd ⟨by omega, by omega⟩)
          (fun h => hfree d hd ⟨by omega, by omega, h.2.2⟩)]
      exact ht
  · intro hb
    have hbits := Cell_onlyBorder_bits c _ hb
    have hbt : c.bottom = true := by rw [hbits.2.1]; rfl
    refine ⟨?_, fun hfree => ?_⟩
    · apply forCells_establish _ (fun t : Fields α => t.V c.i (c.j - 1) = 0) c
        (fun t => ((hS c t).2.2.2 hb).1) cells _ s (Or.inl hc)
      intro d hd hne t ht
      have hp := hpos d hd hne
      have hcd := (hout c hc d hd).2.2.2 hbt
      show (step d t).V c.i (c.j - 1) = 0
      rw [hV d t c.i (c.j - 1)
        (fun h => hcd ⟨by omega, by omega⟩) (fun h => hp ⟨by omega, by omega⟩)]
      exact ht
    · apply forCells_establish _ (fun t : Fields α => t.U c.i c.j = 2 * w - t.U c.i (c.j - 1)) c
        (fun t => ((hS c t).2.2.2 hb).2) cells _ s (Or.inl hc)
      intro d hd hne t ht
      have hp := hpos d hd hne
      have hdc := hout d hd c hc
      have hcd := (hout c hc d hd).2.2.2 hbt
      show (step d t).U c.i c.j =
        2 * w - (step d t).U c.i (c.j - 1)
      rw [hU d t c.i c.j (fun h => hp ⟨by omega, by omega⟩)
          (fun h => hdc.2.1 h.2.2 ⟨h.1, h.2.1⟩),
        hU d t c.i (c.j - 1)
          (fun h => hcd ⟨by omega, by omega⟩)
          (fun h => hfree d hd ⟨by omega, by omega, h.2.2⟩)]
      exact ht

/-- Entries of `U` that the loop body of `MovingWallBoundary::applyVelocity`
does not write for the cell `d`. -/
theorem MovingWall_applyVelocityCell_U_frame {α : Type} [Field α] (wv : List (Int × α))
    (d : Cell) (t : Fields α) (a b : Int)
    (h1 : ¬(a = d.i ∧ b = d.j ∧ (d.right = true ∨ d.top = true ∨ d.bottom = true)))
    (h2 : ¬(a = d.i - 1 ∧ b = d.j ∧ d.left = true)) :
    (MovingWallBoundary.applyVelocityCell wv d t).U a b = t.U a b := by
  rcases d with ⟨i, j, ty, id, top, bottom, left, right⟩
  simp only at h1 h2
  cases top <;> cases bottom <;> cases left <;> cases right <;>
    simp only [MovingWallBoundary.applyVelocityCell, Cell.is_border, Bool.false_eq_true,
      if_false, if_true, or_false, false_or, or_true, true_or, and_true, and_false,
      not_false_eq_true] at h1 h2 ⊢ <;>
    (repeat (first
      | rw [Matrix_write_ne _ _ _ _ _ _ h1]
      | rw [Matrix_write_ne _ _ _ _ _ _ h2]))

/-- Entries of `V` that the loop body of `MovingWallBoundary::applyVelocity`
does not write for the cell `d`. -/
theorem MovingWall_applyVelocityCell_V_frame {α : Type} [Field α] (wv : List (Int × α))
    (d : Cell) (t : Fields α) (a b : Int)
    (h1 : ¬(a = d.i ∧ b = d.j ∧ (d.right = true ∨ d.left = true ∨ d.top = true)))
    (h2 : ¬(a = d.i ∧ b = d.j - 1 ∧ d.bottom = true)) :
    (MovingWallBoundary.applyVelocityCell wv d t).V a b = t.V a b := by
  rcases d with ⟨i, j, ty, id, top, bottom, left, right⟩
  simp only at h1 h2
  cases top <;> cases bottom <;> cases left <;> cases right <;>
    simp only [MovingWallBoundary.applyVelocityCell, Cell.is_border, Bool.false_eq_true,
      if_false, if_true, or_false, false_or, or_true, true_or, and_true, and_false,
      not_false_eq_true] at h1 h2 ⊢ <;>
    (repeat (first
      | rw [Matrix_write_ne _ _ _ _ _ _ h1]
      | rw [Matrix_write_ne _ _ _ _ _ _ h2]))

/-- What the loop body of `MovingWallBoundary::applyVelocity` leaves behind for
a cell with exactly one border bit set. -/
theorem MovingWall_applyVelocityCell_single {α : Type} [Field α] (wv : List (Int × α))
    (c : Cell) (t : Fields α) :
    (c.onlyBorder border_position.RIGHT →
      (MovingWallBoundary.applyVelocityCell wv c t).U c.i c.j = 0 ∧
      (MovingWallBoundary.applyVelocityCell wv c t).V c.i c.j =
        2 * mapAt wv 8 - (MovingWallBoundary.applyVelocityCell wv c t).V (c.i + 1) c.j) ∧
    (c.onlyBorder border_position.LEFT →
      (MovingWallBoundary.applyVelocityCell wv c t).U (c.i - 1) c.j = 0 ∧
      (MovingWallBoundary.applyVelocityCell wv c t).V c.i c.j =
        2 * mapAt wv 8 - (MovingWallBoundary.applyVelocityCell wv c t).V (c.i - 1) c.j) ∧
    (c.onlyBorder border_position.TOP →
      (MovingWallBoundary.applyVelocityCell wv c t).V c.i c.j = 0 ∧
      (MovingWallBoundary.applyVelocityCell wv c t).U c.i c.j =
        2 * mapAt wv 8 - (MovingWallBoundary.applyVelocityCell wv c t).U c.i (c.j + 1)) ∧
    (c.onlyBorder border_position.BOTTOM →
      (MovingWallBoundary.applyVelocityCell wv c t).V c.i (c.j - 1) = 0 ∧
      (MovingWallBoundary.applyVelocityCell wv c t).U c.i c.j =
        2 * mapAt wv 8 - (MovingWallBoundary.applyVelocityCell wv c t).U c.i (c.j - 1)) := by
  rcases c with ⟨i, j, ty, id, top, bottom, left, right⟩
  refine ⟨?_, ?_, ?_, ?_⟩ <;>
  · intro h
    simp [Cell.onlyBorder, Cell.is_border] at h
    obtain ⟨rfl, rfl, rfl, rfl⟩ := h
    simp [MovingWallBoundary.applyVelocityCell, Cell.is_border, Matrix.write]

/-- C13 (amended): the moving-wall rule on a single face, for a wall-velocity
map that holds `U_wall` under the key 8, and a cell `c` of the list that is the
only list cell at its position, in a list whose set border bits point outside
the list. After `MovingWallBoundary::applyVelocity` the normal velocity on the
wall face of `c` is 0 (BOTTOM `v(i,j-1)`, TOP `v(i,j)`, RIGHT `u(i,j)`, LEFT `u(i-1,j)`), and
the tangential ghost value is `2*U_wall` minus the fluid neighbour's value
whenever no cell of the list writes that neighbour value: no list cell at
`(i+1,j+1)` (RIGHT) or `(i-1,j+1)` (LEFT) with BOTTOM set, no list cell at `(i+1,j+1)`
(TOP) or `(i+1,j-1)` (BOTTOM) with LEFT set. -/
theorem MovingWall_applyVelocity_single_face {α : Type} [Field α] (cells : List Cell)
    (wall_velocity : List (Int × α)) (U_wall : α) (c : Cell) (s : Fields α)
    (hw : mapAt wall_velocity 8 = U_wall) (hc : c ∈ cells)
    (hown : ∀ d ∈ cells, d.i = c.i → d.j = c.j → d = c)
    (hout : bordersPointOutside cells) :
    (c.onlyBorder border_position.BOTTOM →
      (MovingWallBoundary.applyVelocity cells wall_velocity s).V c.i (c.j - 1) = 0 ∧
      ((∀ d ∈ cells, ¬(d.i = c.i + 1 ∧ d.j = c.j - 1 ∧ d.left = true)) →
        (MovingWallBoundary.applyVelocity cells wall_velocity s).U c.i c.j =
          2 * U_wall - (MovingWallBoundary.applyVelocity cells wall_velocity s).U c.i (c.j - 1))) ∧
    (c.onlyBorder border_position.TOP →
      (MovingWallBoundary.applyVelocity cells wall_velocity s).V c.i c.j = 0 ∧
      ((∀ d ∈ cells, ¬(d.i = c.i + 1 ∧ d.j = c.j + 1 ∧ d.left = true)) →
        (MovingWallBoundary.applyVelocity cells wall_velocity s).U c.i c.j =
          2 * U_wall - (MovingWallBoundary.applyVelocity cells wall_velocity s).U c.i (c.j + 1))) ∧
    (c.onlyBorder border_position.RIGHT →
      (MovingWallBoundary.applyVelocity cells wall_velocity s).U c.i c.j = 0 ∧
      ((∀ d ∈ cells, ¬(d.i = c.i + 1 ∧ d.j = c.j + 1 ∧ d.bottom = true)) →
        (MovingWallBoundary.applyVelocity cells wall_velocity s).V c.i c.j =
          2 * U_wall - (MovingWallBoundary.applyVelocity cells wall_velocity s).V (c.i + 1) c.j)) ∧
    (c.onlyBorder border_position.LEFT →
      (MovingWallBoundary.applyVelocity cells wall_velocity s).U (c.i - 1) c.j = 0 ∧
      ((∀ d ∈ cells, ¬(d.i = c.i - 1 ∧ d.j = c.j + 1 ∧ d.bottom = true)) →
        (MovingWallBoundary.applyVelocity cells wall_velocity s).V c.i c.j =
          2 * U_wall - (MovingWallBoundary.applyVelocity cells wall_velocity s).V (c.i - 1) c.j)) := by
  have h := wall_single_face_generic (MovingWallBoundary.applyVelocityCell wall_velocity) U_wall
    (MovingWall_applyVelocityCell_U_frame wall_velocity)
    (MovingWall_applyVelocityCell_V_frame wall_velocity)
    (fun c t => by
      rw [← hw]
      exact MovingWall_applyVelocityCell_single wall_velocity c t)
    cells c s hc hown hout
  exact ⟨h.2.2.2, h.2.2.1, h.1, h.2.1⟩

/-- Witness of C13 (amended): the lid of a cavity, the cells `(1,3)` and `(2,3)` with
BOTTOM set and the wall velocity 1 registered by the one-velocity constructor,
read at the cell `(1,3)`. -/
theorem MovingWall_applyVelocity_single_face_witness :
    (MovingWallBoundary.applyVelocity
        [movingCell 1 3 8 false true false false, movingCell 2 3 8 false true false false]
        [(LidDrivenCavity.moving_wall_id, (1 : ℚ))] (exWallFields ℚ)).V
          (movingCell 1 3 8 false true false false).i
          ((movingCell 1 3 8 false true false false).j - 1) = 0 ∧
      (MovingWallBoundary.applyVelocity
        [movingCell 1 3 8 false true false false, movingCell 2 3 8 false true false false]
        [(LidDrivenCavity.moving_wall_id, (1 : ℚ))] (exWallFields ℚ)).U
          (movingCell 1 3 8 false true false false).i
          (movingCell 1 3 8 false true false false).j =
        2 * 1 - (MovingWallBoundary.applyVelocity
          [movingCell 1 3 8 false true false false, movingCell 2 3 8 false true false false]
          [(LidDrivenCavity.moving_wall_id, (1 : ℚ))] (exWallFields ℚ)).U
            (movingCell 1 3 8 false true false false).i
            ((movingCell 1 3 8 false true false false).j - 1) :=
  ⟨((MovingWall_applyVelocity_single_face
      [movingCell 1 3 8 false true false false, movingCell 2 3 8 false true false false]
      [(LidDrivenCavity.moving_wall_id, (1 : ℚ))] 1 (movingCell 1 3 8 false true false false)
      (exWallFields ℚ) (by simp [mapAt, LidDrivenCavity.moving_wall_id])
      (by decide) (by decide) (by decide)).1 (by decide)).1,
    ((MovingWall_applyVelocity_single_face
      [movingCell 1 3 8 false true false false, movingCell 2 3 8 false true false false]
      [(LidDrivenCavity.moving_wall_id, (1 : ℚ))] 1 (movingCell 1 3 8 false true false false)
      (exWallFields ℚ) (by simp [mapAt, LidDrivenCavity.moving_wall_id])
      (by decide) (by decide) (by decide)).1 (by decide)).2 (by decide)⟩

/-- C13 as stated fails: with the moving-wall cell `(2,3)` (only RIGHT set, fluid
neighbour `(3,3)`), the moving-wall cell `(3,4)` (only BOTTOM set, above the same
fluid cell), `U_wall = 1` under the key 8 and `V(3,3) = 12` before the call, the
call leaves `V(2,3) = 2*1 - 12 = -10` and `V(3,3) = 0`, so `v(i,j) = 2*U_wall - v(i+1,j)`
does not hold after it and the mean of ghost and neighbour is -5, not 1. -/
theorem MovingWall_single_face_order_counterexample :
    movingCell 2 3 8 false false false true ∈
        [movingCell 2 3 8 false false false true, movingCell 3 4 8 false true false false] ∧
      (movingCell 2 3 8 false false false true).onlyBorder border_position.RIGHT ∧
      bordersPointOutside
        [movingCell 2 3 8 false false false true, movingCell 3 4 8 false true false false] ∧
      mapAt [(LidDrivenCavity.moving_wall_id, (1 : ℚ))] 8 = 1 ∧
      (MovingWallBoundary.applyVelocity
        [movingCell 2 3 8 false false false true, movingCell 3 4 8 false true false false]
        [(LidDrivenCavity.moving_wall_id, (1 : ℚ))] (exWallFields ℚ)).V 2 3 = -10 ∧
      (MovingWallBoundary.applyVelocity
        [movingCell 2 3 8 false false false true, movingCell 3 4 8 false true false false]
        [(LidDrivenCavity.moving_wall_id, (1 : ℚ))] (exWallFields ℚ)).V (2 + 1) 3 = 0 ∧
      ¬((MovingWallBoundary.applyVelocity
          [movingCell 2 3 8 false false false true, movingCell 3 4 8 false true false false]
          [(LidDrivenCavity.moving_wall_id, (1 : ℚ))] (exWallFields ℚ)).V 2 3 =
        2 * 1 - (MovingWallBoundary.applyVelocity
          [movingCell 2 3 8 false false false true, movingCell 3 4 8 false true false false]
          [(LidDrivenCavity.moving_wall_id, (1 : ℚ))] (exWallFields ℚ)).V (2 + 1) 3) := by
  refine ⟨by decide, by decide, by decide, ?_, ?_, ?_, ?_⟩ <;>
    norm_num [MovingWallBoundary.applyVelocity, MovingWallBoundary.applyVelocityCell, forCells,
      movingCell, Cell.is_border, Matrix.write, exWallFields, mapAt,
      LidDrivenCavity.moving_wall_id]

/-- The loop body of `MovingWallBoundary::applyVelocity` does not read the tag
of its cell. -/
theorem MovingWall_applyVelocityCell_ignores_tag {α : Type} [Field α] (wv : List (Int × α))
    (c : Cell) (id : Int) (t : Fields α) :
    MovingWallBoundary.applyVelocityCell wv { c with id := id } t =
      MovingWallBoundary.applyVelocityCell wv c t := rfl

/-- C14: the wall velocity `MovingWallBoundary::applyVelocity` uses is the map
entry of the constant key 8, not the entry of the cell's tag. With the map
`6 ↦ 5, 8 ↦ 1`, the lid cells `(1,3)` with tag 6 and `(2,3)` with tag 8 (BOTTOM set) and
`U(i,j) = 1 + i + 2j`, the call leaves `u(1,3) = 2*1 - u(1,2) = -4` and
`u(2,3) = 2*1 - u(2,2) = -5`: both cells get the velocity 1, and `u(1,3)` is not
`2*5 - u(1,2) = 4`, the value for the entry of its own tag. -/
theorem MovingWall_applyVelocity_uses_key_8 :
    mapAt [(6, (5 : ℚ)), (8, 1)] (movingCell 1 3 6 false true false false).id = 5 ∧
      mapAt [(6, (5 : ℚ)), (8, 1)] (movingCell 2 3 8 false true false false).id = 1 ∧
      (MovingWallBoundary.applyVelocity
        [movingCell 1 3 6 false true false false, movingCell 2 3 8 false true false false]
        [(6, (5 : ℚ)), (8, 1)] (exWallFields ℚ)).U 1 3 = 2 * 1 - (exWallFields ℚ).U 1 (3 - 1) ∧
      (MovingWallBoundary.applyVelocity
        [movingCell 1 3 6 false true false false, movingCell 2 3 8 false true false false]
        [(6, (5 : ℚ)), (8, 1)] (exWallFields ℚ)).U 2 3 = 2 * 1 - (exWallFields ℚ).U 2 (3 - 1) ∧
      (MovingWallBoundary.applyVelocity
        [movingCell 1 3 6 false true false false, movingCell 2 3 8 false true false false]
        [(6, (5 : ℚ)), (8, 1)] (exWallFields ℚ)).U 1 3 = -4 ∧
      2 * mapAt [(6, (5 : ℚ)), (8, 1)] (movingCell 1 3 6 false true false false).id -
        (exWallFields ℚ).U 1 (3 - 1) = 4 := by
  refine ⟨?_, ?_, ?_, ?_, ?_, ?_⟩ <;>
    norm_num [MovingWallBoundary.applyVelocity, MovingWallBoundary.applyVelocityCell, forCells,
      movingCell, Cell.is_border, Matrix.write, exWallFields, mapAt]

/-! ## Boundary.cpp: inflow, outflow and the flux correction -/

/-- The function `InflowBoundary::applyVelocity` returns the field state it
received. -/
theorem InflowBoundary_applyVelocity_eq {α : Type} (cells : List Cell)
    (u v : List (Int × α)) (s : Fields α) : InflowBoundary.applyVelocity cells u v s = s := by
  unfold InflowBoundary.applyVelocity
  induction cells with
  | nil => rfl
  | cons c l ih => rw [forCells_cons]; exact ih

/-- The function `OutflowBoundary::applyVelocity` returns the field state it
received. -/
theorem OutflowBoundary_applyVelocity_eq {α : Type} (cells : List Cell)
    (u v : List (Int × α)) (s : Fields α) : OutflowBoundary.applyVelocity cells u v s = s := by
  unfold OutflowBoundary.applyVelocity
  induction cells with
  | nil => rfl
  | cons c l ih => rw [forCells_cons]; exact ih

/-- C15: `InflowBoundary::applyVelocity` does not set the inflow velocities. For
the inflow cell `(0,1)` (tag 1, RIGHT set), the prescribed velocities `u = 1`, `v = 0`
(given as maps under the tag 1, or as numbers to the two-number constructor)
and `U(i,j) = 1 + i + 2j`, `V(i,j) = 3 + 2i + j`, the call leaves `U(0,1) = 3` and
`V(0,1) = 4`, the values before the call, not 1 and 0. -/
theorem InflowBoundary_applyVelocity_sets_nothing :
    mapAt [(1, (1 : ℚ))] (inflowCell 0 1 1 false false false true).id = 1 ∧
      mapAt [(1, (0 : ℚ))] (inflowCell 0 1 1 false false false true).id = 0 ∧
      ((Boundary.InflowBoundary [inflowCell 0 1 1 false false false true]
          [(1, (1 : ℚ))] [(1, (0 : ℚ))]).applyVelocity (exWallFields ℚ)).U 0 1 = 3 ∧
      ((Boundary.InflowBoundary [inflowCell 0 1 1 false false false true]
          [(1, (1 : ℚ))] [(1, (0 : ℚ))]).applyVelocity (exWallFields ℚ)).V 0 1 = 4 ∧
      ((InflowBoundary.ofVelocity [inflowCell 0 1 1 false false false true]
          (1 : ℚ) 0).applyVelocity (exWallFields ℚ)).U 0 1 = 3 ∧
      ((InflowBoundary.ofVelocity [inflowCell 0 1 1 false false false true]
          (1 : ℚ) 0).applyVelocity (exWallFields ℚ)).V 0 1 = 4 := by
  refine ⟨?_, ?_, ?_, ?_, ?_, ?_⟩ <;>
    norm_num [Boundary.applyVelocity, InflowBoundary.ofVelocity, InflowBoundary_applyVelocity_eq,
      inflowCell, exWallFields, mapAt]

/-- C16: `OutflowBoundary::applyVelocity` does not copy the neighbour velocities.
For the outflow cell `(4,1)` (tag 2, LEFT set, interior neighbour `(3,1)`) and
`U(i,j) = 1 + i + 2j`, `V(i,j) = 3 + 2i + j`, the call leaves `U(4,1) = 7` and `V(4,1) = 12`,
the values before the call, while the neighbour holds `U(3,1) = 6` and `V(3,1) = 10`. -/
theorem OutflowBoundary_applyVelocity_copies_nothing :
    (outflowCell 4 1 2 false false true false).onlyBorder border_position.LEFT ∧
      ((Boundary.OutflowBoundary [outflowCell 4 1 2 false false true false]
          [] []).applyVelocity (exWallFields ℚ)).U 4 1 = 7 ∧
      ((Boundary.OutflowBoundary [outflowCell 4 1 2 false false true false]
          [] []).applyVelocity (exWallFields ℚ)).V 4 1 = 12 ∧
      ((Boundary.OutflowBoundary [outflowCell 4 1 2 false false true false]
          [] []).applyVelocity (exWallFields ℚ)).U (4 - 1) 1 = 6 ∧
      ((Boundary.OutflowBoundary [outflowCell 4 1 2 false false true false]
          [] []).applyVelocity (exWallFields ℚ)).V (4 - 1) 1 = 10 := by
  refine ⟨by decide, ?_, ?_, ?_, ?_⟩ <;>
    norm_num [Boundary.applyVelocity, OutflowBoundary_applyVelocity_eq, exWallFields]

/-- The loop body of `Boundary::applyFlux` writes `F` and `G` only. -/
theorem applyFluxCell_frame {α : Type} (d : Cell) (t : Fields α) :
    (applyFluxCell d t).U = t.U ∧ (applyFluxCell d t).V = t.V ∧ (applyFluxCell d t).P = t.P ∧
      (applyFluxCell d t).RS = t.RS := by
  unfold applyFluxCell
  simp only
  split_ifs <;> exact ⟨rfl, rfl, rfl, rfl⟩

/-- Entry by entry, the loop body of `Boundary::applyFlux` stores the velocity
`U` on the faces of the set RIGHT and LEFT bits and keeps every other `F`. -/
theorem applyFluxCell_F {α : Type} (d : Cell) (t : Fields α) (a b : Int) :
    (applyFluxCell d t).F a b =
      if (d.right = true ∧ a = d.i ∧ b = d.j) ∨ (d.left = true ∧ a = d.i - 1 ∧ b = d.j) then
        t.U a b
      else t.F a b := by
  rcases d with ⟨i, j, ty, id, top, bottom, left, right⟩
  cases top <;> cases bottom <;> cases left <;> cases right <;>
    simp only [applyFluxCell, Cell.is_border, Bool.false_eq_true, if_false, if_true,
      false_and, true_and, or_false, false_or, Matrix.write] <;>
    split_ifs <;> first | rfl | (exfalso; tauto) | simp_all

/-- Entry by entry, the loop body of `Boundary::applyFlux` stores the velocity
`V` on the faces of the set TOP and BOTTOM bits and keeps every other `G`. -/
theorem applyFluxCell_G {α : Type} (d : Cell) (t : Fields α) (a b : Int) :
    (applyFluxCell d t).G a b =
      if (d.top = true ∧ a = d.i ∧ b = d.j) ∨ (d.bottom = true ∧ a = d.i ∧ b = d.j - 1) then
        t.V a b
      else t.G a b := by
  rcases d with ⟨i, j, ty, id, top, bottom, left, right⟩
  cases top <;> cases bottom <;> cases left <;> cases right <;>
    simp only [applyFluxCell, Cell.is_border, Bool.false_eq_true, if_false, if_true,
      false_and, true_and, or_false, false_or, Matrix.write] <;>
    split_ifs <;> first | rfl | (exfalso; tauto) | simp_all

/-- C17: flux correction. After `Boundary::applyFlux`, for every cell `(i,j)` of
the boundary's list and every set border bit the flux on that face equals the
velocity on that face (RIGHT `F(i,j) = U(i,j)`, LEFT `F(i-1,j) = U(i-1,j)`, TOP
`G(i,j) = V(i,j)`, BOTTOM `G(i,j-1) = V(i,j-1)`); `U`, `V`, `P`, `RS` are unchanged; an entry
of `F` or `G` that is the face of no set bit of a list cell keeps its value. -/
theorem applyFlux_spec {α : Type} (bd : Boundary α) (s : Fields α) (c : Cell)
    (hc : c ∈ bd.cells) :
    (c.is_border border_position.RIGHT = true →
      (bd.applyFlux s).F c.i c.j = (bd.applyFlux s).U c.i c.j) ∧
    (c.is_border border_position.LEFT = true →
      (bd.applyFlux s).F (c.i - 1) c.j = (bd.applyFlux s).U (c.i - 1) c.j) ∧
    (c.is_border border_position.TOP = true →
      (bd.applyFlux s).G c.i c.j = (bd.applyFlux s).V c.i c.j) ∧
    (c.is_border border_position.BOTTOM = true →
      (bd.applyFlux s).G c.i (c.j - 1) = (bd.applyFlux s).V c.i (c.j - 1)) ∧
    (bd.applyFlux s).U = s.U ∧ (bd.applyFlux s).V = s.V ∧ (bd.applyFlux s).P = s.P ∧
    (bd.applyFlux s).RS = s.RS ∧
    (∀ a b : Int,
      (∀ d ∈ bd.cells, ¬(d.is_border border_position.RIGHT = true ∧ a = d.i ∧ b = d.j) ∧
        ¬(d.is_border border_position.LEFT = true ∧ a = d.i - 1 ∧ b = d.j)) →
      (bd.applyFlux s).F a b = s.F a b) ∧
    (∀ a b : Int,
      (∀ d ∈ bd.cells, ¬(d.is_border border_position.TOP = true ∧ a = d.i ∧ b = d.j) ∧
        ¬(d.is_border border_position.BOTTOM = true ∧ a = d.i ∧ b = d.j - 1)) →
      (bd.applyFlux s).G a b = s.G a b) := by
  unfold Boundary.applyFlux
  have hU : ∀ t : Fields α, ∀ a b, ∀ d, t.F a b = t.U a b →
      (applyFluxCell d t).F a b = (applyFluxCell d t).U a b := by
    intro t a b d h
    rw [applyFluxCell_F, (applyFluxCell_frame d t).1]
    split_ifs
    · rfl
    · exact h
  have hV : ∀ t : Fields α, ∀ a b, ∀ d, t.G a b = t.V a b →
      (applyFluxCell d t).G a b = (applyFluxCell d t).V a b := by
    intro t a b d h
    rw [applyFluxCell_G, (applyFluxCell_frame d t).2.1]
    split_ifs
    · rfl
    · exact h
  refine ⟨?_, ?_, ?_, ?_, ?_, ?_, ?_, ?_, ?_, ?_⟩
  · intro hb
    apply forCells_establish applyFluxCell (fun t : Fields α => t.F c.i c.j = t.U c.i c.j) c
      (fun t => by
        show (applyFluxCell c t).F c.i c.j = (applyFluxCell c t).U c.i c.j
        rw [applyFluxCell_F, (applyFluxCell_frame c t).1, if_pos (Or.inl ⟨hb, rfl, rfl⟩)])
      bd.cells (fun d _ _ t ht => hU t _ _ d ht) s (Or.inl hc)
  · intro hb
    apply forCells_establish applyFluxCell
      (fun t : Fields α => t.F (c.i - 1) c.j = t.U (c.i - 1) c.j) c
      (fun t => by
        show (applyFluxCell c t).F (c.i - 1) c.j = (applyFluxCell c t).U (c.i - 1) c.j
        rw [applyFluxCell_F, (applyFluxCell_frame c t).1, if_pos (Or.inr ⟨hb, rfl, rfl⟩)])
      bd.cells (fun d _ _ t ht => hU t _ _ d ht) s (Or.inl hc)
  · intro hb
    apply forCells_establish applyFluxCell (fun t : Fields α => t.G c.i c.j = t.V c.i c.j) c
      (fun t => by
        show (applyFluxCell c t).G c.i c.j = (applyFluxCell c t).V c.i c.j
        rw [applyFluxCell_G, (applyFluxCell_frame c t).2.1, if_pos (Or.inl ⟨hb, rfl, rfl⟩)])
      bd.cells (fun d _ _ t ht => hV t _ _ d ht) s (Or.inl hc)
  · intro hb
    apply forCells_establish applyFluxCell
      (fun t : Fields α => t.G c.i (c.j - 1) = t.V c.i (c.j - 1)) c
      (fun t => by
        show (applyFluxCell c t).G c.i (c.j - 1) = (applyFluxCell c t).V c.i (c.j - 1)
        rw [applyFluxCell_G, (applyFluxCell_frame c t).2.1, if_pos (Or.inr ⟨hb, rfl, rfl⟩)])
      bd.cells (fun d _ _ t ht => hV t _ _ d ht) s (Or.inl hc)
  · exact forCells_preserves (fun t : Fields α => t.U) applyFluxCell
      (fun d t => (applyFluxCell_frame d t).1) bd.cells s
  · exact forCells_preserves (fun t : Fields α => t.V) applyFluxCell
      (fun d t => (applyFluxCell_frame d t).2.1) bd.cells s
  · exact forCells_preserves (fun t : Fields α => t.P) applyFluxCell
      (fun d t => (applyFluxCell_frame d t).2.2.1) bd.cells s
  · exact forCells_preserves (fun t : Fields α => t.RS) applyFluxCell
      (fun d t => (applyFluxCell_frame d t).2.2.2) bd.cells s
  · intro a b h
    apply forCells_keep applyFluxCell (fun t : Fields α => t.F a b = s.F a b) bd.cells _ s rfl
    intro d hd t ht
    show (applyFluxCell d t).F a b = s.F a b
    rw [applyFluxCell_F, if_neg, ht]
    rintro (h1 | h1)
    · exact (h d hd).1 h1
    · exact (h d hd).2 h1
  · intro a b h
    apply forCells_keep applyFluxCell (fun t : Fields α => t.G a b = s.G a b) bd.cells _ s rfl
    intro d hd t ht
    show (applyFluxCell d t).G a b = s.G a b
    rw [applyFluxCell_G, if_neg, ht]
    rintro (h1 | h1)
    · exact (h d hd).1 h1
    · exact (h d hd).2 h1

/-- Witness of C17: the fixed-wall corner cell `(2,2)` with RIGHT and TOP set. -/
theorem applyFlux_spec_witness :
    ((Boundary.FixedWallBoundary [wallCell 2 2 true false false true]).applyFlux
        (exWallFields ℚ)).F (wallCell 2 2 true false false true).i
          (wallCell 2 2 true false false true).j =
      ((Boundary.FixedWallBoundary [wallCell 2 2 true false false true]).applyFlux
        (exWallFields ℚ)).U (wallCell 2 2 true false false true).i
          (wallCell 2 2 true false false true).j ∧
      ((Boundary.FixedWallBoundary [wallCell 2 2 true false false true]).applyFlux
        (exWallFields ℚ)).G (wallCell 2 2 true false false true).i
          (wallCell 2 2 true false false true).j =
      ((Boundary.FixedWallBoundary [wallCell 2 2 true false false true]).applyFlux
        (exWallFields ℚ)).V (wallCell 2 2 true false false true).i
          (wallCell 2 2 true false false true).j :=
  ⟨(applyFlux_spec (Boundary.FixedWallBoundary [wallCell 2 2 true false false true])
      (exWallFields ℚ) (wallCell 2 2 true false false true) (by decide)).1 (by decide),
    (applyFlux_spec (Boundary.FixedWallBoundary [wallCell 2 2 true false false true])
      (exWallFields ℚ) (wallCell 2 2 true false false true) (by decide)).2.2.1 (by decide)⟩

/-! ## Boundary.cpp: repeated application of the no-slip wall -/

/-- The value the loop body of `FixedWallBoundary::applyVelocity` leaves in `U`
at the position of its cell. -/
theorem FixedWall_applyVelocityCell_U_own {α : Type} [Field α] (d : Cell) (t : Fields α) :
    (FixedWallBoundary.applyVelocityCell d t).U d.i d.j =
      if d.bottom = true then -t.U d.i (d.j - 1)
      else if d.top = true then -t.U d.i (d.j + 1)
      else if d.right = true then 0
      else t.U d.i d.j := by
  rcases d with ⟨i, j, ty, id, top, bottom, left, right⟩
  cases top <;> cases bottom <;> cases left <;> cases right <;>
    simp [FixedWallBoundary.applyVelocityCell, Cell.is_border, Matrix.write]
  all_goals (intro h; exfalso; omega)

/-- The value the loop body of `FixedWallBoundary::applyVelocity` leaves in `V`
at the position of its cell. -/
theorem FixedWall_applyVelocityCell_V_own {α : Type} [Field α] (d : Cell) (t : Fields α) :
    (FixedWallBoundary.applyVelocityCell d t).V d.i d.j =
      if d.top = true then 0
      else if d.left = true then -t.V (d.i - 1) d.j
      else if d.right = true then -t.V (d.i + 1) d.j
      else t.V d.i d.j := by
  rcases d with ⟨i, j, ty, id, top, bottom, left, right⟩
  cases top <;> cases bottom <;> cases left <;> cases right <;>
    simp [FixedWallBoundary.applyVelocityCell, Cell.is_border, Matrix.write]
  all_goals (intro h; exfalso; omega)

/-- The loop body of `FixedWallBoundary::applyVelocity` leaves 0 on the west
face of a cell with LEFT set and on the south face of a cell with BOTTOM set. -/
theorem FixedWall_applyVelocityCell_faces {α : Type} [Field α] (d : Cell) (t : Fields α) :
    (d.left = true → (FixedWallBoundary.applyVelocityCell d t).U (d.i - 1) d.j = 0) ∧
      (d.bottom = true → (FixedWallBoundary.applyVelocityCell d t).V d.i (d.j - 1) = 0) := by
  rcases d with ⟨i, j, ty, id, top, bottom, left, right⟩
  cases top <;> cases bottom <;> cases left <;> cases right <;>
    simp [FixedWallBoundary.applyVelocityCell, Cell.is_border, Matrix.write]

/-- On a state whose normal velocities on the faces of `d` are 0 already, the
loop body of `FixedWallBoundary::applyVelocity` changes `U` and `V` at the
position of `d` only. -/
theorem FixedWall_applyVelocityCell_off_own {α : Type} [Field α] (d : Cell) (t : Fields α)
    (hl : d.left = true → t.U (d.i - 1) d.j = 0) (hb : d.bottom = true → t.V d.i (d.j - 1) = 0)
    (a b : Int) (hab : ¬(a = d.i ∧ b = d.j)) :
    (FixedWallBoundary.applyVelocityCell d t).U a b = t.U a b ∧
      (FixedWallBoundary.applyVelocityCell d t).V a b = t.V a b := by
  constructor
  · by_cases h : a = d.i - 1 ∧ b = d.j ∧ d.left = true
    · rw [h.1, h.2.1, (FixedWall_applyVelocityCell_faces d t).1 h.2.2, hl h.2.2]
    · exact FixedWall_applyVelocityCell_U_frame d t a b (fun h1 => hab ⟨h1.1, h1.2.1⟩) h
  · by_cases h : a = d.i ∧ b = d.j - 1 ∧ d.bottom = true
    · rw [h.1, h.2.1, (FixedWall_applyVelocityCell_faces d t).2 h.2.2, hb h.2.2]
    · exact FixedWall_applyVelocityCell_V_frame d t a b (fun h1 => hab ⟨h1.1, h1.2.1⟩) h

/-- Two runs of the loop of `FixedWallBoundary::applyVelocity` over a part `l`
of a well-formed list, from two states that agree outside the list positions
and have zero normal velocity on the written faces: an entry that a cell of `l`
writes at its own position ends equal in both runs, every other entry keeps
the value it had in each run. -/
theorem FixedWall_applyVelocity_two_runs {α : Type} [Field α] (cells : List Cell)
    (hout : bordersPointOutside cells) :
    ∀ (l : List Cell), (∀ d ∈ l, d ∈ cells) → ∀ (s1 s2 : Fields α),
      normalFacesZero cells s1 → normalFacesZero cells s2 →
      (∀ a b : Int, (∀ e ∈ cells, ¬(e.i = a ∧ e.j = b)) →
        s1.U a b = s2.U a b ∧ s1.V a b = s2.V a b) →
      ∀ a b : Int,
        ((∃ d ∈ l, a = d.i ∧ b = d.j ∧ (d.right = true ∨ d.top = true ∨ d.bottom = true)) →
          (FixedWallBoundary.applyVelocity l s1).U a b =
            (FixedWallBoundary.applyVelocity l s2).U a b) ∧
        ((¬∃ d ∈ l, a = d.i ∧ b = d.j ∧ (d.right = true ∨ d.top = true ∨ d.bottom = true)) →
          (FixedWallBoundary.applyVelocity l s1).U a b = s1.U a b ∧
            (FixedWallBoundary.applyVelocity l s2).U a b = s2.U a b) ∧
        ((∃ d ∈ l, a = d.i ∧ b = d.j ∧ (d.right = true ∨ d.left = true ∨ d.top = true)) →
          (FixedWallBoundary.applyVelocity l s1).V a b =
            (FixedWallBoundary.applyVelocity l s2).V a b) ∧
        ((¬∃ d ∈ l, a = d.i ∧ b = d.j ∧ (d.right = true ∨ d.left = true ∨ d.top = true)) →
          (FixedWallBoundary.applyVelocity l s1).V a b = s1.V a b ∧
            (FixedWallBoundary.applyVelocity l s2).V a b = s2.V a b) := by
  intro l
  induction l with
  | nil =>
    intro _ s1 s2 _ _ _ a b
    refine ⟨?_, fun _ => ⟨rfl, rfl⟩, ?_, fun _ => ⟨rfl, rfl⟩⟩
    · rintro ⟨d, hd, _⟩
      exact absurd hd (List.not_mem_nil d)
    · rintro ⟨d, hd, _⟩
      exact absurd hd (List.not_mem_nil d)
  | cons d l ih =>
    intro hl s1 s2 hz1 hz2 hag a b
    have hd : d ∈ cells := hl d (List.mem_cons_self d l)
    have hl2 : ∀ e ∈ l, e ∈ cells := fun e he => hl e (List.mem_cons_of_mem d he)
    -- the body changes the position of `d` only, in both runs
    have off1 := FixedWall_applyVelocityCell_off_own d s1 (hz1 d hd).1 (hz1 d hd).2
    have off2 := FixedWall_applyVelocityCell_off_own d s2 (hz2 d hd).1 (hz2 d hd).2
    have hz1n : normalFacesZero cells (FixedWallBoundary.applyVelocityCell d s1) := by
      intro e he
      refine ⟨fun h => ?_, fun h => ?_⟩
      · rw [(off1 _ _ (fun hh => (hout e he d hd).2.1 h ⟨hh.1.symm, hh.2.symm⟩)).1]
        exact (hz1 e he).1 h
      · rw [(off1 _ _ (fun hh => (hout e he d hd).2.2.2 h ⟨hh.1.symm, hh.2.symm⟩)).2]
        exact (hz1 e he).2 h
    have hz2n : normalFacesZero cells (FixedWallBoundary.applyVelocityCell d s2) := by
      intro e he
      refine ⟨fun h => ?_, fun h => ?_⟩
      · rw [(off2 _ _ (fun hh => (hout e he d hd).2.1 h ⟨hh.1.symm, hh.2.symm⟩)).1]
        exact (hz2 e he).1 h
      · rw [(off2 _ _ (fun hh => (hout e he d hd).2.2.2 h ⟨hh.1.symm, hh.2.symm⟩)).2]
        exact (hz2 e he).2 h
    have hagn : ∀ a b : Int, (∀ e ∈ cells, ¬(e.i = a ∧ e.j = b)) →
        (FixedWallBoundary.applyVelocityCell d s1).U a b =
          (FixedWallBoundary.applyVelocityCell d s2).U a b ∧
        (FixedWallBoundary.applyVelocityCell d s1).V a b =
          (FixedWallBoundary.applyVelocityCell d s2).V a b := by
      intro a b hab
      have hne : ¬(a = d.i ∧ b = d.j) := fun hh => hab d hd ⟨hh.1.symm, hh.2.symm⟩
      rw [(off1 a b hne).1, (off1 a b hne).2, (off2 a b hne).1, (off2 a b hne).2]
      exact hag a b hab
    have IH := ih hl2 _ _ hz1n hz2n hagn a b
    -- the values the body writes at the position of `d` agree in both runs
    have ownU : (d.right = true ∨ d.top = true ∨ d.bottom = true) →
        (FixedWallBoundary.applyVelocityCell d s1).U d.i d.j =
          (FixedWallBoundary.applyVelocityCell d s2).U d.i d.j := by
      intro hbits
      rw [FixedWall_applyVelocityCell_U_own, FixedWall_applyVelocityCell_U_own]
      by_cases hb : d.bottom = true
      · rw [if_pos hb, if_pos hb,
          (hag d.i (d.j - 1) (fun e he => (hout d hd e he).2.2.2 hb)).1]
      · by_cases ht : d.top = true
        · rw [if_neg hb, if_neg hb, if_pos ht, if_pos ht,
            (hag d.i (d.j + 1) (fun e he => (hout d hd e he).2.2.1 ht)).1]
        · have hr : d.right = true := by tauto
          rw [if_neg hb, if_neg hb, if_neg ht, if_neg ht, if_pos hr, if_pos hr]
    have ownV : (d.right = true ∨ d.left = true ∨ d.top = true) →
        (FixedWallBoundary.applyVelocityCell d s1).V d.i d.j =
          (FixedWallBoundary.applyVelocityCell d s2).V d.i d.j := by
      intro hbits
      rw [FixedWall_applyVelocityCell_V_own, FixedWall_applyVelocityCell_V_own]
      by_cases ht : d.top = true
      · rw [if_pos ht, if_pos ht]
      · by_cases hlf : d.left = true
        · rw [if_neg ht, if_neg ht, if_pos hlf, if_pos hlf,
            (hag (d.i - 1) d.j (fun e he => (hout d hd e he).2.1 hlf)).2]
        · have hr : d.right = true := by tauto
          rw [if_neg ht, if_neg ht, if_neg hlf, if_neg hlf, if_pos hr, if_pos hr,
            (hag (d.i + 1) d.j (fun e he => (hout d hd e he).1 hr)).2]
    -- entries the body does not write at the position of `d`
    have keepU : ¬(a = d.i ∧ b = d.j ∧ (d.right = true ∨ d.top = true ∨ d.bottom = true)) →
        (FixedWallBoundary.applyVelocityCell d s1).U a b = s1.U a b ∧
          (FixedWallBoundary.applyVelocityCell d s2).U a b = s2.U a b := by
      intro hn
      by_cases hab : a = d.i ∧ b = d.j
      · have hbits : ¬(d.right = true ∨ d.top = true ∨ d.bottom = true) :=
          fun hh => hn ⟨hab.1, hab.2, hh⟩
        have h2 : ¬(a = d.i - 1 ∧ b = d.j ∧ d.left = true) := fun hh => by omega
        exact ⟨FixedWall_applyVelocityCell_U_frame d s1 a b hn h2,
          FixedWall_applyVelocityCell_U_frame d s2 a b hn h2⟩
      · exact ⟨(off1 a b hab).1, (off2 a b hab).1⟩
    have keepV : ¬(a = d.i ∧ b = d.j ∧ (d.right = true ∨ d.left = true ∨ d.top = true)) →
        (FixedWallBoundary.applyVelocityCell d s1).V a b = s1.V a b ∧
          (FixedWallBoundary.applyVelocityCell d s2).V a b = s2.V a b := by
      intro hn
      by_cases hab : a = d.i ∧ b = d.j
      · have h2 : ¬(a = d.i ∧ b = d.j - 1 ∧ d.bottom = true) := fun hh => by omega
        exact ⟨FixedWall_applyVelocityCell_V_frame d s1 a b hn h2,
          FixedWall_applyVelocityCell_V_frame d s2 a b hn h2⟩
      · exact ⟨(off1 a b hab).2, (off2 a b hab).2⟩
    show (_ → (FixedWallBoundary.applyVelocity l (FixedWallBoundary.applyVelocityCell d s1)).U a b =
        (FixedWallBoundary.applyVelocity l (FixedWallBoundary.applyVelocityCell d s2)).U a b) ∧
      (_ → (FixedWallBoundary.applyVelocity l (FixedWallBoundary.applyVelocityCell d s1)).U a b =
          s1.U a b ∧
        (FixedWallBoundary.applyVelocity l (FixedWallBoundary.applyVelocityCell d s2)).U a b =
          s2.U a b) ∧
      (_ → (FixedWallBoundary.applyVelocity l (FixedWallBoundary.applyVelocityCell d s1)).V a b =
        (FixedWallBoundary.applyVelocity l (FixedWallBoundary.applyVelocityCell d s2)).V a b) ∧
      (_ → (FixedWallBoundary.applyVelocity l (FixedWallBoundary.applyVelocityCell d s1)).V a b =
          s1.V a b ∧
        (FixedWallBoundary.applyVelocity l (FixedWallBoundary.applyVelocityCell d s2)).V a b =
          s2.V a b)
    refine ⟨?_, ?_, ?_, ?_⟩
    · rintro ⟨e, he, hw⟩
      by_cases hW : ∃ e ∈ l, a = e.i ∧ b = e.j ∧ (e.right = true ∨ e.top = true ∨ e.bottom = true)
      · exact IH.1 hW
      · rw [(IH.2.1 hW).1, (IH.2.1 hW).2]
        rcases List.mem_cons.mp he with rfl | he
        · rw [hw.1, hw.2.1]
          exact ownU hw.2.2
        · exact absurd ⟨e, he, hw⟩ hW
    · intro hn
      have hW : ¬∃ e ∈ l, a = e.i ∧ b = e.j ∧ (e.right = true ∨ e.top = true ∨ e.bottom = true) :=
        fun ⟨e, he, hw⟩ => hn ⟨e, List.mem_cons_of_mem d he, hw⟩
      have hk := keepU (fun hw => hn ⟨d, List.mem_cons_self d l, hw⟩)
      rw [(IH.2.1 hW).1, (IH.2.1 hW).2]
      exact hk
    · rintro ⟨e, he, hw⟩
      by_cases hW : ∃ e ∈ l, a = e.i ∧ b = e.j ∧ (e.right = true ∨ e.left = true ∨ e.top = true)
      · exact IH.2.2.1 hW
      · rw [(IH.2.2.2 hW).1, (IH.2.2.2 hW).2]
        rcases List.mem_cons.mp he with rfl | he
        · rw [hw.1, hw.2.1]
          exact ownV hw.2.2
        · exact absurd ⟨e, he, hw⟩ hW
    · intro hn
      have hW : ¬∃ e ∈ l, a = e.i ∧ b = e.j ∧ (e.right = true ∨ e.left = true ∨ e.top = true) :=
        fun ⟨e, he, hw⟩ => hn ⟨e, List.mem_cons_of_mem d he, hw⟩
      have hk := keepV (fun hw => hn ⟨d, List.mem_cons_self d l, hw⟩)
      rw [(IH.2.2.2 hW).1, (IH.2.2.2 hW).2]
      exact hk

/-- After one pass of `FixedWallBoundary::applyVelocity` over a well-formed
list, the normal velocity is 0 on every written face. -/
theorem FixedWall_applyVelocity_normalFacesZero {α : Type} [Field α] (cells : List Cell)
    (hout : bordersPointOutside cells) (s : Fields α) :
    normalFacesZero cells (FixedWallBoundary.applyVelocity cells s) := by
  intro e he
  unfold FixedWallBoundary.applyVelocity
  refine ⟨fun hl => ?_, fun hb => ?_⟩
  · apply forCells_establish FixedWallBoundary.applyVelocityCell
      (fun t : Fields α => t.U (e.i - 1) e.j = 0) e
      (fun t => (FixedWall_applyVelocityCell_faces e t).1 hl) cells _ s (Or.inl he)
    intro d hd _ t ht
    show (FixedWallBoundary.applyVelocityCell d t).U (e.i - 1) e.j = 0
    by_cases h : e.i - 1 = d.i - 1 ∧ e.j = d.j ∧ d.left = true
    · rw [h.1, h.2.1]
      exact (FixedWall_applyVelocityCell_faces d t).1 h.2.2
    · rw [FixedWall_applyVelocityCell_U_frame d t (e.i - 1) e.j
        (fun hh => (hout e he d hd).2.1 hl ⟨hh.1.symm, hh.2.1.symm⟩) h]
      exact ht
  · apply forCells_establish FixedWallBoundary.applyVelocityCell
      (fun t : Fields α => t.V e.i (e.j - 1) = 0) e
      (fun t => (FixedWall_applyVelocityCell_faces e t).2 hb) cells _ s (Or.inl he)
    intro d hd _ t ht
    show (FixedWallBoundary.applyVelocityCell d t).V e.i (e.j - 1) = 0
    by_cases h : e.i = d.i ∧ e.j - 1 = d.j - 1 ∧ d.bottom = true
    · rw [h.1, h.2.1]
      exact (FixedWall_applyVelocityCell_faces d t).2 h.2.2
    · rw [FixedWall_applyVelocityCell_V_frame d t e.i (e.j - 1)
        (fun hh => (hout e he d hd).2.2.2 hb ⟨hh.1.symm, hh.2.1.symm⟩) h]
      exact ht

/-- From a state with zero normal velocity on the written faces, a pass of
`FixedWallBoundary::applyVelocity` over a well-formed list keeps that property
and changes no entry outside the list positions. -/
theorem FixedWall_applyVelocity_keeps_outside {α : Type} [Field α] (cells : List Cell)
    (hout : bordersPointOutside cells) (s : Fields α) (hz : normalFacesZero cells s) :
    normalFacesZero cells (FixedWallBoundary.applyVelocity cells s) ∧
      ∀ a b : Int, (∀ e ∈ cells, ¬(e.i = a ∧ e.j = b)) →
        s.U a b = (FixedWallBoundary.applyVelocity cells s).U a b ∧
          s.V a b = (FixedWallBoundary.applyVelocity cells s).V a b := by
  unfold FixedWallBoundary.applyVelocity
  apply forCells_keep FixedWallBoundary.applyVelocityCell
    (fun t : Fields α => normalFacesZero cells t ∧
      ∀ a b : Int, (∀ e ∈ cells, ¬(e.i = a ∧ e.j = b)) →
        s.U a b = t.U a b ∧ s.V a b = t.V a b) cells
  · intro d hd t ht
    have off := FixedWall_applyVelocityCell_off_own d t (ht.1 d hd).1 (ht.1 d hd).2
    refine ⟨?_, ?_⟩
    · intro e he
      refine ⟨fun h => ?_, fun h => ?_⟩
      · rw [(off _ _ (fun hh => (hout e he d hd).2.1 h ⟨hh.1.symm, hh.2.symm⟩)).1]
        exact (ht.1 e he).1 h
      · rw [(off _ _ (fun hh => (hout e he d hd).2.2.2 h ⟨hh.1.symm, hh.2.symm⟩)).2]
        exact (ht.1 e he).2 h
    · intro a b hab
      have hne : ¬(a = d.i ∧ b = d.j) := fun hh => hab d hd ⟨hh.1.symm, hh.2.symm⟩
      rw [(off a b hne).1, (off a b hne).2]
      exact ht.2 a b hab
  · exact ⟨hz, fun _ _ _ => ⟨rfl, rfl⟩⟩

/-- C18 (amended): for a fixed-wall cell list, in any order, whose set border
bits point outside the list (to fluid cells): on a field state whose normal
velocity is already 0 on the faces the list writes into fluid cells (`U(i-1,j)`
for a cell with LEFT set, `V(i,j-1)` for a cell with BOTTOM set), applying
`applyVelocity` twice yields the same `U` and `V` as applying it once; every state
has that property after one application, so from any state the third
application changes nothing. -/
theorem FixedWall_applyVelocity_idempotent_on_zero_normal {α : Type} [Field α]
    (cells : List Cell) (s : Fields α) (hout : bordersPointOutside cells) :
    (normalFacesZero cells s →
      (FixedWallBoundary.applyVelocity cells (FixedWallBoundary.applyVelocity cells s)).U =
          (FixedWallBoundary.applyVelocity cells s).U ∧
        (FixedWallBoundary.applyVelocity cells (FixedWallBoundary.applyVelocity cells s)).V =
          (FixedWallBoundary.applyVelocity cells s).V) ∧
    normalFacesZero cells (FixedWallBoundary.applyVelocity cells s) ∧
    (FixedWallBoundary.applyVelocity cells
        (FixedWallBoundary.applyVelocity cells (FixedWallBoundary.applyVelocity cells s))).U =
      (FixedWallBoundary.applyVelocity cells (FixedWallBoundary.applyVelocity cells s)).U ∧
    (FixedWallBoundary.applyVelocity cells
        (FixedWallBoundary.applyVelocity cells (FixedWallBoundary.applyVelocity cells s))).V =
      (FixedWallBoundary.applyVelocity cells (FixedWallBoundary.applyVelocity cells s)).V := by
  have key : ∀ t : Fields α, normalFacesZero cells t →
      (FixedWallBoundary.applyVelocity cells (FixedWallBoundary.applyVelocity cells t)).U =
          (FixedWallBoundary.applyVelocity cells t).U ∧
        (FixedWallBoundary.applyVelocity cells (FixedWallBoundary.applyVelocity cells t)).V =
          (FixedWallBoundary.applyVelocity cells t).V := by
    intro t hz
    have hk := FixedWall_applyVelocity_keeps_outside cells hout t hz
    have h2 := fun a b => FixedWall_applyVelocity_two_runs cells hout cells (fun _ h => h) t
      (FixedWallBoundary.applyVelocity cells t) hz hk.1 hk.2 a b
    constructor
    · funext a b
      by_cases hW : ∃ d ∈ cells, a = d.i ∧ b = d.j ∧
          (d.right = true ∨ d.top = true ∨ d.bottom = true)
      · exact ((h2 a b).1 hW).symm
      · exact ((h2 a b).2.1 hW).2
    · funext a b
      by_cases hW : ∃ d ∈ cells, a = d.i ∧ b = d.j ∧
          (d.right = true ∨ d.left = true ∨ d.top = true)
      · exact ((h2 a b).2.2.1 hW).symm
      · exact ((h2 a b).2.2.2 hW).2
  have hz1 := FixedWall_applyVelocity_normalFacesZero cells hout s
  exact ⟨key s, hz1, key _ hz1⟩

/-- Witness of C18 (amended): the corner list of the counterexample on the state
`exZeroNormalFields`, whose normal velocity `V(3,3)` is 0. The first application
changes the state (`U(3,4)` from 12 to -10, `V(2,3)` from 10 to 0), the second
changes nothing. -/
theorem FixedWall_applyVelocity_idempotent_on_zero_normal_witness :
    bordersPointOutside
        [wallCell 2 3 false false false true, wallCell 3 4 false true false false] ∧
      normalFacesZero [wallCell 2 3 false false false true, wallCell 3 4 false true false false]
        (exZeroNormalFields ℚ) ∧
      (exZeroNormalFields ℚ).U 3 4 = 12 ∧
      (FixedWallBoundary.applyVelocity
        [wallCell 2 3 false false false true, wallCell 3 4 false true false false]
        (exZeroNormalFields ℚ)).U 3 4 = -10 ∧
      (exZeroNormalFields ℚ).V 2 3 = 10 ∧
      (FixedWallBoundary.applyVelocity
        [wallCell 2 3 false false false true, wallCell 3 4 false true false false]
        (exZeroNormalFields ℚ)).V 2 3 = 0 ∧
      (FixedWallBoundary.applyVelocity
          [wallCell 2 3 false false false true, wallCell 3 4 false true false false]
          (FixedWallBoundary.applyVelocity
            [wallCell 2 3 false false false true, wallCell 3 4 false true false false]
            (exZeroNormalFields ℚ))).U =
        (FixedWallBoundary.applyVelocity
          [wallCell 2 3 false false false true, wallCell 3 4 false true false false]
          (exZeroNormalFields ℚ)).U ∧
      (FixedWallBoundary.applyVelocity
          [wallCell 2 3 false false false true, wallCell 3 4 false true false false]
          (FixedWallBoundary.applyVelocity
            [wallCell 2 3 false false false true, wallCell 3 4 false true false false]
            (exZeroNormalFields ℚ))).V =
        (FixedWallBoundary.applyVelocity
          [wallCell 2 3 false false false true, wallCell 3 4 false true false false]
          (exZeroNormalFields ℚ)).V :=
  have hout : bordersPointOutside
      [wallCell 2 3 false false false true, wallCell 3 4 false true false false] := by decide
  have hz : normalFacesZero
      [wallCell 2 3 false false false true, wallCell 3 4 false true false false]
      (exZeroNormalFields ℚ) := by
    intro d hd
    simp only [List.mem_cons, List.mem_singleton, List.not_mem_nil, or_false] at hd
    rcases hd with rfl | rfl
    · exact ⟨fun h => absurd h (by decide), fun h => absurd h (by decide)⟩
    · refine ⟨fun h => absurd h (by decide), fun _ => ?_⟩
      norm_num [exZeroNormalFields, Matrix.write, wallCell]
  ⟨hout, hz,
    by norm_num [exZeroNormalFields, exWallFields],
    by norm_num [FixedWallBoundary.applyVelocity, FixedWallBoundary.applyVelocityCell, forCells,
      wallCell, Cell.is_border, Matrix.write, exZeroNormalFields, exWallFields],
    by norm_num [exZeroNormalFields, exWallFields, Matrix.write],
    by norm_num [FixedWallBoundary.applyVelocity, FixedWallBoundary.applyVelocityCell, forCells,
      wallCell, Cell.is_border, Matrix.write, exZeroNormalFields, exWallFields],
    (FixedWall_applyVelocity_idempotent_on_zero_normal
      [wallCell 2 3 false false false true, wallCell 3 4 false true false false]
      (exZeroNormalFields ℚ) hout).1 hz⟩

/-- C18 as stated fails: the list of the left wall cell `(2,3)` (only RIGHT set)
and the top wall cell `(3,4)` (only BOTTOM set) around the fluid cell `(3,3)` has
every set border bit pointing outside the list; with `V(3,3) = 12` before the
call, one application leaves `V(2,3) = -12` and two applications leave
`V(2,3) = 0`. -/
theorem FixedWall_applyVelocity_twice_counterexample :
    bordersPointOutside [wallCell 2 3 false false false true, wallCell 3 4 false true false false] ∧
      (FixedWallBoundary.applyVelocity
        [wallCell 2 3 false false false true, wallCell 3 4 false true false false]
        (exWallFields ℚ)).V 2 3 = -12 ∧
      (FixedWallBoundary.applyVelocity
        [wallCell 2 3 false false false true, wallCell 3 4 false true false false]
        (FixedWallBoundary.applyVelocity
          [wallCell 2 3 false false false true, wallCell 3 4 false true false false]
          (exWallFields ℚ))).V 2 3 = 0 ∧
      (FixedWallBoundary.applyVelocity
        [wallCell 2 3 false false false true, wallCell 3 4 false true false false]
        (FixedWallBoundary.applyVelocity
          [wallCell 2 3 false false false true, wallCell 3 4 false true false false]
          (exWallFields ℚ))).V ≠
      (FixedWallBoundary.applyVelocity
        [wallCell 2 3 false false false true, wallCell 3 4 false true false false]
        (exWallFields ℚ)).V := by
  have h1 : (FixedWallBoundary.applyVelocity
      [wallCell 2 3 false false false true, wallCell 3 4 false true false false]
      (exWallFields ℚ)).V 2 3 = -12 := by
    norm_num [FixedWallBoundary.applyVelocity, FixedWallBoundary.applyVelocityCell, forCells,
      wallCell, Cell.is_border, Matrix.write, exWallFields]
  have h2 : (FixedWallBoundary.applyVelocity
      [wallCell 2 3 false false false true, wallCell 3 4 false true false false]
      (FixedWallBoundary.applyVelocity
        [wallCell 2 3 false false false true, wallCell 3 4 false true false false]
        (exWallFields ℚ))).V 2 3 = 0 := by
    norm_num [FixedWallBoundary.applyVelocity, FixedWallBoundary.applyVelocityCell, forCells,
      wallCell, Cell.is_border, Matrix.write, exWallFields]
  refine ⟨by decide, h1, h2, fun h => ?_⟩
  have h3 := congrFun (congrFun h 2) 3
  rw [h1, h2] at h3
  norm_num at h3

/-! ## Mass conservation on a closed box -/

theorem mem_intRange (lo hi k : Int) : k ∈ intRange lo hi ↔ lo ≤ k ∧ k ≤ hi := by
  unfold intRange
  simp only [List.mem_map, List.mem_range]
  constructor
  · rintro ⟨n, hn, rfl⟩
    omega
  · intro h
    exact ⟨(k - lo).toNat, by omega, by omega⟩

/-- Telescoping sum over a counter range starting at 1. -/
theorem sum_intRange_telescope {α : Type} [Field α] (f : Int → α) (hi : Int) (h : 0 ≤ hi) :
    ((intRange 1 hi).map (fun k => f k - f (k - 1))).sum = f hi - f 0 := by
  unfold intRange
  have e : (hi + 1 - 1).toNat = hi.toNat := by congr 1; ring
  rw [e]
  have key : ∀ n : Nat,
      (((List.range n).map (fun k : Nat => (1 : Int) + (k : Int))).map
        (fun k => f k - f (k - 1))).sum = f (n : Int) - f 0 := by
    intro n
    induction n with
    | zero => simp
    | succ n ih =>
      rw [List.range_succ, List.map_append, List.map_append, List.sum_append, ih]
      simp only [List.map_cons, List.map_nil, List.sum_cons, List.sum_nil, add_zero]
      have e1 : (1 : Int) + (n : Int) - 1 = (n : Int) := by ring
      have e2 : ((n + 1 : Nat) : Int) = 1 + (n : Int) := by push_cast; ring
      rw [e1, e2]
      ring
  have e3 : ((hi.toNat : Nat) : Int) = hi := Int.toNat_of_nonneg h
  have := key hi.toNat
  rw [e3] at this
  exact this

theorem list_sum_map_add {α ι : Type} [Field α] (l : List ι) (f g : ι → α) :
    (l.map (fun x => f x + g x)).sum = (l.map f).sum + (l.map g).sum := by
  induction l with
  | nil => simp
  | cons a l ih =>
    simp only [List.map_cons, List.sum_cons, ih]
    ring

theorem list_sum_map_sub {α ι : Type} [Field α] (l : List ι) (f g : ι → α) :
    (l.map (fun x => f x - g x)).sum = (l.map f).sum - (l.map g).sum := by
  induction l with
  | nil => simp
  | cons a l ih =>
    simp only [List.map_cons, List.sum_cons, ih]
    ring

theorem list_sum_map_div {α ι : Type} [Field α] (l : List ι) (f : ι → α) (c : α) :
    (l.map (fun x => f x / c)).sum = (l.map f).sum / c := by
  induction l with
  | nil => simp
  | cons a l ih =>
    simp only [List.map_cons, List.sum_cons, ih]
    ring

theorem list_sum_map_zero {α ι : Type} [Field α] (l : List ι) (f : ι → α)
    (h : ∀ x ∈ l, f x = 0) : (l.map f).sum = 0 := by
  induction l with
  | nil => simp
  | cons a l ih =>
    rw [List.map_cons, List.sum_cons, h a (List.mem_cons_self a l),
      ih (fun x hx => h x (List.mem_cons_of_mem a hx)), add_zero]

/-- The sum over the rectangle is the iterated sum over its columns and rows. -/
theorem sum_rectCells {α : Type} [Field α] (sx sy : Int) (f : Int → Int → α) :
    ((rectCells sx sy).map (fun p => f p.1 p.2)).sum =
      ((intRange 1 sx).map (fun i => ((intRange 1 sy).map (fun j => f i j)).sum)).sum := by
  unfold rectCells
  induction intRange 1 sx with
  | nil => simp
  | cons a l ih =>
    rw [List.flatMap_cons, List.map_append, List.sum_append, ih, List.map_cons, List.sum_cons,
      List.map_map]
    rfl

/-- The divergence sum over a rectangle telescopes to the face velocities of
its four sides. -/
theorem rect_divergence_telescope {α : Type} [Field α] (U V : Matrix α) (dx dy : α)
    (sx sy : Int) (hx : 0 ≤ sx) (hy : 0 ≤ sy) :
    ((rectCells sx sy).map (fun p =>
        (U p.1 p.2 - U (p.1 - 1) p.2) / dx + (V p.1 p.2 - V p.1 (p.2 - 1)) / dy)).sum =
      (((intRange 1 sy).map (fun j => U sx j)).sum -
          ((intRange 1 sy).map (fun j => U 0 j)).sum) / dx +
        ((intRange 1 sx).map (fun i => V i sy - V i 0)).sum / dy := by
  rw [sum_rectCells sx sy
    (fun i j => (U i j - U (i - 1) j) / dx + (V i j - V i (j - 1)) / dy)]
  have h1 : ∀ i : Int,
      ((intRange 1 sy).map (fun j => (U i j - U (i - 1) j) / dx + (V i j - V i (j - 1)) / dy)).sum =
        (((intRange 1 sy).map (fun j => U i j)).sum -
            ((intRange 1 sy).map (fun j => U (i - 1) j)).sum) / dx +
          (V i sy - V i 0) / dy := by
    intro i
    rw [list_sum_map_add, list_sum_map_div, list_sum_map_div, list_sum_map_sub,
      sum_intRange_telescope (fun j => V i j) sy hy]
  simp only [h1]
  rw [list_sum_map_add, list_sum_map_div, list_sum_map_div,
    sum_intRange_telescope (fun i => ((intRange 1 sy).map (fun j => U i j)).sum) sx hx]

theorem Boundary_applyVelocity_eq_forCells {α : Type} [Field α] (b : Boundary α) (s : Fields α) :
    b.applyVelocity s = forCells b.cells b.applyVelocityCell s := by
  cases b <;> rfl

/-- Entries of `U` the loop body of any boundary's `applyVelocity` leaves alone. -/
theorem Boundary_applyVelocityCell_U_frame {α : Type} [Field α] (bd : Boundary α) (d : Cell)
    (t : Fields α) (a b : Int)
    (h1 : ¬(a = d.i ∧ b = d.j ∧ (d.right = true ∨ d.top = true ∨ d.bottom = true)))
    (h2 : ¬(a = d.i - 1 ∧ b = d.j ∧ d.left = true)) :
    (bd.applyVelocityCell d t).U a b = t.U a b := by
  cases bd with
  | FixedWallBoundary cells => exact FixedWall_applyVelocityCell_U_frame d t a b h1 h2
  | MovingWallBoundary cells wv => exact MovingWall_applyVelocityCell_U_frame wv d t a b h1 h2
  | InflowBoundary cells u v => rfl
  | OutflowBoundary cells u v => rfl

/-- Entries of `V` the loop body of any boundary's `applyVelocity` leaves alone. -/
theorem Boundary_applyVelocityCell_V_frame {α : Type} [Field α] (bd : Boundary α) (d : Cell)
    (t : Fields α) (a b : Int)
    (h1 : ¬(a = d.i ∧ b = d.j ∧ (d.right = true ∨ d.left = true ∨ d.top = true)))
    (h2 : ¬(a = d.i ∧ b = d.j - 1 ∧ d.bottom = true)) :
    (bd.applyVelocityCell d t).V a b = t.V a b := by
  cases bd with
  | FixedWallBoundary cells => exact FixedWall_applyVelocityCell_V_frame d t a b h1 h2
  | MovingWallBoundary cells wv => exact MovingWall_applyVelocityCell_V_frame wv d t a b h1 h2
  | InflowBoundary cells u v => rfl
  | OutflowBoundary cells u v => rfl

/-- The loop body of a fixed or moving wall leaves a zero normal velocity on
the wall face of a cell with exactly one border bit set. -/
theorem Wall_applyVelocityCell_normal {α : Type} [Field α] (bd : Boundary α)
    (hw : bd.isWall = true) (c : Cell) (t : Fields α) :
    (c.onlyBorder border_position.RIGHT → (bd.applyVelocityCell c t).U c.i c.j = 0) ∧
    (c.onlyBorder border_position.LEFT → (bd.applyVelocityCell c t).U (c.i - 1) c.j = 0) ∧
    (c.onlyBorder border_position.TOP → (bd.applyVelocityCell c t).V c.i c.j = 0) ∧
    (c.onlyBorder border_position.BOTTOM → (bd.applyVelocityCell c t).V c.i (c.j - 1) = 0) := by
  cases bd with
  | FixedWallBoundary cells =>
    have h := FixedWall_applyVelocityCell_single c t
    exact ⟨fun hb => (h.1 hb).1, fun hb => (h.2.1 hb).1, fun hb => (h.2.2.1 hb).1,
      fun hb => (h.2.2.2 hb).1⟩
  | MovingWallBoundary cells wv =>
    have h := MovingWall_applyVelocityCell_single wv c t
    exact ⟨fun hb => (h.1 hb).1, fun hb => (h.2.1 hb).1, fun hb => (h.2.2.1 hb).1,
      fun hb => (h.2.2.2 hb).1⟩
  | InflowBoundary cells u v => exact absurd hw (by simp [Boundary.isWall])
  | OutflowBoundary cells u v => exact absurd hw (by simp [Boundary.isWall])

/-- A property that the loop body of every boundary keeps for every cell, and
that the body of one boundary of the list establishes for one of its cells,
holds after the velocity boundary conditions of all boundaries. -/
theorem applyVelocityAll_establish {α : Type} [Field α] (Q : Fields α → Prop)
    (walls : List (Boundary α))
    (hkeep : ∀ b ∈ walls, ∀ d ∈ b.cells, ∀ t, Q t → Q (b.applyVelocityCell d t))
    (b0 : Boundary α) (c : Cell) (hc : c ∈ b0.cells) (hest : ∀ t, Q (b0.applyVelocityCell c t))
    (s : Fields α) (h : b0 ∈ walls ∨ Q s) : Q (applyVelocityAll walls s) := by
  unfold applyVelocityAll
  induction walls generalizing s with
  | nil =>
    rcases h with h | h
    · exact absurd h (List.not_mem_nil b0)
    · exact h
  | cons b l ih =>
    rw [List.foldl_cons]
    apply ih (fun e he => hkeep e (List.mem_cons_of_mem b he))
    have hkb := hkeep b (List.mem_cons_self b l)
    rw [Boundary_applyVelocity_eq_forCells]
    by_cases hb : b0 = b
    · right
      subst hb
      exact forCells_establish b0.applyVelocityCell Q c hest b0.cells
        (fun d hd _ t ht => hkb d hd t ht) s (Or.inl hc)
    · rcases h with h | h
      · left
        rcases List.mem_cons.mp h with h | h
        · exact absurd h hb
        · exact h
      · right
        exact forCells_keep b.applyVelocityCell Q b.cells hkb s h

/-- The border bits of a wall cell of the box tell its side. -/
theorem boxWallCell_bits (sx sy : Int) (d : Cell) (h : boxWallCell sx sy d) :
    (d.right = true → d.i = 0 ∧ d.onlyBorder border_position.RIGHT) ∧
    (d.left = true → d.i = sx + 1 ∧ d.onlyBorder border_position.LEFT) ∧
    (d.top = true → d.j = 0 ∧ d.onlyBorder border_position.TOP) ∧
    (d.bottom = true → d.j = sy + 1 ∧ d.onlyBorder border_position.BOTTOM) := by
  rcases d with ⟨i, j, ty, id, top, bottom, left, right⟩
  rcases h with h | h | h | h | h
  · obtain ⟨h1, _, _, hb⟩ := h
    simp [Cell.onlyBorder, Cell.is_border] at hb
    obtain ⟨rfl, rfl, rfl, rfl⟩ := hb
    simp [Cell.onlyBorder, Cell.is_border]
    exact h1
  · obtain ⟨h1, _, _, hb⟩ := h
    simp [Cell.onlyBorder, Cell.is_border] at hb
    obtain ⟨rfl, rfl, rfl, rfl⟩ := hb
    simp [Cell.onlyBorder, Cell.is_border]
    exact h1
  · obtain ⟨h1, _, _, hb⟩ := h
    simp [Cell.onlyBorder, Cell.is_border] at hb
    obtain ⟨rfl, rfl, rfl, rfl⟩ := hb
    simp [Cell.onlyBorder, Cell.is_border]
    exact h1
  · obtain ⟨h1, _, _, hb⟩ := h
    simp [Cell.onlyBorder, Cell.is_border] at hb
    obtain ⟨rfl, rfl, rfl, rfl⟩ := hb
    simp [Cell.onlyBorder, Cell.is_border]
    exact h1
  · obtain ⟨_, _, h1, h2, h3, h4⟩ := h
    simp only at h1 h2 h3 h4
    subst h1 h2 h3 h4
    simp

/-- The wall cell of the box at a side position has the border bit of that side. -/
theorem boxWallCell_side (sx sy : Int) (hx : 1 ≤ sx) (hy : 1 ≤ sy) (d : Cell)
    (h : boxWallCell sx sy d) :
    (d.i = 0 → 1 ≤ d.j → d.j ≤ sy → d.onlyBorder border_position.RIGHT) ∧
    (d.i = sx + 1 → 1 ≤ d.j → d.j ≤ sy → d.onlyBorder border_position.LEFT) ∧
    (d.j = 0 → 1 ≤ d.i → d.i ≤ sx → d.onlyBorder border_position.TOP) ∧
    (d.j = sy + 1 → 1 ≤ d.i → d.i ≤ sx → d.onlyBorder border_position.BOTTOM) := by
  rcases h with h | h | h | h | h
  · exact ⟨fun _ _ _ => h.2.2.2, fun _ _ _ => by omega, fun _ _ _ => by omega,
      fun _ _ _ => by omega⟩
  · exact ⟨fun _ _ _ => by omega, fun _ _ _ => h.2.2.2, fun _ _ _ => by omega,
      fun _ _ _ => by omega⟩
  · exact ⟨fun _ _ _ => by omega, fun _ _ _ => by omega, fun _ _ _ => h.2.2.2,
      fun _ _ _ => by omega⟩
  · exact ⟨fun _ _ _ => by omega, fun _ _ _ => by omega, fun _ _ _ => by omega,
      fun _ _ _ => h.2.2.2⟩
  · exact ⟨fun _ _ _ => by omega, fun _ _ _ => by omega, fun _ _ _ => by omega,
      fun _ _ _ => by omega⟩

/-- After the velocity boundary conditions of the walls of a closed box, the
normal velocity is 0 on the four sides: `U(0,j) = U(sx,j) = 0` for `1 ≤ j ≤ sy` and
`V(i,0) = V(i,sy) = 0` for `1 ≤ i ≤ sx`. -/
theorem closedBox_normal_zero {α : Type} [Field α] (grid : Grid α) (walls : List (Boundary α))
    (hbox : closedBox grid walls) (hx : 1 ≤ grid.size_x) (hy : 1 ≤ grid.size_y)
    (s : Fields α) :
    (∀ j : Int, 1 ≤ j → j ≤ grid.size_y →
      (applyVelocityAll walls s).U 0 j = 0 ∧ (applyVelocityAll walls s).U grid.size_x j = 0) ∧
    (∀ i : Int, 1 ≤ i → i ≤ grid.size_x →
      (applyVelocityAll walls s).V i 0 = 0 ∧ (applyVelocityAll walls s).V i grid.size_y = 0) := by
  obtain ⟨_, hwall, hcells, hcol, hrow⟩ := hbox
  constructor
  · intro j hj1 hj2
    obtain ⟨⟨b1, hb1, c1, hc1, hc1i, hc1j⟩, ⟨b2, hb2, c2, hc2, hc2i, hc2j⟩⟩ := hcol j hj1 hj2
    constructor
    · have hside := (boxWallCell_side _ _ hx hy c1 (hcells b1 hb1 c1 hc1)).1 hc1i
        (by omega) (by omega)
      apply applyVelocityAll_establish (fun t : Fields α => t.U 0 j = 0) walls _ b1 c1 hc1
        (fun t => by
          have h := (Wall_applyVelocityCell_normal b1 (hwall b1 hb1) c1 t).1 hside
          rw [hc1i, hc1j] at h
          exact h) s (Or.inl hb1)
      intro b hb d hd t ht
      have hbits := boxWallCell_bits _ _ d (hcells b hb d hd)
      show (b.applyVelocityCell d t).U 0 j = 0
      by_cases h1 : (0 : Int) = d.i ∧ j = d.j ∧ (d.right = true ∨ d.top = true ∨ d.bottom = true)
      · rcases h1.2.2 with hr | ht' | hb'
        · have h := (Wall_applyVelocityCell_normal b (hwall b hb) d t).1 (hbits.1 hr).2
          rw [← h1.1, ← h1.2.1] at h
          exact h
        · have := (hbits.2.2.1 ht').1
          omega
        · have := (hbits.2.2.2 hb').1
          omega
      · rw [Boundary_applyVelocityCell_U_frame b d t 0 j h1
          (fun h2 => by have := (hbits.2.1 h2.2.2).1; omega)]
        exact ht
    · have hside := (boxWallCell_side _ _ hx hy c2 (hcells b2 hb2 c2 hc2)).2.1 hc2i
        (by omega) (by omega)
      apply applyVelocityAll_establish (fun t : Fields α => t.U grid.size_x j = 0) walls _ b2 c2
        hc2
        (fun t => by
          have h := (Wall_applyVelocityCell_normal b2 (hwall b2 hb2) c2 t).2.1 hside
          rw [hc2i, hc2j] at h
          have e : grid.size_x + 1 - 1 = grid.size_x := by ring
          rw [e] at h
          exact h) s (Or.inl hb2)
      intro b hb d hd t ht
      have hbits := boxWallCell_bits _ _ d (hcells b hb d hd)
      show (b.applyVelocityCell d t).U grid.size_x j = 0
      by_cases h2 : grid.size_x = d.i - 1 ∧ j = d.j ∧ d.left = true
      · have h := (Wall_applyVelocityCell_normal b (hwall b hb) d t).2.1 (hbits.2.1 h2.2.2).2
        rw [← h2.1, ← h2.2.1] at h
        exact h
      · rw [Boundary_applyVelocityCell_U_frame b d t grid.size_x j
          (fun h1 => by
            rcases h1.2.2 with hr | ht' | hb'
            · have := (hbits.1 hr).1
              omega
            · have := (hbits.2.2.1 ht').1
              omega
            · have := (hbits.2.2.2 hb').1
              omega) h2]
        exact ht
  · intro i hi1 hi2
    obtain ⟨⟨b1, hb1, c1, hc1, hc1i, hc1j⟩, ⟨b2, hb2, c2, hc2, hc2i, hc2j⟩⟩ := hrow i hi1 hi2
    constructor
    · have hside := (boxWallCell_side _ _ hx hy c1 (hcells b1 hb1 c1 hc1)).2.2.1 hc1j
        (by omega) (by omega)
      apply applyVelocityAll_establish (fun t : Fields α => t.V i 0 = 0) walls _ b1 c1 hc1
        (fun t => by
          have h := (Wall_applyVelocityCell_normal b1 (hwall b1 hb1) c1 t).2.2.1 hside
          rw [hc1i, hc1j] at h
          exact h) s (Or.inl hb1)
      intro b hb d hd t ht
      have hbits := boxWallCell_bits _ _ d (hcells b hb d hd)
      show (b.applyVelocityCell d t).V i 0 = 0
      by_cases h1 : i = d.i ∧ (0 : Int) = d.j ∧ (d.right = true ∨ d.left = true ∨ d.top = true)
      · rcases h1.2.2 with hr | hl | ht'
        · have := (hbits.1 hr).1
          omega
        · have := (hbits.2.1 hl).1
          omega
        · have h := (Wall_applyVelocityCell_normal b (hwall b hb) d t).2.2.1 (hbits.2.2.1 ht').2
          rw [← h1.1, ← h1.2.1] at h
          exact h
      · rw [Boundary_applyVelocityCell_V_frame b d t i 0 h1
          (fun h2 => by have := (hbits.2.2.2 h2.2.2).1; omega)]
        exact ht
    · have hside := (boxWallCell_side _ _ hx hy c2 (hcells b2 hb2 c2 hc2)).2.2.2 hc2j
        (by omega) (by omega)
      apply applyVelocityAll_establish (fun t : Fields α => t.V i grid.size_y = 0) walls _ b2 c2
        hc2
        (fun t => by
          have h := (Wall_applyVelocityCell_normal b2 (hwall b2 hb2) c2 t).2.2.2 hside
          rw [hc2i, hc2j] at h
          have e : grid.size_y + 1 - 1 = grid.size_y := by ring
          rw [e] at h
          exact h) s (Or.inl hb2)
      intro b hb d hd t ht
      have hbits := boxWallCell_bits _ _ d (hcells b hb d hd)
      show (b.applyVelocityCell d t).V i grid.size_y = 0
      by_cases h2 : i = d.i ∧ grid.size_y = d.j - 1 ∧ d.bottom = true
      · have h := (Wall_applyVelocityCell_normal b (hwall b hb) d t).2.2.2 (hbits.2.2.2 h2.2.2).2
        rw [← h2.1, ← h2.2.1] at h
        exact h
      · rw [Boundary_applyVelocityCell_V_frame b d t i grid.size_y
          (fun h1 => by
            rcases h1.2.2 with hr | hl | ht'
            · have := (hbits.1 hr).1
              omega
            · have := (hbits.2.1 hl).1
              omega
            · have := (hbits.2.2.1 ht').1
              omega) h2]
        exact ht

/-- The example walls and grid form a closed box. -/
theorem exBox_closedBox : closedBox (exBoxGrid ℚ) (exBoxWalls ℚ) := by
  refine ⟨?_, ?_, ?_, ?_, ?_⟩
  · decide
  · decide
  · decide
  · intro j h1 h2
    have hj : j = 1 := by
      have : (exBoxGrid ℚ).size_y = 1 := rfl
      omega
    subst hj
    exact ⟨⟨Boundary.FixedWallBoundary _, List.mem_cons_self _ _,
        wallCell 0 1 false false false true, by decide, rfl, rfl⟩,
      ⟨Boundary.FixedWallBoundary _, List.mem_cons_self _ _,
        wallCell 3 1 false false true false, by decide, rfl, rfl⟩⟩
  · intro i h1 h2
    have hi : i = 1 ∨ i = 2 := by
      have : (exBoxGrid ℚ).size_x = 2 := rfl
      omega
    rcases hi with rfl | rfl
    · exact ⟨⟨Boundary.FixedWallBoundary _, List.mem_cons_self _ _,
          wallCell 1 0 true false false false, by decide, rfl, rfl⟩,
        ⟨MovingWallBoundary.ofVelocity _ 1, List.mem_cons_of_mem _ (List.mem_cons_self _ _),
          movingCell 1 2 8 false true false false, by decide, rfl, rfl⟩⟩
    · exact ⟨⟨Boundary.FixedWallBoundary _, List.mem_cons_self _ _,
          wallCell 2 0 true false false false, by decide, rfl, rfl⟩,
        ⟨MovingWallBoundary.ofVelocity _ 1, List.mem_cons_of_mem _ (List.mem_cons_self _ _),
          movingCell 2 2 8 false true false false, by decide, rfl, rfl⟩⟩

/-- With the assertions compiled out `K_EPS_model::solve` returns the state of
the plain loop of cell updates; with assertions, a returned state is that
state. -/
theorem K_EPS_solveCells_eq {α : Type} [LinearOrderedField α] (m : K_EPS_model α)
    (ops : KEPSOperators α) (dt nu : α) (cells : List Cell) (s : Fields α) :
    K_EPS_model.solveCells m ops true dt nu cells s =
        some (forCells cells (m.updateCell ops dt nu) s) ∧
      ∀ (ndebug : Bool) (s2 : Fields α),
        K_EPS_model.solveCells m ops ndebug dt nu cells s = some s2 →
          s2 = forCells cells (m.updateCell ops dt nu) s := by
  induction cells generalizing s with
  | nil =>
    refine ⟨rfl, fun nd s2 h => ?_⟩
    simp only [K_EPS_model.solveCells, Option.some.injEq] at h
    exact h.symm
  | cons c l ih =>
    refine ⟨?_, fun nd s2 h => ?_⟩
    · rw [forCells_cons]
      simp only [K_EPS_model.solveCells, Bool.true_or, if_true]
      exact (ih _).1
    · rw [forCells_cons]
      simp only [K_EPS_model.solveCells] at h
      split_ifs at h
      exact (ih _).2 nd s2 h

/-- The first assertion of the loop body of `K_EPS_model::solve`, `nuT != nuT`,
fails for every value of the model. -/
theorem K_EPS_assertionsHold_false {α : Type} [LinearOrderedField α] (nuT : α) :
    K_EPS_model.assertionsHold nuT = false := by
  simp [K_EPS_model.assertionsHold]

/-- In a build with assertions `K_EPS_model::solve` aborts at the first fluid
cell, whatever the field state. -/
theorem K_EPS_solve_aborts {α : Type} [LinearOrderedField α] (m : K_EPS_model α)
    (ops : KEPSOperators α) (s : Fields α) (grid : Grid α) (hne : grid.fluid_cells ≠ []) :
    m.solve ops false s grid = none := by
  unfold K_EPS_model.solve
  cases h : grid.fluid_cells with
  | nil => exact absurd h hne
  | cons c l => simp [K_EPS_model.solveCells, K_EPS_assertionsHold_false]

/-- C21: with assertions compiled in, `K_EPS_model::solve` does not complete on
finite positive values. For the standard constants, `K = E = 1`, `nuT = 0`, `nu = 1`,
`dt = 1/2`, `U(i,j) = i`, `V(i,j) = j` and the fluid cells `(1,1)`, `(2,1)`, the first cell
computes `nuT = 81/592`, finite and positive; the assertion `nuT != nuT` fails there
and no state is returned, while the same loop without assertions returns one. -/
theorem K_EPS_solve_assertion_fails :
    ((exKEPS ℚ).cellValues (exKEPSOperators ℚ) (exFields ℚ).dt (exFields ℚ).nu (fluidCell 1 1)
        (exFields ℚ)).2.2 = 81 / 592 ∧
      K_EPS_model.assertionsHold ((exKEPS ℚ).cellValues (exKEPSOperators ℚ) (exFields ℚ).dt
        (exFields ℚ).nu (fluidCell 1 1) (exFields ℚ)).2.2 = false ∧
      (exKEPS ℚ).solve (exKEPSOperators ℚ) false (exFields ℚ)
        (exGrid 2 1 1 1 [fluidCell 1 1, fluidCell 2 1]) = none ∧
      ((exKEPS ℚ).solve (exKEPSOperators ℚ) true (exFields ℚ)
        (exGrid 2 1 1 1 [fluidCell 1 1, fluidCell 2 1])).isSome = true := by
  refine ⟨?_, K_EPS_assertionsHold_false _, ?_, ?_⟩
  · norm_num [K_EPS_model.cellValues, exKEPS, exKEPSOperators, exFields, fluidCell]
  · exact K_EPS_solve_aborts _ _ _ _ (by simp [exGrid])
  · rw [K_EPS_model.solve, (K_EPS_solveCells_eq _ _ _ _ _ _).1]
    rfl

/-! ## Boundary.cpp: the pressure at corner cells -/

/-- The value the loop body of `applyPressure` leaves at the position of its
cell: the blocks run in the order RIGHT, LEFT, TOP, BOTTOM and the last set bit
decides. -/
theorem applyPressureCell_P_own {α : Type} (d : Cell) (t : Fields α) :
    (applyPressureCell d t).P d.i d.j =
      if d.bottom = true then t.P d.i (d.j - 1)
      else if d.top = true then t.P d.i (d.j + 1)
      else if d.left = true then t.P (d.i - 1) d.j
      else if d.right = true then t.P (d.i + 1) d.j
      else t.P d.i d.j := by
  rcases d with ⟨i, j, ty, id, top, bottom, left, right⟩
  cases top <;> cases bottom <;> cases left <;> cases right <;>
    simp [applyPressureCell, Cell.is_border, Matrix.write]

/-- The pressure a boundary's `applyPressure` leaves at a cell whose BOTTOM bit
is set, or whose TOP bit is set and BOTTOM bit is not: the value the vertical
neighbour had before the call. -/
theorem applyPressureCells_vertical {α : Type} (cells : List Cell) (c : Cell) (s : Fields α)
    (hc : c ∈ cells) (hown : ∀ d ∈ cells, d.i = c.i → d.j = c.j → d = c) :
    (c.bottom = true → (∀ d ∈ cells, ¬(d.i = c.i ∧ d.j = c.j - 1)) →
      (applyPressureCells cells s).P c.i c.j = s.P c.i (c.j - 1)) ∧
    (c.top = true → c.bottom = false → (∀ d ∈ cells, ¬(d.i = c.i ∧ d.j = c.j + 1)) →
      (applyPressureCells cells s).P c.i c.j = s.P c.i (c.j + 1)) := by
  constructor
  · intro hb hnb
    rw [applyPressureCells_copy cells c s _ _ hc hown hnb
      (fun t => by rw [applyPressureCell_P_own, if_pos hb]),
      applyPressureCells_outside cells s _ _ hnb]
  · intro ht hb hnb
    rw [applyPressureCells_copy cells c s _ _ hc hown hnb
      (fun t => by
        rw [applyPressureCell_P_own, if_neg (by rw [hb]; exact Bool.false_ne_true), if_pos ht]),
      applyPressureCells_outside cells s _ _ hnb]

/-- C25: corner pressure as the source does it. For a cell `(i,j)` of the
boundary's list, the only list cell at its position, with two border bits set
and a vertical neighbour that is no cell of the list: after `applyPressure` (the
blocks run in the order RIGHT, LEFT, TOP, BOTTOM) `P(i,j)` is the pressure of one
neighbour, `P(i,j+1)` for TOP+LEFT and TOP+RIGHT, `P(i,j-1)` for BOTTOM+LEFT and
BOTTOM+RIGHT, taken before the call, and it is the same whatever value the
horizontal neighbours `(i-1,j)`, `(i+1,j)` hold before the call. -/
theorem applyPressure_corner_last_bit_wins {α : Type} (bd : Boundary α) (c : Cell)
    (s : Fields α) (hc : c ∈ bd.cells) (hown : ∀ d ∈ bd.cells, d.i = c.i → d.j = c.j → d = c) :
    (c.top = true → c.bottom = false → (c.left = true ∨ c.right = true) →
      (∀ d ∈ bd.cells, ¬(d.i = c.i ∧ d.j = c.j + 1)) →
      (bd.applyPressure s).P c.i c.j = s.P c.i (c.j + 1) ∧
      ∀ v w : α,
        (bd.applyPressure
          { s with P := (s.P.write (c.i - 1) c.j v).write (c.i + 1) c.j w }).P c.i c.j =
        (bd.applyPressure s).P c.i c.j) ∧
    (c.bottom = true → c.top = false → (c.left = true ∨ c.right = true) →
      (∀ d ∈ bd.cells, ¬(d.i = c.i ∧ d.j = c.j - 1)) →
      (bd.applyPressure s).P c.i c.j = s.P c.i (c.j - 1) ∧
      ∀ v w : α,
        (bd.applyPressure
          { s with P := (s.P.write (c.i - 1) c.j v).write (c.i + 1) c.j w }).P c.i c.j =
        (bd.applyPressure s).P c.i c.j) := by
  unfold Boundary.applyPressure
  constructor
  · intro ht hb _ hnb
    have h := fun t : Fields α => (applyPressureCells_vertical bd.cells c t hc hown).2 ht hb hnb
    refine ⟨h s, fun v w => ?_⟩
    rw [h, h]
    show ((s.P.write (c.i - 1) c.j v).write (c.i + 1) c.j w) c.i (c.j + 1) = _
    rw [Matrix_write_ne _ _ _ _ _ _ (by omega), Matrix_write_ne _ _ _ _ _ _ (by omega)]
  · intro hb _ _ hnb
    have h := fun t : Fields α => (applyPressureCells_vertical bd.cells c t hc hown).1 hb hnb
    refine ⟨h s, fun v w => ?_⟩
    rw [h, h]
    show ((s.P.write (c.i - 1) c.j v).write (c.i + 1) c.j w) c.i (c.j - 1) = _
    rw [Matrix_write_ne _ _ _ _ _ _ (by omega), Matrix_write_ne _ _ _ _ _ _ (by omega)]

/-- Witness of C25: the fixed-wall corner cell `(2,2)` with TOP+LEFT set. -/
theorem applyPressure_corner_last_bit_wins_witness :
    ((Boundary.FixedWallBoundary [wallCell 2 2 true false true false]).applyPressure
        (exFields ℚ)).P (wallCell 2 2 true false true false).i
          (wallCell 2 2 true false true false).j =
      (exFields ℚ).P (wallCell 2 2 true false true false).i
        ((wallCell 2 2 true false true false).j + 1) :=
  ((applyPressure_corner_last_bit_wins
    (Boundary.FixedWallBoundary [wallCell 2 2 true false true false])
    (wallCell 2 2 true false true false) (exFields ℚ) (by decide) (by decide)).1
    (by decide) (by decide) (by decide) (by decide)).1

/-! ## PressureSolver.cpp: exact solutions -/

/-- One step of the SOR sweep at a cell where `Laplacian(P) = RS` writes back the
value the cell already holds. -/
theorem SOR_update_fixed {α : Type} [LinearOrderedField α] (omega dx dy : α) (P RS : Matrix α)
    (i j : Int) (hdx : dx ≠ 0) (hdy : dy ≠ 0) (h : laplacian dx dy P i j = RS i j) :
    (1 - omega) * P i j + omega / (2 * (1 / (dx * dx) + 1 / (dy * dy))) *
      (sor_helper dx dy P i j - RS i j) = P i j := by
  have hx : 0 < dx * dx := mul_self_pos.mpr hdx
  have hy : 0 < dy * dy := mul_self_pos.mpr hdy
  have hc : (1 / (dx * dx) + 1 / (dy * dy)) ≠ 0 := by positivity
  rw [← h]
  unfold sor_helper laplacian
  field_simp
  ring

/-- The sweep of `SOR::solve` leaves the state unchanged when `Laplacian(P) = RS`
holds at every cell of the list. -/
theorem SOR_sweep_fixed {α : Type} [LinearOrderedField α] (omega dx dy : α) (cells : List Cell)
    (s : Fields α) (hdx : dx ≠ 0) (hdy : dy ≠ 0)
    (hsol : ∀ c ∈ cells, laplacian dx dy s.P c.i c.j = s.RS c.i c.j) :
    SOR.sweep omega dx dy cells s = s := by
  unfold SOR.sweep
  apply forCells_keep _ (fun t => t = s)
  · intro d hd t ht
    subst ht
    have hfix := SOR_update_fixed omega dx dy t.P t.RS d.i d.j hdx hdy (hsol d hd)
    have hP : t.P.write d.i d.j ((1 - omega) * t.P d.i d.j +
        omega / (2 * (1 / (dx * dx) + 1 / (dy * dy))) *
          (sor_helper dx dy t.P d.i d.j - t.RS d.i d.j)) = t.P := by
      rw [hfix]
      funext a b
      unfold Matrix.write
      split_ifs with hab
      · rw [hab.1, hab.2]
      · rfl
    show { t with P := _ } = t
    rw [hP]
  · rfl

/-- C28 (amended): in exact arithmetic an exact discrete solution is a fixed
point of the SOR sweep. Over the reals, for every `omega`, `dx ≠ 0`, `dy ≠ 0` and every
state in which `Laplacian(P,i,j) = RS(i,j)` holds at every cell of a non-empty fluid
list, the fluid-cell sweep of `SOR::solve` leaves `P` unchanged at every cell, and the
residual `SOR::solve` returns (with the real square root) is 0. -/
theorem SOR_exact_solution_fixed_point (omega : ℝ) (s : Fields ℝ) (grid : Grid ℝ)
    (boundaries : List (Boundary ℝ)) (hdx : grid.dx ≠ 0) (hdy : grid.dy ≠ 0)
    (_hne : grid.fluid_cells ≠ [])
    (hsol : ∀ c ∈ grid.fluid_cells, laplacian grid.dx grid.dy s.P c.i c.j = s.RS c.i c.j) :
    (∀ i j : Int, (SOR.sweep omega grid.dx grid.dy grid.fluid_cells s).P i j = s.P i j) ∧
      (SOR.solve Real.sqrt omega s grid boundaries).2 = 0 := by
  have hfix := SOR_sweep_fixed omega grid.dx grid.dy grid.fluid_cells s hdx hdy hsol
  refine ⟨fun i j => by rw [hfix], ?_⟩
  show Real.sqrt (SOR.rloc grid.dx grid.dy grid.fluid_cells
    (SOR.sweep omega grid.dx grid.dy grid.fluid_cells s) / (grid.fluid_cells.length : ℝ)) = 0
  rw [hfix, SOR_rloc_eq_sum]
  have hz : (grid.fluid_cells.map (fun c =>
      (laplacian grid.dx grid.dy s.P c.i c.j - s.RS c.i c.j) ^ 2)).sum = 0 :=
    (sum_sq_eq_zero_iff _ _).mpr (fun c hc => sub_eq_zero.mpr (hsol c hc))
  rw [hz, zero_div, Real.sqrt_zero]

/-- Witness of C28: the pressure `P(i,j) = i*j` is discretely harmonic, so with
`RS = 0` it solves the pressure equation at the fluid cells `(1,1)`, `(2,1)` for
`dx = 1/2`, `dy = 1/3`, `omega = 17/10`. -/
theorem SOR_exact_solution_fixed_point_witness :
    (exBoxGrid ℝ).dx ≠ 0 ∧ (exBoxGrid ℝ).dy ≠ 0 ∧ (exBoxGrid ℝ).fluid_cells ≠ [] ∧
      (∀ c ∈ (exBoxGrid ℝ).fluid_cells,
        laplacian (exBoxGrid ℝ).dx (exBoxGrid ℝ).dy (exFields ℝ).P c.i c.j =
          (exFields ℝ).RS c.i c.j) ∧
      (∀ i j : Int, (SOR.sweep (17 / 10) (exBoxGrid ℝ).dx (exBoxGrid ℝ).dy
          (exBoxGrid ℝ).fluid_cells (exFields ℝ)).P i j = (exFields ℝ).P i j) ∧
      (SOR.solve Real.sqrt (17 / 10) (exFields ℝ) (exBoxGrid ℝ) []).2 = 0 :=
  have hdx : (exBoxGrid ℝ).dx ≠ 0 := by norm_num [exBoxGrid, exGrid, exDomain, Grid.dx]
  have hdy : (exBoxGrid ℝ).dy ≠ 0 := by norm_num [exBoxGrid, exGrid, exDomain, Grid.dy]
  have hne : (exBoxGrid ℝ).fluid_cells ≠ [] := by simp [exBoxGrid, exGrid]
  have hsol : ∀ c ∈ (exBoxGrid ℝ).fluid_cells,
      laplacian (exBoxGrid ℝ).dx (exBoxGrid ℝ).dy (exFields ℝ).P c.i c.j =
        (exFields ℝ).RS c.i c.j := by
    intro c hc
    simp only [laplacian, exFields]
    push_cast
    ring_nf
  ⟨hdx, hdy, hne, hsol,
    SOR_exact_solution_fixed_point (17 / 10) (exFields ℝ) (exBoxGrid ℝ) [] hdx hdy hne hsol⟩

/-! ## Solvability of the pressure problem on a closed box -/

theorem mem_rectCells (sx sy : Int) (p : Int × Int) :
    p ∈ rectCells sx sy ↔ 1 ≤ p.1 ∧ p.1 ≤ sx ∧ 1 ≤ p.2 ∧ p.2 ≤ sy := by
  unfold rectCells
  simp only [List.mem_flatMap, List.mem_map, mem_intRange]
  constructor
  · rintro ⟨i, hi, j, hj, rfl⟩
    exact ⟨hi.1, hi.2, hj.1, hj.2⟩
  · rintro ⟨h1, h2, h3, h4⟩
    exact ⟨p.1, ⟨h1, h2⟩, p.2, ⟨h3, h4⟩, rfl⟩

/-- A loop whose body copies `src` into `dst` for the items with the property
`C`, and keeps `dst` for the others and `src` always: after the loop `dst` holds
the initial `src` if some item of the list has the property, and its initial
value otherwise. -/
theorem foldl_copy_entry {σ ι β : Type} (body : ι → σ → σ) (src dst : σ → β) (C : ι → Prop)
    (hsrc : ∀ x t, src (body x t) = src t)
    (hpos : ∀ x t, C x → dst (body x t) = src t)
    (hneg : ∀ x t, ¬C x → dst (body x t) = dst t)
    (l : List ι) (s : σ) :
    src (l.foldl (fun t x => body x t) s) = src s ∧
      ((∃ x ∈ l, C x) → dst (l.foldl (fun t x => body x t) s) = src s) ∧
      ((¬∃ x ∈ l, C x) → dst (l.foldl (fun t x => body x t) s) = dst s) := by
  induction l generalizing s with
  | nil => exact ⟨rfl, fun ⟨x, hx, _⟩ => absurd hx (List.not_mem_nil x), fun _ => rfl⟩
  | cons c l ih =>
    rw [List.foldl_cons]
    obtain ⟨h0, h1, h2⟩ := ih (body c s)
    refine ⟨by rw [h0, hsrc], ?_, ?_⟩
    · intro hex
      by_cases hl : ∃ x ∈ l, C x
      · rw [h1 hl, hsrc]
      · rw [h2 hl]
        obtain ⟨d, hd, hC⟩ := hex
        rcases List.mem_cons.mp hd with rfl | hd
        · exact hpos d s hC
        · exact absurd ⟨d, hd, hC⟩ hl
    · intro hnex
      have hl : ¬∃ x ∈ l, C x := fun ⟨d, hd, h⟩ => hnex ⟨d, List.mem_cons_of_mem c hd, h⟩
      rw [h2 hl]
      exact hneg c s (fun h => hnex ⟨c, List.mem_cons_self c l, h⟩)

/-- After the flux boundary conditions of all boundaries, `U` and `V` are
unchanged, `F(a,b)` holds `U(a,b)` if some boundary cell has `(a,b)` as the face of
its set RIGHT or LEFT bit, and `G(a,b)` holds `V(a,b)` if some boundary cell has
`(a,b)` as the face of its set TOP or BOTTOM bit. -/
theorem applyFluxAll_faces {α : Type} (walls : List (Boundary α)) (s : Fields α) (a b : Int) :
    (applyFluxAll walls s).U a b = s.U a b ∧ (applyFluxAll walls s).V a b = s.V a b ∧
      (applyFluxAll walls s).dt = s.dt ∧
      ((∃ w ∈ walls, ∃ d ∈ w.cells,
          (d.right = true ∧ a = d.i ∧ b = d.j) ∨ (d.left = true ∧ a = d.i - 1 ∧ b = d.j)) →
        (applyFluxAll walls s).F a b = s.U a b) ∧
      ((∃ w ∈ walls, ∃ d ∈ w.cells,
          (d.top = true ∧ a = d.i ∧ b = d.j) ∨ (d.bottom = true ∧ a = d.i ∧ b = d.j - 1)) →
        (applyFluxAll walls s).G a b = s.V a b) := by
  have hdt : (applyFluxAll walls s).dt = s.dt := by
    unfold applyFluxAll
    induction walls generalizing s with
    | nil => rfl
    | cons w l ih =>
      rw [List.foldl_cons, ih]
      unfold Boundary.applyFlux
      apply forCells_preserves (fun t : Fields α => t.dt)
      intro c t
      unfold applyFluxCell
      simp only
      split_ifs <;> rfl
  have hcF := fun (w : Boundary α) (t : Fields α) =>
    foldl_copy_entry applyFluxCell (fun t : Fields α => t.U a b) (fun t => t.F a b)
      (fun d => (d.right = true ∧ a = d.i ∧ b = d.j) ∨ (d.left = true ∧ a = d.i - 1 ∧ b = d.j))
      (fun d t => by beta_reduce; rw [(applyFluxCell_frame d t).1])
      (fun d t h => by beta_reduce; rw [applyFluxCell_F, if_pos h])
      (fun d t h => by beta_reduce; rw [applyFluxCell_F, if_neg h]) w.cells t
  have hcG := fun (w : Boundary α) (t : Fields α) =>
    foldl_copy_entry applyFluxCell (fun t : Fields α => t.V a b) (fun t => t.G a b)
      (fun d => (d.top = true ∧ a = d.i ∧ b = d.j) ∨ (d.bottom = true ∧ a = d.i ∧ b = d.j - 1))
      (fun d t => by beta_reduce; rw [(applyFluxCell_frame d t).2.1])
      (fun d t h => by beta_reduce; rw [applyFluxCell_G, if_pos h])
      (fun d t h => by beta_reduce; rw [applyFluxCell_G, if_neg h]) w.cells t
  have hF := foldl_copy_entry (fun (w : Boundary α) t => w.applyFlux t)
    (fun t : Fields α => t.U a b) (fun t => t.F a b)
    (fun w => ∃ d ∈ w.cells,
      (d.right = true ∧ a = d.i ∧ b = d.j) ∨ (d.left = true ∧ a = d.i - 1 ∧ b = d.j))
    (fun w t => (hcF w t).1) (fun w t h => (hcF w t).2.1 h) (fun w t h => (hcF w t).2.2 h)
    walls s
  have hG := foldl_copy_entry (fun (w : Boundary α) t => w.applyFlux t)
    (fun t : Fields α => t.V a b) (fun t => t.G a b)
    (fun w => ∃ d ∈ w.cells,
      (d.top = true ∧ a = d.i ∧ b = d.j) ∨ (d.bottom = true ∧ a = d.i ∧ b = d.j - 1))
    (fun w t => (hcG w t).1) (fun w t h => (hcG w t).2.1 h) (fun w t h => (hcG w t).2.2 h)
    walls s
  exact ⟨hF.1, hG.1, hdt, hF.2.1, hG.2.1⟩

/-- On a closed box, after the velocity conditions, `calculate_fluxes` and the
flux conditions of the walls, the fluxes through the four sides are 0:
`F(0,j) = F(sx,j) = 0` for `1 ≤ j ≤ sy` and `G(i,0) = G(i,sy) = 0` for `1 ≤ i ≤ sx`. -/
theorem closedBox_side_fluxes_zero {α : Type} [Field α]
    (cu cv : Matrix α → Matrix α → Int → Int → α) (grid : Grid α) (walls : List (Boundary α))
    (hbox : closedBox grid walls) (hx : 1 ≤ grid.size_x) (hy : 1 ≤ grid.size_y) (s : Fields α) :
    (∀ j : Int, 1 ≤ j → j ≤ grid.size_y →
      (applyFluxAll walls (calculate_fluxes cu cv (applyVelocityAll walls s) grid)).F 0 j = 0 ∧
      (applyFluxAll walls (calculate_fluxes cu cv (applyVelocityAll walls s) grid)).F
        grid.size_x j = 0) ∧
    (∀ i : Int, 1 ≤ i → i ≤ grid.size_x →
      (applyFluxAll walls (calculate_fluxes cu cv (applyVelocityAll walls s) grid)).G i 0 = 0 ∧
      (applyFluxAll walls (calculate_fluxes cu cv (applyVelocityAll walls s) grid)).G i
        grid.size_y = 0) := by
  have hz := closedBox_normal_zero grid walls hbox hx hy s
  obtain ⟨_, _, hcells, hcol, hrow⟩ := hbox
  have hU : (calculate_fluxes cu cv (applyVelocityAll walls s) grid).U =
      (applyVelocityAll walls s).U := by rw [calculate_fluxes_eq]
  have hV : (calculate_fluxes cu cv (applyVelocityAll walls s) grid).V =
      (applyVelocityAll walls s).V := by rw [calculate_fluxes_eq]
  constructor
  · intro j hj1 hj2
    obtain ⟨⟨b1, hb1, c1, hc1, hc1i, hc1j⟩, ⟨b2, hb2, c2, hc2, hc2i, hc2j⟩⟩ := hcol j hj1 hj2
    have h1 := Cell_onlyBorder_bits c1 _ ((boxWallCell_side _ _ hx hy c1
      (hcells b1 hb1 c1 hc1)).1 hc1i (by omega) (by omega))
    have h2 := Cell_onlyBorder_bits c2 _ ((boxWallCell_side _ _ hx hy c2
      (hcells b2 hb2 c2 hc2)).2.1 hc2i (by omega) (by omega))
    constructor
    · rw [(applyFluxAll_faces walls _ 0 j).2.2.2.1
        ⟨b1, hb1, c1, hc1, Or.inl ⟨by rw [h1.2.2.2]; rfl, hc1i.symm, hc1j.symm⟩⟩, hU]
      exact (hz.1 j hj1 hj2).1
    · rw [(applyFluxAll_faces walls _ grid.size_x j).2.2.2.1
        ⟨b2, hb2, c2, hc2, Or.inr ⟨by rw [h2.2.2.1]; rfl, by omega, hc2j.symm⟩⟩, hU]
      exact (hz.1 j hj1 hj2).2
  · intro i hi1 hi2
    obtain ⟨⟨b1, hb1, c1, hc1, hc1i, hc1j⟩, ⟨b2, hb2, c2, hc2, hc2i, hc2j⟩⟩ := hrow i hi1 hi2
    have h1 := Cell_onlyBorder_bits c1 _ ((boxWallCell_side _ _ hx hy c1
      (hcells b1 hb1 c1 hc1)).2.2.1 hc1j (by omega) (by omega))
    have h2 := Cell_onlyBorder_bits c2 _ ((boxWallCell_side _ _ hx hy c2
      (hcells b2 hb2 c2 hc2)).2.2.2 hc2j (by omega) (by omega))
    constructor
    · rw [(applyFluxAll_faces walls _ i 0).2.2.2.2
        ⟨b1, hb1, c1, hc1, Or.inl ⟨by rw [h1.1]; rfl, hc1i.symm, hc1j.symm⟩⟩, hV]
      exact (hz.2 i hi1 hi2).1
    · rw [(applyFluxAll_faces walls _ i grid.size_y).2.2.2.2
        ⟨b2, hb2, c2, hc2, Or.inr ⟨by rw [h2.2.1]; rfl, hc2i.symm, by omega⟩⟩, hV]
      exact (hz.2 i hi1 hi2).2

/-- The sum of `RS` over the fluid cells of a closed box after `calculate_rs` is
`1/dt` times the sum over the rectangle of the flux divergence. -/
theorem rsSum_calculate_rs_eq_rect {α : Type} [Field α] (s : Fields α) (grid : Grid α)
    (hfluid : (grid.fluid_cells.map (fun c => (c.i, c.j))).Perm
      (rectCells grid.size_x grid.size_y)) :
    rsSum (calculate_rs s grid) grid =
      1 / s.dt * ((rectCells grid.size_x grid.size_y).map (fun p =>
        (s.F p.1 p.2 - s.F (p.1 - 1) p.2) / grid.dx +
          (s.G p.1 p.2 - s.G p.1 (p.2 - 1)) / grid.dy)).sum := by
  unfold rsSum
  have h := (hfluid.map (fun p : Int × Int => (calculate_rs s grid).RS p.1 p.2)).sum_eq
  rw [List.map_map] at h
  have e : (grid.fluid_cells.map (fun c => (calculate_rs s grid).RS c.i c.j)) =
      (grid.fluid_cells.map ((fun p : Int × Int => (calculate_rs s grid).RS p.1 p.2) ∘
        (fun c => (c.i, c.j)))) := rfl
  rw [e, h, ← List.sum_map_mul_left]
  congr 1
  apply List.map_congr_left
  intro p hp
  have hp2 := (mem_rectCells _ _ p).mp hp
  rw [calculate_rs_eq]
  exact if_pos hp2

/-- C29 (amended): solvability of the Neumann pressure problem on a closed box,
in exact arithmetic. Over a field, if the fluid cells are the cells `1..size_x` by
`1..size_y` and the four sides are fixed or moving walls, then after `applyVelocity`
of those walls, `calculate_fluxes`, `applyFlux` of those walls and `calculate_rs` (with
`dt ≠ 0`, any convection operators and any starting state), the sum of `RS(i,j)` over
the fluid cells is 0. -/
theorem closedBox_rs_sum_zero {α : Type} [Field α]
    (cu cv : Matrix α → Matrix α → Int → Int → α) (grid : Grid α) (walls : List (Boundary α))
    (s : Fields α) (hbox : closedBox grid walls) (_hdt : s.dt ≠ 0) :
    rsSum (calculate_rs
      (applyFluxAll walls (calculate_fluxes cu cv (applyVelocityAll walls s) grid)) grid) grid =
      0 := by
  rw [rsSum_calculate_rs_eq_rect _ grid hbox.1]
  by_cases hx : 1 ≤ grid.size_x
  · by_cases hy : 1 ≤ grid.size_y
    · rw [rect_divergence_telescope _ _ _ _ _ _ (by omega) (by omega)]
      have hz := closedBox_side_fluxes_zero cu cv grid walls hbox hx hy s
      rw [list_sum_map_zero _ _ (fun j hj => (hz.1 j ((mem_intRange _ _ _).mp hj).1
          ((mem_intRange _ _ _).mp hj).2).2),
        list_sum_map_zero _ _ (fun j hj => (hz.1 j ((mem_intRange _ _ _).mp hj).1
          ((mem_intRange _ _ _).mp hj).2).1),
        list_sum_map_zero _ _ (fun i hi => by
          rw [(hz.2 i ((mem_intRange _ _ _).mp hi).1 ((mem_intRange _ _ _).mp hi).2).1,
            (hz.2 i ((mem_intRange _ _ _).mp hi).1 ((mem_intRange _ _ _).mp hi).2).2,
            sub_zero])]
      simp
    · have e : rectCells grid.size_x grid.size_y = [] := by
        unfold rectCells
        have e2 : intRange 1 grid.size_y = [] := by
          unfold intRange
          have : (grid.size_y + 1 - 1).toNat = 0 := by omega
          rw [this]
          rfl
        rw [e2]
        simp
      rw [e]
      simp
  · have e : rectCells grid.size_x grid.size_y = [] := by
      unfold rectCells
      have e2 : intRange 1 grid.size_x = [] := by
        unfold intRange
        have : (grid.size_x + 1 - 1).toNat = 0 := by omega
        rw [this]
        rfl
      rw [e2]
      rfl
    rw [e]
    simp

/-- Witness of C29: the 2 by 1 box with a moving lid, from the state
`U(i,j) = 1 + i + 2j`, `V(i,j) = 3 + 2i + j` with `dt = 1/2`, with the convection
operators `U(i,j) * V(i,j)` and `U(i,j) + V(i,j)`. -/
theorem closedBox_rs_sum_zero_witness :
    ({ exWallFields ℚ with dt := 1 / 2 } : Fields ℚ).dt ≠ 0 ∧
      rsSum (calculate_rs
        (applyFluxAll (exBoxWalls ℚ)
          (calculate_fluxes (fun U V i j => U i j * V i j) (fun U V i j => U i j + V i j)
            (applyVelocityAll (exBoxWalls ℚ) { exWallFields ℚ with dt := 1 / 2 }) (exBoxGrid ℚ)))
        (exBoxGrid ℚ)) (exBoxGrid ℚ) = 0 :=
  ⟨by norm_num,
    closedBox_rs_sum_zero (fun U V i j => U i j * V i j) (fun U V i j => U i j + V i j)
      (exBoxGrid ℚ) (exBoxWalls ℚ) { exWallFields ℚ with dt := 1 / 2 } exBox_closedBox
      (by norm_num)⟩

/-! ## PressureSolver.cpp: the pressure boundary pass of the GPU variant -/

theorem DeviceArray_write_ne {α : Type} (a : DeviceArray α) (idx k : Int) (v : α) (h : k ≠ idx) :
    (a.write idx v) k = a k := if_neg h

theorem DeviceArray_write_same {α : Type} (a : DeviceArray α) (idx : Int) (v : α) :
    (a.write idx v) idx = v := if_pos rfl

theorem DeviceArray_writeIf_frame {α : Type} (a : DeviceArray α) (c : Prop) [Decidable c]
    (idx : Int) (v : DeviceArray α → α) (k : Int) (hk : k ≠ idx) :
    (a.writeIf c idx v) k = a k := by
  unfold DeviceArray.writeIf
  split_ifs
  · exact DeviceArray_write_ne _ _ _ _ hk
  · rfl

theorem DeviceArray_writeIf_pos {α : Type} (a : DeviceArray α) (c : Prop) [Decidable c]
    (idx : Int) (v : DeviceArray α → α) (hc : c) : (a.writeIf c idx v) idx = v a := by
  unfold DeviceArray.writeIf
  rw [if_pos hc]
  exact DeviceArray_write_same _ _ _

theorem DeviceArray_writeIf_neg {α : Type} (a : DeviceArray α) (c : Prop) [Decidable c]
    (idx : Int) (v : DeviceArray α → α) (hc : ¬c) : a.writeIf c idx v = a := by
  unfold DeviceArray.writeIf
  rw [if_neg hc]

/-- The loop body of `apply_pressure_bcs` writes the entry of its own linear
index only. -/
theorem apply_pressure_bcs_cell_frame {α : Type} [Field α] (mask : DeviceArray Bool)
    (type : DeviceArray cell_type) (pos : DeviceArray Nat) (imax i j : Int) (p : DeviceArray α)
    (k : Int) (hk : k ≠ i + j * (imax + 2)) :
    apply_pressure_bcs.cell mask type pos imax i j p k = p k := by
  unfold apply_pressure_bcs.cell
  split_ifs <;> simp only [DeviceArray_writeIf_frame _ _ _ _ _ hk]

/-- The loop body of `apply_pressure_bcs` does nothing at a fluid cell. -/
theorem apply_pressure_bcs_cell_fluid {α : Type} [Field α] (mask : DeviceArray Bool)
    (type : DeviceArray cell_type) (pos : DeviceArray Nat) (imax i j : Int) (p : DeviceArray α)
    (h : mask (i + j * (imax + 2)) = true) :
    apply_pressure_bcs.cell mask type pos imax i j p = p := by
  unfold apply_pressure_bcs.cell
  rw [if_neg (by rw [h]; decide)]

/-- The linear index `i + j * (imax + 2)` determines `(i, j)` for `0 ≤ i ≤ imax + 1`. -/
theorem linear_index_injective (imax i j a b : Int) (hi0 : 0 ≤ i) (hi1 : i ≤ imax + 1)
    (ha0 : 0 ≤ a) (ha1 : a ≤ imax + 1) (h : i + j * (imax + 2) = a + b * (imax + 2)) :
    i = a ∧ j = b := by
  have hw : 0 < imax + 2 := by omega
  have h1 : (i + j * (imax + 2)) % (imax + 2) = i := by
    rw [Int.add_mul_emod_self]
    exact Int.emod_eq_of_lt hi0 (by omega)
  have h2 : (a + b * (imax + 2)) % (imax + 2) = a := by
    rw [Int.add_mul_emod_self]
    exact Int.emod_eq_of_lt ha0 (by omega)
  have hia : i = a := by rw [← h1, ← h2, h]
  refine ⟨hia, ?_⟩
  subst hia
  have h3 : j * (imax + 2) = b * (imax + 2) := by omega
  exact Int.eq_of_mul_eq_mul_right (by omega) h3

/-- A fluid entry of the pressure array keeps its value through
`apply_pressure_bcs`. -/
theorem apply_pressure_bcs_fluid {α : Type} [Field α] (p : DeviceArray α) (mask : DeviceArray Bool)
    (type : DeviceArray cell_type) (pos : DeviceArray Nat) (grid : gridParams α) (k : Int)
    (hk : mask k = true) : apply_pressure_bcs p mask type pos grid k = p k := by
  have hbody : ∀ (i j : Int) (t : DeviceArray α), (∀ m, mask m = true → t m = p m) →
      ∀ m, mask m = true → apply_pressure_bcs.cell mask type pos grid.imax i j t m = p m := by
    intro i j t ht m hm
    by_cases e : m = i + j * (grid.imax + 2)
    · rw [apply_pressure_bcs_cell_fluid mask type pos grid.imax i j t (by rw [← e]; exact hm)]
      exact ht m hm
    · rw [apply_pressure_bcs_cell_frame mask type pos grid.imax i j t m e]
      exact ht m hm
  have h := forLoop_invariant 0 (grid.imax + 1)
    (fun i q => forLoop 0 (grid.jmax + 1) (fun j q =>
      apply_pressure_bcs.cell mask type pos grid.imax i j q) q)
    (fun _ t => ∀ m, mask m = true → t m = p m) p (fun _ _ => rfl)
    (fun i t _ _ ht => forLoop_invariant 0 (grid.jmax + 1)
      (fun j q => apply_pressure_bcs.cell mask type pos grid.imax i j q)
      (fun _ t => ∀ m, mask m = true → t m = p m) t ht
      (fun j t _ _ ht => hbody i j t ht))
  exact h k hk

/-- The value that `apply_pressure_bcs` leaves at the cell `(i0, j0)` of its index
range is the value its loop body writes there, whenever that value is the same
for every array that agrees with the initial one at the cell and at the fluid
entries. -/
theorem apply_pressure_bcs_own {α : Type} [Field α] (p : DeviceArray α) (mask : DeviceArray Bool)
    (type : DeviceArray cell_type) (pos : DeviceArray Nat) (grid : gridParams α)
    (i0 j0 : Int) (v : α) (hi0 : 0 ≤ i0) (hi1 : i0 ≤ grid.imax + 1) (hj0 : 0 ≤ j0)
    (hj1 : j0 ≤ grid.jmax + 1)
    (hv : ∀ t : DeviceArray α, (∀ m, mask m = true → t m = p m) →
      t (i0 + j0 * (grid.imax + 2)) = p (i0 + j0 * (grid.imax + 2)) →
      apply_pressure_bcs.cell mask type pos grid.imax i0 j0 t (i0 + j0 * (grid.imax + 2)) = v) :
    apply_pressure_bcs p mask type pos grid (i0 + j0 * (grid.imax + 2)) = v := by
  have hQ : ∀ (i j : Int) (t : DeviceArray α), (∀ m, mask m = true → t m = p m) →
      ∀ m, mask m = true → apply_pressure_bcs.cell mask type pos grid.imax i j t m = p m := by
    intro i j t ht m hm
    by_cases e : m = i + j * (grid.imax + 2)
    · rw [apply_pressure_bcs_cell_fluid mask type pos grid.imax i j t (by rw [← e]; exact hm)]
      exact ht m hm
    · rw [apply_pressure_bcs_cell_frame mask type pos grid.imax i j t m e]
      exact ht m hm
  have hinner : ∀ (i : Int) (t : DeviceArray α), 0 ≤ i → i ≤ grid.imax + 1 →
      ((∀ m, mask m = true → t m = p m) ∧ (i0 < i → t (i0 + j0 * (grid.imax + 2)) = v) ∧
        (i ≤ i0 → t (i0 + j0 * (grid.imax + 2)) = p (i0 + j0 * (grid.imax + 2)))) →
      ((∀ m, mask m = true → forLoop 0 (grid.jmax + 1) (fun j q =>
          apply_pressure_bcs.cell mask type pos grid.imax i j q) t m = p m) ∧
        (i0 < i + 1 → forLoop 0 (grid.jmax + 1) (fun j q =>
          apply_pressure_bcs.cell mask type pos grid.imax i j q) t
            (i0 + j0 * (grid.imax + 2)) = v) ∧
        (i + 1 ≤ i0 → forLoop 0 (grid.jmax + 1) (fun j q =>
          apply_pressure_bcs.cell mask type pos grid.imax i j q) t
            (i0 + j0 * (grid.imax + 2)) = p (i0 + j0 * (grid.imax + 2)))) := by
    intro i t hi0' hi1' ht
    have h := forLoop_invariant 0 (grid.jmax + 1)
      (fun j q => apply_pressure_bcs.cell mask type pos grid.imax i j q)
      (fun l t => (∀ m, mask m = true → t m = p m) ∧
        ((i0 < i ∨ (i0 = i ∧ j0 < l)) → t (i0 + j0 * (grid.imax + 2)) = v) ∧
        (¬(i0 < i ∨ (i0 = i ∧ j0 < l)) →
          t (i0 + j0 * (grid.imax + 2)) = p (i0 + j0 * (grid.imax + 2)))) t
      ⟨ht.1, fun hvis => ht.2.1 (by omega), fun hvis => ht.2.2 (by omega)⟩
      (by
        intro l u hl0 hl1 hu
        refine ⟨hQ i l u hu.1, ?_, ?_⟩
        · intro hvis
          by_cases e : i = i0 ∧ l = j0
          · rw [e.1, e.2]
            exact hv u hu.1 (hu.2.2 (by omega))
          · have hne : i0 + j0 * (grid.imax + 2) ≠ i + l * (grid.imax + 2) := by
              intro heq
              have := linear_index_injective grid.imax i0 j0 i l hi0 hi1 hi0' hi1' heq
              omega
            beta_reduce
            rw [apply_pressure_bcs_cell_frame mask type pos grid.imax i l u _ hne]
            exact hu.2.1 (by omega)
        · intro hvis
          have hne : i0 + j0 * (grid.imax + 2) ≠ i + l * (grid.imax + 2) := by
            intro heq
            have := linear_index_injective grid.imax i0 j0 i l hi0 hi1 hi0' hi1' heq
            omega
          beta_reduce
          rw [apply_pressure_bcs_cell_frame mask type pos grid.imax i l u _ hne]
          exact hu.2.2 (by omega))
    exact ⟨h.1, fun hvis => h.2.1 (by omega), fun hvis => h.2.2 (by omega)⟩
  have h := forLoop_invariant 0 (grid.imax + 1)
    (fun i q => forLoop 0 (grid.jmax + 1) (fun j q =>
      apply_pressure_bcs.cell mask type pos grid.imax i j q) q)
    (fun k t => (∀ m, mask m = true → t m = p m) ∧
      (i0 < k → t (i0 + j0 * (grid.imax + 2)) = v) ∧
      (k ≤ i0 → t (i0 + j0 * (grid.imax + 2)) = p (i0 + j0 * (grid.imax + 2)))) p
    ⟨fun _ _ => rfl, fun hlt => by omega, fun _ => rfl⟩
    (fun i t hi0' hi1' ht => hinner i t hi0' hi1' ht)
  exact h.2.1 (by omega)

/-- The value the loop body of `apply_pressure_bcs` writes at a non-fluid cell of
type `ZERO_GRADIENT`: the negative of the neighbour across the face of its border
code. -/
theorem apply_pressure_bcs_cell_zero_gradient {α : Type} [Field α] (mask : DeviceArray Bool)
    (type : DeviceArray cell_type) (pos : DeviceArray Nat) (imax i j : Int) (t : DeviceArray α)
    (hm : mask (i + j * (imax + 2)) = false)
    (ht : type (i + j * (imax + 2)) = cell_type.ZERO_GRADIENT) :
    (pos (i + j * (imax + 2)) = border_position.RIGHT.toUInt8 →
      apply_pressure_bcs.cell mask type pos imax i j t (i + j * (imax + 2)) =
        -t (i + j * (imax + 2) + 1)) ∧
    (pos (i + j * (imax + 2)) = border_position.LEFT.toUInt8 →
      apply_pressure_bcs.cell mask type pos imax i j t (i + j * (imax + 2)) =
        -t (i + j * (imax + 2) - 1)) ∧
    (pos (i + j * (imax + 2)) = border_position.TOP.toUInt8 →
      apply_pressure_bcs.cell mask type pos imax i j t (i + j * (imax + 2)) =
        -t (i + j * (imax + 2) + (imax + 2))) ∧
    (pos (i + j * (imax + 2)) = border_position.BOTTOM.toUInt8 →
      apply_pressure_bcs.cell mask type pos imax i j t (i + j * (imax + 2)) =
        -t (i + j * (imax + 2) - (imax + 2))) := by
  unfold apply_pressure_bcs.cell
  rw [if_pos hm, if_pos ht]
  refine ⟨?_, ?_, ?_, ?_⟩ <;> intro hc
  · rw [DeviceArray_writeIf_neg _ _ _ _ (by rw [hc]; decide),
      DeviceArray_writeIf_neg _ _ _ _ (by rw [hc]; decide),
      DeviceArray_writeIf_neg _ _ _ _ (by rw [hc]; decide), DeviceArray_writeIf_pos _ _ _ _ hc]
  · rw [DeviceArray_writeIf_neg _ _ _ _ (by rw [hc]; decide),
      DeviceArray_writeIf_neg _ _ _ _ (by rw [hc]; decide), DeviceArray_writeIf_pos _ _ _ _ hc,
      DeviceArray_writeIf_neg _ _ _ _ (by rw [hc]; decide)]
  · rw [DeviceArray_writeIf_neg _ _ _ _ (by rw [hc]; decide), DeviceArray_writeIf_pos _ _ _ _ hc,
      DeviceArray_writeIf_neg _ _ _ _ (by rw [hc]; decide),
      DeviceArray_writeIf_neg _ _ _ _ (by rw [hc]; decide)]
  · rw [DeviceArray_writeIf_pos _ _ _ _ hc,
      DeviceArray_writeIf_neg _ _ _ _ (by rw [hc]; decide),
      DeviceArray_writeIf_neg _ _ _ _ (by rw [hc]; decide),
      DeviceArray_writeIf_neg _ _ _ _ (by rw [hc]; decide)]

/-- The value the loop body of `apply_pressure_bcs` writes at a non-fluid cell of
another type than `ZERO_GRADIENT` with the code of a single face: the value of the
neighbour across that face. -/
theorem apply_pressure_bcs_cell_wall_face {α : Type} [Field α] (mask : DeviceArray Bool)
    (type : DeviceArray cell_type) (pos : DeviceArray Nat) (imax i j : Int) (t : DeviceArray α)
    (hm : mask (i + j * (imax + 2)) = false)
    (ht : type (i + j * (imax + 2)) ≠ cell_type.ZERO_GRADIENT) :
    (pos (i + j * (imax + 2)) = border_position.RIGHT.toUInt8 →
      apply_pressure_bcs.cell mask type pos imax i j t (i + j * (imax + 2)) =
        t (i + j * (imax + 2) + 1)) ∧
    (pos (i + j * (imax + 2)) = border_position.LEFT.toUInt8 →
      apply_pressure_bcs.cell mask type pos imax i j t (i + j * (imax + 2)) =
        t (i + j * (imax + 2) - 1)) ∧
    (pos (i + j * (imax + 2)) = border_position.TOP.toUInt8 →
      apply_pressure_bcs.cell mask type pos imax i j t (i + j * (imax + 2)) =
        t (i + j * (imax + 2) + (imax + 2))) ∧
    (pos (i + j * (imax + 2)) = border_position.BOTTOM.toUInt8 →
      apply_pressure_bcs.cell mask type pos imax i j t (i + j * (imax + 2)) =
        t (i + j * (imax + 2) - (imax + 2))) := by
  unfold apply_pressure_bcs.cell
  rw [if_pos hm, if_neg ht]
  refine ⟨?_, ?_, ?_, ?_⟩ <;> intro hc
  · rw [DeviceArray_writeIf_neg _ _ _ _ (by rw [hc]; decide),
      DeviceArray_writeIf_neg _ _ _ _ (by rw [hc]; decide),
      DeviceArray_writeIf_neg _ _ _ _ (by rw [hc]; decide),
      DeviceArray_writeIf_neg _ _ _ _ (by rw [hc]; decide),
      DeviceArray_writeIf_neg _ _ _ _ (by rw [hc]; decide),
      DeviceArray_writeIf_neg _ _ _ _ (by rw [hc]; decide),
      DeviceArray_writeIf_neg _ _ _ _ (by rw [hc]; decide), DeviceArray_writeIf_pos _ _ _ _ hc]
  · rw [DeviceArray_writeIf_neg _ _ _ _ (by rw [hc]; decide),
      DeviceArray_writeIf_neg _ _ _ _ (by rw [hc]; decide),
      DeviceArray_writeIf_neg _ _ _ _ (by rw [hc]; decide),
      DeviceArray_writeIf_neg _ _ _ _ (by rw [hc]; decide),
      DeviceArray_writeIf_neg _ _ _ _ (by rw [hc]; decide),
      DeviceArray_writeIf_neg _ _ _ _ (by rw [hc]; decide), DeviceArray_writeIf_pos _ _ _ _ hc,
      DeviceArray_writeIf_neg _ _ _ _ (by rw [hc]; decide)]
  · rw [DeviceArray_writeIf_neg _ _ _ _ (by rw [hc]; decide),
      DeviceArray_writeIf_neg _ _ _ _ (by rw [hc]; decide),
      DeviceArray_writeIf_neg _ _ _ _ (by rw [hc]; decide),
      DeviceArray_writeIf_neg _ _ _ _ (by rw [hc]; decide),
      DeviceArray_writeIf_neg _ _ _ _ (by rw [hc]; decide), DeviceArray_writeIf_pos _ _ _ _ hc,
      DeviceArray_writeIf_neg _ _ _ _ (by rw [hc]; decide),
      DeviceArray_writeIf_neg _ _ _ _ (by rw [hc]; decide)]
  · rw [DeviceArray_writeIf_neg _ _ _ _ (by rw [hc]; decide),
      DeviceArray_writeIf_neg _ _ _ _ (by rw [hc]; decide),
      DeviceArray_writeIf_neg _ _ _ _ (by rw [hc]; decide),
      DeviceArray_writeIf_neg _ _ _ _ (by rw [hc]; decide), DeviceArray_writeIf_pos _ _ _ _ hc,
      DeviceArray_writeIf_neg _ _ _ _ (by rw [hc]; decide),
      DeviceArray_writeIf_neg _ _ _ _ (by rw [hc]; decide),
      DeviceArray_writeIf_neg _ _ _ _ (by rw [hc]; decide)]

/-- The value the loop body of `apply_pressure_bcs` writes at a non-fluid cell of
another type than `ZERO_GRADIENT` with a corner code. The code 4 matches
`TOP_LEFT` and then `TOP_RIGHT`, the code 5 matches `BOTTOM_RIGHT` and then
`BOTTOM_LEFT`, and the later assignment stays; the codes 6 and 7 match nothing. -/
theorem apply_pressure_bcs_cell_corner {α : Type} [Field α] (mask : DeviceArray Bool)
    (type : DeviceArray cell_type) (pos : DeviceArray Nat) (imax i j : Int) (t : DeviceArray α)
    (hw : imax + 2 ≠ 0) (hm : mask (i + j * (imax + 2)) = false)
    (ht : type (i + j * (imax + 2)) ≠ cell_type.ZERO_GRADIENT) :
    (pos (i + j * (imax + 2)) = 4 →
      apply_pressure_bcs.cell mask type pos imax i j t (i + j * (imax + 2)) =
        (t (i + j * (imax + 2) + (imax + 2)) + t (i + j * (imax + 2) + 1)) / 2) ∧
    (pos (i + j * (imax + 2)) = 5 →
      apply_pressure_bcs.cell mask type pos imax i j t (i + j * (imax + 2)) =
        (t (i + j * (imax + 2) - (imax + 2)) + t (i + j * (imax + 2) - 1)) / 2) ∧
    (pos (i + j * (imax + 2)) = 6 ∨ pos (i + j * (imax + 2)) = 7 →
      apply_pressure_bcs.cell mask type pos imax i j t (i + j * (imax + 2)) =
        t (i + j * (imax + 2))) := by
  unfold apply_pressure_bcs.cell
  rw [if_pos hm, if_neg ht]
  have h1 : i + j * (imax + 2) + (imax + 2) ≠ i + j * (imax + 2) := by omega
  have h2 : i + j * (imax + 2) - (imax + 2) ≠ i + j * (imax + 2) := by omega
  have h3 : i + j * (imax + 2) + 1 ≠ i + j * (imax + 2) := by omega
  have h4 : i + j * (imax + 2) - 1 ≠ i + j * (imax + 2) := by omega
  refine ⟨?_, ?_, ?_⟩ <;> intro hc
  · simp [DeviceArray.writeIf, DeviceArray.write, hc, border_position.toUInt8,
      apply_pressure_bcs.TOP_LEFT, apply_pressure_bcs.BOTTOM_RIGHT, apply_pressure_bcs.TOP_RIGHT,
      apply_pressure_bcs.BOTTOM_LEFT, h1, h2, h3, h4]
  · simp [DeviceArray.writeIf, DeviceArray.write, hc, border_position.toUInt8,
      apply_pressure_bcs.TOP_LEFT, apply_pressure_bcs.BOTTOM_RIGHT, apply_pressure_bcs.TOP_RIGHT,
      apply_pressure_bcs.BOTTOM_LEFT, h1, h2, h3, h4]
  · rcases hc with hc | hc <;>
    simp [DeviceArray.writeIf, DeviceArray.write, hc, border_position.toUInt8,
      apply_pressure_bcs.TOP_LEFT, apply_pressure_bcs.BOTTOM_RIGHT, apply_pressure_bcs.TOP_RIGHT,
      apply_pressure_bcs.BOTTOM_LEFT]

/-- After `apply_pressure_bcs`, a non-fluid cell `(i, j)` of the index range of
another type than `ZERO_GRADIENT`, with the code of a single face whose neighbour
across that face is fluid, holds the pressure of that neighbour. -/
theorem apply_pressure_bcs_wall_face {α : Type} [Field α] (p : DeviceArray α)
    (mask : DeviceArray Bool) (type : DeviceArray cell_type) (pos : DeviceArray Nat)
    (grid : gridParams α) (i j : Int) (hi0 : 0 ≤ i) (hi1 : i ≤ grid.imax + 1) (hj0 : 0 ≤ j)
    (hj1 : j ≤ grid.jmax + 1) (hm : mask (i + j * (grid.imax + 2)) = false)
    (ht : type (i + j * (grid.imax + 2)) ≠ cell_type.ZERO_GRADIENT) :
    (pos (i + j * (grid.imax + 2)) = border_position.RIGHT.toUInt8 →
      mask (i + j * (grid.imax + 2) + 1) = true →
      apply_pressure_bcs p mask type pos grid (i + j * (grid.imax + 2)) =
        p (i + j * (grid.imax + 2) + 1)) ∧
    (pos (i + j * (grid.imax + 2)) = border_position.LEFT.toUInt8 →
      mask (i + j * (grid.imax + 2) - 1) = true →
      apply_pressure_bcs p mask type pos grid (i + j * (grid.imax + 2)) =
        p (i + j * (grid.imax + 2) - 1)) ∧
    (pos (i + j * (grid.imax + 2)) = border_position.TOP.toUInt8 →
      mask (i + j * (grid.imax + 2) + (grid.imax + 2)) = true →
      apply_pressure_bcs p mask type pos grid (i + j * (grid.imax + 2)) =
        p (i + j * (grid.imax + 2) + (grid.imax + 2))) ∧
    (pos (i + j * (grid.imax + 2)) = border_position.BOTTOM.toUInt8 →
      mask (i + j * (grid.imax + 2) - (grid.imax + 2)) = true →
      apply_pressure_bcs p mask type pos grid (i + j * (grid.imax + 2)) =
        p (i + j * (grid.imax + 2) - (grid.imax + 2))) := by
  refine ⟨?_, ?_, ?_, ?_⟩ <;> intro hc hn <;>
    apply apply_pressure_bcs_own p mask type pos grid i j _ hi0 hi1 hj0 hj1 <;>
    intro t hfl _
  · rw [(apply_pressure_bcs_cell_wall_face mask type pos grid.imax i j t hm ht).1 hc, hfl _ hn]
  · rw [(apply_pressure_bcs_cell_wall_face mask type pos grid.imax i j t hm ht).2.1 hc, hfl _ hn]
  · rw [(apply_pressure_bcs_cell_wall_face mask type pos grid.imax i j t hm ht).2.2.1 hc,
      hfl _ hn]
  · rw [(apply_pressure_bcs_cell_wall_face mask type pos grid.imax i j t hm ht).2.2.2 hc,
      hfl _ hn]

/-- After `apply_pressure_bcs`, a non-fluid cell `(i, j)` of the index range of
another type than `ZERO_GRADIENT` with a corner code: the code 4 leaves the mean of
the top and right neighbours, the code 5 the mean of the bottom and left
neighbours (the neighbours read being fluid), the codes 6 and 7 leave the cell as
it was. -/
theorem apply_pressure_bcs_corner {α : Type} [Field α] (p : DeviceArray α)
    (mask : DeviceArray Bool) (type : DeviceArray cell_type) (pos : DeviceArray Nat)
    (grid : gridParams α) (i j : Int) (hi0 : 0 ≤ i) (hi1 : i ≤ grid.imax + 1) (hj0 : 0 ≤ j)
    (hj1 : j ≤ grid.jmax + 1) (hm : mask (i + j * (grid.imax + 2)) = false)
    (ht : type (i + j * (grid.imax + 2)) ≠ cell_type.ZERO_GRADIENT) :
    (pos (i + j * (grid.imax + 2)) = 4 →
      mask (i + j * (grid.imax + 2) + (grid.imax + 2)) = true →
      mask (i + j * (grid.imax + 2) + 1) = true →
      apply_pressure_bcs p mask type pos grid (i + j * (grid.imax + 2)) =
        (p (i + j * (grid.imax + 2) + (grid.imax + 2)) + p (i + j * (grid.imax + 2) + 1)) / 2) ∧
    (pos (i + j * (grid.imax + 2)) = 5 →
      mask (i + j * (grid.imax + 2) - (grid.imax + 2)) = true →
      mask (i + j * (grid.imax + 2) - 1) = true →
      apply_pressure_bcs p mask type pos grid (i + j * (grid.imax + 2)) =
        (p (i + j * (grid.imax + 2) - (grid.imax + 2)) + p (i + j * (grid.imax + 2) - 1)) / 2) ∧
    (pos (i + j * (grid.imax + 2)) = 6 ∨ pos (i + j * (grid.imax + 2)) = 7 →
      apply_pressure_bcs p mask type pos grid (i + j * (grid.imax + 2)) =
        p (i + j * (grid.imax + 2))) := by
  have hw : grid.imax + 2 ≠ 0 := by omega
  refine ⟨?_, ?_, ?_⟩
  · intro hc hn1 hn2
    apply apply_pressure_bcs_own p mask type pos grid i j _ hi0 hi1 hj0 hj1
    intro t hfl _
    rw [(apply_pressure_bcs_cell_corner mask type pos grid.imax i j t hw hm ht).1 hc,
      hfl _ hn1, hfl _ hn2]
  · intro hc hn1 hn2
    apply apply_pressure_bcs_own p mask type pos grid i j _ hi0 hi1 hj0 hj1
    intro t hfl _
    rw [(apply_pressure_bcs_cell_corner mask type pos grid.imax i j t hw hm ht).2.1 hc,
      hfl _ hn1, hfl _ hn2]
  · intro hc
    apply apply_pressure_bcs_own p mask type pos grid i j _ hi0 hi1 hj0 hj1
    intro t _ hown
    rw [(apply_pressure_bcs_cell_corner mask type pos grid.imax i j t hw hm ht).2.2 hc, hown]

/-- C26: the corner codes of `apply_pressure_bcs` collide. `TOP_RIGHT` has the
value 4 of `TOP_LEFT` and `BOTTOM_LEFT` the value 5 of `BOTTOM_RIGHT` (the source
comments announce 6 and 7). On a 3 by 3 array with `p[k] = k` whose centre cell
(index 4, top 7, bottom 1, left 3, right 5) is the only non-fluid cell, a fixed
wall: with the code 4 the centre receives `(7 + 5) / 2 = 6`, the top-right mean,
not the top-left mean 5; with the code 5 it receives `(1 + 3) / 2 = 2`, the
bottom-left mean, not the bottom-right mean 3; with the codes 6 and 7 it keeps its
value 4 and receives no mean. -/
theorem apply_pressure_bcs_corner_codes_collide :
    apply_pressure_bcs.TOP_LEFT = 4 ∧ apply_pressure_bcs.TOP_RIGHT = 4 ∧
      apply_pressure_bcs.BOTTOM_RIGHT = 5 ∧ apply_pressure_bcs.BOTTOM_LEFT = 5 ∧
      apply_pressure_bcs (exGpuP ℚ) exObstacleMask (fun _ => cell_type.FIXED_WALL) (fun _ => 4)
        (exGpuGrid ℚ) 4 = 6 ∧
      apply_pressure_bcs (exGpuP ℚ) exObstacleMask (fun _ => cell_type.FIXED_WALL) (fun _ => 5)
        (exGpuGrid ℚ) 4 = 2 ∧
      apply_pressure_bcs (exGpuP ℚ) exObstacleMask (fun _ => cell_type.FIXED_WALL) (fun _ => 6)
        (exGpuGrid ℚ) 4 = 4 ∧
      apply_pressure_bcs (exGpuP ℚ) exObstacleMask (fun _ => cell_type.FIXED_WALL) (fun _ => 7)
        (exGpuGrid ℚ) 4 = 4 := by
  have e : (1 : Int) + 1 * ((exGpuGrid ℚ).imax + 2) = 4 := by decide
  have h := fun (c : Nat) => apply_pressure_bcs_corner (exGpuP ℚ) exObstacleMask
    (fun _ => cell_type.FIXED_WALL) (fun _ => c) (exGpuGrid ℚ) 1 1 (by decide) (by decide)
    (by decide) (by decide) (by decide) (by decide)
  simp only [e] at h
  refine ⟨by decide, by decide, by decide, by decide, ?_, ?_, ?_, ?_⟩
  · rw [(h 4).1 rfl (by decide) (by decide)]
    norm_num [exGpuP, exGpuGrid]
  · rw [(h 5).2.1 rfl (by decide) (by decide)]
    norm_num [exGpuP, exGpuGrid]
  · rw [(h 6).2.2 (Or.inl rfl)]
    norm_num [exGpuP]
  · rw [(h 7).2.2 (Or.inr rfl)]
    norm_num [exGpuP]

/-- C27 (counterexample): on the 3 by 3 cavity whose only fluid cell is the
centre (index 4), with `p[k] = k` and every non-fluid cell of type `ZERO_GRADIENT`,
the cell of index 3, whose single border face RIGHT abuts the centre, holds `-4`
after `apply_pressure_bcs` while the neighbour across that face holds 4. -/
theorem apply_pressure_bcs_zero_gradient_negates :
    apply_pressure_bcs (exGpuP ℚ) exGpuMask (fun _ => cell_type.ZERO_GRADIENT) exGpuBorder
        (exGpuGrid ℚ) 3 = -4 ∧
      apply_pressure_bcs (exGpuP ℚ) exGpuMask (fun _ => cell_type.ZERO_GRADIENT) exGpuBorder
        (exGpuGrid ℚ) 4 = 4 ∧
      apply_pressure_bcs (exGpuP ℚ) exGpuMask (fun _ => cell_type.ZERO_GRADIENT) exGpuBorder
        (exGpuGrid ℚ) 3 ≠
      apply_pressure_bcs (exGpuP ℚ) exGpuMask (fun _ => cell_type.ZERO_GRADIENT) exGpuBorder
        (exGpuGrid ℚ) 4 := by
  have e : (0 : Int) + 1 * ((exGpuGrid ℚ).imax + 2) = 3 := by decide
  have h3 : apply_pressure_bcs (exGpuP ℚ) exGpuMask (fun _ => cell_type.ZERO_GRADIENT)
      exGpuBorder (exGpuGrid ℚ) 3 = -4 := by
    have h := apply_pressure_bcs_own (exGpuP ℚ) exGpuMask (fun _ => cell_type.ZERO_GRADIENT)
      exGpuBorder (exGpuGrid ℚ) 0 1 (-4) (by decide) (by decide) (by decide) (by decide)
      (by
        intro t hfl _
        rw [(apply_pressure_bcs_cell_zero_gradient exGpuMask (fun _ => cell_type.ZERO_GRADIENT)
          exGpuBorder (exGpuGrid ℚ).imax 0 1 t (by decide) rfl).1 (by decide),
          hfl _ (by decide)]
        norm_num [exGpuP, exGpuGrid])
    rw [e] at h
    exact h
  have h4 : apply_pressure_bcs (exGpuP ℚ) exGpuMask (fun _ => cell_type.ZERO_GRADIENT)
      exGpuBorder (exGpuGrid ℚ) 4 = 4 := by
    rw [apply_pressure_bcs_fluid _ _ _ _ _ 4 (by decide)]
    norm_num [exGpuP]
  refine ⟨h3, h4, ?_⟩
  rw [h3, h4]
  norm_num

/-- C27 (amended): the zero-gradient pressure of the GPU variant is a Dirichlet
zero on the face. For every non-fluid cell `(i, j)` of the index range of
`apply_pressure_bcs` (`0 ≤ i ≤ imax + 1`, `0 ≤ j ≤ jmax + 1`) of type `ZERO_GRADIENT`
with the code of a single border face (RIGHT, LEFT, TOP or BOTTOM) whose neighbour
across that face is a fluid cell, after `apply_pressure_bcs` the cell's pressure is
the negative of the pressure of that neighbour, which has kept its value. -/
theorem apply_pressure_bcs_zero_gradient_dirichlet {α : Type} [Field α] (p : DeviceArray α)
    (mask : DeviceArray Bool) (type : DeviceArray cell_type) (pos : DeviceArray Nat)
    (grid : gridParams α) (i j : Int) (hi0 : 0 ≤ i) (hi1 : i ≤ grid.imax + 1) (hj0 : 0 ≤ j)
    (hj1 : j ≤ grid.jmax + 1) (hm : mask (i + j * (grid.imax + 2)) = false)
    (ht : type (i + j * (grid.imax + 2)) = cell_type.ZERO_GRADIENT) :
    (pos (i + j * (grid.imax + 2)) = border_position.RIGHT.toUInt8 →
      mask (i + j * (grid.imax + 2) + 1) = true →
      apply_pressure_bcs p mask type pos grid (i + j * (grid.imax + 2)) =
          -apply_pressure_bcs p mask type pos grid (i + j * (grid.imax + 2) + 1) ∧
        apply_pressure_bcs p mask type pos grid (i + j * (grid.imax + 2) + 1) =
          p (i + j * (grid.imax + 2) + 1)) ∧
    (pos (i + j * (grid.imax + 2)) = border_position.LEFT.toUInt8 →
      mask (i + j * (grid.imax + 2) - 1) = true →
      apply_pressure_bcs p mask type pos grid (i + j * (grid.imax + 2)) =
          -apply_pressure_bcs p mask type pos grid (i + j * (grid.imax + 2) - 1) ∧
        apply_pressure_bcs p mask type pos grid (i + j * (grid.imax + 2) - 1) =
          p (i + j * (grid.imax + 2) - 1)) ∧
    (pos (i + j * (grid.imax + 2)) = border_position.TOP.toUInt8 →
      mask (i + j * (grid.imax + 2) + (grid.imax + 2)) = true →
      apply_pressure_bcs p mask type pos grid (i + j * (grid.imax + 2)) =
          -apply_pressure_bcs p mask type pos grid (i + j * (grid.imax + 2) + (grid.imax + 2)) ∧
        apply_pressure_bcs p mask type pos grid (i + j * (grid.imax + 2) + (grid.imax + 2)) =
          p (i + j * (grid.imax + 2) + (grid.imax + 2))) ∧
    (pos (i + j * (grid.imax + 2)) = border_position.BOTTOM.toUInt8 →
      mask (i + j * (grid.imax + 2) - (grid.imax + 2)) = true →
      apply_pressure_bcs p mask type pos grid (i + j * (grid.imax + 2)) =
          -apply_pressure_bcs p mask type pos grid (i + j * (grid.imax + 2) - (grid.imax + 2)) ∧
        apply_pressure_bcs p mask type pos grid (i + j * (grid.imax + 2) - (grid.imax + 2)) =
          p (i + j * (grid.imax + 2) - (grid.imax + 2))) := by
  refine ⟨?_, ?_, ?_, ?_⟩ <;> intro hc hn <;>
    rw [apply_pressure_bcs_fluid p mask type pos grid _ hn] <;>
    refine ⟨?_, rfl⟩ <;>
    apply apply_pressure_bcs_own p mask type pos grid i j _ hi0 hi1 hj0 hj1 <;>
    intro t hfl _
  · rw [(apply_pressure_bcs_cell_zero_gradient mask type pos grid.imax i j t hm ht).1 hc,
      hfl _ hn]
  · rw [(apply_pressure_bcs_cell_zero_gradient mask type pos grid.imax i j t hm ht).2.1 hc,
      hfl _ hn]
  · rw [(apply_pressure_bcs_cell_zero_gradient mask type pos grid.imax i j t hm ht).2.2.1 hc,
      hfl _ hn]
  · rw [(apply_pressure_bcs_cell_zero_gradient mask type pos grid.imax i j t hm ht).2.2.2 hc,
      hfl _ hn]

/-- Witness of C27 (amended): on the 3 by 3 cavity with `p[k] = k`, the cell
`(2, 1)` (index 5) of type `ZERO_GRADIENT` with the code LEFT, whose left neighbour is
the fluid centre (index 4). -/
theorem apply_pressure_bcs_zero_gradient_dirichlet_witness :
    apply_pressure_bcs (exGpuP ℚ) exGpuMask (fun _ => cell_type.ZERO_GRADIENT) exGpuBorder
          (exGpuGrid ℚ) (2 + 1 * ((exGpuGrid ℚ).imax + 2)) =
        -apply_pressure_bcs (exGpuP ℚ) exGpuMask (fun _ => cell_type.ZERO_GRADIENT) exGpuBorder
          (exGpuGrid ℚ) (2 + 1 * ((exGpuGrid ℚ).imax + 2) - 1) ∧
      apply_pressure_bcs (exGpuP ℚ) exGpuMask (fun _ => cell_type.ZERO_GRADIENT) exGpuBorder
          (exGpuGrid ℚ) (2 + 1 * ((exGpuGrid ℚ).imax + 2) - 1) =
        exGpuP ℚ (2 + 1 * ((exGpuGrid ℚ).imax + 2) - 1) :=
  (apply_pressure_bcs_zero_gradient_dirichlet (exGpuP ℚ) exGpuMask
    (fun _ => cell_type.ZERO_GRADIENT) exGpuBorder (exGpuGrid ℚ) 2 1 (by decide) (by decide)
    (by decide) (by decide) (by decide) rfl).2.1 (by decide) (by decide)

theorem forLoop_single {σ : Type} (k : Int) (body : Int → σ → σ) (s : σ) :
    forLoop k k body s = body k s := by
  unfold forLoop
  have e : (k + 1 - k).toNat = 1 := by omega
  rw [e]
  rfl

/-- The pressure array of the 3 by 3 cavity of fixed walls after
`apply_pressure_bcs`, from `p[k] = k`: the centre keeps 4 and the four side cells
hold the centre value. -/
theorem exGpu_apply_pressure_bcs :
    apply_pressure_bcs (exGpuP ℝ) exGpuMask (fun _ => cell_type.FIXED_WALL) exGpuBorder
        (exGpuGrid ℝ) 4 = 4 ∧
      apply_pressure_bcs (exGpuP ℝ) exGpuMask (fun _ => cell_type.FIXED_WALL) exGpuBorder
        (exGpuGrid ℝ) 3 = 4 ∧
      apply_pressure_bcs (exGpuP ℝ) exGpuMask (fun _ => cell_type.FIXED_WALL) exGpuBorder
        (exGpuGrid ℝ) 5 = 4 ∧
      apply_pressure_bcs (exGpuP ℝ) exGpuMask (fun _ => cell_type.FIXED_WALL) exGpuBorder
        (exGpuGrid ℝ) 1 = 4 ∧
      apply_pressure_bcs (exGpuP ℝ) exGpuMask (fun _ => cell_type.FIXED_WALL) exGpuBorder
        (exGpuGrid ℝ) 7 = 4 := by
  have hp : exGpuP ℝ 4 = 4 := by norm_num [exGpuP]
  have h := fun (i j : Int) h1 h2 h3 h4 h5 => apply_pressure_bcs_wall_face (exGpuP ℝ) exGpuMask
    (fun _ => cell_type.FIXED_WALL) exGpuBorder (exGpuGrid ℝ) i j h1 h2 h3 h4 h5
    (fun hne => cell_type.noConfusion hne)
  have e3 : (0 : Int) + 1 * ((exGpuGrid ℝ).imax + 2) = 3 := by decide
  have e5 : (2 : Int) + 1 * ((exGpuGrid ℝ).imax + 2) = 5 := by decide
  have e1 : (1 : Int) + 0 * ((exGpuGrid ℝ).imax + 2) = 1 := by decide
  have e7 : (1 : Int) + 2 * ((exGpuGrid ℝ).imax + 2) = 7 := by decide
  have g3 := (h 0 1 (by decide) (by decide) (by decide) (by decide) (by decide)).1
    (by decide) (by decide)
  have g5 := (h 2 1 (by decide) (by decide) (by decide) (by decide) (by decide)).2.1
    (by decide) (by decide)
  have g1 := (h 1 0 (by decide) (by decide) (by decide) (by decide) (by decide)).2.2.1
    (by decide) (by decide)
  have g7 := (h 1 2 (by decide) (by decide) (by decide) (by decide) (by decide)).2.2.2
    (by decide) (by decide)
  rw [e3] at g3
  rw [e5] at g5
  rw [e1] at g1
  rw [e7] at g7
  have n3 : (3 : Int) + 1 = 4 := by decide
  have n5 : (5 : Int) - 1 = 4 := by decide
  have n1 : (1 : Int) + ((exGpuGrid ℝ).imax + 2) = 4 := by decide
  have n7 : (7 : Int) - ((exGpuGrid ℝ).imax + 2) = 4 := by decide
  rw [n3] at g3
  rw [n5] at g5
  rw [n1] at g1
  rw [n7] at g7
  refine ⟨?_, ?_, ?_, ?_, ?_⟩
  · rw [apply_pressure_bcs_fluid _ _ _ _ _ 4 (by decide), hp]
  · rw [g3, hp]
  · rw [g5, hp]
  · rw [g1, hp]
  · rw [g7, hp]

/-- C24: `gpu_psolve` does not return the residual of `SOR::solve`: it returns the
mean of the squares, `res / size_fluid_cells`, without the square root. On the 3
by 3 cavity of fixed walls with one fluid cell, `dx = dy = 1`, `p[k] = k`, the
right-hand side 3 at the fluid cell and no Jacobi iteration (`num_iterations = 0`,
any kernel and any second buffer), the final pressure is 4 at the fluid cell and at
its four neighbours, `Laplacian(P) - RS = -3` there, and `gpu_psolve` returns 9,
while the root mean square of the specification is 3 for the same final
pressure, right-hand side and fluid cell, and so is the value `SOR::solve` returns
for these fields (with `omega = 0`, for which its sweep keeps the pressure). -/
theorem gpu_psolve_returns_mean_square
    (jacobiKernel : DeviceArray ℝ → (DeviceArray Bool) → ℝ → Int → Int → ℝ → ℝ →
      DeviceArray ℝ × DeviceArray ℝ → DeviceArray ℝ × DeviceArray ℝ)
    (d_p_matrix_new : DeviceArray ℝ) :
    (gpu_psolve jacobiKernel (exGpuP ℝ) d_p_matrix_new (exGpuRS ℝ) exGpuMask
        (fun _ => cell_type.FIXED_WALL) exGpuBorder (exGpuGrid ℝ) 0).2 = 9 ∧
      residualRMS Real.sqrt 1 1 [fluidCell 1 1]
        ((gpu_psolve jacobiKernel (exGpuP ℝ) d_p_matrix_new (exGpuRS ℝ) exGpuMask
          (fun _ => cell_type.FIXED_WALL) exGpuBorder (exGpuGrid ℝ) 0).1.toMatrix 1)
        ((exGpuRS ℝ).toMatrix 1) = 3 ∧
      (SOR.solve Real.sqrt 0
        { exFields ℝ with
          P := (gpu_psolve jacobiKernel (exGpuP ℝ) d_p_matrix_new (exGpuRS ℝ) exGpuMask
            (fun _ => cell_type.FIXED_WALL) exGpuBorder (exGpuGrid ℝ) 0).1.toMatrix 1,
          RS := (exGpuRS ℝ).toMatrix 1 }
        (exGrid 1 1 1 1 [fluidCell 1 1]) []).2 = 3 := by
  obtain ⟨h4, h3, h5, h1, h7⟩ := exGpu_apply_pressure_bcs
  have hp : (gpu_psolve jacobiKernel (exGpuP ℝ) d_p_matrix_new (exGpuRS ℝ) exGpuMask
      (fun _ => cell_type.FIXED_WALL) exGpuBorder (exGpuGrid ℝ) 0).1 =
      apply_pressure_bcs (exGpuP ℝ) exGpuMask (fun _ => cell_type.FIXED_WALL) exGpuBorder
        (exGpuGrid ℝ) := rfl
  have hs : Real.sqrt 9 = 3 := by
    rw [show (9 : ℝ) = 3 ^ 2 by norm_num]
    exact Real.sqrt_sq (by norm_num)
  refine ⟨?_, ?_, ?_⟩
  · show gpu_psolve.residual (apply_pressure_bcs (exGpuP ℝ) exGpuMask
        (fun _ => cell_type.FIXED_WALL) exGpuBorder (exGpuGrid ℝ)) (exGpuRS ℝ) exGpuMask 1 1 1 1 /
      ((1 : Int) : ℝ) = 9
    unfold gpu_psolve.residual
    rw [forLoop_single, forLoop_single]
    norm_num [h4, h3, h5, h1, h7, exGpuRS, exGpuMask]
  · rw [hp]
    unfold residualRMS
    simp only [List.map_cons, List.map_nil, List.sum_cons, List.sum_nil, List.length_cons,
      List.length_nil, laplacian, DeviceArray.toMatrix, fluidCell]
    norm_num [h4, h3, h5, h1, h7, exGpuRS]
    exact hs
  · rw [hp]
    show Real.sqrt (SOR.rloc _ _ _ (SOR.sweep _ _ _ _ _) / _) = 3
    rw [SOR_rloc_eq_sum, (SOR_sweep_frame _ _ _ _ _).1]
    simp only [exGrid, SOR_sweep_single, List.map_cons, List.map_nil, List.sum_cons,
      List.sum_nil, List.length_cons, List.length_nil, laplacian, DeviceArray.toMatrix, fluidCell,
      Matrix.write, Grid.dx, Grid.dy, exDomain]
    norm_num [h4, h3, h5, h1, h7, exGpuRS]
    exact hs

/-! ## Communication.cpp: the loops of `communicate` -/

/-- The loop `for (j = 0; j < n; j++) v[j] = f(j)` fills the entries `0..n-1`. -/
theorem forLoop_fill {α : Type} (n : Int) (f : Int → α) (v0 : StdVector α) :
    forLoop 0 (n - 1) (fun j v => StdVector.write v j (f j)) v0 =
      fun k => if 0 ≤ k ∧ k ≤ n - 1 then f k else v0 k := by
  have h := forLoop_invariant 0 (n - 1) (fun j v => StdVector.write v j (f j))
    (fun k t => t = fun m => if 0 ≤ m ∧ m < k then f m else v0 m) v0
    (by
      funext m
      rw [if_neg]
      omega)
    (by
      intro k t hlo hhi ht
      subst ht
      funext m
      unfold StdVector.write
      beta_reduce
      by_cases h1 : m = k
      · rw [if_pos h1, if_pos (by omega), h1]
      · rw [if_neg h1]
        by_cases h2 : 0 ≤ m ∧ m < k
        · rw [if_pos h2, if_pos (by omega)]
        · rw [if_neg h2, if_neg (by omega)])
  simp only at h
  rw [h]
  funext m
  by_cases h2 : 0 ≤ m ∧ m ≤ n - 1
  · rw [if_pos h2, if_pos (by omega)]
  · rw [if_neg h2, if_neg (by omega)]

/-- The loop `for (j = 0; j < n; j++) matrix(c, j) = r[j]` stores `r` into the
entries `0..n-1` of the column `c`. -/
theorem forLoop_store_column {α : Type} (n c : Int) (r : StdVector α) (m0 : Matrix α) :
    forLoop 0 (n - 1) (fun j m => Matrix.write m c j (r j)) m0 =
      fun a b => if a = c ∧ 0 ≤ b ∧ b ≤ n - 1 then r b else m0 a b := by
  have h := forLoop_invariant 0 (n - 1) (fun j m => Matrix.write m c j (r j))
    (fun k t => t = fun a b => if a = c ∧ 0 ≤ b ∧ b < k then r b else m0 a b) m0
    (by
      funext a b
      rw [if_neg]
      omega)
    (by
      intro k t hlo hhi ht
      subst ht
      funext a b
      unfold Matrix.write
      beta_reduce
      by_cases h1 : a = c ∧ b = k
      · rw [if_pos h1, if_pos (by omega), h1.2]
      · rw [if_neg h1]
        by_cases h2 : a = c ∧ 0 ≤ b ∧ b < k
        · rw [if_pos h2, if_pos (by omega)]
        · rw [if_neg h2, if_neg (by omega)])
  simp only at h
  rw [h]
  funext a b
  by_cases h2 : a = c ∧ 0 ≤ b ∧ b ≤ n - 1
  · rw [if_pos h2, if_pos (by omega)]
  · rw [if_neg h2, if_neg (by omega)]

/-- The loop `for (i = 0; i < n; i++) matrix(i, r0) = r[i]` stores `r` into the
entries `0..n-1` of the row `r0`. -/
theorem forLoop_store_row {α : Type} (n r0 : Int) (r : StdVector α) (m0 : Matrix α) :
    forLoop 0 (n - 1) (fun i m => Matrix.write m i r0 (r i)) m0 =
      fun a b => if b = r0 ∧ 0 ≤ a ∧ a ≤ n - 1 then r a else m0 a b := by
  have h := forLoop_invariant 0 (n - 1) (fun i m => Matrix.write m i r0 (r i))
    (fun k t => t = fun a b => if b = r0 ∧ 0 ≤ a ∧ a < k then r a else m0 a b) m0
    (by
      funext a b
      rw [if_neg]
      omega)
    (by
      intro k t hlo hhi ht
      subst ht
      funext a b
      unfold Matrix.write
      beta_reduce
      by_cases h1 : a = k ∧ b = r0
      · rw [if_pos h1, if_pos (by omega), h1.1]
      · rw [if_neg h1]
        by_cases h2 : b = r0 ∧ 0 ≤ a ∧ a < k
        · rw [if_pos h2, if_pos (by omega)]
        · rw [if_neg h2, if_neg (by omega)])
  simp only at h
  rw [h]
  funext a b
  by_cases h2 : b = r0 ∧ 0 ≤ a ∧ a ≤ n - 1
  · rw [if_pos h2, if_pos (by omega)]
  · rw [if_neg h2, if_neg (by omega)]

/-- The matrix after the RIGHT block. -/
theorem communicate_RIGHT_matrix {α : Type} (ranks : neighbours_ranks) (rcv : StdVector α)
    (num_cols num_rows : Int) (s : CommunicateState α) (i j : Int) :
    (communicate.RIGHT ranks rcv num_cols num_rows s).matrix i j =
      if ranks.RIGHT ≠ none ∧ i = num_cols - 1 ∧ 0 ≤ j ∧ j ≤ num_rows - 1 then rcv j
      else s.matrix i j := by
  unfold communicate.RIGHT
  by_cases h : ranks.RIGHT ≠ none
  · rw [if_pos h]
    show forLoop 0 (num_rows - 1)
      (fun j m => Matrix.write m (num_cols - 2 + 1) j (rcv j)) s.matrix i j = _
    rw [forLoop_store_column]
    beta_reduce
    by_cases h2 : i = num_cols - 1 ∧ 0 ≤ j ∧ j ≤ num_rows - 1
    · rw [if_pos (show ranks.RIGHT ≠ none ∧ i = num_cols - 1 ∧ 0 ≤ j ∧ j ≤ num_rows - 1 from ⟨h, h2⟩),
        if_pos (show i = num_cols - 2 + 1 ∧ 0 ≤ j ∧ j ≤ num_rows - 1 by omega)]
    · rw [if_neg (show ¬(ranks.RIGHT ≠ none ∧ i = num_cols - 1 ∧ 0 ≤ j ∧ j ≤ num_rows - 1) from
          fun hh => h2 hh.2),
        if_neg (show ¬(i = num_cols - 2 + 1 ∧ 0 ≤ j ∧ j ≤ num_rows - 1) by omega)]
  · rw [if_neg h]
    exact (if_neg (fun hh => h hh.1)).symm

/-- The matrix after the LEFT block. -/
theorem communicate_LEFT_matrix {α : Type} (ranks : neighbours_ranks) (rcv : StdVector α)
    (num_rows : Int) (s : CommunicateState α) (i j : Int) :
    (communicate.LEFT ranks rcv num_rows s).matrix i j =
      if ranks.LEFT ≠ none ∧ i = 0 ∧ 0 ≤ j ∧ j ≤ num_rows - 1 then rcv j
      else s.matrix i j := by
  unfold communicate.LEFT
  by_cases h : ranks.LEFT ≠ none
  · rw [if_pos h]
    show forLoop 0 (num_rows - 1) (fun j m => Matrix.write m 0 j (rcv j)) s.matrix i j = _
    rw [forLoop_store_column]
    beta_reduce
    by_cases h2 : i = 0 ∧ 0 ≤ j ∧ j ≤ num_rows - 1
    · rw [if_pos (show ranks.LEFT ≠ none ∧ i = 0 ∧ 0 ≤ j ∧ j ≤ num_rows - 1 from ⟨h, h2⟩),
        if_pos h2]
    · rw [if_neg (show ¬(ranks.LEFT ≠ none ∧ i = 0 ∧ 0 ≤ j ∧ j ≤ num_rows - 1) from
          fun hh => h2 hh.2), if_neg h2]
  · rw [if_neg h]
    exact (if_neg (fun hh => h hh.1)).symm

/-- The matrix after the UP block. -/
theorem communicate_UP_matrix {α : Type} (ranks : neighbours_ranks) (rcv : StdVector α)
    (num_cols num_rows : Int) (s : CommunicateState α) (i j : Int) :
    (communicate.UP ranks rcv num_cols num_rows s).matrix i j =
      if ranks.UP ≠ none ∧ j = num_rows - 1 ∧ 0 ≤ i ∧ i ≤ num_cols - 1 then rcv i
      else s.matrix i j := by
  unfold communicate.UP
  by_cases h : ranks.UP ≠ none
  · rw [if_pos h]
    show forLoop 0 (num_cols - 1)
      (fun i m => Matrix.write m i (num_rows - 2 + 1) (rcv i)) s.matrix i j = _
    rw [forLoop_store_row]
    beta_reduce
    by_cases h2 : j = num_rows - 1 ∧ 0 ≤ i ∧ i ≤ num_cols - 1
    · rw [if_pos (show ranks.UP ≠ none ∧ j = num_rows - 1 ∧ 0 ≤ i ∧ i ≤ num_cols - 1 from ⟨h, h2⟩),
        if_pos (show j = num_rows - 2 + 1 ∧ 0 ≤ i ∧ i ≤ num_cols - 1 by omega)]
    · rw [if_neg (show ¬(ranks.UP ≠ none ∧ j = num_rows - 1 ∧ 0 ≤ i ∧ i ≤ num_cols - 1) from
          fun hh => h2 hh.2),
        if_neg (show ¬(j = num_rows - 2 + 1 ∧ 0 ≤ i ∧ i ≤ num_cols - 1) by omega)]
  · rw [if_neg h]
    exact (if_neg (fun hh => h hh.1)).symm

/-- The matrix after the DOWN block. -/
theorem communicate_DOWN_matrix {α : Type} (ranks : neighbours_ranks) (rcv : StdVector α)
    (num_cols : Int) (s : CommunicateState α) (i j : Int) :
    (communicate.DOWN ranks rcv num_cols s).matrix i j =
      if ranks.DOWN ≠ none ∧ j = 0 ∧ 0 ≤ i ∧ i ≤ num_cols - 1 then rcv i
      else s.matrix i j := by
  unfold communicate.DOWN
  by_cases h : ranks.DOWN ≠ none
  · rw [if_pos h]
    show forLoop 0 (num_cols - 1) (fun i m => Matrix.write m i 0 (rcv i)) s.matrix i j = _
    rw [forLoop_store_row]
    beta_reduce
    by_cases h2 : j = 0 ∧ 0 ≤ i ∧ i ≤ num_cols - 1
    · rw [if_pos (show ranks.DOWN ≠ none ∧ j = 0 ∧ 0 ≤ i ∧ i ≤ num_cols - 1 from ⟨h, h2⟩),
        if_pos h2]
    · rw [if_neg (show ¬(ranks.DOWN ≠ none ∧ j = 0 ∧ 0 ≤ i ∧ i ≤ num_cols - 1) from
          fun hh => h2 hh.2), if_neg h2]
  · rw [if_neg h]
    exact (if_neg (fun hh => h hh.1)).symm

/-- The message of the RIGHT block: the entries `0..num_rows-1` of the column
`num_cols - 2` of the matrix the block starts from. -/
theorem communicate_RIGHT_sent {α : Type} [Zero α] (ranks : neighbours_ranks)
    (rcv : StdVector α) (num_cols num_rows : Int) (s : CommunicateState α) :
    (ranks.RIGHT ≠ none → ∀ j : Int, 0 ≤ j → j ≤ num_rows - 1 →
      messageOf (communicate.RIGHT ranks rcv num_cols num_rows s).sent_RIGHT j =
        s.matrix (num_cols - 2) j) ∧
    (ranks.RIGHT = none →
      (communicate.RIGHT ranks rcv num_cols num_rows s).sent_RIGHT = s.sent_RIGHT) := by
  unfold communicate.RIGHT
  constructor
  · intro h j hj0 hj1
    rw [if_pos h]
    show forLoop 0 (num_rows - 1)
      (fun j v => StdVector.write v j (s.matrix (num_cols - 2) j)) s.send_x j = _
    rw [forLoop_fill]
    exact if_pos ⟨hj0, hj1⟩
  · intro h
    rw [if_neg (fun hh => hh h)]

/-- The message of the LEFT block: the entries `0..num_rows-1` of the column 1 of
the matrix the block starts from. -/
theorem communicate_LEFT_sent {α : Type} [Zero α] (ranks : neighbours_ranks)
    (rcv : StdVector α) (num_rows : Int) (s : CommunicateState α) :
    (ranks.LEFT ≠ none → ∀ j : Int, 0 ≤ j → j ≤ num_rows - 1 →
      messageOf (communicate.LEFT ranks rcv num_rows s).sent_LEFT j = s.matrix 1 j) ∧
    (ranks.LEFT = none → (communicate.LEFT ranks rcv num_rows s).sent_LEFT = s.sent_LEFT) := by
  unfold communicate.LEFT
  constructor
  · intro h j hj0 hj1
    rw [if_pos h]
    show forLoop 0 (num_rows - 1) (fun j v => StdVector.write v j (s.matrix 1 j)) s.send_x j = _
    rw [forLoop_fill]
    exact if_pos ⟨hj0, hj1⟩
  · intro h
    rw [if_neg (fun hh => hh h)]

/-- The message of the UP block: the entries `0..num_cols-1` of the row
`num_rows - 2` of the matrix the block starts from. -/
theorem communicate_UP_sent {α : Type} [Zero α] (ranks : neighbours_ranks)
    (rcv : StdVector α) (num_cols num_rows : Int) (s : CommunicateState α) :
    (ranks.UP ≠ none → ∀ i : Int, 0 ≤ i → i ≤ num_cols - 1 →
      messageOf (communicate.UP ranks rcv num_cols num_rows s).sent_UP i =
        s.matrix i (num_rows - 2)) ∧
    (ranks.UP = none → (communicate.UP ranks rcv num_cols num_rows s).sent_UP = s.sent_UP) := by
  unfold communicate.UP
  constructor
  · intro h i hi0 hi1
    rw [if_pos h]
    show forLoop 0 (num_cols - 1)
      (fun i v => StdVector.write v i (s.matrix i (num_rows - 2))) s.send_y i = _
    rw [forLoop_fill]
    exact if_pos ⟨hi0, hi1⟩
  · intro h
    rw [if_neg (fun hh => hh h)]

/-- The message of the DOWN block: the entries `0..num_cols-1` of the row 1 of
the matrix the block starts from. -/
theorem communicate_DOWN_sent {α : Type} [Zero α] (ranks : neighbours_ranks)
    (rcv : StdVector α) (num_cols : Int) (s : CommunicateState α) :
    (ranks.DOWN ≠ none → ∀ i : Int, 0 ≤ i → i ≤ num_cols - 1 →
      messageOf (communicate.DOWN ranks rcv num_cols s).sent_DOWN i = s.matrix i 1) ∧
    (ranks.DOWN = none → (communicate.DOWN ranks rcv num_cols s).sent_DOWN = s.sent_DOWN) := by
  unfold communicate.DOWN
  constructor
  · intro h i hi0 hi1
    rw [if_pos h]
    show forLoop 0 (num_cols - 1) (fun i v => StdVector.write v i (s.matrix i 1)) s.send_y i = _
    rw [forLoop_fill]
    exact if_pos ⟨hi0, hi1⟩
  · intro h
    rw [if_neg (fun hh => hh h)]

/-- A block of `communicate` keeps the records of the messages of the other
directions. -/
theorem communicate_sent_frame {α : Type} (ranks : neighbours_ranks) (rcv : StdVector α)
    (num_cols num_rows : Int) (s : CommunicateState α) :
    (communicate.LEFT ranks rcv num_rows s).sent_RIGHT = s.sent_RIGHT ∧
    (communicate.UP ranks rcv num_cols num_rows s).sent_RIGHT = s.sent_RIGHT ∧
    (communicate.DOWN ranks rcv num_cols s).sent_RIGHT = s.sent_RIGHT ∧
    (communicate.UP ranks rcv num_cols num_rows s).sent_LEFT = s.sent_LEFT ∧
    (communicate.DOWN ranks rcv num_cols s).sent_LEFT = s.sent_LEFT ∧
    (communicate.DOWN ranks rcv num_cols s).sent_UP = s.sent_UP := by
  unfold communicate.LEFT communicate.UP communicate.DOWN
  refine ⟨?_, ?_, ?_, ?_, ?_, ?_⟩ <;> split_ifs <;> rfl

/-- The matrix that `communicate` leaves: the blocks run in the order RIGHT, LEFT,
UP, DOWN, so where two of them write the same entry the later one stays. -/
theorem communicate_matrix {α : Type} [Zero α] (ranks : neighbours_ranks)
    (rcv_RIGHT rcv_LEFT rcv_UP rcv_DOWN : StdVector α) (num_cols num_rows : Int)
    (matrix : Matrix α) (i j : Int) :
    (communicate ranks rcv_RIGHT rcv_LEFT rcv_UP rcv_DOWN num_cols num_rows matrix).matrix i j =
      if ranks.DOWN ≠ none ∧ j = 0 ∧ 0 ≤ i ∧ i ≤ num_cols - 1 then rcv_DOWN i
      else if ranks.UP ≠ none ∧ j = num_rows - 1 ∧ 0 ≤ i ∧ i ≤ num_cols - 1 then rcv_UP i
      else if ranks.LEFT ≠ none ∧ i = 0 ∧ 0 ≤ j ∧ j ≤ num_rows - 1 then rcv_LEFT j
      else if ranks.RIGHT ≠ none ∧ i = num_cols - 1 ∧ 0 ≤ j ∧ j ≤ num_rows - 1 then rcv_RIGHT j
      else matrix i j := by
  unfold communicate
  rw [communicate_DOWN_matrix, communicate_UP_matrix, communicate_LEFT_matrix,
    communicate_RIGHT_matrix]
  rfl

/-- The messages that `communicate` sends, for a matrix of at least 3 by 3
entries: the columns `num_cols - 2` and 1 of the matrix it is given, and the rows
`num_rows - 2` and 1 of the matrix as it is after the RIGHT and LEFT blocks. -/
theorem communicate_sent {α : Type} [Zero α] (ranks : neighbours_ranks)
    (rcv_RIGHT rcv_LEFT rcv_UP rcv_DOWN : StdVector α) (num_cols num_rows : Int)
    (matrix : Matrix α) (hc : 3 ≤ num_cols) (hr : 3 ≤ num_rows) :
    (ranks.RIGHT ≠ none → ∀ j : Int, 0 ≤ j → j ≤ num_rows - 1 →
      messageOf (communicate ranks rcv_RIGHT rcv_LEFT rcv_UP rcv_DOWN num_cols num_rows
        matrix).sent_RIGHT j = matrix (num_cols - 2) j) ∧
    (ranks.LEFT ≠ none → ∀ j : Int, 0 ≤ j → j ≤ num_rows - 1 →
      messageOf (communicate ranks rcv_RIGHT rcv_LEFT rcv_UP rcv_DOWN num_cols num_rows
        matrix).sent_LEFT j = matrix 1 j) ∧
    (ranks.UP ≠ none → ∀ i : Int, 0 ≤ i → i ≤ num_cols - 1 →
      messageOf (communicate ranks rcv_RIGHT rcv_LEFT rcv_UP rcv_DOWN num_cols num_rows
        matrix).sent_UP i =
        (communicate.LEFT ranks rcv_LEFT num_rows (communicate.RIGHT ranks rcv_RIGHT num_cols
          num_rows (communicate.start matrix))).matrix i (num_rows - 2)) ∧
    (ranks.DOWN ≠ none → ∀ i : Int, 0 ≤ i → i ≤ num_cols - 1 →
      messageOf (communicate ranks rcv_RIGHT rcv_LEFT rcv_UP rcv_DOWN num_cols num_rows
        matrix).sent_DOWN i =
        (communicate.LEFT ranks rcv_LEFT num_rows (communicate.RIGHT ranks rcv_RIGHT num_cols
          num_rows (communicate.start matrix))).matrix i 1) ∧
    (ranks.RIGHT = none → (communicate ranks rcv_RIGHT rcv_LEFT rcv_UP rcv_DOWN num_cols num_rows
        matrix).sent_RIGHT = none) ∧
    (ranks.LEFT = none → (communicate ranks rcv_RIGHT rcv_LEFT rcv_UP rcv_DOWN num_cols num_rows
        matrix).sent_LEFT = none) ∧
    (ranks.UP = none → (communicate ranks rcv_RIGHT rcv_LEFT rcv_UP rcv_DOWN num_cols num_rows
        matrix).sent_UP = none) ∧
    (ranks.DOWN = none → (communicate ranks rcv_RIGHT rcv_LEFT rcv_UP rcv_DOWN num_cols num_rows
        matrix).sent_DOWN = none) := by
  unfold communicate
  refine ⟨?_, ?_, ?_, ?_, ?_, ?_, ?_, ?_⟩
  · intro h j hj0 hj1
    rw [(communicate_sent_frame ranks rcv_DOWN num_cols num_rows _).2.2.1,
      (communicate_sent_frame ranks rcv_UP num_cols num_rows _).2.1,
      (communicate_sent_frame ranks rcv_LEFT num_cols num_rows _).1,
      (communicate_RIGHT_sent ranks rcv_RIGHT num_cols num_rows _).1 h j hj0 hj1]
    rfl
  · intro h j hj0 hj1
    rw [(communicate_sent_frame ranks rcv_DOWN num_cols num_rows _).2.2.2.2.1,
      (communicate_sent_frame ranks rcv_UP num_cols num_rows _).2.2.2.1,
      (communicate_LEFT_sent ranks rcv_LEFT num_rows _).1 h j hj0 hj1,
      communicate_RIGHT_matrix, if_neg (by omega)]
    rfl
  · intro h i hi0 hi1
    rw [(communicate_sent_frame ranks rcv_DOWN num_cols num_rows _).2.2.2.2.2,
      (communicate_UP_sent ranks rcv_UP num_cols num_rows _).1 h i hi0 hi1]
  · intro h i hi0 hi1
    rw [(communicate_DOWN_sent ranks rcv_DOWN num_cols _).1 h i hi0 hi1,
      communicate_UP_matrix, if_neg (by omega)]
  · intro h
    rw [(communicate_sent_frame ranks rcv_DOWN num_cols num_rows _).2.2.1,
      (communicate_sent_frame ranks rcv_UP num_cols num_rows _).2.1,
      (communicate_sent_frame ranks rcv_LEFT num_cols num_rows _).1,
      (communicate_RIGHT_sent ranks rcv_RIGHT num_cols num_rows _).2 h]
    rfl
  · intro h
    rw [(communicate_sent_frame ranks rcv_DOWN num_cols num_rows _).2.2.2.2.1,
      (communicate_sent_frame ranks rcv_UP num_cols num_rows _).2.2.2.1,
      (communicate_LEFT_sent ranks rcv_LEFT num_rows _).2 h]
    unfold communicate.RIGHT communicate.recv_RIGHT communicate.send_RIGHT
    split_ifs <;> rfl
  · intro h
    rw [(communicate_sent_frame ranks rcv_DOWN num_cols num_rows _).2.2.2.2.2,
      (communicate_UP_sent ranks rcv_UP num_cols num_rows _).2 h]
    unfold communicate.LEFT communicate.recv_LEFT communicate.send_LEFT communicate.RIGHT
      communicate.recv_RIGHT communicate.send_RIGHT
    split_ifs <;> rfl
  · intro h
    rw [(communicate_DOWN_sent ranks rcv_DOWN num_cols _).2 h]
    unfold communicate.UP communicate.recv_UP communicate.send_UP communicate.LEFT
      communicate.recv_LEFT communicate.send_LEFT communicate.RIGHT communicate.recv_RIGHT
      communicate.send_RIGHT
    split_ifs <;> rfl

/-- C22 (counterexample): the ghost column of a skipped direction does not stay
unchanged, and a received column is not stored entirely. On the 3 by 3 matrix with
entries `10 i + j`, with an upper neighbour that sends `100 + i` and no right
neighbour, the entry `(2, 2)` of the ghost column `num_cols - 1 = 2` becomes 102; with
a right neighbour that sends `200 + j` as well, the entry `(2, 2)` holds 102 and not
the received 202. -/
theorem communicate_ghost_corner_overwritten :
    (communicate { LEFT := none, RIGHT := none, DOWN := none, UP := some (0, 1) }
        (fun _ => 0) (fun _ => 0) (fun i => 100 + (i : ℚ)) (fun _ => 0) 3 3
        (exHaloMatrix ℚ)).matrix 2 2 = 102 ∧
      exHaloMatrix ℚ 2 2 = 22 ∧
      (communicate { LEFT := none, RIGHT := some (1, 0), DOWN := none, UP := some (0, 1) }
        (fun j => 200 + (j : ℚ)) (fun _ => 0) (fun i => 100 + (i : ℚ)) (fun _ => 0) 3 3
        (exHaloMatrix ℚ)).matrix 2 2 = 102 := by
  refine ⟨?_, ?_, ?_⟩
  · rw [communicate_matrix]
    norm_num
    intro h
    cases h
  · norm_num [exHaloMatrix]
  · rw [communicate_matrix]
    norm_num
    intro h
    cases h

/-- C22 (amended): the write set of the halo exchange. For every matrix with
`num_cols ≥ 3` and `num_rows ≥ 3` and whatever data the neighbours send,
`communicate` sends the columns `num_cols - 2` and 1 of the matrix it is given to the
right and left neighbours and the rows `num_rows - 2` and 1 of the matrix it
leaves (they carry the ghost entries received from left and right) to the upper
and lower neighbours; it stores what it receives from above and below in the rows
`num_rows - 1` and 0, and what it receives from right and left in the columns
`num_cols - 1` and 0 except at a corner entry that an upper or lower neighbour
overwrites; a direction whose neighbour is null sends nothing and its ghost
column or row is unchanged except at a corner entry that a neighbour of the other
axis overwrites; the entries `(i, j)` with `1 ≤ i ≤ num_cols - 2` and
`1 ≤ j ≤ num_rows - 2` are unchanged, and with all four neighbours null the matrix is
unchanged. -/
theorem communicate_write_set {α : Type} [Zero α] (ranks : neighbours_ranks)
    (rcv_RIGHT rcv_LEFT rcv_UP rcv_DOWN : StdVector α) (num_cols num_rows : Int)
    (matrix : Matrix α) (hc : 3 ≤ num_cols) (hr : 3 ≤ num_rows) :
    ((ranks.RIGHT ≠ none → ∀ j : Int, 0 ≤ j → j ≤ num_rows - 1 →
        messageOf (communicate ranks rcv_RIGHT rcv_LEFT rcv_UP rcv_DOWN num_cols num_rows
          matrix).sent_RIGHT j = matrix (num_cols - 2) j) ∧
      (ranks.LEFT ≠ none → ∀ j : Int, 0 ≤ j → j ≤ num_rows - 1 →
        messageOf (communicate ranks rcv_RIGHT rcv_LEFT rcv_UP rcv_DOWN num_cols num_rows
          matrix).sent_LEFT j = matrix 1 j) ∧
      (ranks.UP ≠ none → ∀ i : Int, 0 ≤ i → i ≤ num_cols - 1 →
        messageOf (communicate ranks rcv_RIGHT rcv_LEFT rcv_UP rcv_DOWN num_cols num_rows
          matrix).sent_UP i =
          (communicate ranks rcv_RIGHT rcv_LEFT rcv_UP rcv_DOWN num_cols num_rows
            matrix).matrix i (num_rows - 2)) ∧
      (ranks.DOWN ≠ none → ∀ i : Int, 0 ≤ i → i ≤ num_cols - 1 →
        messageOf (communicate ranks rcv_RIGHT rcv_LEFT rcv_UP rcv_DOWN num_cols num_rows
          matrix).sent_DOWN i =
          (communicate ranks rcv_RIGHT rcv_LEFT rcv_UP rcv_DOWN num_cols num_rows
            matrix).matrix i 1)) ∧
    ((ranks.RIGHT ≠ none → ∀ j : Int, 0 ≤ j → j ≤ num_rows - 1 →
        (j = 0 → ranks.DOWN = none) → (j = num_rows - 1 → ranks.UP = none) →
        (communicate ranks rcv_RIGHT rcv_LEFT rcv_UP rcv_DOWN num_cols num_rows
          matrix).matrix (num_cols - 1) j = rcv_RIGHT j) ∧
      (ranks.LEFT ≠ none → ∀ j : Int, 0 ≤ j → j ≤ num_rows - 1 →
        (j = 0 → ranks.DOWN = none) → (j = num_rows - 1 → ranks.UP = none) →
        (communicate ranks rcv_RIGHT rcv_LEFT rcv_UP rcv_DOWN num_cols num_rows
          matrix).matrix 0 j = rcv_LEFT j) ∧
      (ranks.UP ≠ none → ∀ i : Int, 0 ≤ i → i ≤ num_cols - 1 →
        (communicate ranks rcv_RIGHT rcv_LEFT rcv_UP rcv_DOWN num_cols num_rows
          matrix).matrix i (num_rows - 1) = rcv_UP i) ∧
      (ranks.DOWN ≠ none → ∀ i : Int, 0 ≤ i → i ≤ num_cols - 1 →
        (communicate ranks rcv_RIGHT rcv_LEFT rcv_UP rcv_DOWN num_cols num_rows
          matrix).matrix i 0 = rcv_DOWN i)) ∧
    ((ranks.RIGHT = none →
        (communicate ranks rcv_RIGHT rcv_LEFT rcv_UP rcv_DOWN num_cols num_rows
          matrix).sent_RIGHT = none ∧
        ∀ j : Int, (j = 0 → ranks.DOWN = none) → (j = num_rows - 1 → ranks.UP = none) →
          (communicate ranks rcv_RIGHT rcv_LEFT rcv_UP rcv_DOWN num_cols num_rows
            matrix).matrix (num_cols - 1) j = matrix (num_cols - 1) j) ∧
      (ranks.LEFT = none →
        (communicate ranks rcv_RIGHT rcv_LEFT rcv_UP rcv_DOWN num_cols num_rows
          matrix).sent_LEFT = none ∧
        ∀ j : Int, (j = 0 → ranks.DOWN = none) → (j = num_rows - 1 → ranks.UP = none) →
          (communicate ranks rcv_RIGHT rcv_LEFT rcv_UP rcv_DOWN num_cols num_rows
            matrix).matrix 0 j = matrix 0 j) ∧
      (ranks.UP = none →
        (communicate ranks rcv_RIGHT rcv_LEFT rcv_UP rcv_DOWN num_cols num_rows
          matrix).sent_UP = none ∧
        ∀ i : Int, (i = 0 → ranks.LEFT = none) → (i = num_cols - 1 → ranks.RIGHT = none) →
          (communicate ranks rcv_RIGHT rcv_LEFT rcv_UP rcv_DOWN num_cols num_rows
            matrix).matrix i (num_rows - 1) = matrix i (num_rows - 1)) ∧
      (ranks.DOWN = none →
        (communicate ranks rcv_RIGHT rcv_LEFT rcv_UP rcv_DOWN num_cols num_rows
          matrix).sent_DOWN = none ∧
        ∀ i : Int, (i = 0 → ranks.LEFT = none) → (i = num_cols - 1 → ranks.RIGHT = none) →
          (communicate ranks rcv_RIGHT rcv_LEFT rcv_UP rcv_DOWN num_cols num_rows
            matrix).matrix i 0 = matrix i 0)) ∧
    (∀ i j : Int, 1 ≤ i → i ≤ num_cols - 2 → 1 ≤ j → j ≤ num_rows - 2 →
      (communicate ranks rcv_RIGHT rcv_LEFT rcv_UP rcv_DOWN num_cols num_rows
        matrix).matrix i j = matrix i j) ∧
    (ranks.RIGHT = none → ranks.LEFT = none → ranks.UP = none → ranks.DOWN = none →
      ∀ i j : Int, (communicate ranks rcv_RIGHT rcv_LEFT rcv_UP rcv_DOWN num_cols num_rows
        matrix).matrix i j = matrix i j) := by
  have hs := communicate_sent ranks rcv_RIGHT rcv_LEFT rcv_UP rcv_DOWN num_cols num_rows matrix
    hc hr
  have hm := communicate_matrix ranks rcv_RIGHT rcv_LEFT rcv_UP rcv_DOWN num_cols num_rows matrix
  refine ⟨⟨hs.1, hs.2.1, ?_, ?_⟩, ⟨?_, ?_, ?_, ?_⟩, ⟨?_, ?_, ?_, ?_⟩, ?_, ?_⟩
  · intro h i hi0 hi1
    rw [hs.2.2.1 h i hi0 hi1, hm, if_neg (by omega), if_neg (by omega), communicate_LEFT_matrix,
      communicate_RIGHT_matrix]
    rfl
  · intro h i hi0 hi1
    rw [hs.2.2.2.1 h i hi0 hi1, hm, if_neg (by omega), if_neg (by omega),
      communicate_LEFT_matrix, communicate_RIGHT_matrix]
    rfl
  · intro h j hj0 hj1 hd hu
    rw [hm, if_neg (fun hh => hh.1 (hd hh.2.1)), if_neg (fun hh => hh.1 (hu hh.2.1)),
      if_neg (by omega), if_pos ⟨h, rfl, hj0, hj1⟩]
  · intro h j hj0 hj1 hd hu
    rw [hm, if_neg (fun hh => hh.1 (hd hh.2.1)), if_neg (fun hh => hh.1 (hu hh.2.1)),
      if_pos ⟨h, rfl, hj0, hj1⟩]
  · intro h i hi0 hi1
    rw [hm, if_neg (by omega), if_pos ⟨h, rfl, hi0, hi1⟩]
  · intro h i hi0 hi1
    rw [hm, if_pos ⟨h, rfl, hi0, hi1⟩]
  · intro h
    refine ⟨hs.2.2.2.2.1 h, ?_⟩
    intro j hd hu
    rw [hm, if_neg (fun hh => hh.1 (hd hh.2.1)), if_neg (fun hh => hh.1 (hu hh.2.1)),
      if_neg (by omega), if_neg (fun hh => hh.1 h)]
  · intro h
    refine ⟨hs.2.2.2.2.2.1 h, ?_⟩
    intro j hd hu
    rw [hm, if_neg (fun hh => hh.1 (hd hh.2.1)), if_neg (fun hh => hh.1 (hu hh.2.1)),
      if_neg (fun hh => hh.1 h), if_neg (by omega)]
  · intro h
    refine ⟨hs.2.2.2.2.2.2.1 h, ?_⟩
    intro i hl hrt
    rw [hm, if_neg (by omega), if_neg (fun hh => hh.1 h),
      if_neg (fun hh => hh.1 (hl hh.2.1)), if_neg (fun hh => hh.1 (hrt hh.2.1))]
  · intro h
    refine ⟨hs.2.2.2.2.2.2.2 h, ?_⟩
    intro i hl hrt
    rw [hm, if_neg (fun hh => hh.1 h), if_neg (by omega),
      if_neg (fun hh => hh.1 (hl hh.2.1)), if_neg (fun hh => hh.1 (hrt hh.2.1))]
  · intro i j hi0 hi1 hj0 hj1
    rw [hm, if_neg (by omega), if_neg (by omega), if_neg (by omega), if_neg (by omega)]
  · intro h1 h2 h3 h4 i j
    rw [hm, if_neg (fun hh => hh.1 h4), if_neg (fun hh => hh.1 h3), if_neg (fun hh => hh.1 h2),
      if_neg (fun hh => hh.1 h1)]

/-- Witness of C22 (amended): the 3 by 3 matrix with entries `10 i + j`, a right
neighbour that sends `200 + j` and an upper neighbour that sends `100 + i`: the
interior entry `(1, 1)` is unchanged. -/
theorem communicate_write_set_witness :
    (3 : Int) ≤ 3 ∧
      (communicate { LEFT := none, RIGHT := some (1, 0), DOWN := none, UP := some (0, 1) }
        (fun j => 200 + (j : ℚ)) (fun _ => 0) (fun i => 100 + (i : ℚ)) (fun _ => 0) 3 3
        (exHaloMatrix ℚ)).matrix 1 1 = exHaloMatrix ℚ 1 1 :=
  ⟨by decide,
    (communicate_write_set { LEFT := none, RIGHT := some (1, 0), DOWN := none, UP := some (0, 1) }
      (fun j => 200 + (j : ℚ)) (fun _ => 0) (fun i => 100 + (i : ℚ)) (fun _ => 0) 3 3
      (exHaloMatrix ℚ) (by decide) (by decide)).2.2.2.1 1 1 (by decide) (by decide) (by decide)
      (by decide)⟩

/-! ## Communication.cpp: the exchange on the whole process grid -/

theorem get_neighbours_ne_none (iproc jproc a b : Int) :
    ((get_neighbours iproc jproc a b).RIGHT ≠ none ↔ a + 1 < iproc) ∧
    ((get_neighbours iproc jproc a b).LEFT ≠ none ↔ 0 < a) ∧
    ((get_neighbours iproc jproc a b).UP ≠ none ↔ b + 1 < jproc) ∧
    ((get_neighbours iproc jproc a b).DOWN ≠ none ↔ 0 < b) := by
  unfold get_neighbours
  refine ⟨?_, ?_, ?_, ?_⟩ <;> simp only <;> split_ifs with h <;> simp <;> omega

/-- The message that the send part of a block hands over holds the column or
row it was filled from. -/
theorem communicate_send_message {α : Type} [Zero α] (s : CommunicateState α) (n c k : Int)
    (hk0 : 0 ≤ k) (hk1 : k ≤ n - 1) :
    messageOf (communicate.send_RIGHT n c s).sent_RIGHT k = s.matrix c k ∧
    messageOf (communicate.send_LEFT n s).sent_LEFT k = s.matrix 1 k ∧
    messageOf (communicate.send_UP n c s).sent_UP k = s.matrix k c ∧
    messageOf (communicate.send_DOWN n s).sent_DOWN k = s.matrix k 1 := by
  refine ⟨?_, ?_, ?_, ?_⟩
  · show forLoop 0 (n - 1) (fun j v => StdVector.write v j (s.matrix c j)) s.send_x k = _
    rw [forLoop_fill]
    exact if_pos ⟨hk0, hk1⟩
  · show forLoop 0 (n - 1) (fun j v => StdVector.write v j (s.matrix 1 j)) s.send_x k = _
    rw [forLoop_fill]
    exact if_pos ⟨hk0, hk1⟩
  · show forLoop 0 (n - 1) (fun i v => StdVector.write v i (s.matrix i c)) s.send_y k = _
    rw [forLoop_fill]
    exact if_pos ⟨hk0, hk1⟩
  · show forLoop 0 (n - 1) (fun i v => StdVector.write v i (s.matrix i 1)) s.send_y k = _
    rw [forLoop_fill]
    exact if_pos ⟨hk0, hk1⟩

/-- The matrix of the process `(a, b)` after its RIGHT block. -/
theorem communicateAll_afterRIGHT_matrix {α : Type} [Zero α] (iproc jproc : Int)
    (num_cols num_rows : Int → Int) (M : Int → Int → Matrix α)
    (hc : ∀ a, 0 ≤ a → a < iproc → 3 ≤ num_cols a) (a b : Int) (ha : 0 ≤ a) (i j : Int) :
    (communicateAll.afterRIGHT iproc jproc num_cols num_rows M a b).matrix i j =
      if a + 1 < iproc ∧ i = num_cols a - 1 ∧ 0 ≤ j ∧ j ≤ num_rows b - 1 then M (a + 1) b 1 j
      else M a b i j := by
  rw [communicateAll.afterRIGHT, communicate_RIGHT_matrix]
  by_cases h : a + 1 < iproc ∧ i = num_cols a - 1 ∧ 0 ≤ j ∧ j ≤ num_rows b - 1
  · rw [if_pos ⟨(get_neighbours_ne_none iproc jproc a b).1.mpr h.1, h.2⟩, if_pos h, dif_pos h.1,
      (communicate_send_message _ (num_rows b) 0 j h.2.2.1 h.2.2.2).2.1,
      communicateAll.afterRIGHT, communicate_RIGHT_matrix,
      if_neg (by have := hc (a + 1) (by omega) h.1; omega)]
    rfl
  · rw [if_neg (fun hh => h ⟨(get_neighbours_ne_none iproc jproc a b).1.mp hh.1, hh.2⟩), if_neg h]
    rfl

/-- The matrix of the process `(a, b)` after its RIGHT and LEFT blocks. -/
theorem communicateAll_afterLEFT_matrix {α : Type} [Zero α] (iproc jproc : Int)
    (num_cols num_rows : Int → Int) (M : Int → Int → Matrix α)
    (hc : ∀ a, 0 ≤ a → a < iproc → 3 ≤ num_cols a) (a b : Int) (ha : 0 ≤ a) (i j : Int) :
    (communicateAll.afterLEFT iproc jproc num_cols num_rows M a b).matrix i j =
      if 0 < a ∧ i = 0 ∧ 0 ≤ j ∧ j ≤ num_rows b - 1 then M (a - 1) b (num_cols (a - 1) - 2) j
      else if a + 1 < iproc ∧ i = num_cols a - 1 ∧ 0 ≤ j ∧ j ≤ num_rows b - 1 then
        M (a + 1) b 1 j
      else M a b i j := by
  unfold communicateAll.afterLEFT
  rw [communicate_LEFT_matrix, communicateAll_afterRIGHT_matrix iproc jproc num_cols num_rows M hc
    a b ha]
  by_cases h : 0 < a ∧ i = 0 ∧ 0 ≤ j ∧ j ≤ num_rows b - 1
  · rw [if_pos ⟨(get_neighbours_ne_none iproc jproc a b).2.1.mpr h.1, h.2⟩, if_pos h,
      (communicate_send_message _ (num_rows b) _ j h.2.2.1 h.2.2.2).1]
    rfl
  · rw [if_neg (fun hh => h ⟨(get_neighbours_ne_none iproc jproc a b).2.1.mp hh.1, hh.2⟩),
      if_neg h]

/-- The matrix of the process `(a, b)` after its RIGHT, LEFT and UP blocks. -/
theorem communicateAll_afterUP_matrix {α : Type} [Zero α] (iproc jproc : Int)
    (num_cols num_rows : Int → Int) (M : Int → Int → Matrix α)
    (hr : ∀ b, 0 ≤ b → b < jproc → 3 ≤ num_rows b) (a b : Int) (hb : 0 ≤ b) (i j : Int) :
    (communicateAll.afterUP iproc jproc num_cols num_rows M a b).matrix i j =
      if b + 1 < jproc ∧ j = num_rows b - 1 ∧ 0 ≤ i ∧ i ≤ num_cols a - 1 then
        (communicateAll.afterLEFT iproc jproc num_cols num_rows M a (b + 1)).matrix i 1
      else (communicateAll.afterLEFT iproc jproc num_cols num_rows M a b).matrix i j := by
  rw [communicateAll.afterUP, communicate_UP_matrix]
  by_cases h : b + 1 < jproc ∧ j = num_rows b - 1 ∧ 0 ≤ i ∧ i ≤ num_cols a - 1
  · rw [if_pos ⟨(get_neighbours_ne_none iproc jproc a b).2.2.1.mpr h.1, h.2⟩, if_pos h,
      dif_pos h.1, (communicate_send_message _ (num_cols a) 0 i h.2.2.1 h.2.2.2).2.2.2,
      communicateAll.afterUP, communicate_UP_matrix,
      if_neg (by have := hr (b + 1) (by omega) h.1; omega)]
  · rw [if_neg (fun hh => h ⟨(get_neighbours_ne_none iproc jproc a b).2.2.1.mp hh.1, hh.2⟩),
      if_neg h]

/-- The matrix of the process `(a, b)` after `communicate` has run on all
processes. -/
theorem communicateAll_matrix {α : Type} [Zero α] (iproc jproc : Int)
    (num_cols num_rows : Int → Int) (M : Int → Int → Matrix α)
    (hr : ∀ b, 0 ≤ b → b < jproc → 3 ≤ num_rows b) (a b : Int) (hb : 0 ≤ b) (i j : Int) :
    communicateAll iproc jproc num_cols num_rows M a b i j =
      if 0 < b ∧ j = 0 ∧ 0 ≤ i ∧ i ≤ num_cols a - 1 then
        (communicateAll.afterLEFT iproc jproc num_cols num_rows M a (b - 1)).matrix i
          (num_rows (b - 1) - 2)
      else if b + 1 < jproc ∧ j = num_rows b - 1 ∧ 0 ≤ i ∧ i ≤ num_cols a - 1 then
        (communicateAll.afterLEFT iproc jproc num_cols num_rows M a (b + 1)).matrix i 1
      else (communicateAll.afterLEFT iproc jproc num_cols num_rows M a b).matrix i j := by
  unfold communicateAll communicateAll.afterDOWN
  rw [communicate_DOWN_matrix, communicateAll_afterUP_matrix iproc jproc num_cols num_rows M hr
    a b hb]
  by_cases h : 0 < b ∧ j = 0 ∧ 0 ≤ i ∧ i ≤ num_cols a - 1
  · rw [if_pos ⟨(get_neighbours_ne_none iproc jproc a b).2.2.2.mpr h.1, h.2⟩, if_pos h,
      (communicate_send_message _ (num_cols a) _ i h.2.2.1 h.2.2.2).2.2.1]
  · rw [if_neg (fun hh => h ⟨(get_neighbours_ne_none iproc jproc a b).2.2.2.mp hh.1, hh.2⟩),
      if_neg h]

/-- The state of the process `(a, b)` after the run on all processes is the
result of `communicate` on that process, with the messages it receives from its
four neighbours. -/
theorem communicateAll_afterDOWN_eq {α : Type} [Zero α] (iproc jproc : Int)
    (num_cols num_rows : Int → Int) (M : Int → Int → Matrix α) (a b : Int) :
    communicateAll.afterDOWN iproc jproc num_cols num_rows M a b =
      communicate (get_neighbours iproc jproc a b)
        (if _h : a + 1 < iproc then
          messageOf (communicate.send_LEFT (num_rows b)
            (communicateAll.afterRIGHT iproc jproc num_cols num_rows M (a + 1) b)).sent_LEFT
        else fun _ => 0)
        (messageOf (communicate.send_RIGHT (num_rows b) (num_cols (a - 1) - 2)
          (communicate.start (M (a - 1) b))).sent_RIGHT)
        (if _h : b + 1 < jproc then
          messageOf (communicate.send_DOWN (num_cols a)
            (communicateAll.afterUP iproc jproc num_cols num_rows M a (b + 1))).sent_DOWN
        else fun _ => 0)
        (messageOf (communicate.send_UP (num_cols a) (num_rows (b - 1) - 2)
          (communicateAll.afterLEFT iproc jproc num_cols num_rows M a (b - 1))).sent_UP)
        (num_cols a) (num_rows b) (M a b) := by
  have h1 : communicateAll.afterRIGHT iproc jproc num_cols num_rows M a b =
      communicate.RIGHT (get_neighbours iproc jproc a b)
        (if _h : a + 1 < iproc then
          messageOf (communicate.send_LEFT (num_rows b)
            (communicateAll.afterRIGHT iproc jproc num_cols num_rows M (a + 1) b)).sent_LEFT
        else fun _ => 0)
        (num_cols a) (num_rows b) (communicate.start (M a b)) := by
    rw [communicateAll.afterRIGHT]
  have h3 : communicateAll.afterUP iproc jproc num_cols num_rows M a b =
      communicate.UP (get_neighbours iproc jproc a b)
        (if _h : b + 1 < jproc then
          messageOf (communicate.send_DOWN (num_cols a)
            (communicateAll.afterUP iproc jproc num_cols num_rows M a (b + 1))).sent_DOWN
        else fun _ => 0)
        (num_cols a) (num_rows b)
        (communicateAll.afterLEFT iproc jproc num_cols num_rows M a b) := by
    rw [communicateAll.afterUP]
  have h2 : communicateAll.afterLEFT iproc jproc num_cols num_rows M a b =
      communicate.LEFT (get_neighbours iproc jproc a b)
        (messageOf (communicate.send_RIGHT (num_rows b) (num_cols (a - 1) - 2)
          (communicate.start (M (a - 1) b))).sent_RIGHT)
        (num_rows b) (communicateAll.afterRIGHT iproc jproc num_cols num_rows M a b) := rfl
  show communicate.DOWN _ _ _ (communicateAll.afterUP iproc jproc num_cols num_rows M a b) = _
  rw [h3, h2, h1]
  rfl

/-- The matrix of the process `(a, b)` after its RIGHT and LEFT blocks: the
interior columns are unchanged, the column 0 holds the column `num_cols - 2` of the
left neighbour and the column `num_cols - 1` the column 1 of the right neighbour. -/
theorem communicateAll_afterLEFT_cases {α : Type} [Zero α] (iproc jproc : Int)
    (num_cols num_rows : Int → Int) (M : Int → Int → Matrix α)
    (hc : ∀ a, 0 ≤ a → a < iproc → 3 ≤ num_cols a) (a b : Int) (ha0 : 0 ≤ a) (ha1 : a < iproc) :
    (∀ i j : Int, 1 ≤ i → i ≤ num_cols a - 2 →
      (communicateAll.afterLEFT iproc jproc num_cols num_rows M a b).matrix i j = M a b i j) ∧
    (0 < a → ∀ j : Int, 0 ≤ j → j ≤ num_rows b - 1 →
      (communicateAll.afterLEFT iproc jproc num_cols num_rows M a b).matrix 0 j =
        M (a - 1) b (num_cols (a - 1) - 2) j) ∧
    (a + 1 < iproc → ∀ j : Int, 0 ≤ j → j ≤ num_rows b - 1 →
      (communicateAll.afterLEFT iproc jproc num_cols num_rows M a b).matrix (num_cols a - 1) j =
        M (a + 1) b 1 j) := by
  have h3 := hc a ha0 ha1
  refine ⟨?_, ?_, ?_⟩
  · intro i j hi0 hi1
    rw [communicateAll_afterLEFT_matrix iproc jproc num_cols num_rows M hc a b ha0,
      if_neg (by omega), if_neg (by omega)]
  · intro h j hj0 hj1
    rw [communicateAll_afterLEFT_matrix iproc jproc num_cols num_rows M hc a b ha0,
      if_pos ⟨h, rfl, hj0, hj1⟩]
  · intro h j hj0 hj1
    rw [communicateAll_afterLEFT_matrix iproc jproc num_cols num_rows M hc a b ha0,
      if_neg (by omega), if_pos ⟨h, rfl, hj0, hj1⟩]

/-- The matrix of the process `(a, b)` after the exchange: the row 0 holds the row
`num_rows - 2` of the lower neighbour and the row `num_rows - 1` the row 1 of the upper
neighbour, as those rows are after the RIGHT and LEFT blocks; the other entries
are as the RIGHT and LEFT blocks leave them. -/
theorem communicateAll_cases {α : Type} [Zero α] (iproc jproc : Int)
    (num_cols num_rows : Int → Int) (M : Int → Int → Matrix α)
    (hr : ∀ b, 0 ≤ b → b < jproc → 3 ≤ num_rows b) (a b : Int) (hb0 : 0 ≤ b) (hb1 : b < jproc) :
    (0 < b → ∀ i : Int, 0 ≤ i → i ≤ num_cols a - 1 →
      communicateAll iproc jproc num_cols num_rows M a b i 0 =
        (communicateAll.afterLEFT iproc jproc num_cols num_rows M a (b - 1)).matrix i
          (num_rows (b - 1) - 2)) ∧
    (b + 1 < jproc → ∀ i : Int, 0 ≤ i → i ≤ num_cols a - 1 →
      communicateAll iproc jproc num_cols num_rows M a b i (num_rows b - 1) =
        (communicateAll.afterLEFT iproc jproc num_cols num_rows M a (b + 1)).matrix i 1) ∧
    (∀ i j : Int, ¬(0 < b ∧ j = 0 ∧ 0 ≤ i ∧ i ≤ num_cols a - 1) →
      ¬(b + 1 < jproc ∧ j = num_rows b - 1 ∧ 0 ≤ i ∧ i ≤ num_cols a - 1) →
      communicateAll iproc jproc num_cols num_rows M a b i j =
        (communicateAll.afterLEFT iproc jproc num_cols num_rows M a b).matrix i j) := by
  have h3 := hr b hb0 hb1
  refine ⟨?_, ?_, ?_⟩
  · intro h i hi0 hi1
    rw [communicateAll_matrix iproc jproc num_cols num_rows M hr a b hb0,
      if_pos ⟨h, rfl, hi0, hi1⟩]
  · intro h i hi0 hi1
    rw [communicateAll_matrix iproc jproc num_cols num_rows M hr a b hb0,
      if_neg (by omega), if_pos ⟨h, rfl, hi0, hi1⟩]
  · intro i j h1 h2
    rw [communicateAll_matrix iproc jproc num_cols num_rows M hr a b hb0, if_neg h1, if_neg h2]

/-- After the exchange, a second run of the RIGHT and LEFT blocks on all
processes changes no matrix. -/
theorem communicateAll_afterLEFT_fixed {α : Type} [Zero α] (iproc jproc : Int)
    (num_cols num_rows : Int → Int) (M : Int → Int → Matrix α)
    (hc : ∀ a, 0 ≤ a → a < iproc → 3 ≤ num_cols a)
    (hr : ∀ b, 0 ≤ b → b < jproc → 3 ≤ num_rows b)
    (a b : Int) (ha0 : 0 ≤ a) (ha1 : a < iproc) (hb0 : 0 ≤ b) (hb1 : b < jproc) (i j : Int) :
    (communicateAll.afterLEFT iproc jproc num_cols num_rows
        (communicateAll iproc jproc num_cols num_rows M) a b).matrix i j =
      communicateAll iproc jproc num_cols num_rows M a b i j := by
  have hca := hc a ha0 ha1
  have hrb := hr b hb0 hb1
  have hG := fun a => communicateAll_cases iproc jproc num_cols num_rows M hr a b hb0 hb1
  have hX := fun a b ha0 ha1 =>
    communicateAll_afterLEFT_cases iproc jproc num_cols num_rows M hc a b ha0 ha1
  rw [communicateAll_afterLEFT_matrix iproc jproc num_cols num_rows _ hc a b ha0]
  by_cases hL : 0 < a ∧ i = 0 ∧ 0 ≤ j ∧ j ≤ num_rows b - 1
  · rw [if_pos hL]
    obtain ⟨hL1, hL2, hL3, hL4⟩ := hL
    subst hL2
    have hcl := hc (a - 1) (by omega) (by omega)
    by_cases c1 : 0 < b ∧ j = 0
    · obtain ⟨c11, c12⟩ := c1
      subst c12
      have hrd := hr (b - 1) (by omega) (by omega)
      rw [(hG (a - 1)).1 c11 _ (by omega) (by omega), (hG a).1 c11 0 (by omega) (by omega),
        (hX (a - 1) (b - 1) (by omega) (by omega)).1 _ _ (by omega) (by omega),
        (hX a (b - 1) ha0 ha1).2.1 hL1 _ (by omega) (by omega)]
    · by_cases c2 : b + 1 < jproc ∧ j = num_rows b - 1
      · obtain ⟨c21, c22⟩ := c2
        subst c22
        have hru := hr (b + 1) (by omega) (by omega)
        rw [(hG (a - 1)).2.1 c21 _ (by omega) (by omega), (hG a).2.1 c21 0 (by omega) (by omega),
          (hX (a - 1) (b + 1) (by omega) (by omega)).1 _ _ (by omega) (by omega),
          (hX a (b + 1) ha0 ha1).2.1 hL1 _ (by omega) (by omega)]
      · rw [(hG (a - 1)).2.2 _ _ (fun hh => c1 ⟨hh.1, hh.2.1⟩) (fun hh => c2 ⟨hh.1, hh.2.1⟩),
          (hG a).2.2 _ _ (fun hh => c1 ⟨hh.1, hh.2.1⟩) (fun hh => c2 ⟨hh.1, hh.2.1⟩),
          (hX (a - 1) b (by omega) (by omega)).1 _ _ (by omega) (by omega),
          (hX a b ha0 ha1).2.1 hL1 _ hL3 hL4]
  · rw [if_neg hL]
    by_cases hR : a + 1 < iproc ∧ i = num_cols a - 1 ∧ 0 ≤ j ∧ j ≤ num_rows b - 1
    · rw [if_pos hR]
      obtain ⟨hR1, hR2, hR3, hR4⟩ := hR
      subst hR2
      have hcr := hc (a + 1) (by omega) (by omega)
      by_cases c1 : 0 < b ∧ j = 0
      · obtain ⟨c11, c12⟩ := c1
        subst c12
        have hrd := hr (b - 1) (by omega) (by omega)
        rw [(hG (a + 1)).1 c11 _ (by omega) (by omega), (hG a).1 c11 _ (by omega) (by omega),
          (hX (a + 1) (b - 1) (by omega) (by omega)).1 _ _ (by omega) (by omega),
          (hX a (b - 1) ha0 ha1).2.2 hR1 _ (by omega) (by omega)]
      · by_cases c2 : b + 1 < jproc ∧ j = num_rows b - 1
        · obtain ⟨c21, c22⟩ := c2
          subst c22
          have hru := hr (b + 1) (by omega) (by omega)
          rw [(hG (a + 1)).2.1 c21 _ (by omega) (by omega),
            (hG a).2.1 c21 _ (by omega) (by omega),
            (hX (a + 1) (b + 1) (by omega) (by omega)).1 _ _ (by omega) (by omega),
            (hX a (b + 1) ha0 ha1).2.2 hR1 _ (by omega) (by omega)]
        · rw [(hG (a + 1)).2.2 _ _ (fun hh => c1 ⟨hh.1, hh.2.1⟩) (fun hh => c2 ⟨hh.1, hh.2.1⟩),
            (hG a).2.2 _ _ (fun hh => c1 ⟨hh.1, hh.2.1⟩) (fun hh => c2 ⟨hh.1, hh.2.1⟩),
            (hX (a + 1) b (by omega) (by omega)).1 _ _ (by omega) (by omega),
            (hX a b ha0 ha1).2.2 hR1 _ hR3 hR4]
    · rw [if_neg hR]

/-- C23: the halo exchange is idempotent. On a non-periodic Cartesian process
grid of `iproc` by `jproc` processes whose matrices have at least 3 by 3 entries
(`num_cols` depends on the column of the process, `num_rows` on its row), where every
process runs `communicate` with its RIGHT, LEFT, UP, DOWN blocks as paired exchanges,
a second run on all processes leaves the matrix of every process `(a, b)` of the
grid equal, at every entry `(i, j)`, the ghost corners included, to its matrix
after the first run. -/
theorem communicateAll_idempotent {α : Type} [Zero α] (iproc jproc : Int)
    (num_cols num_rows : Int → Int) (M : Int → Int → Matrix α)
    (hc : ∀ a, 0 ≤ a → a < iproc → 3 ≤ num_cols a)
    (hr : ∀ b, 0 ≤ b → b < jproc → 3 ≤ num_rows b)
    (a b : Int) (ha0 : 0 ≤ a) (ha1 : a < iproc) (hb0 : 0 ≤ b) (hb1 : b < jproc) (i j : Int) :
    communicateAll iproc jproc num_cols num_rows
        (communicateAll iproc jproc num_cols num_rows M) a b i j =
      communicateAll iproc jproc num_cols num_rows M a b i j := by
  have hrb := hr b hb0 hb1
  have hG := fun b hb0 hb1 => communicateAll_cases iproc jproc num_cols num_rows M hr a b hb0 hb1
  have hfix := fun b hb0 hb1 i j => communicateAll_afterLEFT_fixed iproc jproc num_cols num_rows M
    hc hr a b ha0 ha1 hb0 hb1 i j
  rw [communicateAll_matrix iproc jproc num_cols num_rows _ hr a b hb0]
  by_cases hD : 0 < b ∧ j = 0 ∧ 0 ≤ i ∧ i ≤ num_cols a - 1
  · rw [if_pos hD]
    obtain ⟨hD1, hD2, hD3, hD4⟩ := hD
    subst hD2
    have hrd := hr (b - 1) (by omega) (by omega)
    rw [hfix (b - 1) (by omega) (by omega), (hG b hb0 hb1).1 hD1 i hD3 hD4,
      (hG (b - 1) (by omega) (by omega)).2.2 _ _ (by omega) (by omega)]
  · rw [if_neg hD]
    by_cases hU : b + 1 < jproc ∧ j = num_rows b - 1 ∧ 0 ≤ i ∧ i ≤ num_cols a - 1
    · rw [if_pos hU]
      obtain ⟨hU1, hU2, hU3, hU4⟩ := hU
      subst hU2
      have hru := hr (b + 1) (by omega) (by omega)
      rw [hfix (b + 1) (by omega) (by omega), (hG b hb0 hb1).2.1 hU1 i hU3 hU4,
        (hG (b + 1) (by omega) (by omega)).2.2 _ _ (by omega) (by omega)]
    · rw [if_neg hU, hfix b hb0 hb1]

/-- On the 2 by 2 process grid with 3 by 3 matrices whose entries are
`1000 a + 100 b + 10 i + j`, the exchange puts the interior entry `(1, 1)` of the
process `(1, 1)` into the ghost corner `(2, 2)` of the process `(0, 0)`. -/
theorem exHaloGrid_corner :
    communicateAll 2 2 (fun _ => 3) (fun _ => 3) (exHaloGrid ℚ) 0 0 2 2 = 1111 := by
  have h1 := (communicateAll_cases 2 2 (fun _ => 3) (fun _ => 3) (exHaloGrid ℚ)
    (fun _ _ _ => le_refl 3) 0 0 (by decide) (by decide)).2.1 (by decide) 2 (by decide)
    (by decide)
  have h2 := (communicateAll_afterLEFT_cases 2 2 (fun _ => 3) (fun _ => 3) (exHaloGrid ℚ)
    (fun _ _ _ => le_refl 3) 0 (0 + 1) (by decide) (by decide)).2.2 (by decide) 1 (by decide)
    (by decide)
  have e : ((fun _ => 3) (0 : Int) : Int) - 1 = 2 := by decide
  rw [e] at h1 h2
  rw [h1, h2]
  norm_num [exHaloGrid]

/-- Witness of C23: the 2 by 2 process grid with 3 by 3 matrices whose entries
are `1000 a + 100 b + 10 i + j`, at the ghost corner `(2, 2)` of the process `(0, 0)`,
which the first run has changed from 22 to 1111. -/
theorem communicateAll_idempotent_witness :
    exHaloGrid ℚ 0 0 2 2 = 22 ∧
      communicateAll 2 2 (fun _ => 3) (fun _ => 3) (exHaloGrid ℚ) 0 0 2 2 = 1111 ∧
      communicateAll 2 2 (fun _ => 3) (fun _ => 3)
          (communicateAll 2 2 (fun _ => 3) (fun _ => 3) (exHaloGrid ℚ)) 0 0 2 2 =
        communicateAll 2 2 (fun _ => 3) (fun _ => 3) (exHaloGrid ℚ) 0 0 2 2 :=
  ⟨by norm_num [exHaloGrid], exHaloGrid_corner,
    communicateAll_idempotent 2 2 (fun _ => 3) (fun _ => 3) (exHaloGrid ℚ)
      (fun _ _ _ => le_refl 3) (fun _ _ _ => le_refl 3) 0 0 (by decide) (by decide) (by decide)
      (by decide) 2 2⟩

/-! ## The program in binary64 arithmetic -/

/-- C1 (counterexample): in binary64 the projection identity fails. On a 3 by 3
grid with `dt = dx = dy = 1`, `F = G = 10^17` and `P(i,j) = i^2`, `calculate_rs` gives
`RS(2,2) = 0` and `calculate_velocities` stores `U(2,2) = U(1,2) = 10^17` (the
differences 5 and 3 of `P` are absorbed by the rounding of the subtraction) and
`V(2,2) = V(2,1) = 10^17`, so the discrete divergence at `(2,2)` is 0, while
`Laplacian(P,2,2) = 2` and `dt * (RS(2,2) - Laplacian(P,2,2)) = -2`. -/
theorem projection_identity_fails_in_binary64 :
    (calculate_velocities (calculate_rs exAbsorbFields (exGrid 3 3 1 1 []))
        (exGrid 3 3 1 1 [])).U 2 2 = Double.finite 100000000000000000 ∧
      (calculate_velocities (calculate_rs exAbsorbFields (exGrid 3 3 1 1 []))
        (exGrid 3 3 1 1 [])).U (2 - 1) 2 = Double.finite 100000000000000000 ∧
      ((calculate_velocities (calculate_rs exAbsorbFields (exGrid 3 3 1 1 []))
            (exGrid 3 3 1 1 [])).U 2 2 -
          (calculate_velocities (calculate_rs exAbsorbFields (exGrid 3 3 1 1 []))
            (exGrid 3 3 1 1 [])).U (2 - 1) 2) / (exGrid 3 3 (1 : Double) 1 []).dx +
        ((calculate_velocities (calculate_rs exAbsorbFields (exGrid 3 3 1 1 []))
            (exGrid 3 3 1 1 [])).V 2 2 -
          (calculate_velocities (calculate_rs exAbsorbFields (exGrid 3 3 1 1 []))
            (exGrid 3 3 1 1 [])).V 2 (2 - 1)) / (exGrid 3 3 (1 : Double) 1 []).dy =
        Double.finite 0 ∧
      (calculate_velocities (calculate_rs exAbsorbFields (exGrid 3 3 1 1 []))
        (exGrid 3 3 1 1 [])).RS 2 2 = Double.finite 0 ∧
      laplacian (exGrid 3 3 (1 : Double) 1 []).dx (exGrid 3 3 (1 : Double) 1 []).dy
        (calculate_velocities (calculate_rs exAbsorbFields (exGrid 3 3 1 1 []))
          (exGrid 3 3 1 1 [])).P 2 2 = Double.finite 2 ∧
      (calculate_velocities (calculate_rs exAbsorbFields (exGrid 3 3 1 1 []))
          (exGrid 3 3 1 1 [])).dt *
        ((calculate_velocities (calculate_rs exAbsorbFields (exGrid 3 3 1 1 []))
            (exGrid 3 3 1 1 [])).RS 2 2 -
          laplacian (exGrid 3 3 (1 : Double) 1 []).dx (exGrid 3 3 (1 : Double) 1 []).dy
            (calculate_velocities (calculate_rs exAbsorbFields (exGrid 3 3 1 1 []))
              (exGrid 3 3 1 1 [])).P 2 2) = Double.finite (-2) := by
  decide!

/-- C6 (counterexample): in binary64 the returned residual `r` satisfies neither
`r^2 = sum / N` nor `r = 0` only when `Laplacian(P) = RS`. With `dx = dy = 1`,
`omega = 0` (the sweep keeps `P = 0`) and the fluid cells `(1,1)`, `(2,1)`: for
`RS(1,1) = -2` the differences `Laplacian(P) - RS` are 2 and 0, so `sum / N = 2`, and
`SOR::solve` returns the binary64 square root of 2, whose square is not 2, neither
as a number nor as the binary64 product `r * r`; for `RS(1,1) = -10^-200` the square
of the difference `10^-200` underflows to 0 and `SOR::solve` returns 0 although
`Laplacian(P,1,1) = 0` is not `RS(1,1)`. -/
theorem SOR_solve_residual_fails_in_binary64 :
    (SOR.solve Double.sqrt 0 (exResidualFields (-2))
        (exGrid 2 1 1 1 [fluidCell 1 1, fluidCell 2 1]) []).2 =
        Double.finite (6369051672525773 / 4503599627370496) ∧
      ((6369051672525773 / 4503599627370496 : ℚ)) ^ 2 ≠ 2 ∧
      Double.finite (6369051672525773 / 4503599627370496) *
        Double.finite (6369051672525773 / 4503599627370496) ≠ Double.finite 2 ∧
      ([fluidCell 1 1, fluidCell 2 1].map (fun c =>
        (Double.toRat (laplacian 1 1
            (SOR.sweep 0 1 1 [fluidCell 1 1, fluidCell 2 1] (exResidualFields (-2))).P c.i c.j) -
          Double.toRat ((exResidualFields (-2)).RS c.i c.j)) ^ 2)).sum / 2 = 2 ∧
      (SOR.solve Double.sqrt 0 (exResidualFields (Double.round (-(1 / 10 ^ 200))))
        (exGrid 1 1 1 1 [fluidCell 1 1]) []).2 = Double.finite 0 ∧
      laplacian 1 1 (SOR.sweep 0 1 1 [fluidCell 1 1]
        (exResidualFields (Double.round (-(1 / 10 ^ 200))))).P 1 1 = Double.finite 0 ∧
      (exResidualFields (Double.round (-(1 / 10 ^ 200)))).RS 1 1 ≠ Double.finite 0 := by
  decide!

/-- C28 (counterexample): in binary64 an exact discrete solution is not a fixed
point of the sweep. With `dx = 1/2`, `dy = 1/3` (rounded), `omega = 1.7` (rounded),
`P(i,j) = i * j`, `RS = 0` and the fluid cells `(1,1)`, `(2,1)`: the computed
`Laplacian(P,i,j)` is 0, equal to `RS(i,j)`, at both fluid cells, yet the sweep replaces
`P(1,1) = 1` by `1 + 2^-52` and `P(2,1) = 2` by `2 + 2^-51`, and `SOR::solve` returns about
`8.05e-15`, not 0. -/
theorem SOR_fixed_point_fails_in_binary64 :
    (exBoxGrid Double).dx = Double.finite (1 / 2) ∧
      (exBoxGrid Double).dy = Double.finite (6004799503160661 / 18014398509481984) ∧
      (17 / 10 : Double) = Double.finite (7656119366529843 / 4503599627370496) ∧
      (∀ c ∈ (exBoxGrid Double).fluid_cells,
        laplacian (exBoxGrid Double).dx (exBoxGrid Double).dy (exFields Double).P c.i c.j =
          (exFields Double).RS c.i c.j) ∧
      (exFields Double).P 1 1 = Double.finite 1 ∧ (exFields Double).P 2 1 = Double.finite 2 ∧
      (SOR.sweep (17 / 10) (exBoxGrid Double).dx (exBoxGrid Double).dy
          (exBoxGrid Double).fluid_cells (exFields Double)).P 1 1 =
        Double.finite (4503599627370497 / 4503599627370496) ∧
      (SOR.sweep (17 / 10) (exBoxGrid Double).dx (exBoxGrid Double).dy
          (exBoxGrid Double).fluid_cells (exFields Double)).P 2 1 =
        Double.finite (4503599627370497 / 2251799813685248) ∧
      (SOR.solve Double.sqrt (17 / 10) (exFields Double) (exBoxGrid Double) []).2 =
        Double.finite (5101612626016977 / 633825300114114700748351602688) := by
  decide!

/-- The walls `exBox3Walls` close the box around the grid `exBox3Grid`. -/
theorem exBox3_closedBox : closedBox exBox3Grid exBox3Walls := by
  refine ⟨?_, ?_, ?_, ?_, ?_⟩
  · decide
  · decide
  · decide
  · intro j h1 h2
    have hj : j = 1 := by
      have : exBox3Grid.size_y = 1 := rfl
      omega
    subst hj
    exact ⟨⟨Boundary.FixedWallBoundary _, List.mem_cons_self _ _,
        wallCell 0 1 false false false true, by decide, rfl, rfl⟩,
      ⟨Boundary.FixedWallBoundary _, List.mem_cons_self _ _,
        wallCell 4 1 false false true false, by decide, rfl, rfl⟩⟩
  · intro i h1 h2
    have hi : i = 1 ∨ i = 2 ∨ i = 3 := by
      have : exBox3Grid.size_x = 3 := rfl
      omega
    rcases hi with rfl | rfl | rfl
    · exact ⟨⟨Boundary.FixedWallBoundary _, List.mem_cons_self _ _,
          wallCell 1 0 true false false false, by decide, rfl, rfl⟩,
        ⟨Boundary.FixedWallBoundary _, List.mem_cons_self _ _,
          wallCell 1 2 false true false false, by decide, rfl, rfl⟩⟩
    · exact ⟨⟨Boundary.FixedWallBoundary _, List.mem_cons_self _ _,
          wallCell 2 0 true false false false, by decide, rfl, rfl⟩,
        ⟨Boundary.FixedWallBoundary _, List.mem_cons_self _ _,
          wallCell 2 2 false true false false, by decide, rfl, rfl⟩⟩
    · exact ⟨⟨Boundary.FixedWallBoundary _, List.mem_cons_self _ _,
          wallCell 3 0 true false false false, by decide, rfl, rfl⟩,
        ⟨Boundary.FixedWallBoundary _, List.mem_cons_self _ _,
          wallCell 3 2 false true false false, by decide, rfl, rfl⟩⟩

/-- C29 (counterexample): in binary64 the sum of `RS` over a closed box is not 0.
On the closed box of 3 by 1 fluid cells with fixed walls, `dx = 10`, `dy = 1`,
`dt = 1`, `nu = 0`, no convection and `U(1,1) = 1`, `U(2,1) = 3`: after `applyVelocity`,
`calculate_fluxes`, `applyFlux` and `calculate_rs` the wall fluxes `F(0,1)`, `F(3,1)` are
0 and the stored `RS` are the binary64 values of `1/10`, `2/10`, `-3/10`, whose sum
is `2^-55` as a number and as the binary64 sum taken from the last cell, and `2^-54`
as the binary64 sum taken from the first cell. -/
theorem closedBox_rs_sum_fails_in_binary64 :
    closedBox exBox3Grid exBox3Walls ∧
      (applyFluxAll exBox3Walls (calculate_fluxes (fun _ _ _ _ => 0) (fun _ _ _ _ => 0)
        (applyVelocityAll exBox3Walls exBox3Fields) exBox3Grid)).F 0 1 = Double.finite 0 ∧
      (applyFluxAll exBox3Walls (calculate_fluxes (fun _ _ _ _ => 0) (fun _ _ _ _ => 0)
        (applyVelocityAll exBox3Walls exBox3Fields) exBox3Grid)).F 3 1 = Double.finite 0 ∧
      (calculate_rs (applyFluxAll exBox3Walls (calculate_fluxes (fun _ _ _ _ => 0)
        (fun _ _ _ _ => 0) (applyVelocityAll exBox3Walls exBox3Fields) exBox3Grid))
          exBox3Grid).RS 1 1 = Double.finite (3602879701896397 / 36028797018963968) ∧
      (calculate_rs (applyFluxAll exBox3Walls (calculate_fluxes (fun _ _ _ _ => 0)
        (fun _ _ _ _ => 0) (applyVelocityAll exBox3Walls exBox3Fields) exBox3Grid))
          exBox3Grid).RS 2 1 = Double.finite (3602879701896397 / 18014398509481984) ∧
      (calculate_rs (applyFluxAll exBox3Walls (calculate_fluxes (fun _ _ _ _ => 0)
        (fun _ _ _ _ => 0) (applyVelocityAll exBox3Walls exBox3Fields) exBox3Grid))
          exBox3Grid).RS 3 1 = Double.finite (-(5404319552844595 / 18014398509481984)) ∧
      (3602879701896397 / 36028797018963968 + 3602879701896397 / 18014398509481984 +
        -(5404319552844595 / 18014398509481984) : ℚ) = 1 / 36028797018963968 ∧
      rsSum (calculate_rs (applyFluxAll exBox3Walls (calculate_fluxes (fun _ _ _ _ => 0)
        (fun _ _ _ _ => 0) (applyVelocityAll exBox3Walls exBox3Fields) exBox3Grid))
          exBox3Grid) exBox3Grid = Double.finite (1 / 36028797018963968) ∧
      Double.finite (3602879701896397 / 36028797018963968) +
          Double.finite (3602879701896397 / 18014398509481984) +
          Double.finite (-(5404319552844595 / 18014398509481984)) =
        Double.finite (1 / 18014398509481984) := by
  refine ⟨exBox3_closedBox, ?_⟩
  decide!

end FluidChen
